import Mathlib

/-! Kaffeine DVB core: section reassembly, scan filter, device tuning, PID filters.

A shallow embedding of the section reassembler, the scan filter, the device
tuning controller and the PID filter tables of `src/dvb/dvbdevice.cpp` and
`src/dvb/dvbscan.cpp`, with the properties proved about them.

Conventions of the embedding:

* a byte is a `Nat`; where the C++ reads a `char` through
  `static_cast<unsigned char>` (or stores it into an `unsigned char`) the
  embedding reduces it modulo 256, so on real bytes (values below 256) the
  reduction is the identity;
* a `QByteArray` or a `const char *` range is a `List Nat`;
* a member function becomes a function from the object state (and its
  arguments) to the new state and the calls it makes on other objects.
-/

namespace Kaffeine

/-! ## CRC-32 of a section -/

/-- Modelled from the spec: the generator polynomial used by
`DvbStandardSection::verifyCrc32`, which is defined in dvbsi.cpp and is not
among the sources. The spec only says "CRC-32 trailer"; PSI/SI sections carry
the CRC-32 of MPEG-2 Systems, polynomial 0x04c11db7. -/
def crc32Polynomial : Nat := 0x04c11db7

/-- Modelled from the spec: one shift of the 32-bit CRC register (most
significant bit first) of the absent `DvbStandardSection::verifyCrc32`. -/
def crc32Shift (crc : Nat) : Nat :=
  if crc &&& 0x80000000 = 0 then (crc <<< 1) % 2 ^ 32
  else ((crc <<< 1) % 2 ^ 32) ^^^ crc32Polynomial

/-- Modelled from the spec: the CRC register after one more data byte, for the
absent `DvbStandardSection::verifyCrc32`. -/
def crc32Byte (crc byte : Nat) : Nat :=
  crc32Shift^[8] (crc ^^^ ((byte % 256) <<< 24))

/-- Modelled from the spec: `DvbStandardSection::verifyCrc32(data, size)` of
dvbsi.cpp, which is not among the sources: the CRC-32 register (initial value
0xffffffff) after the whole section, trailer included. The result is 0 exactly
when the trailing CRC-32 matches the contents, and that value is the
"verification result" handed to the section filters. -/
def verifyCrc32 (data : List Nat) : Nat :=
  data.foldl crc32Byte 0xffffffff

/-! ## Section reassembler (`DvbSectionFilterInternal`) -/

/-- One call round `processSection(it, size, crc)` made by `processSections`:
the bytes of the section and the verification result. Every registered section
filter receives it, in registration order. -/
structure SectionDispatch where
  bytes : List Nat
  crc : Nat
deriving DecidableEq, Repr

/-- Offset of `sectionEnd` relative to `it`: the 12-bit length field of bytes 1
and 2, plus the 3 header bytes. -/
def sectionEndOffset (rest : List Nat) : Nat :=
  ((((rest.getD 1 0 % 256) &&& 0x0f) <<< 8) ||| (rest.getD 2 0 % 256)) + 3

/-- The value of `sectionEnd - it` once the "short section" adjustment of a
forced pass has been applied: the declared size, or the bytes available when
the pass is forced and the declared size exceeds them. -/
def sectionSize (force : Bool) (rest : List Nat) : Nat :=
  if force = true ∧ sectionEndOffset rest > rest.length then rest.length
  else sectionEndOffset rest

/-- The `while (it != end)` loop of `DvbSectionFilterInternal::processSections`.
`rest` is the range `[it, end)`; the result is the list of dispatched sections
and the range `[it, end)` at loop exit, which is what
`buffer.remove(0, it - buffer.constBegin())` leaves in the buffer. The first
argument bounds the number of iterations. -/
def processSectionsLoop (force : Bool) : Nat → List Nat → List SectionDispatch × List Nat
  | 0, rest => ([], rest)
  | fuel + 1, rest =>
    if rest.length = 0 then ([], rest)
    else if rest.getD 0 0 % 256 = 0xff then ([], [])
    else if rest.length < 3 then (if force = true then ([], []) else ([], rest))
    else if sectionSize force rest ≤ rest.length then
      (⟨rest.take (sectionSize force rest), verifyCrc32 (rest.take (sectionSize force rest))⟩ ::
          (processSectionsLoop force fuel (rest.drop (sectionSize force rest))).1,
        (processSectionsLoop force fuel (rest.drop (sectionSize force rest))).2)
    else ([], rest)

/-- The function `DvbSectionFilterInternal::processSections(force)` on the
accumulator `buffer`: dispatched sections and the accumulator afterwards. Every
iteration that continues consumes at least 3 bytes, so `buffer.length + 1`
iterations always suffice (`processSections_eq`). -/
def processSections (force : Bool) (buffer : List Nat) : List SectionDispatch × List Nat :=
  processSectionsLoop force (buffer.length + 1) buffer

/-- A registered section filter (a `DvbSectionFilter *`): the no-op sentinel
`dummySectionFilter` of the device, or a filter object of a client. -/
inductive SectionFilter where
  | dummySectionFilter
  | client (id : Nat)
deriving DecidableEq, Repr

/-- The class `DvbSectionFilterInternal`: the registered section filters, the
number of active ones, and the private reassembly state. -/
structure DvbSectionFilterInternal where
  sectionFilters : List SectionFilter := []
  activeSectionFilters : Int := 0
  buffer : List Nat
  continuityCounter : Nat
  bufferValid : Bool
deriving DecidableEq, Repr

/-- State set up by the constructor of `DvbSectionFilterInternal`. -/
def DvbSectionFilterInternal.init : DvbSectionFilterInternal :=
  { buffer := [], continuityCounter := 0, bufferValid := false }

/-- The function `DvbSectionFilterInternal::processData(data)` for a 188-byte
packet: the new state and the sections dispatched, in order. -/
def processData (s : DvbSectionFilterInternal) (data : List Nat) :
    DvbSectionFilterInternal × List SectionDispatch :=
  if data.getD 3 0 &&& 0x10 = 0 then (s, [])
  else
    let continuity := data.getD 3 0 &&& 0x0f
    if s.bufferValid = true ∧ continuity = s.continuityCounter then (s, [])
    else
      let bufferValid :=
        if s.bufferValid = true ∧ continuity ≠ ((s.continuityCounter + 1) &&& 0x0f) then false
        else s.bufferValid
      let sectionStart : Bool := decide (data.getD 1 0 &&& 0x40 ≠ 0)
      let located : Option (List Nat × Nat) :=
        if data.getD 3 0 &&& 0x20 = 0 then some (data.drop 4, 188 - 4)
        else
          let length := data.getD 4 0 % 256
          if length > 182 then none
          else some (data.drop (5 + length), 188 - 5 - length)
      match located with
      | none => ({ s with continuityCounter := continuity, bufferValid := bufferValid }, [])
      | some (payload, payloadLength) =>
        if sectionStart then
          let pointer := payload.getD 0 0 % 256
          let pointer := if pointer ≥ payloadLength then payloadLength - 1 else pointer
          let tail := (payload.drop (pointer + 1)).take (payloadLength - (pointer + 1))
          if bufferValid then
            let forced := processSections true (s.buffer ++ (payload.drop 1).take pointer)
            let r := processSections false (forced.2 ++ tail)
            ({ s with buffer := r.2, continuityCounter := continuity, bufferValid := bufferValid },
              forced.1 ++ r.1)
          else
            let r := processSections false (s.buffer ++ tail)
            ({ s with buffer := r.2, continuityCounter := continuity, bufferValid := true }, r.1)
        else
          let r := processSections false (s.buffer ++ payload.take payloadLength)
          ({ s with buffer := r.2, continuityCounter := continuity, bufferValid := bufferValid },
            r.1)

/-- Lines 130-131 of `processData` on their own: append a chunk of payload to
the accumulator and run the opportunistic pass. -/
def appendAndProcess (buffer chunk : List Nat) : List SectionDispatch × List Nat :=
  processSections false (buffer ++ chunk)

/-- Feeding consecutive chunks, one `appendAndProcess` per chunk, starting from
the accumulator `buffer`: all dispatched sections in order and the final
accumulator. -/
def feedChunks : List (List Nat) → List Nat → List SectionDispatch × List Nat
  | [], buffer => ([], buffer)
  | chunk :: chunks, buffer =>
    let r := appendAndProcess buffer chunk
    let rs := feedChunks chunks r.2
    (r.1 ++ rs.1, rs.2)

/-- A complete section of the section format: a table id other than 0xff
and a 3-byte header whose 12-bit length field equals the number of bytes that
follow the header. -/
def ValidSection (sec : List Nat) : Prop :=
  3 ≤ sec.length ∧ sec.getD 0 0 % 256 ≠ 0xff ∧ sectionEndOffset sec = sec.length

instance (sec : List Nat) : Decidable (ValidSection sec) := by
  unfold ValidSection; infer_instance

/-- A byte string that is a concatenation of complete sections: every member
of `secs` is a complete section, and the string is `secs.flatten`. -/
def ValidStream (secs : List (List Nat)) : Prop := ∀ sec ∈ secs, ValidSection sec

/-- The dispatch of a section cut at its declared size: its bytes and the
verification result over exactly those bytes. -/
def dispatchOf (sec : List Nat) : SectionDispatch := ⟨sec, verifyCrc32 sec⟩

/-- The calls `sectionFilters.at(i)->processSection(it, size, crc)` behind a
list of dispatches: every dispatch goes to every registered section filter, in
registration order. -/
def sectionFilterCalls (sectionFilters : List SectionFilter)
    (dispatches : List SectionDispatch) : List (SectionFilter × SectionDispatch) :=
  dispatches.flatMap (fun d => sectionFilters.map (fun f => (f, d)))

/-- A reassembler with no section filter registered and the given private
state. -/
def reassembler (buffer : List Nat) (continuityCounter : Nat) (bufferValid : Bool) :
    DvbSectionFilterInternal :=
  { buffer := buffer, continuityCounter := continuityCounter, bufferValid := bufferValid }

/-- Consecutive calls of `processData`, one per packet: the final state and all
sections dispatched, in order. -/
def processPackets (s : DvbSectionFilterInternal) :
    List (List Nat) → DvbSectionFilterInternal × List SectionDispatch
  | [] => (s, [])
  | data :: rest =>
    let r := processData s data
    let rs := processPackets r.1 rest
    (rs.1, r.2 ++ rs.2)

/-- A 188-byte transport packet without adaptation field: sync byte, the given
bytes 1 and 3 (byte 2 is 0), and the payload padded with 0xff to 184 bytes. -/
def plainPacket (byte1 byte3 : Nat) (payload : List Nat) : List Nat :=
  [0x47, byte1, 0x00, byte3] ++ payload ++ List.replicate (184 - payload.length) 0xff

/-- A 188-byte transport packet with an adaptation field that fills the packet
up to the given payload: sync byte, bytes 1 and 3, the adaptation field length,
the adaptation field (zero bytes) and the payload. -/
def stuffedPacket (byte1 byte3 : Nat) (payload : List Nat) : List Nat :=
  [0x47, byte1, 0x00, byte3, 183 - payload.length] ++
    List.replicate (183 - payload.length) 0x00 ++ payload

/-! ## Scan filter (`DvbScanFilter`, dvbscan.cpp) -/

/-- The enumeration `DvbScan::FilterType`. -/
inductive FilterType where
  | PatFilter
  | PmtFilter
  | SdtFilter
  | NitFilter
deriving DecidableEq, Repr

/-- What `DvbScanFilter::processSection` reads of the section it is given. The
section classes (`DvbSection`, `DvbStandardSection`, `DvbPatSection`, ...) are
declared in dvbsi.h, which is not among the sources, so the results of their
accessors are the fields of this record: `isValid()` of the generic section,
`tableId()`, `isValid()` of the typed section built from it, and the
`sectionNumber()` and `lastSectionNumber()` header fields. -/
structure ScanSection where
  isValid : Bool
  tableId : Nat
  typedIsValid : Bool
  sectionNumber : Nat
  lastSectionNumber : Nat
deriving DecidableEq, Repr

/-- The calls `DvbScanFilter::processSection` makes on its `DvbScan`. -/
inductive ScanCall where
  | processPat
  | processPmt (pid : Int)
  | processSdt
  | processNit
  | filterFinished
deriving DecidableEq, Repr

/-- The members of `DvbScanFilter` that `processSection` uses; the `QBitArray`
`multipleSections` is a list of bits. -/
structure DvbScanFilter where
  pid : Int
  type : FilterType
  multipleSections : List Bool
deriving DecidableEq, Repr

/-- The call `QBitArray::resize(size)`: new bits are false. -/
def bitArrayResize (bits : List Bool) (size : Nat) : List Bool :=
  (bits ++ List.replicate (size - bits.length) false).take size

/-- The state of a `DvbScanFilter` right after a successful
`startFilter(pid, type)`: the bitmap has been cleared. -/
def DvbScanFilter.started (pid : Int) (type : FilterType) : DvbScanFilter :=
  { pid := pid, type := type, multipleSections := [] }

/-- The function `DvbScanFilter::checkMultipleSection`: the new bitmap and the
returned flag. `testBit` and `setBit` are only defined by Qt for an index
inside the array; outside it the embedding reads false and sets nothing. -/
def checkMultipleSection (multipleSections : List Bool) (sectionNumber lastSectionNumber : Nat) :
    List Bool × Bool :=
  let bits :=
    if multipleSections.length = 0 then bitArrayResize multipleSections (lastSectionNumber + 1)
    else multipleSections
  if bits.getD sectionNumber false = true then (bits, false)
  else (bits.set sectionNumber true, true)

/-- The table id each filter type accepts in `DvbScanFilter::processSection`. -/
def FilterType.tableId : FilterType → Nat
  | .PatFilter => 0x0
  | .PmtFilter => 0x2
  | .SdtFilter => 0x42
  | .NitFilter => 0x40

/-- The call each filter type makes on the scan for a new section. -/
def FilterType.call (pid : Int) : FilterType → ScanCall
  | .PatFilter => .processPat
  | .PmtFilter => .processPmt pid
  | .SdtFilter => .processSdt
  | .NitFilter => .processNit

/-- The function `DvbScanFilter::processSection`: the filter afterwards and the
calls made on the scan, in order. The four cases of the `switch` differ only in
the table id they accept and in the scan function they call. In the branch of
an invalid section the source first writes a debug line that reads
`scan->transponder->getDvbSTransponder()->frequency` (line 141). That read is
of the state of the scan, not of the filter: whether it dereferences a null
pointer is `invalidSectionCrash`, and `ScanWorld.input` ends the program there
before this function is reached. For an invalid section the result below is
the one of the remaining case, in which the read succeeds and the function
returns without a call. -/
def DvbScanFilter.processSection (f : DvbScanFilter) (sec : ScanSection) :
    DvbScanFilter × List ScanCall :=
  if sec.isValid = false then (f, [])
  else if sec.tableId ≠ f.type.tableId then (f, [])
  else if sec.typedIsValid = false then (f, [])
  else
    let r := checkMultipleSection f.multipleSections sec.sectionNumber sec.lastSectionNumber
    let f1 := { f with multipleSections := r.1 }
    if r.2 = false then (f1, [])
    else if f1.multipleSections.count false = 0 then
      (f1, [f.type.call f.pid, ScanCall.filterFinished])
    else (f1, [f.type.call f.pid])

/-- Consecutive calls of `processSection` on one filter: the filter afterwards
and, for every section, the calls made while processing it. -/
def DvbScanFilter.processSectionList (f : DvbScanFilter) :
    List ScanSection → DvbScanFilter × List (List ScanCall)
  | [] => (f, [])
  | sec :: rest =>
    let r := f.processSection sec
    let rs := DvbScanFilter.processSectionList r.1 rest
    (rs.1, r.2 :: rs.2)

/-- A valid section of the table the filter reads, with last section number
`last` and a section number in `[0, last]`. -/
def ScanSection.goodFor (sec : ScanSection) (type : FilterType) (last : Nat) : Prop :=
  sec.isValid = true ∧ sec.tableId = type.tableId ∧ sec.typedIsValid = true ∧
    sec.lastSectionNumber = last ∧ sec.sectionNumber ≤ last

instance (sec : ScanSection) (type : FilterType) (last : Nat) :
    Decidable (sec.goodFor type last) := by
  unfold ScanSection.goodFor; infer_instance

/-- The bitmap records exactly the section numbers of `seen`: it has `last + 1`
bits and bit `k` is set if and only if `k` is in `seen`. -/
def BitmapRecords (bits : List Bool) (seen : List Nat) (last : Nat) : Prop :=
  bits.length = last + 1 ∧ ∀ k, k ≤ last → (bits.getD k false = true ↔ k ∈ seen)

/-- The state of a filter that was freshly started and has since processed
good sections with the section numbers `seen`. -/
def FilterRecords (f : DvbScanFilter) (seen : List Nat) (last : Nat) : Prop :=
  (f.multipleSections = [] ∧ seen = []) ∨ BitmapRecords f.multipleSections seen last

/-! ## Device (`DvbDevice`, dvbdevice.cpp) -/

/-- The enumeration `DvbTransponderBase::TransmissionType`. -/
inductive TransmissionType where
  | DvbC
  | DvbS
  | DvbS2
  | DvbT
  | Atsc
deriving DecidableEq, Repr

/-- The enumeration `DvbSTransponder::Polarization`. -/
inductive Polarization where
  | Horizontal
  | Vertical
  | CircularLeft
  | CircularRight
deriving DecidableEq, Repr

/-- The enumeration `DvbTransponderBase::FecRate`, declared in a header that is
not among the sources: the values the sources name. -/
inductive FecRate where
  | Fec1_2
  | Fec2_3
  | Fec3_4
  | Fec4_5
  | Fec5_6
  | Fec7_8
  | Fec8_9
  | FecAuto
deriving DecidableEq, Repr

/-- The enumeration `DvbTTransponder::GuardInterval`: the values of the
`switch` in `frontendEvent`, which has no default branch. -/
inductive GuardInterval where
  | GuardInterval1_4
  | GuardInterval1_8
  | GuardInterval1_16
  | GuardInterval1_32
  | GuardIntervalAuto
deriving DecidableEq, Repr

/-- The enumeration `DvbTTransponder::Modulation`: the values of the `switch`
in `frontendEvent`. -/
inductive Modulation where
  | Qpsk
  | Qam16
  | Qam64
  | ModulationAuto
deriving DecidableEq, Repr

/-- The enumeration `DvbTTransponder::TransmissionMode`: the values of the
`switch` in `frontendEvent`. -/
inductive TransmissionMode where
  | TransmissionMode2k
  | TransmissionMode4k
  | TransmissionMode8k
  | TransmissionModeAuto
deriving DecidableEq, Repr

/-- A `DvbTransponder`. The transponder classes are declared in a header that
is not among the sources; the record has the transmission type and the
parameters the device reads or writes (`frequency` and `polarization` of a
DVB-S/S2 transponder, the four parameters of a DVB-T transponder that
auto-tune cycles), `others` stands for all remaining parameters, which the
device only copies, and `symbolRate` and `fecRate` are the two further
parameters of a DVB-S transponder that the scan sets. -/
structure DvbTransponder where
  transmissionType : TransmissionType
  frequency : Int
  polarization : Polarization
  fecRateHigh : FecRate
  guardInterval : GuardInterval
  modulation : Modulation
  transmissionMode : TransmissionMode
  others : Nat
  symbolRate : Int := 0
  fecRate : FecRate := FecRate.FecAuto
deriving DecidableEq, Repr

/-- The capability flags `DvbTFecAuto`, `DvbTGuardIntervalAuto`,
`DvbTModulationAuto` and `DvbTTransmissionModeAuto` of the backend. Their bit
values are declared in a header that is not among the sources; a field is true
when `(capabilities & flag) != 0`. -/
structure Capabilities where
  dvbTFecAuto : Bool
  dvbTGuardIntervalAuto : Bool
  dvbTModulationAuto : Bool
  dvbTTransmissionModeAuto : Bool
deriving DecidableEq, Repr

/-- Tone argument of `setTone`. -/
inductive SecTone where
  | ToneOff
  | ToneOn
deriving DecidableEq, Repr

/-- Voltage argument of `setVoltage`. -/
inductive SecVoltage where
  | Voltage13V
  | Voltage18V
deriving DecidableEq, Repr

/-- Burst argument of `sendBurst`. -/
inductive SecBurst where
  | BurstMiniA
  | BurstMiniB
deriving DecidableEq, Repr

/-- The enumeration `DvbConfigBase::Configuration`: the three positioner modes
of the `switch` in `tune`, and `NoDiseqc` for every other value. -/
inductive Configuration where
  | DiseqcSwitch
  | UsalsRotor
  | PositionsRotor
  | NoDiseqc
deriving DecidableEq, Repr

/-- The fields of `DvbConfigBase` that the device reads. `usalsValue` is the
integer `value` that the USALS branch of `tune` computes in floating point from
`scanSource` and the coordinates of the manager; it is taken as given. -/
structure DvbConfigBase where
  timeout : Int
  configuration : Configuration
  lnbNumber : Nat
  lowBandFrequency : Int
  switchFrequency : Int
  highBandFrequency : Int
  usalsValue : Nat
deriving DecidableEq, Repr

/-- A command issued to the backend device. -/
inductive BackendCall where
  | setTone (tone : SecTone)
  | setVoltage (voltage : SecVoltage)
  | sendMessage (message : List Nat)
  | sendBurst (burst : SecBurst)
  | tune (transponder : DvbTransponder)
  | addPidFilter (pid : Int)
  | removePidFilter (pid : Int)
  | release
deriving DecidableEq, Repr

/-- What the backend answers during one call into the device: the results of
`backend->tune`, `isTuned`, `getSignal`, `getCapabilities` and
`backend->addPidFilter`. Each device function asks each of them at most once. -/
structure BackendAnswers where
  tune : Bool
  isTuned : Bool
  getSignal : Int
  getCapabilities : Capabilities
  addPidFilter : Bool
deriving DecidableEq, Repr

/-- The enumeration `DvbDevice::DeviceState`. -/
inductive DeviceState where
  | DeviceNotReady
  | DeviceReleased
  | DeviceIdle
  | DeviceRotorMoving
  | DeviceTuning
  | DeviceTuned
deriving DecidableEq, Repr

/-- A registered byte filter (a `DvbPidFilter *`): the no-op sentinel
`dummyPidFilter`, the data dumper of the device, the section reassembler of a
PID (an element of the `sectionFilters` map), or a filter object of a client. -/
inductive PidFilter where
  | dummyPidFilter
  | dataDumper
  | sectionFilter (pid : Int)
  | client (id : Nat)
deriving DecidableEq, Repr

/-- The class `DvbFilterInternal`. -/
structure DvbFilterInternal where
  filters : List PidFilter
  activeFilters : Int
deriving DecidableEq, Repr

/-- The class `DvbDeviceDataBuffer`: `next` is the index of the next buffer in
`DvbDevice.buffers`, which plays the role of the heap. -/
structure DvbDeviceDataBuffer where
  next : Option Nat
  size : Int
  data : List Nat
deriving DecidableEq, Repr

/-- Lookup in a `QMap<int, T>`, kept as a list of entries in key order
(`find`, `constFind`). -/
def qmapFind {α : Type} (m : List (Int × α)) (key : Int) : Option α :=
  (m.find? (fun e => e.1 == key)).map (fun e => e.2)

/-- The call `QMap::insert(key, value)`: the entry is placed in key order and
replaces an entry with the same key. Also used for a write through an
iterator. -/
def qmapInsert {α : Type} : List (Int × α) → Int → α → List (Int × α)
  | [], key, value => [(key, value)]
  | (k, x) :: rest, key, value =>
    if key < k then (key, value) :: (k, x) :: rest
    else if key = k then (key, value) :: rest
    else (k, x) :: qmapInsert rest key value

/-- The call `QMap::remove(key)`. -/
def qmapRemove {α : Type} (m : List (Int × α)) (key : Int) : List (Int × α) :=
  m.filter (fun e => e.1 != key)

/-- The members of `DvbDevice`, and two traces: the commands issued to the
backend and the states announced by `emit stateChanged()`. -/
structure DvbDevice where
  deviceState : DeviceState
  config : DvbConfigBase
  frontendTimeout : Int
  frontendTimerActive : Bool
  isAuto : Bool
  autoTransponder : DvbTransponder
  capabilities : Capabilities
  filters : List (Int × DvbFilterInternal)
  sectionFilters : List (Int × DvbSectionFilterInternal)
  dataDumper : Bool
  cleanUpFilters : Bool
  buffers : List DvbDeviceDataBuffer
  unusedBuffersHead : Option Nat
  usedBuffersHead : Option Nat
  usedBuffersTail : Option Nat
  backendCalls : List BackendCall
  stateChanges : List DeviceState
deriving DecidableEq, Repr

/-- Issue a command to the backend. -/
def DvbDevice.call (dev : DvbDevice) (c : BackendCall) : DvbDevice :=
  { dev with backendCalls := dev.backendCalls ++ [c] }

/-- The function `DvbDevice::setDeviceState`. -/
def DvbDevice.setDeviceState (dev : DvbDevice) (newState : DeviceState) : DvbDevice :=
  if dev.deviceState ≠ newState then
    { dev with deviceState := newState, stateChanges := dev.stateChanges ++ [newState] }
  else dev

/-- Write through a buffer pointer: apply `f` to the buffer at index `i`. -/
def updateBuffer (buffers : List DvbDeviceDataBuffer) (i : Nat)
    (f : DvbDeviceDataBuffer → DvbDeviceDataBuffer) : List DvbDeviceDataBuffer :=
  match buffers[i]? with
  | some b => buffers.set i (f b)
  | none => buffers

/-- The function `DvbDevice::discardBuffers`. -/
def DvbDevice.discardBuffers (dev : DvbDevice) : DvbDevice :=
  match dev.usedBuffersHead with
  | none => dev
  | some head =>
    let nextBuffer : Option Nat := (dev.buffers[head]?).bind (fun b => b.next)
    let buffers1 := updateBuffer dev.buffers head (fun b => { b with size := 0, next := none })
    match nextBuffer with
    | none => { dev with buffers := buffers1 }
    | some n =>
      { dev with
        buffers := updateBuffer buffers1 n (fun b => { b with next := dev.unusedBuffersHead }),
        unusedBuffersHead := some n }

/-- The end of both branches of `DvbDevice::tune`: what follows the answer of
`backend->tune`. `moveRotor` is false in the branch for transponders other than
DVB-S/S2. -/
def DvbDevice.tuneResult (dev : DvbDevice) (accepted moveRotor : Bool) : DvbDevice :=
  if accepted then
    let dev1 :=
      if moveRotor = false then
        { dev.setDeviceState .DeviceTuning with frontendTimeout := dev.config.timeout }
      else { dev.setDeviceState .DeviceRotorMoving with frontendTimeout := 15000 }
    ({ dev1 with frontendTimerActive := true }).discardBuffers
  else (dev.setDeviceState .DeviceTuning).setDeviceState .DeviceIdle

/-- The positioner commands of the `switch (config->configuration)` in `tune`,
and whether the rotor is moved. Bytes are stored into a `char` array. -/
def positionerCalls (config : DvbConfigBase) (horPolar highBand : Bool) :
    List BackendCall × Bool :=
  match config.configuration with
  | .DiseqcSwitch =>
    ([.sendMessage [0xe0, 0x10, 0x38,
          (0xf0 ||| (config.lnbNumber <<< 2) ||| (if horPolar then 2 else 0) |||
            (if highBand then 1 else 0)) % 256],
      .sendBurst (if config.lnbNumber &&& 0x1 = 0 then .BurstMiniA else .BurstMiniB)], false)
  | .UsalsRotor =>
    ([.sendMessage [0xe0, 0x31, 0x6e, (config.usalsValue / 256) % 256,
        (config.usalsValue % 256) % 256]], true)
  | .PositionsRotor => ([.sendMessage [0xe0, 0x31, 0x6b, config.lnbNumber % 256]], true)
  | .NoDiseqc => ([], false)

/-- The value a 32-bit two's complement `int` holds when the exact result of a
computation is `x`. The C++ standard leaves signed overflow undefined; the
embedding takes the wrapped value the machine computes. -/
def wrapInt32 (x : Int) : Int :=
  (x + 2147483648) % 4294967296 - 2147483648

/-- The expression `abs(a - b)` on operands of type `int`: the difference
wraps, and `abs` of the least `int` is the least `int` again. -/
def absDifference (a b : Int) : Int :=
  wrapInt32 |wrapInt32 (a - b)|

/-- The function `DvbDevice::tune`. The frequencies are `int` members; the
intermediate frequency is computed in `int` (`absDifference`). -/
def DvbDevice.tune (dev : DvbDevice) (transponder : DvbTransponder) (be : BackendAnswers) :
    DvbDevice :=
  if transponder.transmissionType ≠ .DvbS ∧ transponder.transmissionType ≠ .DvbS2 then
    (dev.call (.tune transponder)).tuneResult be.tune false
  else
    let horPolar : Bool :=
      decide (transponder.polarization = .Horizontal) ||
        decide (transponder.polarization = .CircularLeft)
    let config := dev.config
    let band : Int × Bool :=
      if config.switchFrequency ≠ 0 then
        if transponder.frequency < config.switchFrequency then
          (absDifference transponder.frequency config.lowBandFrequency, false)
        else (absDifference transponder.frequency config.highBandFrequency, true)
      else if config.highBandFrequency ≠ 0 then
        if horPolar then (absDifference transponder.frequency config.lowBandFrequency, false)
        else (absDifference transponder.frequency config.highBandFrequency, false)
      else (absDifference transponder.frequency config.lowBandFrequency, false)
    let frequency := band.1
    let highBand := band.2
    let dev1 := dev.call (.setTone .ToneOff)
    let dev2 := dev1.call (.setVoltage (if horPolar then .Voltage18V else .Voltage13V))
    let positioner := positionerCalls config horPolar highBand
    let dev3 := { dev2 with backendCalls := dev2.backendCalls ++ positioner.1 }
    let moveRotor := positioner.2
    let dev4 := dev3.call (.setTone (if highBand then .ToneOn else .ToneOff))
    let intermediate := { transponder with frequency := frequency }
    (dev4.call (.tune intermediate)).tuneResult be.tune moveRotor

/-- The `switch (autoTTransponder->fecRateHigh)` of `frontendEvent`: the next
value and whether the carry stays set. -/
def nextFecRate : FecRate → FecRate × Bool
  | .Fec2_3 => (.Fec3_4, false)
  | .Fec3_4 => (.Fec1_2, false)
  | .Fec1_2 => (.Fec5_6, false)
  | .Fec5_6 => (.Fec7_8, false)
  | _ => (.Fec2_3, true)

/-- The `switch (autoTTransponder->guardInterval)` of `frontendEvent`. -/
def nextGuardInterval : GuardInterval → GuardInterval × Bool
  | .GuardInterval1_8 => (.GuardInterval1_32, false)
  | .GuardInterval1_32 => (.GuardInterval1_4, false)
  | .GuardInterval1_4 => (.GuardInterval1_16, false)
  | .GuardInterval1_16 => (.GuardInterval1_8, true)
  | .GuardIntervalAuto => (.GuardInterval1_8, true)

/-- The `switch (autoTTransponder->modulation)` of `frontendEvent`. -/
def nextModulation : Modulation → Modulation × Bool
  | .Qam64 => (.Qam16, false)
  | .Qam16 => (.Qpsk, false)
  | .Qpsk => (.Qam64, true)
  | .ModulationAuto => (.Qam64, true)

/-- The `switch (autoTTransponder->transmissionMode)` of `frontendEvent`; the
step from 2k to 4k is commented out in the source. -/
def nextTransmissionMode : TransmissionMode → TransmissionMode × Bool
  | .TransmissionMode8k => (.TransmissionMode2k, false)
  | .TransmissionMode2k => (.TransmissionMode8k, true)
  | .TransmissionMode4k => (.TransmissionMode8k, true)
  | .TransmissionModeAuto => (.TransmissionMode8k, true)

/-- The block `if (carry && ((capabilities & DvbTFecAuto) == 0))` of
`frontendEvent`, on the auto transponder and the carry. -/
def cycleFecRate (capabilities : Capabilities) (s : DvbTransponder × Bool) :
    DvbTransponder × Bool :=
  if s.2 = true ∧ capabilities.dvbTFecAuto = false then
    ({ s.1 with fecRateHigh := (nextFecRate s.1.fecRateHigh).1 }, (nextFecRate s.1.fecRateHigh).2)
  else s

/-- The block `if (carry && ((capabilities & DvbTGuardIntervalAuto) == 0))` of
`frontendEvent`. -/
def cycleGuardInterval (capabilities : Capabilities) (s : DvbTransponder × Bool) :
    DvbTransponder × Bool :=
  if s.2 = true ∧ capabilities.dvbTGuardIntervalAuto = false then
    ({ s.1 with guardInterval := (nextGuardInterval s.1.guardInterval).1 },
      (nextGuardInterval s.1.guardInterval).2)
  else s

/-- The block `if (carry && ((capabilities & DvbTModulationAuto) == 0))` of
`frontendEvent`. -/
def cycleModulation (capabilities : Capabilities) (s : DvbTransponder × Bool) :
    DvbTransponder × Bool :=
  if s.2 = true ∧ capabilities.dvbTModulationAuto = false then
    ({ s.1 with modulation := (nextModulation s.1.modulation).1 },
      (nextModulation s.1.modulation).2)
  else s

/-- The block `if (carry && ((capabilities & DvbTTransmissionModeAuto) == 0))`
of `frontendEvent`. -/
def cycleTransmissionMode (capabilities : Capabilities) (s : DvbTransponder × Bool) :
    DvbTransponder × Bool :=
  if s.2 = true ∧ capabilities.dvbTTransmissionModeAuto = false then
    ({ s.1 with transmissionMode := (nextTransmissionMode s.1.transmissionMode).1 },
      (nextTransmissionMode s.1.transmissionMode).2)
  else s

/-- The four `if (carry && ...)` blocks of `frontendEvent` in sequence, starting
with `carry = true`: the auto transponder with one more step of the parameter
cycle, and the final carry. -/
def cycleAutoTransponder (capabilities : Capabilities) (t : DvbTransponder) :
    DvbTransponder × Bool :=
  cycleTransmissionMode capabilities
    (cycleModulation capabilities
      (cycleGuardInterval capabilities (cycleFecRate capabilities (t, true))))

/-- The four substitutions of `autoTune`: every automatic parameter that the
hardware does not support gets its first candidate value. -/
def substituteDefaults (capabilities : Capabilities) (t0 : DvbTransponder) : DvbTransponder :=
  let t1 := if capabilities.dvbTFecAuto = false then { t0 with fecRateHigh := .Fec2_3 } else t0
  let t2 :=
    if capabilities.dvbTGuardIntervalAuto = false then
      { t1 with guardInterval := .GuardInterval1_8 }
    else t1
  let t3 := if capabilities.dvbTModulationAuto = false then { t2 with modulation := .Qam64 } else t2
  if capabilities.dvbTTransmissionModeAuto = false then
    { t3 with transmissionMode := .TransmissionMode8k }
  else t3

/-- The function `DvbDevice::autoTune`. -/
def DvbDevice.autoTune (dev : DvbDevice) (transponder : DvbTransponder) (be : BackendAnswers) :
    DvbDevice :=
  if transponder.transmissionType ≠ .DvbT then dev
  else
    let capabilities := be.getCapabilities
    let autoTransponder := substituteDefaults capabilities transponder
    ({ dev with isAuto := true, autoTransponder := autoTransponder,
                capabilities := capabilities }).tune autoTransponder be

/-- The function `DvbDevice::frontendEvent`, the slot of the polling timer. -/
def DvbDevice.frontendEvent (dev : DvbDevice) (be : BackendAnswers) : DvbDevice :=
  if be.isTuned then
    ({ dev with frontendTimerActive := false }).setDeviceState .DeviceTuned
  else
    let dev1 := { dev with frontendTimeout := dev.frontendTimeout - 100 }
    if dev1.frontendTimeout ≤ 0 then
      let dev2 := { dev1 with frontendTimerActive := false }
      if dev2.isAuto = false then dev2.setDeviceState .DeviceIdle
      else if be.getSignal ≠ -1 ∧ be.getSignal < 15 then dev2.setDeviceState .DeviceIdle
      else
        let cycled := cycleAutoTransponder dev2.capabilities dev2.autoTransponder
        let dev3 := { dev2 with autoTransponder := cycled.1 }
        if cycled.2 = false then dev3.tune dev3.autoTransponder be
        else dev3.setDeviceState .DeviceIdle
    else dev1

/-- One period of the polling timer (100 ms): `frontendEvent` runs if the timer
is active. -/
def DvbDevice.poll (dev : DvbDevice) (be : BackendAnswers) : DvbDevice :=
  if dev.frontendTimerActive then dev.frontendEvent be else dev

/-- Consecutive periods of the polling timer, with the answers of the backend
in each. -/
def DvbDevice.pollAll (dev : DvbDevice) : List BackendAnswers → DvbDevice
  | [] => dev
  | be :: rest => DvbDevice.pollAll (dev.poll be) rest

/-- Number of tune commands in a trace of backend commands. -/
def tuneCalls (calls : List BackendCall) : Nat :=
  calls.countP (fun c => match c with | .tune _ => true | _ => false)

/-- Position of a forward-error-correction rate in the candidate cycle of
`nextFecRate` (2/3, 3/4, 1/2, 5/6, 7/8); every other value is treated by the
`default` branch like the last candidate. -/
def fecPosition : FecRate → Nat
  | .Fec2_3 => 0
  | .Fec3_4 => 1
  | .Fec1_2 => 2
  | .Fec5_6 => 3
  | _ => 4

/-- Position of a guard interval in the candidate cycle of `nextGuardInterval`
(1/8, 1/32, 1/4, 1/16). -/
def guardIntervalPosition : GuardInterval → Nat
  | .GuardInterval1_8 => 0
  | .GuardInterval1_32 => 1
  | .GuardInterval1_4 => 2
  | _ => 3

/-- Position of a modulation in the candidate cycle of `nextModulation`
(64-QAM, 16-QAM, QPSK). -/
def modulationPosition : Modulation → Nat
  | .Qam64 => 0
  | .Qam16 => 1
  | _ => 2

/-- Position of a transmission mode in the candidate cycle of
`nextTransmissionMode` (8k, 2k). -/
def transmissionModePosition : TransmissionMode → Nat
  | .TransmissionMode8k => 0
  | _ => 1

/-- Candidate-cycle length of a parameter: the given length if the hardware
does not support the automatic mode of the parameter, 1 otherwise (the
parameter is not varied). -/
def cycleLength (supported : Bool) (length : Nat) : Nat :=
  if supported = false then length else 1

/-- The product of the candidate-cycle lengths of the unsupported automatic
parameters: 5 for the forward-error-correction rate, 4 for the guard interval,
3 for the modulation, 2 for the transmission mode. -/
def cycleProduct (capabilities : Capabilities) : Nat :=
  cycleLength capabilities.dvbTFecAuto 5 * cycleLength capabilities.dvbTGuardIntervalAuto 4 *
    cycleLength capabilities.dvbTModulationAuto 3 *
    cycleLength capabilities.dvbTTransmissionModeAuto 2

/-- The digit of a parameter in the odometer of auto-tune: its position in the
candidate cycle if the parameter is varied, 0 otherwise. -/
def cycleDigit (supported : Bool) (position : Nat) : Nat :=
  if supported = false then position else 0

/-- The number of the auto transponder in the order in which `frontendEvent`
visits the combinations of candidate values (the forward-error-correction rate
is the fastest digit, the transmission mode the slowest). -/
def cycleRank (capabilities : Capabilities) (t : DvbTransponder) : Nat :=
  cycleDigit capabilities.dvbTFecAuto (fecPosition t.fecRateHigh) +
    cycleLength capabilities.dvbTFecAuto 5 *
      (cycleDigit capabilities.dvbTGuardIntervalAuto (guardIntervalPosition t.guardInterval) +
        cycleLength capabilities.dvbTGuardIntervalAuto 4 *
          (cycleDigit capabilities.dvbTModulationAuto (modulationPosition t.modulation) +
            cycleLength capabilities.dvbTModulationAuto 3 *
              cycleDigit capabilities.dvbTTransmissionModeAuto
                (transmissionModePosition t.transmissionMode)))

/-- Number of polls from a tune with timeout budget `timeout` (milliseconds) to
the poll at which `frontendTimeout` has dropped to 0 or below. -/
def pollsUntilTimeout (timeout : Int) : Nat :=
  if timeout ≤ 100 then 1 else ((timeout + 99) / 100).toNat

/-- The backend accepts every tune command, never reports tuned and never
reports a weak signal (a signal other than -1 that is below 15). -/
def BackendAnswers.neverTunes (be : BackendAnswers) : Prop :=
  be.tune = true ∧ be.isTuned = false ∧ ¬ (be.getSignal ≠ -1 ∧ be.getSignal < 15)

instance (be : BackendAnswers) : Decidable be.neverTunes := by
  unfold BackendAnswers.neverTunes; infer_instance

/-- The state of a device between a tune of auto-tune and the next timeout:
the polling timer runs, auto mode is on with the given capabilities and
configured timeout, the device is in state Tuning, and the number of tune
commands issued so far is `base` plus the rank of the auto transponder plus
one. -/
def AutoTuning (dev : DvbDevice) (caps : Capabilities) (timeout : Int) (base : Nat) : Prop :=
  dev.frontendTimerActive = true ∧ dev.isAuto = true ∧ dev.capabilities = caps ∧
    dev.config.timeout = timeout ∧ dev.autoTransponder.transmissionType = .DvbT ∧
    dev.deviceState = .DeviceTuning ∧
    tuneCalls dev.backendCalls = base + cycleRank caps dev.autoTransponder + 1

/-- The state of a device after auto-tune has given up: the polling timer is
stopped, the device is Idle, and `total` tune commands have been issued. -/
def AutoTuneFailed (dev : DvbDevice) (total : Nat) : Prop :=
  dev.frontendTimerActive = false ∧ dev.deviceState = .DeviceIdle ∧
    tuneCalls dev.backendCalls = total

/-- Number of polls still needed before auto-tune gives up, when the backend
never tunes. -/
def pollsRemaining (dev : DvbDevice) (caps : Capabilities) (timeout : Int) : Nat :=
  (cycleProduct caps - 1 - cycleRank caps dev.autoTransponder) * pollsUntilTimeout timeout +
    pollsUntilTimeout dev.frontendTimeout

/-- A transponder with the given transmission type and frequency and neutral
values for the other parameters. -/
def DvbTransponder.plain (transmissionType : TransmissionType) (frequency : Int) :
    DvbTransponder :=
  { transmissionType := transmissionType, frequency := frequency,
    polarization := .Horizontal, fecRateHigh := .FecAuto, guardInterval := .GuardIntervalAuto,
    modulation := .ModulationAuto, transmissionMode := .TransmissionModeAuto, others := 0 }

/-- The state set up by the constructor of `DvbDevice`; the members it leaves
unset get neutral values and `config`, which `acquire` sets, is a parameter. -/
def DvbDevice.init (config : DvbConfigBase) : DvbDevice :=
  { deviceState := .DeviceReleased, config := config, frontendTimeout := 0,
    frontendTimerActive := false, isAuto := false,
    autoTransponder := DvbTransponder.plain .DvbT 0,
    capabilities := ⟨false, false, false, false⟩, filters := [], sectionFilters := [],
    dataDumper := false, cleanUpFilters := false, buffers := [], unusedBuffersHead := none,
    usedBuffersHead := none, usedBuffersTail := none, backendCalls := [], stateChanges := [] }

/-- A configuration without positioner and with the given tuning timeout. -/
def DvbConfigBase.plain (timeout : Int) : DvbConfigBase :=
  { timeout := timeout, configuration := .NoDiseqc, lnbNumber := 0, lowBandFrequency := 0,
    switchFrequency := 0, highBandFrequency := 0, usalsValue := 0 }

/-- Answers of a backend that accepts every request, is not tuned and reports
no signal value, with the given capabilities. -/
def BackendAnswers.accepting (capabilities : Capabilities) : BackendAnswers :=
  { tune := true, isTuned := false, getSignal := -1, getCapabilities := capabilities,
    addPidFilter := true }

/-! ### PID filters and section filters -/

/-- The entry a PID gets on `filters.insert(pid, DvbFilterInternal())`, with
the data dumper appended when dumping is enabled. -/
def DvbDevice.newFilterEntry (dev : DvbDevice) : DvbFilterInternal :=
  { filters := if dev.dataDumper then [PidFilter.dataDumper] else [], activeFilters := 0 }

/-- The function `DvbDevice::addPidFilter`: the device afterwards and the
result. The backend is asked (and the command recorded) only when the PID has
no active filter. -/
def DvbDevice.addPidFilter (dev : DvbDevice) (pid : Int) (filter : PidFilter)
    (be : BackendAnswers) : DvbDevice × Bool :=
  let found := qmapFind dev.filters pid
  let entry : DvbFilterInternal := found.getD dev.newFilterEntry
  let dev1 : DvbDevice :=
    if found.isNone then { dev with filters := qmapInsert dev.filters pid entry } else dev
  let dev2 : DvbDevice := if entry.activeFilters = 0 then dev1.call (.addPidFilter pid) else dev1
  if entry.activeFilters = 0 ∧ be.addPidFilter = false then (dev2, false)
  else if filter ∈ entry.filters then (dev2, true)
  else
    ({ dev2 with
        filters := qmapInsert dev2.filters pid
          { filters := entry.filters ++ [filter], activeFilters := entry.activeFilters + 1 } },
      true)

/-- The function `DvbDevice::removePidFilter`. -/
def DvbDevice.removePidFilter (dev : DvbDevice) (pid : Int) (filter : PidFilter) : DvbDevice :=
  match qmapFind dev.filters pid with
  | none => dev
  | some entry =>
    if filter ∈ entry.filters then
      let entry1 : DvbFilterInternal :=
        { filters := entry.filters.set (entry.filters.indexOf filter) .dummyPidFilter,
          activeFilters := entry.activeFilters - 1 }
      let dev1 := { dev with filters := qmapInsert dev.filters pid entry1 }
      let dev2 := if entry1.activeFilters = 0 then dev1.call (.removePidFilter pid) else dev1
      { dev2 with cleanUpFilters := true }
    else dev

/-- Lines 487-494 of `DvbDevice::addSectionFilter`: register the filter in the
reassembler `entry` of the PID. -/
def DvbDevice.registerSectionFilter (dev : DvbDevice) (pid : Int)
    (entry : DvbSectionFilterInternal) (filter : SectionFilter) : DvbDevice × Bool :=
  if filter ∈ entry.sectionFilters then (dev, true)
  else
    ({ dev with
        sectionFilters := qmapInsert dev.sectionFilters pid
          { entry with sectionFilters := entry.sectionFilters ++ [filter],
                       activeSectionFilters := entry.activeSectionFilters + 1 } },
      true)

/-- The function `DvbDevice::addSectionFilter`. -/
def DvbDevice.addSectionFilter (dev : DvbDevice) (pid : Int) (filter : SectionFilter)
    (be : BackendAnswers) : DvbDevice × Bool :=
  match qmapFind dev.sectionFilters pid with
  | none =>
    let dev1 := { dev with
      sectionFilters := qmapInsert dev.sectionFilters pid DvbSectionFilterInternal.init }
    let r := dev1.addPidFilter pid (.sectionFilter pid) be
    if r.2 = false then
      ({ r.1 with sectionFilters := qmapRemove r.1.sectionFilters pid }, false)
    else r.1.registerSectionFilter pid DvbSectionFilterInternal.init filter
  | some entry => dev.registerSectionFilter pid entry filter

/-- The function `DvbDevice::removeSectionFilter`. -/
def DvbDevice.removeSectionFilter (dev : DvbDevice) (pid : Int) (filter : SectionFilter) :
    DvbDevice :=
  match qmapFind dev.sectionFilters pid with
  | none => dev
  | some entry =>
    if filter ∈ entry.sectionFilters then
      let entry1 : DvbSectionFilterInternal :=
        { entry with
          sectionFilters :=
            entry.sectionFilters.set (entry.sectionFilters.indexOf filter) .dummySectionFilter,
          activeSectionFilters := entry.activeSectionFilters - 1 }
      let dev1 := { dev with sectionFilters := qmapInsert dev.sectionFilters pid entry1 }
      let dev2 :=
        if entry1.activeSectionFilters = 0 then dev1.removePidFilter pid (.sectionFilter pid)
        else dev1
      { dev2 with cleanUpFilters := true }
    else dev

/-- The PID of a transport packet, as `customEvent` extracts it. -/
def packetPid (packet : List Nat) : Int :=
  ((((packet.getD 1 0 % 256) <<< 8) ||| (packet.getD 2 0 % 256)) &&& ((1 <<< 13) - 1) : Nat)

/-- The filters whose `processData` the dispatch loop of `customEvent` calls
for one packet, in call order: none if the transport error indicator is set or
the PID has no entry, else the filter list of the PID. -/
def DvbDevice.packetFilters (dev : DvbDevice) (packet : List Nat) : List PidFilter :=
  if packet.getD 1 0 &&& 0x80 ≠ 0 then []
  else
    match qmapFind dev.filters (packetPid packet) with
    | none => []
    | some entry => entry.filters

/-- A call of the filter interface of the device by a client. -/
inductive PidFilterOp where
  | add (pid : Int) (filter : PidFilter)
  | remove (pid : Int) (filter : PidFilter)
deriving DecidableEq, Repr

/-- The PID a call names. -/
def PidFilterOp.pid : PidFilterOp → Int
  | .add pid _ => pid
  | .remove pid _ => pid

/-- The filter a call names. -/
def PidFilterOp.filter : PidFilterOp → PidFilter
  | .add _ filter => filter
  | .remove _ filter => filter

/-- A real filter: neither the sentinel nor the data dumper, which is a
private member of the device and cannot be named by a caller. -/
def PidFilter.isReal (filter : PidFilter) : Bool :=
  decide (filter ≠ .dummyPidFilter) && decide (filter ≠ .dataDumper)

/-- Run one call of the filter interface. -/
def DvbDevice.applyOp (dev : DvbDevice) (be : BackendAnswers) : PidFilterOp → DvbDevice
  | .add pid filter => (dev.addPidFilter pid filter be).1
  | .remove pid filter => dev.removePidFilter pid filter

/-- Run a sequence of calls of the filter interface. -/
def DvbDevice.applyOps (dev : DvbDevice) (be : BackendAnswers) : List PidFilterOp → DvbDevice
  | [] => dev
  | op :: ops => DvbDevice.applyOps (dev.applyOp be op) be ops

/-- The filter list of a PID (empty when the PID has no entry). -/
def DvbDevice.filterList (dev : DvbDevice) (pid : Int) : List PidFilter :=
  ((qmapFind dev.filters pid).map (fun e => e.filters)).getD []

/-- The active-filter count of a PID (0 when the PID has no entry). -/
def DvbDevice.activeCount (dev : DvbDevice) (pid : Int) : Int :=
  ((qmapFind dev.filters pid).map (fun e => e.activeFilters)).getD 0

/-- The hardware start (true) and stop (false) commands for a PID in a trace
of backend commands, in order. -/
def pidCommands (calls : List BackendCall) (pid : Int) : List Bool :=
  calls.filterMap (fun c =>
    match c with
    | .addPidFilter p => if p = pid then some true else none
    | .removePidFilter p => if p = pid then some false else none
    | _ => none)

/-- The sequence start, stop, start, ... of length `n`. -/
def alternatingStartStop (n : Nat) : List Bool :=
  (List.range n).map (fun i => decide (i % 2 = 0))

/-- The hardware is delivering a PID when the last start or stop command for
it was a start command. -/
def hardwareDelivering (calls : List BackendCall) (pid : Int) : Bool :=
  (pidCommands calls pid).getLast?.getD false

/-- The filter contract in the words of the specification, without the
device: the registrations (PID, filter) in force after one more call. Adding a
registration that is in force and removing one that is not change nothing. -/
def registerOp (reg : List (Int × PidFilter)) : PidFilterOp → List (Int × PidFilter)
  | .add pid filter => if (pid, filter) ∈ reg then reg else reg ++ [(pid, filter)]
  | .remove pid filter => reg.erase (pid, filter)

/-- The registrations in force after a sequence of calls, none before. -/
def registrations (ops : List PidFilterOp) : List (Int × PidFilter) :=
  ops.foldl registerOp []

/-- The number of active filters of a PID among the registrations. -/
def activeFiltersOf (reg : List (Int × PidFilter)) (pid : Int) : Nat :=
  reg.countP (fun r => decide (r.1 = pid))

/-- The hardware commands the contract asks of one call, given the
registrations in force before it: a start command when a filter is added while
the PID has no active filter, a stop command when the removal of a registered
filter leaves the PID with no active filter. -/
def contractCommands (reg : List (Int × PidFilter)) : PidFilterOp → List BackendCall
  | .add pid _ => if activeFiltersOf reg pid = 0 then [.addPidFilter pid] else []
  | .remove pid filter =>
    if (pid, filter) ∈ reg ∧ activeFiltersOf (registerOp reg (.remove pid filter)) pid = 0 then
      [.removePidFilter pid]
    else []

/-- The hardware commands the contract asks of a sequence of calls, in order,
given the registrations in force before it. -/
def contractTrace (reg : List (Int × PidFilter)) : List PidFilterOp → List BackendCall
  | [] => []
  | op :: ops => contractCommands reg op ++ contractTrace (registerOp reg op) ops

/-- The device agrees with the registrations: a real filter is in the list of
a PID once if it is registered for the PID and not at all otherwise, and the
active count of every PID is the number of its registrations. -/
def Registered (dev : DvbDevice) (reg : List (Int × PidFilter)) : Prop :=
  reg.Nodup ∧ (∀ r ∈ reg, r.2.isReal = true) ∧
    ∀ pid, dev.activeCount pid = (activeFiltersOf reg pid : Int) ∧
      ∀ f, f.isReal = true →
        (dev.filterList pid).count f = if (pid, f) ∈ reg then 1 else 0

/-- Number of real filters in a filter list. -/
def realCount (filters : List PidFilter) : Nat :=
  filters.countP PidFilter.isReal

/-- The invariant of the filter table for one PID: the active count is the
number of real filters in the list, and the start and stop commands issued so
far alternate, beginning with start, with a start pending exactly when the
count is positive. -/
def PidInvariant (dev : DvbDevice) (pid : Int) : Prop :=
  dev.activeCount pid = realCount (dev.filterList pid) ∧
    ∃ n, pidCommands dev.backendCalls pid = alternatingStartStop n ∧
      (n % 2 = 1 ↔ 0 < dev.activeCount pid)

/-! ### Filter lists of the section reassemblers and the dispatch loop -/

/-- The section-filter list of a PID (empty when the PID has no reassembler). -/
def DvbDevice.sectionFilterList (dev : DvbDevice) (pid : Int) : List SectionFilter :=
  ((qmapFind dev.sectionFilters pid).map (fun e => e.sectionFilters)).getD []

/-- The active section-filter count of a PID (0 when the PID has no
reassembler). -/
def DvbDevice.activeSectionCount (dev : DvbDevice) (pid : Int) : Int :=
  ((qmapFind dev.sectionFilters pid).map (fun e => e.activeSectionFilters)).getD 0

/-- A device with byte filters 1, 2 and 3 on PID 100 and section filters 1 and
2 on PID 100, filter 4 on PID 300 and section filter 5 on PID 400. -/
def removalExample : DvbDevice :=
  let be := BackendAnswers.accepting ⟨false, false, false, false⟩
  let d0 := DvbDevice.init (DvbConfigBase.plain 1500)
  let d1 := (d0.addPidFilter 100 (.client 1) be).1
  let d2 := (d1.addPidFilter 100 (.client 2) be).1
  let d3 := (d2.addPidFilter 100 (.client 3) be).1
  let d4 := (d3.addSectionFilter 100 (.client 1) be).1
  let d5 := (d4.addSectionFilter 100 (.client 2) be).1
  let d6 := (d5.addPidFilter 300 (.client 4) be).1
  (d6.addSectionFilter 400 (.client 5) be).1


/-- One call `filter->processData(packet)` made by the dispatch loop. -/
structure FilterCall where
  filter : PidFilter
  packet : List Nat
deriving DecidableEq, Repr

/-- The packet `buffer->data + i`: the 188 bytes a filter reads from there. -/
def packetAt (data : List Nat) (i : Nat) : List Nat :=
  (data.drop i).take 188

/-- The packet loop of `DvbDevice::customEvent` over one buffer, from byte
offset `i` on: `for (; i < buffer->size; i += 188)`. Each round uses one unit
of fuel. The calls of `processData` are recorded, in call order, against the
filter table of `dev`. -/
def DvbDevice.dispatchPackets (dev : DvbDevice) (buffer : DvbDeviceDataBuffer) :
    Nat → Nat → List FilterCall
  | 0, _ => []
  | fuel + 1, i =>
    if (i : Int) < buffer.size then
      (dev.packetFilters (packetAt buffer.data i)).map
          (fun filter => FilterCall.mk filter (packetAt buffer.data i)) ++
        DvbDevice.dispatchPackets dev buffer fuel (i + 188)
    else []

/-- The packet loop of `customEvent` over one buffer. The fuel `size` covers
the at most `size / 188 + 1` rounds of the loop. -/
def DvbDevice.dispatchBuffer (dev : DvbDevice) (buffer : DvbDeviceDataBuffer) :
    List FilterCall :=
  dev.dispatchPackets buffer buffer.size.toNat 0

/-- The deferred cleanup at the start of `DvbDevice::customEvent`: when a
removal has happened, erase the entries without active filter and drop the
sentinels from the lists of the others. -/
def DvbDevice.cleanUp (dev : DvbDevice) : DvbDevice :=
  if dev.cleanUpFilters then
    { dev with
      cleanUpFilters := false,
      filters :=
        (dev.filters.filter (fun e => decide (e.2.activeFilters ≠ 0))).map
          (fun e => (e.1, { e.2 with
            filters := e.2.filters.filter (fun f => decide (f ≠ PidFilter.dummyPidFilter)) })),
      sectionFilters :=
        (dev.sectionFilters.filter (fun e => decide (e.2.activeSectionFilters ≠ 0))).map
          (fun e => (e.1, { e.2 with
            sectionFilters :=
              e.2.sectionFilters.filter
                (fun f => decide (f ≠ SectionFilter.dummySectionFilter)) })) }
  else dev

/-- The member `next` of the buffer at index `b`. -/
def bufferNext (buffers : List DvbDeviceDataBuffer) (b : Nat) : Option Nat :=
  (buffers[b]?).bind (fun x => x.next)

/-- The function `DvbDevice::getBuffer`: the device afterwards and the index of
the buffer handed to the producer. `fresh` is the content of the buffer that
`new DvbDeviceDataBuffer` allocates when the free list is empty (its members
are not initialised by the code). -/
def DvbDevice.getBuffer (dev : DvbDevice) (fresh : DvbDeviceDataBuffer) : DvbDevice × Nat :=
  match dev.unusedBuffersHead with
  | some b => ({ dev with unusedBuffersHead := bufferNext dev.buffers b }, b)
  | none => ({ dev with buffers := dev.buffers ++ [fresh] }, dev.buffers.length)

/-- The function `DvbDevice::writeBuffer` for the buffer at index `b`, which the
producer has filled with `data` and reports as holding `dataSize` bytes: the
device afterwards and whether the consumer event is posted (`wakeUp`). -/
def DvbDevice.writeBuffer (dev : DvbDevice) (b : Nat) (data : List Nat) (dataSize : Int) :
    DvbDevice × Bool :=
  let buffers0 := updateBuffer dev.buffers b (fun x => { x with data := data })
  if dataSize > 0 then
    let buffers1 := updateBuffer buffers0 b (fun x => { x with size := dataSize })
    match dev.usedBuffersHead with
    | some _ =>
      let buffers2 :=
        match dev.usedBuffersTail with
        | some t => updateBuffer buffers1 t (fun x => { x with next := some b })
        | none => buffers1
      ({ dev with
          buffers := updateBuffer buffers2 b (fun x => { x with next := none }),
          usedBuffersTail := some b }, false)
    | none =>
      ({ dev with
          buffers := updateBuffer buffers1 b (fun x => { x with next := none }),
          usedBuffersHead := some b,
          usedBuffersTail := some b }, true)
  else
    ({ dev with
        buffers := updateBuffer buffers0 b (fun x => { x with next := dev.unusedBuffersHead }),
        unusedBuffersHead := some b }, false)

/-- The locked block that opens each round of the loop of `customEvent`:
recycle the buffer processed in the previous round (`buffer`, none in the first
round) and fetch the head of the pending queue. -/
def DvbDevice.nextBuffer (dev : DvbDevice) (buffer : Option Nat) : DvbDevice × Option Nat :=
  match buffer with
  | none => (dev, dev.usedBuffersHead)
  | some b =>
    ({ dev with
        usedBuffersHead := bufferNext dev.buffers b,
        buffers := updateBuffer dev.buffers b (fun x => { x with next := dev.unusedBuffersHead }),
        unusedBuffersHead := some b },
      bufferNext dev.buffers b)

/-- The loop of `customEvent`, one unit of fuel per round; the calls made for
each fetched buffer are appended to `calls`. -/
def DvbDevice.customEventLoop : Nat → DvbDevice → Option Nat → List FilterCall →
    DvbDevice × List FilterCall
  | 0, dev, _, calls => (dev, calls)
  | fuel + 1, dev, buffer, calls =>
    match dev.nextBuffer buffer with
    | (dev1, none) => (dev1, calls)
    | (dev1, some b) =>
      DvbDevice.customEventLoop fuel dev1 (some b)
        (calls ++ dev1.dispatchBuffer (dev1.buffers.getD b ⟨none, 0, []⟩))

/-- The function `DvbDevice::customEvent`: the device afterwards and the calls
of `processData` made, in order. The calls are recorded and not run. The fuel
covers a pending queue that visits each buffer of the heap once. -/
def DvbDevice.customEvent (dev : DvbDevice) : DvbDevice × List FilterCall :=
  DvbDevice.customEventLoop (dev.buffers.length + 1) dev.cleanUp none []

/-- The buffers reached from `start` by following `next`, at most `fuel` of
them. -/
def chainFrom (buffers : List DvbDeviceDataBuffer) : Nat → Option Nat → List Nat
  | 0, _ => []
  | _ + 1, none => []
  | fuel + 1, some b => b :: chainFrom buffers fuel (bufferNext buffers b)

/-- The free list: the buffers reached from `unusedBuffersHead`. A list that
visits a buffer twice shows up as a duplicate within the fuel. -/
def DvbDevice.freeList (dev : DvbDevice) : List Nat :=
  chainFrom dev.buffers (dev.buffers.length + 1) dev.unusedBuffersHead

/-- The pending queue: the buffers reached from `usedBuffersHead`. -/
def DvbDevice.pendingQueue (dev : DvbDevice) : List Nat :=
  chainFrom dev.buffers (dev.buffers.length + 1) dev.usedBuffersHead

/-- A step of the producer, of the consumer or of the tuner on the buffers. A
consumer run is a sequence of rounds of the loop of `customEvent`, the last of
which finds the pending queue empty; the other steps can fall between two
rounds. -/
inductive BufferOp where
  | getBuffer (fresh : DvbDeviceDataBuffer)
  | writeBuffer (b : Nat) (data : List Nat) (dataSize : Int)
  | discardBuffers
  | consumerRound
deriving DecidableEq, Repr

/-- The device together with the local variable `buffer` of a running
`customEvent` (none between runs and in the first round) and the buffers the
producer holds between `getBuffer` and `writeBuffer`. -/
structure BufferSystem where
  dev : DvbDevice
  current : Option Nat
  held : List Nat
deriving DecidableEq, Repr

/-- Run one step. The producer writes only buffers it got from `getBuffer` and
has not written yet; a write of another buffer is not a step of the protocol
and is skipped. -/
def BufferSystem.step (s : BufferSystem) : BufferOp → BufferSystem
  | .getBuffer fresh =>
    { s with dev := (s.dev.getBuffer fresh).1, held := (s.dev.getBuffer fresh).2 :: s.held }
  | .writeBuffer b data dataSize =>
    if b ∈ s.held then
      { s with dev := (s.dev.writeBuffer b data dataSize).1, held := s.held.erase b }
    else s
  | .discardBuffers => { s with dev := s.dev.discardBuffers }
  | .consumerRound =>
    { s with dev := (s.dev.nextBuffer s.current).1, current := (s.dev.nextBuffer s.current).2 }

/-- Run a sequence of steps. -/
def BufferSystem.run (s : BufferSystem) : List BufferOp → BufferSystem
  | [] => s
  | op :: ops => BufferSystem.run (s.step op) ops

/-- The system around a device whose consumer is not running and whose
producer holds no buffer. -/
def BufferSystem.init (dev : DvbDevice) : BufferSystem :=
  { dev := dev, current := none, held := [] }

/-- A 188-byte transport packet of the given PID (below 8192) with the
transport error indicator as given and a zero payload. -/
def transportPacket (pid : Nat) (transportError : Bool) : List Nat :=
  [0x47, (if transportError then 0x80 else 0) + pid / 256, pid % 256, 0x10] ++
    List.replicate 184 0

/-- A device with the byte filters 1 and 2 on PID 0x100 and the byte filter 3
on PID 0x1fff. -/
def dispatchExample : DvbDevice :=
  let be := BackendAnswers.accepting ⟨false, false, false, false⟩
  let d0 := DvbDevice.init (DvbConfigBase.plain 1500)
  let d1 := (d0.addPidFilter 0x100 (.client 1) be).1
  let d2 := (d1.addPidFilter 0x100 (.client 2) be).1
  (d2.addPidFilter 0x1fff (.client 3) be).1

/-- The buffers of `chain` are linked from `start` in this order by their
`next` members, and the last of them has no successor. -/
def LinkedFrom (buffers : List DvbDeviceDataBuffer) : Option Nat → List Nat → Prop
  | start, [] => start = none
  | start, b :: rest =>
    start = some b ∧ b < buffers.length ∧ LinkedFrom buffers (bufferNext buffers b) rest

/-- The state of the buffer lists: the pending queue and the free list are
proper lists that share no buffer with each other or with the producer, the
tail pointer, when it points into the pending queue, points at its last buffer,
and a running consumer processes the head of the pending queue. -/
def BufferSystem.WellFormed (s : BufferSystem) : Prop :=
  ∃ pending free : List Nat,
    LinkedFrom s.dev.buffers s.dev.usedBuffersHead pending ∧
      LinkedFrom s.dev.buffers s.dev.unusedBuffersHead free ∧
      (pending ++ free ++ s.held).Nodup ∧
      (∀ b ∈ s.held, b < s.dev.buffers.length) ∧
      (∀ t, s.dev.usedBuffersTail = some t → t ∈ pending → pending.getLast? = some t) ∧
      (∀ c, s.current = some c → s.dev.usedBuffersHead = some c)

/-- The producer takes three buffers and writes two of them, the tuner discards
the pending buffers, and the producer writes the third buffer. -/
def bufferExample : List BufferOp :=
  [.getBuffer ⟨none, 0, []⟩, .getBuffer ⟨none, 0, []⟩, .getBuffer ⟨none, 0, []⟩,
    .writeBuffer 0 [] 188, .writeBuffer 1 [] 188, .discardBuffers, .writeBuffer 2 [] 188]

/-- The class `DvbPatEntry`. -/
structure DvbPatEntry where
  programNumber : Int
  pid : Int
deriving DecidableEq, Repr

/-- The class `DvbSdtEntry`; its constructor leaves `name` and `provider`
empty. -/
structure DvbSdtEntry where
  serviceId : Int
  networkId : Int
  transportStreamId : Int
  scrambled : Bool
  name : String := ""
  provider : String := ""
deriving DecidableEq, Repr

/-- The members of `DvbPreviewChannel` that the scan writes or tests. The class
is declared in headers that are not among the sources. `transponder` is a
shared pointer, `none` when null. -/
structure DvbPreviewChannel where
  name : String
  source : String
  serviceId : Int
  networkId : Int
  transportStreamId : Int
  pmtPid : Int
  videoPid : Int
  audioPids : List Int
  scrambled : Bool
  provider : String
  transponder : Option DvbTransponder
  snr : Int
deriving DecidableEq, Repr

/-- What `processPat` reads of an entry of the section (`DvbPatSectionEntry`,
declared in dvbsi.h, which is not among the sources): the results of
`isValid()`, `programNumber()` and `pid()`. -/
structure DvbPatSectionEntry where
  isValid : Bool
  programNumber : Nat
  pid : Nat
deriving DecidableEq, Repr

/-- What `processPmt` reads of an entry of the section: the results of
`isValid()`, `streamType()` and `pid()`. -/
structure DvbPmtSectionEntry where
  isValid : Bool
  streamType : Nat
  pid : Nat
deriving DecidableEq, Repr

/-- What `processSdt` and `processNit` read of a descriptor: the results of
`isValid()` and `descriptorTag()`, of `isValid()` of the typed descriptor built
from it (`DvbServiceDescriptor`, `DvbSatelliteDescriptor`), of `serviceName()`
and `providerName()` of the service descriptor and of `isDvbS2()`,
`frequency()`, `polarization()`, `symbolRate()` and `fecRate()` of the
satellite descriptor. -/
structure DvbDescriptor where
  isValid : Bool
  descriptorTag : Nat
  typedIsValid : Bool
  serviceName : String := ""
  providerName : String := ""
  isDvbS2 : Bool := false
  frequency : Nat := 0
  polarization : Nat := 0
  symbolRate : Nat := 0
  fecRate : Nat := 0
deriving DecidableEq, Repr

/-- What `processSdt` reads of an entry of the section. -/
structure DvbSdtSectionEntry where
  isValid : Bool
  serviceId : Nat
  isScrambled : Bool
  descriptors : List DvbDescriptor
deriving DecidableEq, Repr

/-- What `processNit` reads of an entry of the section. -/
structure DvbNitSectionEntry where
  isValid : Bool
  descriptors : List DvbDescriptor
deriving DecidableEq, Repr

/-- What `processPat` reads of a `DvbPatSection`: its entries, in the order the
entry iterator visits them. -/
structure DvbPatSection where
  entries : List DvbPatSectionEntry
deriving DecidableEq, Repr

/-- What `processPmt` reads of a `DvbPmtSection`. -/
structure DvbPmtSection where
  programNumber : Nat
  entries : List DvbPmtSectionEntry
deriving DecidableEq, Repr

/-- What `processSdt` reads of a `DvbSdtSection`. -/
structure DvbSdtSection where
  originalNetworkId : Nat
  transportStreamId : Nat
  entries : List DvbSdtSectionEntry
deriving DecidableEq, Repr

/-- What `processNit` reads of a `DvbNitSection`. -/
structure DvbNitSection where
  entries : List DvbNitSectionEntry
deriving DecidableEq, Repr

/-- Two functions the scan calls whose definitions are in headers that are not
among the sources: `DvbDescriptor::bcdToInt(bcd, multiplier)` and whether
`getDvbSTransponder()` of a transponder is not null. -/
structure SiFunctions where
  bcdToInt : Nat → Int → Int
  getDvbSTransponder : DvbTransponder → Bool

/-- The enumeration `DvbScan::State`. -/
inductive ScanState where
  | ScanPat
  | ScanNit
  | ScanSdt
  | ScanPmt
  | ScanTune
deriving DecidableEq, Repr

/-- The members of `DvbScan`; `transponder` is a shared pointer, `none` when
null; `filters` holds the filter objects the scan has allocated. -/
structure DvbScan where
  source : String
  isLive : Bool
  transponder : Option DvbTransponder
  transponders : List DvbTransponder
  transponderIndex : Int
  state : ScanState
  snr : Int
  patEntries : List DvbPatEntry
  patIndex : Nat
  sdtEntries : List DvbSdtEntry
  channels : List DvbPreviewChannel
  filters : List DvbScanFilter
  activeFilters : Int
deriving DecidableEq, Repr

/-- The constructor of `DvbScan` for a live scan, before `init()`. -/
def DvbScan.live (source : String) (transponder : DvbTransponder) : DvbScan :=
  { source := source, isLive := true, transponder := some transponder, transponders := [],
    transponderIndex := -1, state := .ScanPat, snr := -1, patEntries := [], patIndex := 0,
    sdtEntries := [], channels := [], filters := [], activeFilters := 0 }

/-- The constructor of `DvbScan` for an offline scan, before `init()`. -/
def DvbScan.offline (source : String) (transponders : List DvbTransponder) : DvbScan :=
  { source := source, isLive := false, transponder := none, transponders := transponders,
    transponderIndex := 0, state := .ScanTune, snr := -1, patEntries := [], patIndex := 0,
    sdtEntries := [], channels := [], filters := [], activeFilters := 0 }

/-! ### PAT, PMT and SDT -/

/-- The loop of `DvbScan::processPat` over the entries of the section. -/
def processPatEntries (patEntries : List DvbPatEntry) :
    List DvbPatSectionEntry → List DvbPatEntry
  | [] => patEntries
  | entry :: rest =>
    if entry.isValid = false then patEntries
    else if entry.programNumber ≠ 0x0 then
      processPatEntries (patEntries ++ [⟨entry.programNumber, entry.pid⟩]) rest
    else processPatEntries patEntries rest

/-- The function `DvbScan::processPat`. -/
def DvbScan.processPat (scan : DvbScan) (pat : DvbPatSection) : DvbScan :=
  { scan with patEntries := processPatEntries scan.patEntries pat.entries }

/-- The stream types of the first group of cases in `processPmt` (video). -/
def videoStreamTypes : List Nat := [0x01, 0x02, 0x10, 0x1b]

/-- The stream types of the second group of cases in `processPmt` (audio). -/
def audioStreamTypes : List Nat := [0x03, 0x04, 0x0f, 0x11, 0x81, 0x87]

/-- The loop of `DvbScan::processPmt` over the entries of the section. -/
def processPmtEntries (channel : DvbPreviewChannel) :
    List DvbPmtSectionEntry → DvbPreviewChannel
  | [] => channel
  | entry :: rest =>
    if entry.isValid = false then channel
    else if entry.streamType ∈ videoStreamTypes then
      processPmtEntries { channel with videoPid := entry.pid } rest
    else if entry.streamType ∈ audioStreamTypes then
      processPmtEntries { channel with audioPids := channel.audioPids ++ [(entry.pid : Int)] } rest
    else processPmtEntries channel rest

/-- The text `QString("[%1]").arg(programNumber)`. -/
def programName (programNumber : Nat) : String :=
  "[" ++ toString programNumber ++ "]"

/-- The function `DvbScan::processPmt`. `channel` is the value of the local
variable `DvbPreviewChannel channel;` as its default constructor leaves it; the
constructor is in a header that is not among the sources. -/
def DvbScan.processPmt (scan : DvbScan) (channel : DvbPreviewChannel) (pmt : DvbPmtSection)
    (pid : Int) : DvbScan :=
  let channel1 := processPmtEntries channel pmt.entries
  if channel1.videoPid ≠ -1 ∨ channel1.audioPids ≠ [] then
    { scan with
      channels := scan.channels ++
        [{ channel1 with
            name := programName pmt.programNumber,
            source := scan.source,
            serviceId := pmt.programNumber,
            pmtPid := pid,
            transponder := scan.transponder,
            snr := scan.snr }] }
  else scan

/-- A default-constructed `DvbPreviewChannel` with no video PID (−1, the value
`processPmt` tests for), no audio PID and neutral values elsewhere. -/
def DvbPreviewChannel.init : DvbPreviewChannel :=
  { name := "", source := "", serviceId := -1, networkId := -1, transportStreamId := -1,
    pmtPid := -1, videoPid := -1, audioPids := [], scrambled := false, provider := "",
    transponder := none, snr := -1 }

/-- The descriptor loop of `DvbScan::processSdt` for one entry: the name and
provider of the first valid service descriptor (tag 0x48) among the descriptors
before the first invalid one. -/
def serviceDescriptor : List DvbDescriptor → Option (String × String)
  | [] => none
  | descriptor :: rest =>
    if descriptor.isValid = false then none
    else if descriptor.descriptorTag ≠ 0x48 then serviceDescriptor rest
    else if descriptor.typedIsValid = false then serviceDescriptor rest
    else some (descriptor.serviceName, descriptor.providerName)

/-- The record `processSdt` appends for one entry of the section. -/
def sdtEntryOf (sdt : DvbSdtSection) (entry : DvbSdtSectionEntry) : DvbSdtEntry :=
  match serviceDescriptor entry.descriptors with
  | none =>
    { serviceId := entry.serviceId, networkId := sdt.originalNetworkId,
      transportStreamId := sdt.transportStreamId, scrambled := entry.isScrambled }
  | some (name, provider) =>
    { serviceId := entry.serviceId, networkId := sdt.originalNetworkId,
      transportStreamId := sdt.transportStreamId, scrambled := entry.isScrambled,
      name := name, provider := provider }

/-- The loop of `DvbScan::processSdt` over the entries of the section. -/
def processSdtEntries (sdt : DvbSdtSection) (sdtEntries : List DvbSdtEntry) :
    List DvbSdtSectionEntry → List DvbSdtEntry
  | [] => sdtEntries
  | entry :: rest =>
    if entry.isValid = false then sdtEntries
    else processSdtEntries sdt (sdtEntries ++ [sdtEntryOf sdt entry]) rest

/-- The function `DvbScan::processSdt`. -/
def DvbScan.processSdt (scan : DvbScan) (sdt : DvbSdtSection) : DvbScan :=
  { scan with sdtEntries := processSdtEntries sdt scan.sdtEntries sdt.entries }

/-- The body of the inner loop of the merge in `DvbScan::updateState` for one
channel and one SDT record. -/
def mergeSdtEntry (sdtEntry : DvbSdtEntry) (channel : DvbPreviewChannel) : DvbPreviewChannel :=
  if channel.serviceId = sdtEntry.serviceId then
    { channel with
      networkId := sdtEntry.networkId,
      transportStreamId := sdtEntry.transportStreamId,
      scrambled := sdtEntry.scrambled,
      name := if sdtEntry.name ≠ "" then sdtEntry.name else channel.name,
      provider := sdtEntry.provider }
  else channel

/-- The merge of the SDT records into the channels in `DvbScan::updateState`:
`foreach (sdtEntry, sdtEntries)` around the loop over the channels. -/
def mergeSdtEntries : List DvbSdtEntry → List DvbPreviewChannel → List DvbPreviewChannel
  | [], channels => channels
  | sdtEntry :: rest, channels => mergeSdtEntries rest (channels.map (mergeSdtEntry sdtEntry))

/-- The merge as described for one channel: with no record of its service id
the channel is unchanged; else the ids, the scrambled flag and the provider
come from the last such record and the name from the last such record with a
non-empty name, if any. -/
def mergedChannel (sdtEntries : List DvbSdtEntry) (channel : DvbPreviewChannel) :
    DvbPreviewChannel :=
  let matching := sdtEntries.filter (fun e => decide (e.serviceId = channel.serviceId))
  match matching.getLast? with
  | none => channel
  | some last =>
    { channel with
      networkId := last.networkId,
      transportStreamId := last.transportStreamId,
      scrambled := last.scrambled,
      name :=
        (((matching.filter (fun e => decide (e.name ≠ ""))).getLast?).map
          (fun e => e.name)).getD channel.name,
      provider := last.provider }

/-! ### NIT -/

/-- The first `switch` on `satDescriptor.polarization()` in `processNit`. -/
def satellitePolarization : Nat → Polarization
  | 0 => .Horizontal
  | 1 => .Vertical
  | 2 => .CircularLeft
  | _ => .CircularRight

/-- The `switch` on `satDescriptor.fecRate()` in `processNit`. -/
def satelliteFecRate : Nat → FecRate
  | 1 => .Fec1_2
  | 2 => .Fec2_3
  | 3 => .Fec3_4
  | 4 => .Fec5_6
  | 5 => .Fec7_8
  | 6 => .Fec8_9
  | 8 => .Fec4_5
  | _ => .FecAuto

/-- The `DvbSTransponder` that `processNit` builds from a satellite
descriptor. -/
def satelliteTransponder (si : SiFunctions) (descriptor : DvbDescriptor) : DvbTransponder :=
  { transmissionType := .DvbS, frequency := si.bcdToInt descriptor.frequency 10,
    polarization := satellitePolarization descriptor.polarization, fecRateHigh := .FecAuto,
    guardInterval := .GuardIntervalAuto, modulation := .ModulationAuto,
    transmissionMode := .TransmissionModeAuto, others := 0,
    symbolRate := si.bcdToInt descriptor.symbolRate 100,
    fecRate := satelliteFecRate descriptor.fecRate }

/-- The loop `for (int i = 0;; ++i)` of `processNit`: append `candidate` at the
end unless a satellite transponder of the list has its frequency and
polarization. -/
def appendUnlessKnown (si : SiFunctions) (candidate : DvbTransponder) :
    List DvbTransponder → List DvbTransponder
  | [] => [candidate]
  | it :: rest =>
    if si.getDvbSTransponder it = false then it :: appendUnlessKnown si candidate rest
    else if it.frequency = candidate.frequency ∧ it.polarization = candidate.polarization then
      it :: rest
    else it :: appendUnlessKnown si candidate rest

/-- The descriptor loop of `DvbScan::processNit` for one entry, where `type` is
`transponder->getTransmissionType()`. -/
def processNitDescriptors (si : SiFunctions) (type : TransmissionType)
    (transponders : List DvbTransponder) : List DvbDescriptor → List DvbTransponder
  | [] => transponders
  | descriptor :: rest =>
    if descriptor.isValid = false then transponders
    else
      match type with
      | .DvbC =>
        if descriptor.descriptorTag ≠ 0x44 then processNitDescriptors si type transponders rest
        else transponders
      | .DvbS =>
        if descriptor.descriptorTag ≠ 0x43 then processNitDescriptors si type transponders rest
        else if descriptor.typedIsValid = false then transponders
        else if descriptor.isDvbS2 = true then transponders
        else appendUnlessKnown si (satelliteTransponder si descriptor) transponders
      | .DvbT =>
        if descriptor.descriptorTag ≠ 0x5a then processNitDescriptors si type transponders rest
        else transponders
      | _ => processNitDescriptors si type transponders rest

/-- The loop of `DvbScan::processNit` over the entries of the section. -/
def processNitEntries (si : SiFunctions) (type : TransmissionType)
    (transponders : List DvbTransponder) : List DvbNitSectionEntry → List DvbTransponder
  | [] => transponders
  | entry :: rest =>
    if entry.isValid = false then transponders
    else
      processNitEntries si type (processNitDescriptors si type transponders entry.descriptors)
        rest

/-- The function `DvbScan::processNit`. With a null `transponder` the code
dereferences a null pointer; the embedding leaves the scan unchanged. -/
def DvbScan.processNit (scan : DvbScan) (si : SiFunctions) (nit : DvbNitSection) : DvbScan :=
  match scan.transponder with
  | none => scan
  | some transponder =>
    { scan with
      transponders :=
        processNitEntries si transponder.transmissionType scan.transponders nit.entries }

/-- The descriptor `processNit` acts on in one entry while scanning DVB-S: the
first one with tag 0x43 among the descriptors before the first invalid one. -/
def examinedDescriptor : List DvbDescriptor → Option DvbDescriptor
  | [] => none
  | descriptor :: rest =>
    if descriptor.isValid = false then none
    else if descriptor.descriptorTag ≠ 0x43 then examinedDescriptor rest
    else some descriptor

/-- The descriptors `processNit` acts on while scanning DVB-S, in order: the
examined descriptor of each entry before the first invalid entry. -/
def examinedDescriptors (entries : List DvbNitSectionEntry) : List DvbDescriptor :=
  (entries.takeWhile (fun e => e.isValid)).filterMap (fun e => examinedDescriptor e.descriptors)

/-- A satellite transponder of the list has the frequency and polarization of
the candidate. -/
def knownTransponder (si : SiFunctions) (candidate : DvbTransponder)
    (transponders : List DvbTransponder) : Bool :=
  transponders.any (fun it =>
    si.getDvbSTransponder it && decide (it.frequency = candidate.frequency) &&
      decide (it.polarization = candidate.polarization))

/-- The described effect of one examined descriptor on the list: the
transponder of a valid descriptor that is not DVB-S2 is appended unless it is
known. -/
def nitStep (si : SiFunctions) (transponders : List DvbTransponder)
    (descriptor : DvbDescriptor) : List DvbTransponder :=
  if descriptor.typedIsValid = true ∧ descriptor.isDvbS2 = false ∧
      knownTransponder si (satelliteTransponder si descriptor) transponders = false then
    transponders ++ [satelliteTransponder si descriptor]
  else transponders

/-- The video entries of a PMT section that `processPmt` reads: the entries
before the first invalid one whose stream type is a video type. -/
def pmtVideoEntries (pmt : DvbPmtSection) : List DvbPmtSectionEntry :=
  (pmt.entries.takeWhile (fun e => e.isValid)).filter
    (fun e => decide (e.streamType ∈ videoStreamTypes))

/-- The audio entries of a PMT section that `processPmt` reads. -/
def pmtAudioEntries (pmt : DvbPmtSection) : List DvbPmtSectionEntry :=
  (pmt.entries.takeWhile (fun e => e.isValid)).filter
    (fun e => decide (e.streamType ∈ audioStreamTypes))

/-- A live scan of one DVB-T transponder, with the SNR value 42 sampled. -/
def scanExample : DvbScan :=
  { DvbScan.live "terrestrial" (DvbTransponder.plain .DvbT 506000000) with snr := 42 }

/-- A PAT that lists program 100 on PID 200 and program 0 on PID 16. -/
def patExample : DvbPatSection :=
  { entries := [⟨true, 100, 200⟩, ⟨true, 0, 16⟩] }

/-- A PMT of program 100 with an H264 video stream on PID 301 and an MPEG2
audio stream on PID 302. -/
def pmtExample : DvbPmtSection :=
  { programNumber := 100, entries := [⟨true, 0x1b, 301⟩, ⟨true, 0x04, 302⟩] }

/-- A PMT of program 101 with a private stream only, and an audio stream after
an invalid entry. -/
def pmtExampleNoMedia : DvbPmtSection :=
  { programNumber := 101, entries := [⟨true, 0x06, 401⟩, ⟨false, 0x04, 402⟩, ⟨true, 0x04, 403⟩] }

/-- An SDT that lists service 100 with the name "Channel One". -/
def sdtExample : DvbSdtSection :=
  { originalNetworkId := 8468, transportStreamId := 771,
    entries :=
      [{ isValid := true, serviceId := 100, isScrambled := false,
         descriptors :=
           [{ isValid := true, descriptorTag := 0x48, typedIsValid := true,
              serviceName := "Channel One", providerName := "Provider" }] }] }

/-- The scan example after the PAT, the PMT read on PID 200 and the SDT. -/
def scanExampleRead : DvbScan :=
  (((scanExample.processPat patExample).processPmt DvbPreviewChannel.init pmtExample 200).processSdt
    sdtExample)

/-- Two transponders differ in frequency or in polarization. -/
def distinctTransponders (a b : DvbTransponder) : Prop :=
  ¬ (a.frequency = b.frequency ∧ a.polarization = b.polarization)

instance (a b : DvbTransponder) : Decidable (distinctTransponders a b) := by
  unfold distinctTransponders; infer_instance

/-- Sample definitions of the two functions from the missing headers: the
conversion multiplies the raw value and DVB-S and DVB-S2 transponders count as
satellite transponders. -/
def siExample : SiFunctions :=
  { bcdToInt := fun bcd multiplier => (bcd : Int) * multiplier,
    getDvbSTransponder := fun t =>
      decide (t.transmissionType = .DvbS) || decide (t.transmissionType = .DvbS2) }

/-- A valid satellite descriptor, not DVB-S2, with the given raw frequency and
polarization. -/
def satelliteDescriptor (frequency polarization : Nat) : DvbDescriptor :=
  { isValid := true, descriptorTag := 0x43, typedIsValid := true, frequency := frequency,
    polarization := polarization, symbolRate := 27500, fecRate := 3 }

/-- An offline scan of the DVB-S transponder at 11000 (horizontal), the only
one of its list, which is the current transponder. -/
def satelliteScanExample : DvbScan :=
  { DvbScan.offline "satellite"
      [{ DvbTransponder.plain .DvbS 11000 with polarization := .Horizontal }] with
    transponder := some { DvbTransponder.plain .DvbS 11000 with polarization := .Horizontal },
    transponderIndex := 1 }

/-- A NIT with one entry that carries two satellite descriptors (raw
frequencies 1200 and 1250, both horizontal) and a second entry that repeats the
first descriptor. -/
def nitExample : DvbNitSection :=
  { entries :=
      [{ isValid := true,
         descriptors := [satelliteDescriptor 1200 0, satelliteDescriptor 1250 0] },
       { isValid := true, descriptors := [satelliteDescriptor 1200 0] }] }

/-! ### The filter pool of the scan -/

/-- The function `DvbScanFilter::isActive`. -/
def DvbScanFilter.isActive (f : DvbScanFilter) : Bool :=
  decide (f.pid ≠ -1)

/-- The function `DvbScanFilter::startFilter`, where `accepted` is the answer
of `device->addPidFilter(pid, this)`: the filter afterwards and the result. -/
def DvbScanFilter.startFilter (_f : DvbScanFilter) (pid : Int) (type : FilterType)
    (accepted : Bool) : DvbScanFilter × Bool :=
  if accepted then (DvbScanFilter.started pid type, true)
  else ({ pid := -1, type := type, multipleSections := [] }, false)

/-- The function `DvbScanFilter::stopFilter`. -/
def DvbScanFilter.stopFilter (f : DvbScanFilter) : DvbScanFilter :=
  if f.pid ≠ -1 then { f with pid := -1 } else f

/-- The `foreach` loop of `DvbScan::startFilter`: start the first filter that is
not active. The result is `none` when every filter is active (the code runs
into `Q_ASSERT(false)`), and else the filters afterwards and the result of
`filter->startFilter`. -/
def startFirstInactive (pid : Int) (type : FilterType) (accepted : Bool) :
    List DvbScanFilter → Option (List DvbScanFilter × Bool)
  | [] => none
  | f :: rest =>
    if f.isActive = false then some ((f.startFilter pid type accepted).1 :: rest, accepted)
    else (startFirstInactive pid type accepted rest).map (fun r => (f :: r.1, r.2))

/-- Whether `DvbScan::startFilter` reaches a call of `filter->startFilter`, and
with it the device. -/
def DvbScan.asksDevice (scan : DvbScan) : Bool :=
  if scan.activeFilters ≠ scan.filters.length then scan.filters.any (fun f => !f.isActive)
  else decide (scan.activeFilters < 10)

/-- The function `DvbScan::startFilter`, where `accepted` is the answer of the
device to the filter request: the scan afterwards and the result. -/
def DvbScan.startFilter (scan : DvbScan) (pid : Int) (type : FilterType) (accepted : Bool) :
    DvbScan × Bool :=
  if scan.activeFilters ≠ scan.filters.length then
    match startFirstInactive pid type accepted scan.filters with
    | some (filters, true) =>
      ({ scan with filters := filters, activeFilters := scan.activeFilters + 1 }, true)
    | some (filters, false) => ({ scan with filters := filters }, false)
    | none => (scan, false)
  else if scan.activeFilters < 10 then
    if (DvbScanFilter.startFilter ⟨-1, type, []⟩ pid type accepted).2 = true then
      ({ scan with
          filters := scan.filters ++
            [(DvbScanFilter.startFilter ⟨-1, type, []⟩ pid type accepted).1],
          activeFilters := scan.activeFilters + 1 }, true)
    else (scan, false)
  else (scan, false)

/-- The first two statements of `DvbScan::filterFinished` for the filter at
index `i` of the pool: `filter->stopFilter(); --activeFilters;`. -/
def DvbScan.stopFilter (scan : DvbScan) (i : Nat) : DvbScan :=
  match scan.filters[i]? with
  | none => scan
  | some f =>
    { scan with
      filters := scan.filters.set i f.stopFilter,
      activeFilters := scan.activeFilters - 1 }

/-- A call on the filter pool of the scan. The PID of `startFilter` is 0x0,
0x10, 0x11 or the 13-bit PID of a PAT entry, hence a natural number.
`filterFinished` is called by a filter from `processSection` or `timerEvent`,
which run for a started filter. -/
inductive PoolOp where
  | startFilter (pid : Nat) (type : FilterType) (accepted : Bool)
  | filterFinished (i : Nat)
deriving DecidableEq, Repr

/-- Run one call on the pool; `filterFinished` of a filter that is not active
is not a call the code makes and is skipped. -/
def DvbScan.poolStep (scan : DvbScan) : PoolOp → DvbScan
  | .startFilter pid type accepted => (scan.startFilter pid type accepted).1
  | .filterFinished i =>
    match scan.filters[i]? with
    | none => scan
    | some f => if f.isActive then scan.stopFilter i else scan

/-- Run a sequence of calls on the pool. -/
def DvbScan.poolRun (scan : DvbScan) : List PoolOp → DvbScan
  | [] => scan
  | op :: ops => DvbScan.poolRun (scan.poolStep op) ops

/-- The number of active filters of the pool. -/
def DvbScan.activeInstances (scan : DvbScan) : Nat :=
  scan.filters.countP (fun f => f.isActive)

/-- The pool holds at most 10 filters and the counter `activeFilters` is the
number of active ones. -/
def DvbScan.PoolInvariant (scan : DvbScan) : Prop :=
  scan.filters.length ≤ 10 ∧ scan.activeFilters = (scan.activeInstances : Int)

instance (scan : DvbScan) : Decidable scan.PoolInvariant := by
  unfold DvbScan.PoolInvariant; infer_instance

/-- Eleven filter requests that the device accepts, the end of the filter at
index 3, and two further requests. -/
def poolExample : List PoolOp :=
  (List.range 11).map (fun k => PoolOp.startFilter (0x100 + k) .PmtFilter true) ++
    [.filterFinished 3, .startFilter 0x11 .SdtFilter true, .startFilter 0x10 .NitFilter true]

/-! ### The scan and its device

`DvbScan::updateState` calls the device and is called back by it: the signal
`stateChanged()` is connected to `deviceStateChanged()`, which runs inside the
call that changes the state. The world below is the scan, the state of the
device as `getDeviceState()` reports it, and the trace of what the scan asks of
the device and signals to its owner. -/

/-- How the device settles a tune request: the backend rejects it (the device
is back in `DeviceIdle` before the request returns), or accepts it and the
tuning times out later, or accepts it and the device gets tuned later. -/
inductive TuneOutcome where
  | rejected
  | timesOut
  | tuned
deriving DecidableEq, Repr

/-- What the scan asks of the device and what it signals, in order. -/
inductive ScanEvent where
  | tuneDevice (transponder : DvbTransponder)
  | stopDevice
  | addPidFilter (pid : Int) (accepted : Bool)
  | removePidFilter (pid : Int)
  | foundChannels (channels : List DvbPreviewChannel)
  | scanFinished
deriving DecidableEq, Repr

/-- The surroundings of a scan: the functions of the missing headers and the
answers of the device, each looked up by the number of events before the
request: how a tune request is settled, whether a filter request for a PID is
accepted, and the SNR. -/
structure ScanEnvironment where
  si : SiFunctions
  tune : Nat → TuneOutcome
  addPidFilter : Nat → Int → Bool
  getSnr : Nat → Int

/-- The scan, the device state, how the tune request in progress will be
settled, the trace, whether a run of `updateState` ran out of fuel, and whether
the program has dereferenced a null pointer. The program ends at a null
dereference: once `crashed` is set the other fields mean nothing any more. -/
structure ScanWorld where
  scan : DvbScan
  deviceState : DeviceState
  pendingTune : Option TuneOutcome
  trace : List ScanEvent
  outOfFuel : Bool
  crashed : Bool
deriving DecidableEq, Repr

/-- Record a request or signal. -/
def ScanWorld.emit (w : ScanWorld) (e : ScanEvent) : ScanWorld :=
  { w with trace := w.trace ++ [e] }

/-- A call of `DvbScan::startFilter` in the world: the device is asked when a
filter object is started. -/
def ScanWorld.startFilter (env : ScanEnvironment) (w : ScanWorld) (pid : Int)
    (type : FilterType) : ScanWorld × Bool :=
  if w.scan.asksDevice then
    ({ w with
        scan := (w.scan.startFilter pid type (env.addPidFilter w.trace.length pid)).1,
        trace := w.trace ++ [.addPidFilter pid (env.addPidFilter w.trace.length pid)] },
      (w.scan.startFilter pid type (env.addPidFilter w.trace.length pid)).2)
  else ({ w with scan := (w.scan.startFilter pid type false).1 }, false)

/-- The slot `DvbScan::deviceStateChanged`; `update` is `updateState`. -/
def ScanWorld.deviceStateChanged (update : ScanWorld → ScanWorld) (w : ScanWorld) :
    ScanWorld :=
  if w.deviceState = .DeviceNotReady then w.emit .scanFinished
  else if w.scan.state = .ScanTune then update w
  else w

/-- The device enters a state and, if that is a change, announces it
(`DvbDevice::setDeviceState`); the slot of the scan runs at once. -/
def ScanWorld.setDeviceState (update : ScanWorld → ScanWorld) (w : ScanWorld)
    (newState : DeviceState) : ScanWorld :=
  if w.deviceState ≠ newState then
    ScanWorld.deviceStateChanged update { w with deviceState := newState }
  else w

/-- Modelled from the spec: the call `device->tuneDevice(transponder)`, which
is not among the sources. As `DvbDevice::tune` does for a transponder without
rotor, the device enters `DeviceTuning` and asks the backend; on rejection it
enters `DeviceIdle` before the call returns, else the request stays in
progress until the poll settles it. -/
def ScanWorld.tuneDevice (env : ScanEnvironment) (update : ScanWorld → ScanWorld)
    (w : ScanWorld) (transponder : DvbTransponder) : ScanWorld :=
  let w1 :=
    ScanWorld.setDeviceState update { (w.emit (.tuneDevice transponder)) with pendingTune := none }
      .DeviceTuning
  match env.tune w.trace.length with
  | .rejected => ScanWorld.setDeviceState update w1 .DeviceIdle
  | .timesOut => { w1 with pendingTune := some .timesOut }
  | .tuned => { w1 with pendingTune := some .tuned }

/-- Modelled from the spec: the call `device->stopDevice()`, which is not among
the sources. The device gives up the transponder and enters `DeviceIdle`, the
state in which the tune phase that follows picks the next transponder. -/
def ScanWorld.stopDevice (update : ScanWorld → ScanWorld) (w : ScanWorld) : ScanWorld :=
  ScanWorld.setDeviceState update { (w.emit .stopDevice) with pendingTune := none } .DeviceIdle

/-- The case `ScanTune` of `DvbScan::updateState`; `update` stands for the next
round of the loop `while (true)`. -/
def ScanWorld.tunePhase (env : ScanEnvironment) (update : ScanWorld → ScanWorld)
    (w : ScanWorld) : ScanWorld :=
  match w.deviceState with
  | .DeviceIdle =>
    if w.scan.transponderIndex ≥ w.scan.transponders.length then w.emit .scanFinished
    else
      match w.scan.transponders[w.scan.transponderIndex.toNat]? with
      | none => w
      | some transponder =>
        update
          (ScanWorld.tuneDevice env update
            { w with
              scan := { w.scan with
                transponder := some transponder,
                transponderIndex := w.scan.transponderIndex + 1 } }
            transponder)
  | .DeviceTuned => update { w with scan := { w.scan with state := .ScanPat } }
  | _ => w

/-- The loop `while (patIndex < patEntries.size())` of the case `ScanPmt`, at
most `rounds` rounds: the world afterwards and whether the loop ran to its end
(false: a call of `startFilter` failed and `updateState` returns). -/
def ScanWorld.startPmtFilters (env : ScanEnvironment) : Nat → ScanWorld → ScanWorld × Bool
  | 0, w => (w, true)
  | rounds + 1, w =>
    match w.scan.patEntries[w.scan.patIndex]? with
    | none => (w, true)
    | some entry =>
      if (w.startFilter env entry.pid .PmtFilter).2 = false then
        ((w.startFilter env entry.pid .PmtFilter).1, false)
      else
        ScanWorld.startPmtFilters env rounds
          { (w.startFilter env entry.pid .PmtFilter).1 with
            scan := { (w.startFilter env entry.pid .PmtFilter).1.scan with
              patIndex := (w.startFilter env entry.pid .PmtFilter).1.scan.patIndex + 1 } }

/-- The merge of the SDT records into the channels and the signal
`foundChannels` in the case `ScanPmt`. -/
def ScanWorld.reportChannels (w : ScanWorld) : ScanWorld :=
  if mergeSdtEntries w.scan.sdtEntries w.scan.channels ≠ [] then
    ScanWorld.emit
      { w with scan := { w.scan with
          channels := mergeSdtEntries w.scan.sdtEntries w.scan.channels } }
      (.foundChannels (mergeSdtEntries w.scan.sdtEntries w.scan.channels))
  else
    { w with scan := { w.scan with
        channels := mergeSdtEntries w.scan.sdtEntries w.scan.channels } }

/-- The end of the case `ScanPmt` for an offline scan: clear the tables, stop
the device and set the state to `ScanTune`. -/
def ScanWorld.leaveTransponder (update : ScanWorld → ScanWorld) (w : ScanWorld) : ScanWorld :=
  { (ScanWorld.stopDevice update
      { w with scan := { w.scan with
          patEntries := [], patIndex := 0, sdtEntries := [], channels := [] } }) with
    scan := { (ScanWorld.stopDevice update
      { w with scan := { w.scan with
          patEntries := [], patIndex := 0, sdtEntries := [], channels := [] } }).scan with
      state := .ScanTune } }

/-- The case `ScanPmt` of `updateState` and the fall through into the case
`ScanTune`. -/
def ScanWorld.pmtPhase (env : ScanEnvironment) (update : ScanWorld → ScanWorld)
    (w : ScanWorld) : ScanWorld :=
  let r := ScanWorld.startPmtFilters env (w.scan.patEntries.length - w.scan.patIndex) w
  if r.2 = false then r.1
  else if r.1.scan.activeFilters ≠ 0 then r.1
  else if r.1.reportChannels.scan.isLive then r.1.reportChannels.emit .scanFinished
  else ScanWorld.tunePhase env update (ScanWorld.leaveTransponder update r.1.reportChannels)

/-- The case `ScanSdt` of `updateState` and the fall through. -/
def ScanWorld.sdtPhase (env : ScanEnvironment) (update : ScanWorld → ScanWorld)
    (w : ScanWorld) : ScanWorld :=
  if (w.startFilter env 0x11 .SdtFilter).2 = false then (w.startFilter env 0x11 .SdtFilter).1
  else
    ScanWorld.pmtPhase env update
      { (w.startFilter env 0x11 .SdtFilter).1 with
        scan := { (w.startFilter env 0x11 .SdtFilter).1.scan with state := .ScanPmt } }

/-- Whether the case `ScanNit` starts a NIT filter. A live scan starts none and
does not look at the transponder. An offline scan evaluates
`transponder->getTransmissionType()`: with a null `transponder` that is a null
dereference (`none`); else the filter is started when the type is DVB-C, DVB-S
or DVB-T. -/
def DvbScan.readsNit (scan : DvbScan) : Option Bool :=
  if scan.isLive then some false
  else
    match scan.transponder with
    | none => none
    | some transponder =>
      some (decide (transponder.transmissionType = .DvbC) ||
        decide (transponder.transmissionType = .DvbS) ||
        decide (transponder.transmissionType = .DvbT))

/-- The case `ScanNit` of `updateState` and the fall through. -/
def ScanWorld.nitPhase (env : ScanEnvironment) (update : ScanWorld → ScanWorld)
    (w : ScanWorld) : ScanWorld :=
  match w.scan.readsNit with
  | none => { w with crashed := true }
  | some true =>
    if (w.startFilter env 0x10 .NitFilter).2 = false then (w.startFilter env 0x10 .NitFilter).1
    else
      ScanWorld.sdtPhase env update
        { (w.startFilter env 0x10 .NitFilter).1 with
          scan := { (w.startFilter env 0x10 .NitFilter).1.scan with state := .ScanSdt } }
  | some false =>
    ScanWorld.sdtPhase env update { w with scan := { w.scan with state := .ScanSdt } }

/-- The case `ScanPat` of `updateState` and the fall through. -/
def ScanWorld.patPhase (env : ScanEnvironment) (update : ScanWorld → ScanWorld)
    (w : ScanWorld) : ScanWorld :=
  if (w.startFilter env 0x0 .PatFilter).2 = false then (w.startFilter env 0x0 .PatFilter).1
  else
    ScanWorld.nitPhase env update
      { (w.startFilter env 0x0 .PatFilter).1 with
        scan := { (w.startFilter env 0x0 .PatFilter).1.scan with
          snr := env.getSnr (w.startFilter env 0x0 .PatFilter).1.trace.length,
          state := .ScanNit } }

/-- The function `DvbScan::updateState`. A unit of fuel is used by each round of
the loop `while (true)` and by each call from `deviceStateChanged`; without
fuel the run is cut and marked. -/
def ScanWorld.updateState (env : ScanEnvironment) : Nat → ScanWorld → ScanWorld
  | 0, w => { w with outOfFuel := true }
  | fuel + 1, w =>
    match w.scan.state with
    | .ScanPat => ScanWorld.patPhase env (ScanWorld.updateState env fuel) w
    | .ScanNit => ScanWorld.nitPhase env (ScanWorld.updateState env fuel) w
    | .ScanSdt => ScanWorld.sdtPhase env (ScanWorld.updateState env fuel) w
    | .ScanPmt => ScanWorld.pmtPhase env (ScanWorld.updateState env fuel) w
    | .ScanTune => ScanWorld.tunePhase env (ScanWorld.updateState env fuel) w

/-- Fuel for `updateState`: every round of the loop but the last two picks a
transponder of the list. -/
def ScanWorld.fuel (w : ScanWorld) : Nat :=
  w.scan.transponders.length + 3

/-- The function `DvbScan::filterFinished` for the filter at index `i`. -/
def ScanWorld.filterFinished (env : ScanEnvironment) (w : ScanWorld) (i : Nat) : ScanWorld :=
  match w.scan.filters[i]? with
  | none => w
  | some f =>
    ScanWorld.updateState env w.fuel
      { (if f.isActive then w.emit (.removePidFilter f.pid) else w) with
        scan := w.scan.stopFilter i }

/-- The four readings of the section a filter is given: the typed section
classes of dvbsi.h are built from the same bytes. -/
structure SectionContents where
  pat : DvbPatSection
  pmt : DvbPmtSection
  sdt : DvbSdtSection
  nit : DvbNitSection
deriving DecidableEq, Repr

/-- Run a call that `DvbScanFilter::processSection` makes on the scan. -/
def ScanWorld.scanCall (env : ScanEnvironment) (w : ScanWorld) (i : Nat)
    (contents : SectionContents) : ScanCall → ScanWorld
  | .processPat => { w with scan := w.scan.processPat contents.pat }
  | .processPmt pid =>
    { w with scan := w.scan.processPmt DvbPreviewChannel.init contents.pmt pid }
  | .processSdt => { w with scan := w.scan.processSdt contents.sdt }
  | .processNit => { w with scan := w.scan.processNit env.si contents.nit }
  | .filterFinished => w.filterFinished env i

/-- Run the calls of one `processSection`, in order. -/
def ScanWorld.scanCalls (env : ScanEnvironment) (w : ScanWorld) (i : Nat)
    (contents : SectionContents) : List ScanCall → ScanWorld
  | [] => w
  | call :: rest => ScanWorld.scanCalls env (w.scanCall env i contents call) i contents rest

/-- What happens to a scan from outside: the poll of the device settles the
tune request in progress, a section reaches the filter at index `i`, or the
timer of the filter at index `i` fires. -/
inductive ScanInput where
  | tuneSettled
  | sectionArrived (i : Nat) (sec : ScanSection) (contents : SectionContents)
  | timeout (i : Nat)
deriving DecidableEq, Repr

/-- Line 141 of `DvbScanFilter::processSection`: for an invalid section the
debug output evaluates `scan->transponder->getDvbSTransponder()->frequency`,
a null dereference when the scan has no transponder or the transponder has no
DVB-S part. -/
def invalidSectionCrash (si : SiFunctions) (transponder : Option DvbTransponder)
    (sec : ScanSection) : Bool :=
  !sec.isValid &&
    (match transponder with
     | none => true
     | some t => !si.getDvbSTransponder t)

/-- React to an input. A filter that is not started gets no section and has no
timer. A started filter runs `processSection`: the null dereference of its
invalid-section branch ends the program, else the filter is updated and its
calls on the scan are run. -/
def ScanWorld.input (env : ScanEnvironment) (w : ScanWorld) : ScanInput → ScanWorld
  | .tuneSettled =>
    if w.deviceState = .DeviceTuning then
      match w.pendingTune with
      | some .tuned =>
        ScanWorld.setDeviceState (ScanWorld.updateState env w.fuel)
          { w with pendingTune := none } .DeviceTuned
      | some .timesOut =>
        ScanWorld.setDeviceState (ScanWorld.updateState env w.fuel)
          { w with pendingTune := none } .DeviceIdle
      | _ => w
    else w
  | .sectionArrived i sec contents =>
    match w.scan.filters[i]? with
    | none => w
    | some f =>
      if f.isActive then
        if invalidSectionCrash env.si w.scan.transponder sec then { w with crashed := true }
        else
          ScanWorld.scanCalls env
            { w with
              scan := { w.scan with filters := w.scan.filters.set i (f.processSection sec).1 } }
            i contents (f.processSection sec).2
      else w
  | .timeout i =>
    match w.scan.filters[i]? with
    | none => w
    | some f => if f.isActive then w.filterFinished env i else w

/-- The section of the input, if any, is valid (`isValid()` of the generic
section). -/
def ScanInput.sectionValid : ScanInput → Bool
  | .sectionArrived _ sec _ => sec.isValid
  | _ => true

/-- React to a sequence of inputs; nothing happens any more after a null
dereference. -/
def ScanWorld.run (env : ScanEnvironment) (w : ScanWorld) : List ScanInput → ScanWorld
  | [] => w
  | i :: rest => if w.crashed then w else ScanWorld.run env (w.input env i) rest

/-- The end of the constructors of `DvbScan`: `init()` connects the signal and
calls `updateState()`. -/
def ScanWorld.start (env : ScanEnvironment) (scan : DvbScan) (deviceState : DeviceState) :
    ScanWorld :=
  ScanWorld.updateState env (scan.transponders.length + 3)
    { scan := scan, deviceState := deviceState, pendingTune := none, trace := [],
      outOfFuel := false, crashed := false }

/-- The tune requests and completion signals of a trace, in order. -/
def significant (trace : List ScanEvent) : List ScanEvent :=
  trace.filter (fun e =>
    match e with
    | .tuneDevice _ => true
    | .scanFinished => true
    | _ => false)

/-- Nothing is in progress: no tune request is waiting to be settled and no
filter is started. -/
def ScanWorld.quiescent (w : ScanWorld) : Prop :=
  w.deviceState ≠ .DeviceTuning ∧ w.scan.activeFilters = 0

instance (w : ScanWorld) : Decidable w.quiescent := by
  unfold ScanWorld.quiescent; infer_instance

/-- A device that accepts every filter request and reports the SNR 42; tune
requests are settled by `tune`. -/
def scanEnvironment (tune : Nat → TuneOutcome) : ScanEnvironment :=
  { si := siExample, tune := tune, addPidFilter := fun _ _ => true, getSnr := fun _ => 42 }

/-- A device that rejects every filter request. -/
def scanEnvironmentNoFilter (tune : Nat → TuneOutcome) : ScanEnvironment :=
  { si := siExample, tune := tune, addPidFilter := fun _ _ => false, getSnr := fun _ => 42 }

/-- Two DVB-T transponders. -/
def terrestrialExample : List DvbTransponder :=
  [DvbTransponder.plain .DvbT 506000000, DvbTransponder.plain .DvbT 514000000]

/-- What the course of an offline scan depends on, apart from the filter pool
and the tables read: the device state, the tune request in progress, the fuel
mark, the transponder list and position, the phase, and the tune requests and
completion signals so far. -/
structure ScanCore where
  deviceState : DeviceState
  pendingTune : Option TuneOutcome
  outOfFuel : Bool
  crashed : Bool
  isLive : Bool
  transponders : List DvbTransponder
  transponderIndex : Int
  transponder : Option DvbTransponder
  state : ScanState
  events : List ScanEvent

/-- The core of a world. -/
def ScanWorld.core (w : ScanWorld) : ScanCore :=
  { deviceState := w.deviceState, pendingTune := w.pendingTune, outOfFuel := w.outOfFuel,
    crashed := w.crashed, isLive := w.scan.isLive, transponders := w.scan.transponders,
    transponderIndex := w.scan.transponderIndex, transponder := w.scan.transponder,
    state := w.scan.state, events := significant w.trace }

/-- The tune requests for the first `count` transponders of the list. -/
def tuneRequests (transponders : List DvbTransponder) (count : Int) : List ScanEvent :=
  (transponders.take count.toNat).map ScanEvent.tuneDevice

/-- An offline scan of the terrestrial list `transponders` on its way: the list
is unchanged, the position is inside it, no run was cut and no null pointer
dereferenced, the filter pool is consistent, the PIDs of the PAT entries are
not negative and the current transponder, if any, is terrestrial. -/
def ScanWorld.Sound (transponders : List DvbTransponder) (w : ScanWorld) : Prop :=
  w.scan.transponders = transponders ∧ w.scan.isLive = false ∧
    (w.outOfFuel = false ∧ w.crashed = false) ∧
    0 ≤ w.scan.transponderIndex ∧ w.scan.transponderIndex ≤ transponders.length ∧
    w.scan.PoolInvariant ∧ (∀ e ∈ w.scan.patEntries, 0 ≤ e.pid) ∧
    (∀ t, w.scan.transponder = some t → t.transmissionType = .DvbT)

/-- The scan is about to pick the next transponder: tune phase, idle device,
no filter started, and the transponders before the position have been
requested, in order. -/
def ScanWorld.Ready (transponders : List DvbTransponder) (w : ScanWorld) : Prop :=
  w.Sound transponders ∧ w.scan.state = .ScanTune ∧ w.deviceState = .DeviceIdle ∧
    w.scan.activeFilters = 0 ∧
    significant w.trace = tuneRequests transponders w.scan.transponderIndex

/-- The scan waits for the device to settle a tune request for its current
transponder. -/
def ScanWorld.Tuning (transponders : List DvbTransponder) (w : ScanWorld) : Prop :=
  w.Sound transponders ∧ w.scan.state = .ScanTune ∧ w.deviceState = .DeviceTuning ∧
    (w.pendingTune = some .tuned ∨ w.pendingTune = some .timesOut) ∧
    w.scan.activeFilters = 0 ∧
    significant w.trace = tuneRequests transponders w.scan.transponderIndex ∧
    w.scan.transponder ≠ none

/-- The scan reads the tables of a transponder: at least one filter is
started. -/
def ScanWorld.Reading (transponders : List DvbTransponder) (w : ScanWorld) : Prop :=
  w.Sound transponders ∧ w.scan.state = .ScanPmt ∧ w.deviceState = .DeviceTuned ∧
    0 < w.scan.activeFilters ∧
    significant w.trace = tuneRequests transponders w.scan.transponderIndex

/-- The scan is over: every transponder of the list has been requested, once
and in order, and after that `scanFinished` was signalled, at least once, and
no further request was made. -/
def ScanWorld.Finished (transponders : List DvbTransponder) (w : ScanWorld) : Prop :=
  w.Sound transponders ∧ w.scan.state = .ScanTune ∧ w.deviceState = .DeviceIdle ∧
    w.scan.transponderIndex = transponders.length ∧ w.scan.activeFilters = 0 ∧
    ∃ k : Nat,
      significant w.trace =
        transponders.map ScanEvent.tuneDevice ++ List.replicate (k + 1) ScanEvent.scanFinished

/-- The states of an offline scan of a terrestrial list on a device that
accepts every filter request. -/
def ScanWorld.Progress (transponders : List DvbTransponder) (w : ScanWorld) : Prop :=
  w.Tuning transponders ∨ w.Reading transponders ∨ w.Finished transponders

/-- The world right after the scan has picked `transponder` as the next one and
requested it, with the device in state `deviceState` and the request settled as
`pendingTune` says. -/
def ScanWorld.requested (w : ScanWorld) (transponder : DvbTransponder)
    (pendingTune : Option TuneOutcome) (deviceState : DeviceState) : ScanWorld :=
  { scan := { w.scan with
      transponder := some transponder,
      transponderIndex := w.scan.transponderIndex + 1 },
    deviceState := deviceState, pendingTune := pendingTune,
    trace := w.trace ++ [.tuneDevice transponder], outOfFuel := w.outOfFuel,
    crashed := w.crashed }

/-- A device that accepts every filter request, gets tuned on the first tune
request and rejects the later ones. -/
def scanEnvironmentSecondFails : ScanEnvironment :=
  scanEnvironment (fun n => if n = 0 then .tuned else .rejected)

/-- The offline scan of the two terrestrial transponders on the device whose
second tune fails outright, after the first tune is settled and the three
filters (PAT, NIT, SDT) have timed out. -/
def scanExampleRun : ScanWorld :=
  (ScanWorld.start scanEnvironmentSecondFails (DvbScan.offline "terrestrial" terrestrialExample)
    .DeviceIdle).run scanEnvironmentSecondFails
    [.tuneSettled, .timeout 0, .timeout 1, .timeout 2]

/-- The offline scan of the two terrestrial transponders on a device that gets
tuned but rejects every filter request, after the first tune is settled. -/
def scanExampleStalled : ScanWorld :=
  (ScanWorld.start (scanEnvironmentNoFilter (fun _ => .tuned))
    (DvbScan.offline "terrestrial" terrestrialExample) .DeviceIdle).input
    (scanEnvironmentNoFilter (fun _ => .tuned)) .tuneSettled

/-- A bound on what an offline scan has left to do: 4 for each transponder not
yet requested, 4 for a tune request that is not settled, 1 for each started
filter and 2 for each PAT entry whose PMT filter is not started yet. -/
def ScanWorld.remainingWork (w : ScanWorld) : Nat :=
  4 * (w.scan.transponders.length - w.scan.transponderIndex.toNat) +
    (if w.deviceState = .DeviceTuning then 4 else 0) +
    w.scan.activeFilters.toNat + 2 * (w.scan.patEntries.length - w.scan.patIndex)

/-- Everything pending comes to its end once: the poll of the device settles
the tune request in progress, and the timer of each of the at most 10 filters
of the pool fires. -/
def settleRound : List ScanInput :=
  .tuneSettled :: (List.range 10).map ScanInput.timeout

/-- The rounds `settleRound`, `n` times. -/
def settleRounds : Nat → List ScanInput
  | 0 => []
  | n + 1 => settleRound ++ settleRounds n

/-- The input has an effect on the world: a tune settlement while the device is
tuning, the timer of a started filter. -/
def ScanWorld.pending (w : ScanWorld) : ScanInput → Prop
  | .tuneSettled => w.deviceState = .DeviceTuning
  | .timeout i => ∃ f, w.scan.filters[i]? = some f ∧ f.isActive = true
  | .sectionArrived _ _ _ => False

/-- The input is the arrival of a section. -/
def ScanInput.isSection : ScanInput → Bool
  | .sectionArrived _ _ _ => true
  | _ => false

/-! ## Reassembly passes: section start positions, declared sizes, payload -/

/-- Whether a byte 0xff sits at one of the positions where an opportunistic
pass over `rest` starts a section: the first position and the position after
every complete section (the last of them is where the pass stops). The walk
takes the steps of the loop of `processSections`; `fuel` bounds their number. -/
def paddedStartLoop : Nat → List Nat → Bool
  | 0, _ => false
  | fuel + 1, rest =>
    if rest.length = 0 then false
    else if rest.getD 0 0 % 256 = 0xff then true
    else if rest.length < 3 then false
    else if sectionEndOffset rest ≤ rest.length then
      paddedStartLoop fuel (rest.drop (sectionEndOffset rest))
    else false

/-- Whether some section start position of the accumulator holds the byte
0xff. Every step of the walk passes at least 3 bytes, so `buffer.length + 1`
steps suffice. -/
def paddedStart (buffer : List Nat) : Bool :=
  paddedStartLoop (buffer.length + 1) buffer

/-- The size a section header declares, in the words of the section format: 3
plus the 12-bit length made of the low four bits of byte 1 and of byte 2. -/
def declaredSize (sec : List Nat) : Nat :=
  3 + ((sec.getD 1 0 % 16) * 256 + sec.getD 2 0 % 256)

/-- The bytes of the sections of a list of dispatches, concatenated in dispatch
order. -/
def dispatchedBytes (dispatches : List SectionDispatch) : List Nat :=
  (dispatches.map SectionDispatch.bytes).flatten

/-- The continuity check of `processData` (the block `if (bufferValid)` and
the assignment of `continuityCounter`): nothing when the packet is dropped as a
duplicate, else the state with which the packet is processed. -/
def DvbSectionFilterInternal.checkContinuity (s : DvbSectionFilterInternal)
    (continuity : Nat) : Option DvbSectionFilterInternal :=
  if s.bufferValid = true ∧ continuity = s.continuityCounter then none
  else
    some { s with
      continuityCounter := continuity,
      bufferValid :=
        if s.bufferValid = true ∧ continuity ≠ ((s.continuityCounter + 1) &&& 0x0f) then false
        else s.bufferValid }

/-- The end of `processData`, from `if (sectionStart)` on, as a function of the
payload bytes alone: `payload` holds exactly the `payloadLength` bytes the
pointer `payload` designates. -/
def DvbSectionFilterInternal.processPayload (s : DvbSectionFilterInternal)
    (sectionStart : Bool) (payload : List Nat) :
    DvbSectionFilterInternal × List SectionDispatch :=
  if sectionStart then
    let pointer := payload.getD 0 0 % 256
    let pointer := if pointer ≥ payload.length then payload.length - 1 else pointer
    let tail := payload.drop (pointer + 1)
    if s.bufferValid then
      let forced := processSections true (s.buffer ++ (payload.drop 1).take pointer)
      let r := processSections false (forced.2 ++ tail)
      ({ s with buffer := r.2 }, forced.1 ++ r.1)
    else
      let r := processSections false (s.buffer ++ tail)
      ({ s with buffer := r.2, bufferValid := true }, r.1)
  else
    let r := processSections false (s.buffer ++ payload)
    ({ s with buffer := r.2 }, r.1)

/-- The payload of a packet with adaptation field, in the words of the packet
format: the 183 - L bytes that start at offset 5 + L, where L is the adaptation
field length byte. -/
def adaptationPayload (data : List Nat) : List Nat :=
  (data.drop (5 + data.getD 4 0 % 256)).take (183 - data.getD 4 0 % 256)

/-! ## Tuning: satellite equipment, polling, candidate combinations -/

/-- Whether a transponder takes the satellite branch of `tune` (DVB-S or
DVB-S2). -/
def DvbTransponder.isSatellite (t : DvbTransponder) : Bool :=
  decide (t.transmissionType = .DvbS) || decide (t.transmissionType = .DvbS2)

/-- Horizontal or circular-left polarization. -/
def DvbTransponder.horizontal (t : DvbTransponder) : Bool :=
  decide (t.polarization = .Horizontal) || decide (t.polarization = .CircularLeft)

/-- The high band holds when the switch frequency is non-zero and the
frequency of the transponder is not below it. -/
def DvbConfigBase.highBand (config : DvbConfigBase) (t : DvbTransponder) : Bool :=
  decide (config.switchFrequency ≠ 0 ∧ ¬ t.frequency < config.switchFrequency)

/-- The local oscillator frequency subtracted from the frequency of the
transponder: the high-band frequency when the high band holds, or when the
switch frequency is zero, the high-band frequency is non-zero and the
polarization is vertical or circular-right; the low-band frequency otherwise. -/
def DvbConfigBase.localOscillator (config : DvbConfigBase) (t : DvbTransponder) : Int :=
  if config.highBand t = true ∨
      (config.switchFrequency = 0 ∧ config.highBandFrequency ≠ 0 ∧
        (t.polarization = .Vertical ∨ t.polarization = .CircularRight)) then
    config.highBandFrequency
  else config.lowBandFrequency

/-- The transponder handed to the backend by the satellite branch of `tune`:
the frequency is the distance to the local oscillator frequency as the `int`
computation `abs(frequency - ...)` yields it, every other parameter is as
given. -/
def DvbConfigBase.intermediate (config : DvbConfigBase) (t : DvbTransponder) : DvbTransponder :=
  { t with frequency := absDifference t.frequency (config.localOscillator t) }

/-- A DVB-S transponder at the greatest `int` frequency and a configuration
with a single local oscillator at -1. -/
def overflowExample : DvbDevice × DvbTransponder :=
  (DvbDevice.init
      { timeout := 1500, configuration := .NoDiseqc, lnbNumber := 0,
        lowBandFrequency := -1, switchFrequency := 0, highBandFrequency := 0,
        usalsValue := 0 },
    DvbTransponder.plain .DvbS 2147483647)

/-- The last byte of the message to a DiSEqC switch, by its bit fields: 0xf0
plus four times the LNB number plus 2 for horizontal or circular-left
polarization plus 1 for the high band. -/
def diseqcByte (n : Nat) (h b : Bool) : Nat :=
  0xf0 + 4 * n + 2 * (if h then 1 else 0) + (if b then 1 else 0)

/-- Whether `tune` sends a rotor command: a satellite transponder with one of
the two rotor configurations. -/
def DvbConfigBase.movesRotor (config : DvbConfigBase) (t : DvbTransponder) : Bool :=
  t.isSatellite &&
    (decide (config.configuration = .UsalsRotor) ||
      decide (config.configuration = .PositionsRotor))

/-- The timeout budget `tune` arms the polling with: 15000 ms when a rotor
command was sent, the configured timeout otherwise. -/
def DvbConfigBase.tuneTimeout (config : DvbConfigBase) (t : DvbTransponder) : Int :=
  if config.movesRotor t then 15000 else config.timeout

/-- The transponders of the tune commands in a trace of backend commands, in
order. -/
def tunedTransponders (calls : List BackendCall) : List DvbTransponder :=
  calls.filterMap (fun c => match c with | .tune t => some t | _ => none)

/-- The candidate values of the forward-error-correction rate, in the order of
the cycle. -/
def fecCandidates : List FecRate := [.Fec2_3, .Fec3_4, .Fec1_2, .Fec5_6, .Fec7_8]

/-- The candidate values of the guard interval, in the order of the cycle. -/
def guardIntervalCandidates : List GuardInterval :=
  [.GuardInterval1_8, .GuardInterval1_32, .GuardInterval1_4, .GuardInterval1_16]

/-- The candidate values of the modulation, in the order of the cycle. -/
def modulationCandidates : List Modulation := [.Qam64, .Qam16, .Qpsk]

/-- The candidate values of the transmission mode, in the order of the
cycle. -/
def transmissionModeCandidates : List TransmissionMode :=
  [.TransmissionMode8k, .TransmissionMode2k]

/-- The values a parameter takes during auto-tune: its candidates if the
hardware does not support its automatic mode, else only the value given. -/
def candidateValues {α : Type} (supported : Bool) (candidates : List α) (given : α) : List α :=
  if supported = false then candidates else [given]

/-- Every combination of candidate values of the unsupported parameters of
the transponder `t`, each once, in the order of an odometer whose fastest
digit is the forward-error-correction rate, followed by the guard interval, the
modulation and the transmission mode. -/
def autoTuneCombinations (caps : Capabilities) (t : DvbTransponder) : List DvbTransponder :=
  (candidateValues caps.dvbTTransmissionModeAuto transmissionModeCandidates
      t.transmissionMode).flatMap fun tm =>
    (candidateValues caps.dvbTModulationAuto modulationCandidates t.modulation).flatMap fun m =>
      (candidateValues caps.dvbTGuardIntervalAuto guardIntervalCandidates
          t.guardInterval).flatMap fun g =>
        (candidateValues caps.dvbTFecAuto fecCandidates t.fecRateHigh).map fun f =>
          { t with fecRateHigh := f, guardInterval := g, modulation := m, transmissionMode := tm }

/-- The number of 100 ms polls a timeout budget of `x` ms lasts, `x / 100`
rounded up. -/
def ceilHundredths (x : Int) : Nat := ((x + 99) / 100).toNat

/-- A device with a stored-position rotor and a configured timeout of 100 ms,
after an accepted tune of a DVB-S transponder. -/
def rotorTuneExample : DvbDevice :=
  (DvbDevice.init { DvbConfigBase.plain 100 with configuration := .PositionsRotor }).tune
    (DvbTransponder.plain .DvbS 11836000) (BackendAnswers.accepting ⟨true, true, true, true⟩)

/-- The state of the tune trace during auto-tune of the transponder `t`: the
auto transponder is one of the combinations of candidate values, and the
transponders tuned since `base` are the combinations up to and including it. -/
def AutoCycle (dev : DvbDevice) (caps : Capabilities) (t : DvbTransponder)
    (base : List DvbTransponder) : Prop :=
  dev.autoTransponder ∈ autoTuneCombinations caps t ∧
    tunedTransponders dev.backendCalls =
      base ++ (autoTuneCombinations caps t).take (cycleRank caps dev.autoTransponder + 1)

/-! ## Stopping, reacquiring and releasing the device -/

/-- The loop `foreach (DvbPidFilter *filter, it->filters)` of `stop` for the
entry of one PID: `pending` is the copy of the filter list the loop walks; every
filter that is neither the sentinel nor the data dumper is removed with
`removePidFilter`. -/
def DvbDevice.removePendingPidFilters (dev : DvbDevice) (pid : Int) :
    List PidFilter → DvbDevice
  | [] => dev
  | filter :: pending =>
    if filter ≠ .dummyPidFilter ∧ filter ≠ .dataDumper then
      DvbDevice.removePendingPidFilters (dev.removePidFilter pid filter) pid pending
    else DvbDevice.removePendingPidFilters dev pid pending

/-- The first loop of `stop`, over the keys of the map `filters` that are still
to visit: at each key the filter list of the entry is copied and walked. -/
def DvbDevice.stopPidFilters (dev : DvbDevice) : List Int → DvbDevice
  | [] => dev
  | pid :: keys =>
    DvbDevice.stopPidFilters (dev.removePendingPidFilters pid (dev.filterList pid)) keys

/-- The loop `foreach (DvbSectionFilter *sectionFilter, it->sectionFilters)` of
`stop` for the reassembler of one PID: every section filter that is not the
sentinel is removed with `removeSectionFilter`. -/
def DvbDevice.removePendingSectionFilters (dev : DvbDevice) (pid : Int) :
    List SectionFilter → DvbDevice
  | [] => dev
  | filter :: pending =>
    if filter ≠ .dummySectionFilter then
      DvbDevice.removePendingSectionFilters (dev.removeSectionFilter pid filter) pid pending
    else DvbDevice.removePendingSectionFilters dev pid pending

/-- The second loop of `stop`, over the keys of the map `sectionFilters` that
are still to visit. -/
def DvbDevice.stopSectionFilters (dev : DvbDevice) : List Int → DvbDevice
  | [] => dev
  | pid :: keys =>
    DvbDevice.stopSectionFilters
      (dev.removePendingSectionFilters pid (dev.sectionFilterList pid)) keys

/-- The function `DvbDevice::stop`. Neither loop inserts or erases a map
entry, so each walks the keys the map has when the loop starts. -/
def DvbDevice.stop (dev : DvbDevice) : DvbDevice :=
  let dev1 := { dev with isAuto := false, frontendTimerActive := false }
  let dev2 := dev1.stopPidFilters (dev1.filters.map Prod.fst)
  dev2.stopSectionFilters (dev2.sectionFilters.map Prod.fst)

/-- The function `DvbDevice::reacquire`: nothing when the assertion
`deviceState != DeviceReleased` fails. -/
def DvbDevice.reacquire (dev : DvbDevice) (config : DvbConfigBase) : Option DvbDevice :=
  if dev.deviceState = .DeviceReleased then none
  else
    some
      (DvbDevice.setDeviceState
        { (dev.setDeviceState .DeviceReleased).stop with config := config } .DeviceIdle)

/-- The function `DvbDevice::release`. -/
def DvbDevice.release (dev : DvbDevice) : DvbDevice :=
  ((dev.setDeviceState .DeviceReleased).stop).call .release

/-- What `stop` leaves of a byte filter: the sentinel in place of every filter
that is neither the sentinel nor the data dumper. -/
def PidFilter.stopped (filter : PidFilter) : PidFilter :=
  if filter.isReal then .dummyPidFilter else filter

/-- Number of section filters in a list that are not the sentinel. -/
def realSectionCount (filters : List SectionFilter) : Nat :=
  filters.countP (fun f => decide (f ≠ .dummySectionFilter))

/-- The counts of the filter tables agree with the lists: in every entry of
`filters` the active-filter count is the number of filters in the list that are
neither the sentinel nor the data dumper, and in every reassembler of
`sectionFilters` the active section-filter count is the number of section
filters that are not the sentinel (the functions of the filter interface move a
count by one exactly when such a filter is appended or replaced by the
sentinel). -/
def DvbDevice.CountsAgree (dev : DvbDevice) : Prop :=
  (∀ e ∈ dev.filters, e.2.activeFilters = realCount e.2.filters) ∧
    ∀ e ∈ dev.sectionFilters, e.2.activeSectionFilters = realSectionCount e.2.sectionFilters

instance (dev : DvbDevice) : Decidable dev.CountsAgree := by
  unfold DvbDevice.CountsAgree; infer_instance

/-- What `stop` has done to the filter tables of `dev` when it leaves the
device `r`: in every byte-filter list each filter that is neither the sentinel
nor the data dumper is replaced by the sentinel, in every section-filter list
each filter is the sentinel, all active counts are 0, and the backend commands
issued are `dev`'s followed by hardware stop commands, one for every PID whose
active count was positive and none for any other PID, followed by `last`. -/
def DvbDevice.FiltersStopped (dev r : DvbDevice) (last : List BackendCall) : Prop :=
  (∀ pid,
      r.filterList pid = (dev.filterList pid).map PidFilter.stopped ∧
        r.activeCount pid = 0 ∧
        r.sectionFilterList pid =
          List.replicate (dev.sectionFilterList pid).length SectionFilter.dummySectionFilter ∧
        r.activeSectionCount pid = 0) ∧
    ∃ added, r.backendCalls = dev.backendCalls ++ added ++ last ∧
      (∀ c ∈ added, ∃ p, c = BackendCall.removePidFilter p) ∧
      ∀ pid, added.count (BackendCall.removePidFilter pid) =
        if 0 < dev.activeCount pid then 1 else 0

/-- The device of `removalExample` in state Tuned, in auto mode and with the
polling timer running. -/
def stopExample : DvbDevice :=
  { removalExample with
    deviceState := .DeviceTuned, isAuto := true, frontendTimerActive := true }

/-- The device `r` differs from `dev` at most in the filter tables, the
deferred-cleanup flag and the trace of backend commands. -/
def DvbDevice.FilterUpdate (dev r : DvbDevice) : Prop :=
  ∃ fs sfs cu calls,
    r = { dev with filters := fs, sectionFilters := sfs, cleanUpFilters := cu,
                   backendCalls := calls }

/-! ## The payload of a packet in `processData` -/

/-- Where `processData` locates the payload (lines 92-107): the offset of the
pointer `payload` in the packet and `payloadLength`, computed in integers as
the code does; nothing when the packet is dropped for its adaptation field. -/
def locatePayload (data : List Nat) : Option (Int × Int) :=
  if data.getD 3 0 &&& 0x20 = 0 then some (4, 188 - 4)
  else if (data.getD 4 0 % 256 : Nat) > 182 then none
  else some (5 + ((data.getD 4 0 % 256 : Nat) : Int), 188 - 5 - ((data.getD 4 0 % 256 : Nat) : Int))

/-- The pointer field of a section-start payload after the clamp
`if (pointer >= payloadLength) pointer = payloadLength - 1`, in integers. -/
def clampedPointer (payload : List Nat) : Int :=
  if ((payload.getD 0 0 % 256 : Nat) : Int) ≥ (payload.length : Int) then
    (payload.length : Int) - 1
  else ((payload.getD 0 0 % 256 : Nat) : Int)

/-- The bytes `buffer.append(payload + 1, pointer)` appends in the
section-start branch: the end of the section in progress. -/
def leftoverPart (payload : List Nat) : List Nat :=
  (payload.drop 1).take (clampedPointer payload).toNat

/-- The bytes the final `buffer.append(payload, payloadLength)` appends in the
section-start branch, after `payload += pointer + 1` and
`payloadLength -= pointer + 1`: the start of the new section. -/
def newSectionPart (payload : List Nat) : List Nat :=
  (payload.drop ((clampedPointer payload).toNat + 1)).take
    ((payload.length : Int) - (clampedPointer payload + 1)).toNat

/-- The payload bytes the located pointer and length designate. -/
def payloadBytes (data : List Nat) (located : Int × Int) : List Nat :=
  (data.drop located.1.toNat).take located.2.toNat

/-! ## Sequences of filter calls and cleanup passes -/

/-- A call of the filter interface of the device, or the deferred cleanup pass
at the head of `customEvent`. -/
inductive FilterApiOp where
  | addPidFilter (pid : Int) (filter : PidFilter)
  | removePidFilter (pid : Int) (filter : PidFilter)
  | addSectionFilter (pid : Int) (filter : SectionFilter)
  | removeSectionFilter (pid : Int) (filter : SectionFilter)
  | cleanUp
deriving DecidableEq, Repr

/-- Whether a call is one of the two removal functions. -/
def FilterApiOp.isRemoval : FilterApiOp → Bool
  | .removePidFilter _ _ => true
  | .removeSectionFilter _ _ => true
  | _ => false

/-- Run one call. -/
def DvbDevice.apiStep (dev : DvbDevice) (be : BackendAnswers) : FilterApiOp → DvbDevice
  | .addPidFilter pid filter => (dev.addPidFilter pid filter be).1
  | .removePidFilter pid filter => dev.removePidFilter pid filter
  | .addSectionFilter pid filter => (dev.addSectionFilter pid filter be).1
  | .removeSectionFilter pid filter => dev.removeSectionFilter pid filter
  | .cleanUp => dev.cleanUp

/-- Run a sequence of calls. -/
def DvbDevice.apiRun (dev : DvbDevice) (be : BackendAnswers) : List FilterApiOp → DvbDevice
  | [] => dev
  | op :: ops => DvbDevice.apiRun (dev.apiStep be op) be ops

/-- The device after a section filter was added on PID 100, removed again, and
a second section filter was added on PID 100 before any cleanup pass, on a
backend that accepts every request. -/
def readdExample : DvbDevice :=
  (DvbDevice.init (DvbConfigBase.plain 1500)).apiRun
    (BackendAnswers.accepting ⟨false, false, false, false⟩)
    [.addSectionFilter 100 (.client 1), .removeSectionFilter 100 (.client 1),
      .addSectionFilter 100 (.client 2)]

/-- The device of `removalExample` after byte filter 2 and section filter 1 of
PID 100, byte filter 4 of PID 300 and section filter 5 of PID 400 were
removed. -/
def cleanUpExample : DvbDevice :=
  removalExample.apiRun (BackendAnswers.accepting ⟨false, false, false, false⟩)
    [.removePidFilter 100 (.client 2), .removeSectionFilter 100 (.client 1),
      .removePidFilter 300 (.client 4), .removeSectionFilter 400 (.client 5)]

/-- A device with a configured timeout of 100 ms on which `autoTune` was called
for a DVB-T transponder (the hardware lacks the automatic mode of the
forward-error-correction rate) and got tuned at the first poll, and on which
then a plain `tune` of another DVB-T transponder was accepted. -/
def staleAutoExample : DvbDevice :=
  ((((DvbDevice.init (DvbConfigBase.plain 100)).autoTune (DvbTransponder.plain .DvbT 506000000)
      (BackendAnswers.accepting ⟨false, true, true, true⟩)).poll
      { BackendAnswers.accepting ⟨false, true, true, true⟩ with isTuned := true }).tune
    (DvbTransponder.plain .DvbT 514000000) (BackendAnswers.accepting ⟨false, true, true, true⟩))

/-- On the device of `dispatchExample` (byte filters 1 and 2 on PID 0x100) the
producer takes three buffers and writes each with one packet of PID 0x100, so
that the pending queue holds three buffers while the consumer has not run
yet. -/
def threePendingExample : BufferSystem :=
  (BufferSystem.init dispatchExample).run
    [.getBuffer ⟨none, 0, []⟩, .getBuffer ⟨none, 0, []⟩, .getBuffer ⟨none, 0, []⟩,
      .writeBuffer 0 (transportPacket 0x100 false) 188,
      .writeBuffer 1 (transportPacket 0x100 false) 188,
      .writeBuffer 2 (transportPacket 0x100 false) 188]

/-- The system of `threePendingExample` after the tuner has discarded the
pending buffers, and the producer has taken a buffer and written it with 188
bytes. -/
def discardExample : BufferSystem :=
  threePendingExample.run
    [.discardBuffers, .getBuffer ⟨none, 0, []⟩, .writeBuffer 1 (transportPacket 0x100 false) 188]

/-- The offline scan of the two terrestrial transponders on a device that
rejects every tune request before the request returns, right after the
constructor. -/
def scanExampleRejected : ScanWorld :=
  ScanWorld.start (scanEnvironment (fun _ => .rejected))
    (DvbScan.offline "terrestrial" terrestrialExample) .DeviceIdle

/-- The offline scan of an empty transponder list on an idle device, right
after the constructor. -/
def scanExampleEmpty : ScanWorld :=
  ScanWorld.start (scanEnvironment (fun _ => .rejected)) (DvbScan.offline "terrestrial" [])
    .DeviceIdle

/-- The live scan of a DVB-T transponder on a tuned device that accepts every
filter request, right after the constructor. -/
def liveScanExample : ScanWorld :=
  ScanWorld.start (scanEnvironment (fun _ => .tuned))
    (DvbScan.live "terrestrial" (DvbTransponder.plain .DvbT 506000000)) .DeviceTuned

/-- The offline scan of one DVB-S2 transponder on a device that accepts every
request, after the tune is settled. -/
def satellite2ScanExample : ScanWorld :=
  (ScanWorld.start (scanEnvironment (fun _ => .tuned))
    (DvbScan.offline "satellite" [DvbTransponder.plain .DvbS2 11836000]) .DeviceIdle).input
    (scanEnvironment (fun _ => .tuned)) .tuneSettled

/-- The offline scan of one DVB-T transponder on a device that accepts every
request, after the tune is settled. -/
def offlineScanExample : ScanWorld :=
  (ScanWorld.start (scanEnvironment (fun _ => .tuned))
    (DvbScan.offline "terrestrial" [DvbTransponder.plain .DvbT 506000000]) .DeviceIdle).input
    (scanEnvironment (fun _ => .tuned)) .tuneSettled

/-- Number of started filters of the pool that have the given type. -/
def DvbScan.activeOfType (scan : DvbScan) (type : FilterType) : Nat :=
  scan.filters.countP (fun f => f.isActive && decide (f.type = type))

/-- The offline scan of one DVB-T transponder at the moment `updateState` has
seen the device tuned and set the case `ScanPat`. -/
def nitStartExample : ScanWorld :=
  { scan :=
      { DvbScan.offline "terrestrial" [DvbTransponder.plain .DvbT 506000000] with
        transponder := some (DvbTransponder.plain .DvbT 506000000),
        transponderIndex := 1, state := .ScanPat },
    deviceState := .DeviceTuned, pendingTune := none,
    trace := [.tuneDevice (DvbTransponder.plain .DvbT 506000000)], outOfFuel := false,
    crashed := false }

/-! ## Theorems: section reassembler -/

theorem three_le_sectionEndOffset (rest : List Nat) : 3 ≤ sectionEndOffset rest := by
  unfold sectionEndOffset; omega

theorem three_le_sectionSize (force : Bool) (rest : List Nat) (h : 3 ≤ rest.length) :
    3 ≤ sectionSize force rest := by
  have := three_le_sectionEndOffset rest
  unfold sectionSize; split <;> omega

theorem processSectionsLoop_succ (force : Bool) (fuel : Nat) (rest : List Nat) :
    processSectionsLoop force (fuel + 1) rest =
      if rest.length = 0 then ([], rest)
      else if rest.getD 0 0 % 256 = 0xff then ([], [])
      else if rest.length < 3 then (if force = true then ([], []) else ([], rest))
      else if sectionSize force rest ≤ rest.length then
        (⟨rest.take (sectionSize force rest), verifyCrc32 (rest.take (sectionSize force rest))⟩ ::
            (processSectionsLoop force fuel (rest.drop (sectionSize force rest))).1,
          (processSectionsLoop force fuel (rest.drop (sectionSize force rest))).2)
      else ([], rest) := rfl

theorem processSectionsLoop_fuel (force : Bool) :
    ∀ (n f1 f2 : Nat) (rest : List Nat), rest.length ≤ n → rest.length < f1 → rest.length < f2 →
      processSectionsLoop force f1 rest = processSectionsLoop force f2 rest := by
  intro n
  induction n with
  | zero =>
    intro f1 f2 rest h0 h1 h2
    obtain ⟨g1, rfl⟩ : ∃ g, f1 = g + 1 := ⟨f1 - 1, by omega⟩
    obtain ⟨g2, rfl⟩ : ∃ g, f2 = g + 1 := ⟨f2 - 1, by omega⟩
    rw [processSectionsLoop_succ, processSectionsLoop_succ, if_pos (by omega), if_pos (by omega)]
  | succ n ih =>
    intro f1 f2 rest h0 h1 h2
    obtain ⟨g1, rfl⟩ : ∃ g, f1 = g + 1 := ⟨f1 - 1, by omega⟩
    obtain ⟨g2, rfl⟩ : ∃ g, f2 = g + 1 := ⟨f2 - 1, by omega⟩
    rw [processSectionsLoop_succ, processSectionsLoop_succ]
    by_cases hlen : rest.length = 0
    · rw [if_pos hlen, if_pos hlen]
    · rw [if_neg hlen, if_neg hlen]
      by_cases hpad : rest.getD 0 0 % 256 = 0xff
      · rw [if_pos hpad, if_pos hpad]
      · rw [if_neg hpad, if_neg hpad]
        by_cases hshort : rest.length < 3
        · rw [if_pos hshort, if_pos hshort]
        · rw [if_neg hshort, if_neg hshort]
          have h3 := three_le_sectionSize force rest (by omega)
          by_cases hle : sectionSize force rest ≤ rest.length
          · rw [if_pos hle, if_pos hle]
            rw [ih g1 g2 (rest.drop (sectionSize force rest))
              (by rw [List.length_drop]; omega) (by rw [List.length_drop]; omega)
              (by rw [List.length_drop]; omega)]
          · rw [if_neg hle, if_neg hle]

theorem processSections_eq (force : Bool) (buffer : List Nat) :
    processSections force buffer =
      if buffer.length = 0 then ([], buffer)
      else if buffer.getD 0 0 % 256 = 0xff then ([], [])
      else if buffer.length < 3 then (if force = true then ([], []) else ([], buffer))
      else if sectionSize force buffer ≤ buffer.length then
        (⟨buffer.take (sectionSize force buffer),
            verifyCrc32 (buffer.take (sectionSize force buffer))⟩ ::
            (processSections force (buffer.drop (sectionSize force buffer))).1,
          (processSections force (buffer.drop (sectionSize force buffer))).2)
      else ([], buffer) := by
  unfold processSections
  rw [processSectionsLoop_succ]
  by_cases hlen : buffer.length = 0
  · rw [if_pos hlen, if_pos hlen]
  · rw [if_neg hlen, if_neg hlen]
    by_cases hpad : buffer.getD 0 0 % 256 = 0xff
    · rw [if_pos hpad, if_pos hpad]
    · rw [if_neg hpad, if_neg hpad]
      by_cases hshort : buffer.length < 3
      · rw [if_pos hshort, if_pos hshort]
      · rw [if_neg hshort, if_neg hshort]
        have h3 := three_le_sectionSize force buffer (by omega)
        by_cases hle : sectionSize force buffer ≤ buffer.length
        · rw [if_pos hle, if_pos hle]
          rw [processSectionsLoop_fuel force buffer.length buffer.length
            ((buffer.drop (sectionSize force buffer)).length + 1)
            (buffer.drop (sectionSize force buffer))
            (by rw [List.length_drop]; omega) (by rw [List.length_drop]; omega) (by omega)]
        · rw [if_neg hle, if_neg hle]

theorem sectionSize_false (rest : List Nat) : sectionSize false rest = sectionEndOffset rest := by
  simp [sectionSize]

theorem getD_append_of_lt (p q : List Nat) (i : Nat) (h : i < p.length) :
    (p ++ q).getD i 0 = p.getD i 0 := by
  simp [List.getD, List.getElem?_append_left h]

theorem sectionEndOffset_append (p q : List Nat) (h : 3 ≤ p.length) :
    sectionEndOffset (p ++ q) = sectionEndOffset p := by
  unfold sectionEndOffset
  rw [getD_append_of_lt p q 1 (by omega), getD_append_of_lt p q 2 (by omega)]

/-- An opportunistic pass over a buffer that starts with a complete section
dispatches that section and goes on with what follows it. -/
theorem processSections_validSection_append (sec rest : List Nat) (h : ValidSection sec) :
    processSections false (sec ++ rest) =
      (⟨sec, verifyCrc32 sec⟩ :: (processSections false rest).1,
        (processSections false rest).2) := by
  obtain ⟨h3, hid, hlen⟩ := h
  rw [processSections_eq]
  have hl : (sec ++ rest).length = sec.length + rest.length := List.length_append _ _
  rw [if_neg (by omega), getD_append_of_lt sec rest 0 (by omega), if_neg hid,
    if_neg (by omega), sectionSize_false, sectionEndOffset_append sec rest h3, hlen,
    if_pos (by omega), List.take_left, List.drop_left]

/-- An opportunistic pass over a proper prefix of a complete section dispatches
nothing and keeps the prefix. -/
theorem processSections_incomplete (sec p q : List Nat) (h : ValidSection sec)
    (hs : sec = p ++ q) (hq : q ≠ []) : processSections false p = ([], p) := by
  obtain ⟨h3, hid, hlen⟩ := h
  have hql : 0 < q.length := List.length_pos.mpr hq
  have hl : sec.length = p.length + q.length := by rw [hs, List.length_append]
  rw [processSections_eq]
  by_cases h0 : p.length = 0
  · rw [if_pos h0]
  · rw [if_neg h0]
    have hid2 : p.getD 0 0 % 256 ≠ 0xff := by
      rw [hs, getD_append_of_lt p q 0 (by omega)] at hid
      exact hid
    rw [if_neg hid2]
    by_cases hshort : p.length < 3
    · rw [if_pos hshort]; simp
    · rw [if_neg hshort, sectionSize_false]
      have : sectionEndOffset p = sec.length := by
        rw [← hlen, hs, sectionEndOffset_append p q (by omega)]
      rw [this, if_neg (by omega)]

/-- Running the opportunistic pass again on what it left changes nothing. -/
theorem processSections_false_idem :
    ∀ (n : Nat) (b : List Nat), b.length ≤ n →
      processSections false (processSections false b).2 = ([], (processSections false b).2) := by
  intro n
  induction n with
  | zero =>
    intro b hb
    have : b = [] := List.length_eq_zero.mp (Nat.le_zero.mp hb)
    subst this
    rfl
  | succ n ih =>
    intro b hb
    rw [processSections_eq false b]
    by_cases h0 : b.length = 0
    · rw [if_pos h0]
      have : b = [] := List.length_eq_zero.mp h0
      subst this
      rfl
    · rw [if_neg h0]
      by_cases hpad : b.getD 0 0 % 256 = 0xff
      · rw [if_pos hpad]; rfl
      · rw [if_neg hpad]
        by_cases hshort : b.length < 3
        · rw [if_pos hshort]
          simp only [Bool.false_eq_true, if_false]
          rw [processSections_eq, if_neg h0, if_neg hpad, if_pos hshort]
          simp
        · rw [if_neg hshort]
          have h3 := three_le_sectionSize false b (by omega)
          by_cases hle : sectionSize false b ≤ b.length
          · rw [if_pos hle]
            exact ih _ (by rw [List.length_drop]; omega)
          · rw [if_neg hle]
            show processSections false b = ([], b)
            rw [processSections_eq, if_neg h0, if_neg hpad, if_neg hshort, if_neg hle]

theorem processSections_nil : processSections false [] = ([], []) := rfl

/-- Splitting one opportunistic pass over a stream of complete sections at any
point: the pass over the whole equals the pass over the first part followed by
the pass over what that left plus the second part; and what is still to come
is again a stream of complete sections. -/
theorem processSections_split :
    ∀ (secs : List (List Nat)), ValidStream secs → ∀ (b1 b2 : List Nat),
      b1 ++ b2 = secs.flatten →
      (processSections false (b1 ++ b2) =
        ((processSections false b1).1 ++
            (processSections false ((processSections false b1).2 ++ b2)).1,
          (processSections false ((processSections false b1).2 ++ b2)).2)) ∧
      ∃ secs2, ValidStream secs2 ∧ (processSections false b1).2 ++ b2 = secs2.flatten := by
  intro secs
  induction secs with
  | nil =>
    intro _ b1 b2 h
    simp only [List.flatten_nil, List.append_eq_nil] at h
    obtain ⟨rfl, rfl⟩ := h
    exact ⟨rfl, [], fun _ hx => by simp at hx, rfl⟩
  | cons sec rest ih =>
    intro hv b1 b2 h
    have hsec : ValidSection sec := hv sec (List.mem_cons_self _ _)
    have hrest : ValidStream rest := fun x hx => hv x (List.mem_cons_of_mem _ hx)
    rw [List.flatten_cons] at h
    by_cases hlen : sec.length ≤ b1.length
    · -- the first section lies inside b1
      obtain ⟨b1r, rfl, h2⟩ : ∃ b1r, b1 = sec ++ b1r ∧ b1r ++ b2 = rest.flatten := by
        rcases List.append_eq_append_iff.mp h with ⟨a, ha, hb⟩ | ⟨c, hc, hd⟩
        · -- sec = b1 ++ a
          have hal : a.length = 0 := by
            have := congrArg List.length ha
            rw [List.length_append] at this
            omega
          have : a = [] := List.length_eq_zero.mp hal
          subst this
          refine ⟨[], ?_, ?_⟩
          · simpa using ha.symm
          · simpa using hb
        · exact ⟨c, hc, hd.symm⟩
      obtain ⟨e1, secs2, hv2, e2⟩ := ih hrest b1r b2 h2
      rw [List.append_assoc, processSections_validSection_append sec (b1r ++ b2) hsec,
        processSections_validSection_append sec b1r hsec]
      refine ⟨?_, secs2, hv2, e2⟩
      rw [e1]
      rfl
    · -- b1 is a proper prefix of the first section
      obtain ⟨q, hq, hqne⟩ : ∃ q, sec = b1 ++ q ∧ q ≠ [] := by
        rcases List.append_eq_append_iff.mp h with ⟨a, ha, hb⟩ | ⟨c, hc, hd⟩
        · refine ⟨a, ha, ?_⟩
          intro ha0
          subst ha0
          rw [List.append_nil] at ha
          rw [ha] at hlen
          exact hlen (Nat.le_refl _)
        · exfalso
          apply hlen
          rw [hc, List.length_append]
          omega
      have hp := processSections_incomplete sec b1 q hsec hq hqne
      rw [hp]
      refine ⟨rfl, sec :: rest, hv, ?_⟩
      rw [List.flatten_cons]
      exact h

/-- One opportunistic pass over a stream of complete sections dispatches every
section, in order, and leaves the accumulator empty. -/
theorem processSections_validStream :
    ∀ (secs : List (List Nat)), ValidStream secs →
      processSections false secs.flatten = (secs.map dispatchOf, []) := by
  intro secs
  induction secs with
  | nil => intro _; rfl
  | cons sec rest ih =>
    intro hv
    have hsec : ValidSection sec := hv sec (List.mem_cons_self _ _)
    have hrest : ValidStream rest := fun x hx => hv x (List.mem_cons_of_mem _ hx)
    rw [List.flatten_cons, processSections_validSection_append sec _ hsec, ih hrest]
    rfl

/-- Feeding chunk by chunk equals one pass over the accumulator followed by all
the chunks, when the whole is a stream of complete sections and the accumulator
is what an earlier pass left. -/
theorem feedChunks_eq_processSections :
    ∀ (chunks : List (List Nat)) (buffer : List Nat) (secs : List (List Nat)),
      ValidStream secs → buffer ++ chunks.flatten = secs.flatten →
      processSections false buffer = ([], buffer) →
      feedChunks chunks buffer = processSections false (buffer ++ chunks.flatten) := by
  intro chunks
  induction chunks with
  | nil =>
    intro buffer secs _ _ hb
    simp only [feedChunks, List.flatten_nil, List.append_nil]
    exact hb.symm
  | cons c cs ih =>
    intro buffer secs hv h hb
    rw [List.flatten_cons, ← List.append_assoc] at h
    obtain ⟨e1, secs2, hv2, e2⟩ := processSections_split secs hv (buffer ++ c) cs.flatten h
    have hidem := processSections_false_idem (buffer ++ c).length (buffer ++ c) (Nat.le_refl _)
    have hrec := ih (processSections false (buffer ++ c)).2 secs2 hv2 e2 hidem
    simp only [feedChunks, appendAndProcess]
    rw [hrec, List.flatten_cons, ← List.append_assoc, e1]

/-- C1: reassembly is boundary-insensitive. For every byte string that is a
concatenation of complete sections and every way of cutting it into consecutive
chunks, feeding the chunks one at a time to an empty accumulator (append, then
`processSections(false)`) dispatches the same sequence of sections, with the same
bytes, as one pass over the whole string, and leaves the same accumulator; that
sequence is the sections of the string, in order. -/
theorem reassembly_boundary_insensitive (secs chunks : List (List Nat))
    (hv : ValidStream secs) (hc : chunks.flatten = secs.flatten) :
    feedChunks chunks [] = processSections false secs.flatten ∧
      (feedChunks chunks []).1 = secs.map dispatchOf := by
  have h := feedChunks_eq_processSections chunks [] secs hv (by simpa using hc) rfl
  rw [List.nil_append, hc] at h
  refine ⟨h, ?_⟩
  rw [h, processSections_validStream secs hv]

theorem reassembly_boundary_insensitive_witness :
    ValidStream [[0x00, 0xb0, 0x01, 0xaa], [0x42, 0xf0, 0x00]] ∧
      feedChunks [[0x00, 0xb0], [], [0x01, 0xaa, 0x42], [0xf0, 0x00]] [] =
        processSections false [0x00, 0xb0, 0x01, 0xaa, 0x42, 0xf0, 0x00] ∧
      (feedChunks [[0x00, 0xb0], [], [0x01, 0xaa, 0x42], [0xf0, 0x00]] []).1 =
        [dispatchOf [0x00, 0xb0, 0x01, 0xaa], dispatchOf [0x42, 0xf0, 0x00]] :=
  ⟨by unfold ValidStream; decide,
    reassembly_boundary_insensitive [[0x00, 0xb0, 0x01, 0xaa], [0x42, 0xf0, 0x00]]
      [[0x00, 0xb0], [], [0x01, 0xaa, 0x42], [0xf0, 0x00]] (by unfold ValidStream; decide)
      (by decide)⟩

/-- Amended C2, for a payload-carrying packet: while the buffer is valid, a
packet whose continuity counter equals the last one seen is dropped, the whole
reassembler state is unchanged and no section is dispatched; while the buffer
is not valid the counter is not compared at all: whatever counter was seen
last, the new state and the sections dispatched are the same. -/
theorem processData_duplicate_dropped (s : DvbSectionFilterInternal) (data : List Nat)
    (hpayload : data.getD 3 0 &&& 0x10 ≠ 0) :
    (s.bufferValid = true → data.getD 3 0 &&& 0x0f = s.continuityCounter →
        processData s data = (s, [])) ∧
      (s.bufferValid = false →
        ∀ c : Nat, processData { s with continuityCounter := c } data = processData s data) := by
  constructor
  · intro hvalid hdup
    unfold processData
    rw [if_neg hpayload]
    simp only []
    rw [if_pos ⟨hvalid, hdup⟩]
  · intro hinvalid c
    unfold processData
    rw [if_neg hpayload, if_neg hpayload]
    simp only [hinvalid, Bool.false_eq_true, false_and, if_false]

set_option maxRecDepth 100000 in
theorem processData_duplicate_dropped_witness :
    (plainPacket 0x00 0x15 [0x01]).getD 3 0 &&& 0x10 ≠ 0 ∧
      processData (reassembler [0x00, 0xb0] 5 true) (plainPacket 0x00 0x15 [0x01]) =
        (reassembler [0x00, 0xb0] 5 true, []) ∧
      processData (reassembler [] 9 false) (plainPacket 0x40 0x15 [0x00, 0x00, 0xb0, 0x01, 0xaa]) =
        processData (reassembler [] 5 false)
          (plainPacket 0x40 0x15 [0x00, 0x00, 0xb0, 0x01, 0xaa]) :=
  ⟨by decide,
    (processData_duplicate_dropped (reassembler [0x00, 0xb0] 5 true)
      (plainPacket 0x00 0x15 [0x01]) (by decide)).1 rfl (by decide),
    (processData_duplicate_dropped (reassembler [] 5 false)
      (plainPacket 0x40 0x15 [0x00, 0x00, 0xb0, 0x01, 0xaa]) (by decide)).2 rfl 9⟩

set_option maxRecDepth 100000 in
/-- C2 as stated fails while the buffer is not valid: after a first packet with
continuity counter 5 (no section start, padding only) the state has counter 5
and an invalid buffer; a section-start packet with the same counter 5 is then
not dropped, its section is dispatched. -/
theorem processData_duplicate_not_dropped_bufferInvalid :
    processData DvbSectionFilterInternal.init (plainPacket 0x00 0x15 []) =
        (reassembler [] 5 false, []) ∧
      (plainPacket 0x40 0x15 [0x00, 0x00, 0xb0, 0x01, 0xaa]).getD 3 0 &&& 0x10 ≠ 0 ∧
      (plainPacket 0x40 0x15 [0x00, 0x00, 0xb0, 0x01, 0xaa]).getD 3 0 &&& 0x0f = 5 ∧
      processData (reassembler [] 5 false) (plainPacket 0x40 0x15 [0x00, 0x00, 0xb0, 0x01, 0xaa]) =
        (reassembler [] 5 true, [⟨[0x00, 0xb0, 0x01, 0xaa], 24217455⟩]) := by
  decide

set_option maxRecDepth 100000 in
/-- C3, the code at the failing input: a section-start packet (counter 5)
leaves the two header bytes 00 b0 (resp. 00 b1) in the accumulator; the next
packet has counter 9, a discontinuity. The accumulated bytes are not discarded:
in the first run they are dispatched as the head of the section 00 b0 01 ff, in
the second they stay at the head of the accumulator, followed by the 184 payload
bytes of the discontinuous packet. -/
theorem discontinuity_keeps_accumulated_bytes :
    processData DvbSectionFilterInternal.init (stuffedPacket 0x40 0x35 [0x00, 0x00, 0xb0]) =
        (reassembler [0x00, 0xb0] 5 true, []) ∧
      processData (reassembler [0x00, 0xb0] 5 true) (plainPacket 0x00 0x19 [0x01]) =
        (reassembler [] 9 false, [⟨[0x00, 0xb0, 0x01, 0xff], 1847805699⟩]) ∧
      processData DvbSectionFilterInternal.init (stuffedPacket 0x40 0x35 [0x00, 0x00, 0xb1]) =
        (reassembler [0x00, 0xb1] 5 true, []) ∧
      processData (reassembler [0x00, 0xb1] 5 true) (plainPacket 0x00 0x19 []) =
        (reassembler ([0x00, 0xb1] ++ List.replicate 184 0xff) 9 false, []) := by
  decide

set_option maxRecDepth 100000 in
/-- C4, the code at the failing input: after a section start (counter 5) and a
discontinuity (counter 9) the buffer is invalid; the next packet (counter 10)
does not carry the payload-unit-start flag, yet its payload is appended to the
accumulator and the opportunistic pass runs on it: the section 00 b0 01 aa is
dispatched (first run), or the 184 payload bytes stay in the accumulator
(second run, declared size larger than the payload). -/
theorem payload_appended_while_buffer_invalid :
    processPackets DvbSectionFilterInternal.init
        [plainPacket 0x40 0x15 [0x00], plainPacket 0x00 0x19 []] = (reassembler [] 9 false, []) ∧
      (plainPacket 0x00 0x1a [0x00, 0xb0, 0x01, 0xaa]).getD 1 0 &&& 0x40 = 0 ∧
      processData (reassembler [] 9 false) (plainPacket 0x00 0x1a [0x00, 0xb0, 0x01, 0xaa]) =
        (reassembler [] 10 false, [⟨[0x00, 0xb0, 0x01, 0xaa], 24217455⟩]) ∧
      processData (reassembler [] 9 false) (plainPacket 0x00 0x1a [0x00, 0xb1, 0x01, 0xaa]) =
        (reassembler ([0x00, 0xb1, 0x01, 0xaa] ++ List.replicate 180 0xff) 10 false, []) := by
  decide

theorem and_topBit_eq_zero_iff (c : Nat) (hc : c < 2 ^ 32) :
    c &&& 0x80000000 = 0 ↔ c < 2 ^ 31 := by
  have h31 : (0x80000000 : Nat) = 2 ^ 31 := by norm_num
  rw [h31]
  constructor
  · intro h
    by_contra hge
    have hge2 : 2 ^ 31 ≤ c := Nat.le_of_not_lt hge
    have hbit : c.testBit 31 = true := by
      have hx : c = 2 ^ 31 + (c - 2 ^ 31) := by omega
      rw [hx, Nat.testBit_two_pow_add_eq, Nat.testBit_lt_two_pow (by omega)]
      rfl
    have := congrArg (fun x => Nat.testBit x 31) h
    simp only [Nat.testBit_and, hbit, Nat.testBit_two_pow_self, Nat.zero_testBit] at this
    exact Bool.noConfusion this
  · intro h
    apply Nat.eq_of_testBit_eq
    intro i
    rw [Nat.testBit_and, Nat.zero_testBit]
    by_cases hi : i = 31
    · subst hi
      rw [Nat.testBit_lt_two_pow h]
      rfl
    · rw [Nat.testBit_two_pow_of_ne (Ne.symm hi)]
      simp

theorem crc32Shift_lt (c : Nat) : crc32Shift c < 2 ^ 32 := by
  unfold crc32Shift
  split
  · exact Nat.mod_lt _ (by norm_num)
  · exact Nat.xor_lt_two_pow (Nat.mod_lt _ (by norm_num)) (by unfold crc32Polynomial; norm_num)

theorem crc32Shift_low_bit (c : Nat) (hc : c < 2 ^ 32) :
    crc32Shift c % 2 = if c < 2 ^ 31 then 0 else 1 := by
  unfold crc32Shift
  rw [Nat.shiftLeft_eq]
  by_cases h : c < 2 ^ 31
  · rw [if_pos ((and_topBit_eq_zero_iff c hc).mpr h), if_pos h]
    omega
  · rw [if_neg (fun h2 => h ((and_topBit_eq_zero_iff c hc).mp h2)), if_neg h,
      Nat.xor_mod_two_eq]
    unfold crc32Polynomial
    omega

theorem crc32Shift_injOn (a b : Nat) (ha : a < 2 ^ 32) (hb : b < 2 ^ 32)
    (h : crc32Shift a = crc32Shift b) : a = b := by
  have hla := crc32Shift_low_bit a ha
  have hlb := crc32Shift_low_bit b hb
  rw [h] at hla
  unfold crc32Shift at h
  rw [Nat.shiftLeft_eq, Nat.shiftLeft_eq] at h
  by_cases h1 : a < 2 ^ 31
  · have h2 : b < 2 ^ 31 := by
      by_contra hn
      rw [if_pos h1] at hla
      rw [if_neg hn] at hlb
      omega
    rw [if_pos ((and_topBit_eq_zero_iff a ha).mpr h1),
      if_pos ((and_topBit_eq_zero_iff b hb).mpr h2)] at h
    omega
  · have h2 : ¬ b < 2 ^ 31 := by
      intro hn
      rw [if_neg h1] at hla
      rw [if_pos hn] at hlb
      omega
    rw [if_neg (fun h3 => h1 ((and_topBit_eq_zero_iff a ha).mp h3)),
      if_neg (fun h3 => h2 ((and_topBit_eq_zero_iff b hb).mp h3))] at h
    have h4 := Nat.xor_left_injective h
    omega

theorem crc32Shift_iterate_lt (n : Nat) (c : Nat) (hc : c < 2 ^ 32) :
    crc32Shift^[n] c < 2 ^ 32 := by
  induction n generalizing c with
  | zero => exact hc
  | succ n ih =>
    rw [Function.iterate_succ_apply]
    exact ih _ (crc32Shift_lt c)

theorem crc32Shift_iterate_injOn (n : Nat) (a b : Nat) (ha : a < 2 ^ 32) (hb : b < 2 ^ 32)
    (h : crc32Shift^[n] a = crc32Shift^[n] b) : a = b := by
  induction n generalizing a b with
  | zero => exact h
  | succ n ih =>
    rw [Function.iterate_succ_apply, Function.iterate_succ_apply] at h
    exact crc32Shift_injOn a b ha hb (ih _ _ (crc32Shift_lt a) (crc32Shift_lt b) h)

theorem byte_shift_lt (x : Nat) : (x % 256) <<< 24 < 2 ^ 32 := by
  rw [Nat.shiftLeft_eq]
  have : x % 256 < 256 := Nat.mod_lt _ (by norm_num)
  omega

theorem crc32Byte_lt (c x : Nat) (hc : c < 2 ^ 32) : crc32Byte c x < 2 ^ 32 :=
  crc32Shift_iterate_lt 8 _ (Nat.xor_lt_two_pow hc (byte_shift_lt x))

/-- For a fixed data byte the CRC register update is injective in the
register. -/
theorem crc32Byte_inj_register (a b x : Nat) (ha : a < 2 ^ 32) (hb : b < 2 ^ 32)
    (h : crc32Byte a x = crc32Byte b x) : a = b := by
  have := crc32Shift_iterate_injOn 8 _ _ (Nat.xor_lt_two_pow ha (byte_shift_lt x))
    (Nat.xor_lt_two_pow hb (byte_shift_lt x)) h
  exact Nat.xor_left_injective this

/-- For a fixed register the CRC register update is injective in the data
byte. -/
theorem crc32Byte_inj_byte (c x y : Nat) (hc : c < 2 ^ 32) (hx : x < 256) (hy : y < 256)
    (h : crc32Byte c x = crc32Byte c y) : x = y := by
  have := crc32Shift_iterate_injOn 8 _ _ (Nat.xor_lt_two_pow hc (byte_shift_lt x))
    (Nat.xor_lt_two_pow hc (byte_shift_lt y)) h
  have h2 := Nat.xor_right_injective this
  rw [Nat.shiftLeft_eq, Nat.shiftLeft_eq, Nat.mod_eq_of_lt hx, Nat.mod_eq_of_lt hy] at h2
  omega

theorem foldl_crc32Byte_lt (data : List Nat) (c : Nat) (hc : c < 2 ^ 32) :
    data.foldl crc32Byte c < 2 ^ 32 := by
  induction data generalizing c with
  | nil => exact hc
  | cons x xs ih => exact ih _ (crc32Byte_lt c x hc)

theorem foldl_crc32Byte_injOn (data : List Nat) (a b : Nat) (ha : a < 2 ^ 32) (hb : b < 2 ^ 32)
    (h : data.foldl crc32Byte a = data.foldl crc32Byte b) : a = b := by
  induction data generalizing a b with
  | nil => exact h
  | cons x xs ih =>
    exact crc32Byte_inj_register a b x ha hb
      (ih _ _ (crc32Byte_lt a x ha) (crc32Byte_lt b x hb) h)

/-- Changing one byte of a byte string changes its CRC-32 register value. -/
theorem verifyCrc32_set_ne (sec : List Nat) (i v : Nat) (hi : i < sec.length)
    (hv : v < 256) (hold : sec.getD i 0 < 256) (hne : v ≠ sec.getD i 0) :
    verifyCrc32 (sec.set i v) ≠ verifyCrc32 sec := by
  intro h
  have hs : sec.set i v = sec.take i ++ v :: sec.drop (i + 1) := by
    rw [List.set_eq_take_append_cons_drop, if_pos hi]
  have ho : sec = sec.take i ++ sec.getD i 0 :: sec.drop (i + 1) := by
    have hd : sec.drop i = sec.getD i 0 :: sec.drop (i + 1) := by
      rw [List.getD_eq_getElem _ _ hi]
      exact List.drop_eq_getElem_cons hi
    rw [← hd, List.take_append_drop]
  unfold verifyCrc32 at h
  rw [hs] at h
  conv at h => rhs; rw [ho]
  rw [List.foldl_append, List.foldl_append, List.foldl_cons, List.foldl_cons] at h
  have hpre : (sec.take i).foldl crc32Byte 0xffffffff < 2 ^ 32 :=
    foldl_crc32Byte_lt _ _ (by norm_num)
  have h2 := foldl_crc32Byte_injOn _ _ _ (crc32Byte_lt _ v hpre)
    (crc32Byte_lt _ (sec.getD i 0) hpre) h
  exact hne (crc32Byte_inj_byte _ _ _ hpre hv hold h2)

/-- Every section dispatched by a reassembly pass, forced or not, carries as
verification result the CRC-32 check over exactly the dispatched bytes. -/
theorem processSections_crc (force : Bool) :
    ∀ (n : Nat) (buffer : List Nat), buffer.length ≤ n →
      ∀ d ∈ (processSections force buffer).1, d.crc = verifyCrc32 d.bytes := by
  intro n
  induction n with
  | zero =>
    intro buffer hb d hd
    have : buffer = [] := List.length_eq_zero.mp (Nat.le_zero.mp hb)
    subst this
    rw [processSections_eq, if_pos List.length_nil] at hd
    simp at hd
  | succ n ih =>
    intro buffer hb d hd
    rw [processSections_eq] at hd
    by_cases h0 : buffer.length = 0
    · rw [if_pos h0] at hd; simp at hd
    · rw [if_neg h0] at hd
      by_cases hpad : buffer.getD 0 0 % 256 = 0xff
      · rw [if_pos hpad] at hd; simp at hd
      · rw [if_neg hpad] at hd
        by_cases hshort : buffer.length < 3
        · rw [if_pos hshort] at hd
          split at hd <;> simp at hd
        · rw [if_neg hshort] at hd
          have h3 := three_le_sectionSize force buffer (by omega)
          by_cases hle : sectionSize force buffer ≤ buffer.length
          · rw [if_pos hle] at hd
            rcases List.mem_cons.mp hd with hd1 | hd2
            · rw [hd1]
            · exact ih _ (by rw [List.length_drop]; omega) d hd2
          · rw [if_neg hle] at hd; simp at hd

theorem getD_set_of_ne (sec : List Nat) (i j v : Nat) (h : i ≠ j) :
    (sec.set i v).getD j 0 = sec.getD j 0 := by
  simp [List.getD, List.getElem?_set_ne h]

theorem validSection_set (sec : List Nat) (i v : Nat) (h : ValidSection sec) (hi : 3 ≤ i) :
    ValidSection (sec.set i v) := by
  obtain ⟨h3, hid, hlen⟩ := h
  refine ⟨by rw [List.length_set]; exact h3, ?_, ?_⟩
  · rw [getD_set_of_ne sec i 0 v (by omega)]; exact hid
  · unfold sectionEndOffset at hlen ⊢
    rw [getD_set_of_ne sec i 1 v (by omega), getD_set_of_ne sec i 2 v (by omega),
      List.length_set]
    exact hlen

/-- C5: a section whose trailing CRC-32 matches its contents (register value 0)
and in which one payload byte (offset 3 or more) is changed is never handed to
the section filters as valid. Whatever the accumulator and whether the pass is
forced or not, every dispatch whose bytes are the changed section carries the
CRC-32 check over exactly those bytes, and that result is not 0; and a pass over
an accumulator that starts with the changed section does dispatch it first,
with that non-zero result. -/
theorem corrupted_section_never_dispatched_as_valid (sec : List Nat) (i v : Nat)
    (hsec : ValidSection sec) (hcrc : verifyCrc32 sec = 0)
    (hpayload : 3 ≤ i) (hi : i < sec.length)
    (hv : v < 256) (hold : sec.getD i 0 < 256) (hne : v ≠ sec.getD i 0) :
    (∀ (force : Bool) (buffer : List Nat), ∀ d ∈ (processSections force buffer).1,
        d.bytes = sec.set i v → d.crc = verifyCrc32 (sec.set i v) ∧ d.crc ≠ 0) ∧
      (∀ rest : List Nat, (processSections false (sec.set i v ++ rest)).1.head? =
        some ⟨sec.set i v, verifyCrc32 (sec.set i v)⟩) ∧
      verifyCrc32 (sec.set i v) ≠ 0 := by
  have hnz : verifyCrc32 (sec.set i v) ≠ 0 := by
    have := verifyCrc32_set_ne sec i v hi hv hold hne
    rw [hcrc] at this
    exact this
  refine ⟨?_, ?_, hnz⟩
  · intro force buffer d hd hbytes
    have hc := processSections_crc force buffer.length buffer (Nat.le_refl _) d hd
    rw [hbytes] at hc
    exact ⟨hc, by rw [hc]; exact hnz⟩
  · intro rest
    rw [processSections_validSection_append _ rest (validSection_set sec i v hsec hpayload)]
    rfl

set_option maxRecDepth 100000 in
theorem corrupted_section_never_dispatched_as_valid_witness :
    ValidSection [0x00, 0xb0, 0x05, 0x42, 0xa7, 0xf4, 0x6d, 0x07] ∧
      verifyCrc32 [0x00, 0xb0, 0x05, 0x42, 0xa7, 0xf4, 0x6d, 0x07] = 0 ∧
      (∀ (force : Bool) (buffer : List Nat), ∀ d ∈ (processSections force buffer).1,
        d.bytes = [0x00, 0xb0, 0x05, 0x43, 0xa7, 0xf4, 0x6d, 0x07] →
          d.crc = verifyCrc32 [0x00, 0xb0, 0x05, 0x43, 0xa7, 0xf4, 0x6d, 0x07] ∧ d.crc ≠ 0) ∧
      (∀ rest : List Nat,
        (processSections false ([0x00, 0xb0, 0x05, 0x43, 0xa7, 0xf4, 0x6d, 0x07] ++ rest)).1.head? =
          some ⟨[0x00, 0xb0, 0x05, 0x43, 0xa7, 0xf4, 0x6d, 0x07],
            verifyCrc32 [0x00, 0xb0, 0x05, 0x43, 0xa7, 0xf4, 0x6d, 0x07]⟩) ∧
      verifyCrc32 [0x00, 0xb0, 0x05, 0x43, 0xa7, 0xf4, 0x6d, 0x07] ≠ 0 :=
  ⟨by decide, by decide,
    corrupted_section_never_dispatched_as_valid [0x00, 0xb0, 0x05, 0x42, 0xa7, 0xf4, 0x6d, 0x07]
      3 0x43 (by decide) (by decide) (by decide) (by decide) (by decide) (by decide) (by decide)⟩

/-! ## Theorems: scan filter -/

theorem bitmapRecords_fresh (last : Nat) :
    BitmapRecords (bitArrayResize [] (last + 1)) [] last := by
  unfold bitArrayResize
  refine ⟨by simp, ?_⟩
  intro k hk
  have hlt : k < last + 1 := by omega
  simp [List.getD, List.getElem?_take, List.getElem?_replicate, hlt]

theorem bitmapRecords_set (bits : List Bool) (seen : List Nat) (last n : Nat)
    (h : BitmapRecords bits seen last) (hn : n ≤ last) :
    BitmapRecords (bits.set n true) (seen ++ [n]) last := by
  obtain ⟨hl, hb⟩ := h
  refine ⟨by rw [List.length_set]; exact hl, ?_⟩
  intro k hk
  by_cases hkn : n = k
  · subst hkn
    have : (bits.set n true).getD n false = true := by
      simp [List.getD, List.getElem?_set_self, show n < bits.length by omega]
    rw [this]
    simp
  · have : (bits.set n true).getD k false = bits.getD k false := by
      simp [List.getD, List.getElem?_set_ne hkn]
    rw [this, hb k hk]
    simp [Ne.symm hkn]

theorem bitmapRecords_mem (bits : List Bool) (seen : List Nat) (last n : Nat)
    (h : BitmapRecords bits seen last) (hn : n ∈ seen) :
    BitmapRecords bits (seen ++ [n]) last := by
  obtain ⟨hl, hb⟩ := h
  refine ⟨hl, ?_⟩
  intro k hk
  rw [hb k hk]
  constructor
  · intro h1; exact List.mem_append_left _ h1
  · intro h1
    rcases List.mem_append.mp h1 with h2 | h2
    · exact h2
    · rw [List.mem_singleton.mp h2]; exact hn

theorem bitmapRecords_count (bits : List Bool) (seen : List Nat) (last : Nat)
    (h : BitmapRecords bits seen last) :
    bits.count false = 0 ↔ ∀ k, k ≤ last → k ∈ seen := by
  obtain ⟨hl, hb⟩ := h
  rw [List.count_eq_zero]
  constructor
  · intro hnot k hk
    rw [← hb k hk]
    have hlt : k < bits.length := by omega
    rw [List.getD_eq_getElem _ _ hlt]
    cases hv : bits[k] with
    | true => rfl
    | false =>
      exfalso
      apply hnot
      rw [← hv]
      exact List.getElem_mem hlt
  · intro hall hmem
    obtain ⟨k, hk, hv⟩ := List.getElem_of_mem hmem
    have h1 := (hb k (by omega)).mpr (hall k (by omega))
    rw [List.getD_eq_getElem _ _ hk, hv] at h1
    exact Bool.noConfusion h1

/-- One good section: what `processSection` does with it, in terms of the
section numbers seen before. -/
theorem processSection_step (f : DvbScanFilter) (seen : List Nat) (last : Nat)
    (s : ScanSection) (hf : FilterRecords f seen last) (hs : s.goodFor f.type last) :
    FilterRecords (f.processSection s).1 (seen ++ [s.sectionNumber]) last ∧
      (f.processSection s).1.type = f.type ∧
      (ScanCall.filterFinished ∈ (f.processSection s).2 ↔
        s.sectionNumber ∉ seen ∧ ∀ k, k ≤ last → k ∈ seen ++ [s.sectionNumber]) ∧
      (s.sectionNumber ∈ seen → f.processSection s = (f, [])) := by
  obtain ⟨hv, ht, htv, hlast, hn⟩ := hs
  -- the bitmap after the resize of an empty bitmap
  have hbits : BitmapRecords
      (if f.multipleSections.length = 0 then
        bitArrayResize f.multipleSections (s.lastSectionNumber + 1)
      else f.multipleSections) seen last := by
    rcases hf with ⟨he, hs0⟩ | hb
    · rw [he, hs0, hlast]
      exact bitmapRecords_fresh last
    · have : f.multipleSections.length ≠ 0 := by rw [hb.1]; omega
      rw [if_neg this]
      exact hb
  have hcall : ∀ p : Int, ScanCall.filterFinished ≠ f.type.call p := by
    intro p; cases f.type <;> simp [FilterType.call]
  unfold DvbScanFilter.processSection
  rw [if_neg (by rw [hv]; exact Bool.noConfusion), if_neg (by rw [ht]; exact fun h => h rfl),
    if_neg (by rw [htv]; exact Bool.noConfusion)]
  unfold checkMultipleSection
  simp only []
  generalize hB : (if f.multipleSections.length = 0 then
        bitArrayResize f.multipleSections (s.lastSectionNumber + 1)
      else f.multipleSections) = bits at hbits
  by_cases hseen : s.sectionNumber ∈ seen
  · -- already seen: the bit is set
    have hbit : bits.getD s.sectionNumber false = true := (hbits.2 _ hn).mpr hseen
    rw [if_pos hbit]
    simp only [if_true]
    have hsame : bits = f.multipleSections := by
      rcases hf with ⟨_, hs0⟩ | hb
      · rw [hs0] at hseen; exact absurd hseen (List.not_mem_nil _)
      · have : f.multipleSections.length ≠ 0 := by rw [hb.1]; omega
        rw [if_neg this] at hB
        exact hB.symm
    refine ⟨Or.inr (bitmapRecords_mem bits seen last _ hbits hseen), trivial, ?_, ?_⟩
    · simp [hseen]
    · intro _
      rw [hsame]
  · -- new section number
    have hbit : ¬ bits.getD s.sectionNumber false = true := fun h => hseen ((hbits.2 _ hn).mp h)
    rw [if_neg hbit]
    have hset := bitmapRecords_set bits seen last s.sectionNumber hbits hn
    have hcount := bitmapRecords_count _ _ last hset
    simp only [Bool.true_eq_false, if_false]
    by_cases hc : (bits.set s.sectionNumber true).count false = 0
    · rw [if_pos hc]
      refine ⟨Or.inr hset, rfl, ?_, fun h => absurd h hseen⟩
      simp only [List.mem_cons, List.mem_singleton, true_or, or_true, true_iff]
      exact ⟨hseen, hcount.mp hc⟩
    · rw [if_neg hc]
      refine ⟨Or.inr hset, rfl, ?_, fun h => absurd h hseen⟩
      constructor
      · intro hmem
        rcases List.mem_singleton.mp hmem with h1
        exact absurd h1 (hcall f.pid)
      · intro ⟨_, hall⟩
        exact absurd (hcount.mpr hall) hc

theorem processSectionList_records :
    ∀ (pre : List ScanSection) (f : DvbScanFilter) (seen : List Nat) (last : Nat),
      FilterRecords f seen last → (∀ x ∈ pre, x.goodFor f.type last) →
      FilterRecords (f.processSectionList pre).1 (seen ++ pre.map (·.sectionNumber)) last ∧
        (f.processSectionList pre).1.type = f.type := by
  intro pre
  induction pre with
  | nil =>
    intro f seen last hf _
    simpa [DvbScanFilter.processSectionList] using hf
  | cons x xs ih =>
    intro f seen last hf hgood
    have hx := hgood x (List.mem_cons_self _ _)
    obtain ⟨h1, h2, _, _⟩ := processSection_step f seen last x hf hx
    have hrec := ih (f.processSection x).1 (seen ++ [x.sectionNumber]) last h1
      (fun y hy => by rw [h2]; exact hgood y (List.mem_cons_of_mem _ hy))
    simp only [DvbScanFilter.processSectionList, List.map_cons]
    rw [List.append_assoc, List.singleton_append, h2] at hrec
    exact hrec

/-- C6: a freshly started scan filter is given valid sections of its table
that all carry the same last section number `last` and section numbers in
`[0, last]` (no timeout). While processing the section `s` that follows the
sections `pre`, the filter calls `filterFinished` if and only if the number of
`s` was not seen in `pre` and, with it, every index in `[0, last]` has been
seen; and a section whose number was already seen changes nothing: the filter
state is unchanged and no call is made on the scan (it is not counted again). -/
theorem scanFilter_completion (pid : Int) (type : FilterType) (last : Nat)
    (pre : List ScanSection) (s : ScanSection)
    (hpre : ∀ x ∈ pre, x.goodFor type last) (hs : s.goodFor type last) :
    (ScanCall.filterFinished ∈
        (((DvbScanFilter.started pid type).processSectionList pre).1.processSection s).2 ↔
      s.sectionNumber ∉ pre.map (·.sectionNumber) ∧
        ∀ k, k ≤ last → k ∈ (pre ++ [s]).map (·.sectionNumber)) ∧
      (s.sectionNumber ∈ pre.map (·.sectionNumber) →
        ((DvbScanFilter.started pid type).processSectionList pre).1.processSection s =
          (((DvbScanFilter.started pid type).processSectionList pre).1, [])) := by
  obtain ⟨hrec, htype⟩ := processSectionList_records pre (DvbScanFilter.started pid type) [] last
    (Or.inl ⟨rfl, rfl⟩) hpre
  rw [List.nil_append] at hrec
  have hs2 : s.goodFor ((DvbScanFilter.started pid type).processSectionList pre).1.type last := by
    rw [htype]; exact hs
  obtain ⟨_, _, h3, h4⟩ := processSection_step _ _ last s hrec hs2
  refine ⟨?_, h4⟩
  rw [h3, List.map_append, List.map_cons, List.map_nil]

theorem scanFilter_completion_witness :
    (∀ x ∈ [(⟨true, 0x42, true, 1, 1⟩ : ScanSection), ⟨true, 0x42, true, 1, 1⟩],
        x.goodFor FilterType.SdtFilter 1) ∧
      (⟨true, 0x42, true, 0, 1⟩ : ScanSection).goodFor FilterType.SdtFilter 1 ∧
      (ScanCall.filterFinished ∈
        (((DvbScanFilter.started 0x11 FilterType.SdtFilter).processSectionList
          [⟨true, 0x42, true, 1, 1⟩, ⟨true, 0x42, true, 1, 1⟩]).1.processSection
            ⟨true, 0x42, true, 0, 1⟩).2 ↔
        (0 : Nat) ∉ [1, 1] ∧ ∀ k, k ≤ 1 → k ∈ [1, 1, 0]) ∧
      ((0 : Nat) ∈ [1, 1] →
        ((DvbScanFilter.started 0x11 FilterType.SdtFilter).processSectionList
          [⟨true, 0x42, true, 1, 1⟩, ⟨true, 0x42, true, 1, 1⟩]).1.processSection
            ⟨true, 0x42, true, 0, 1⟩ =
        (((DvbScanFilter.started 0x11 FilterType.SdtFilter).processSectionList
          [⟨true, 0x42, true, 1, 1⟩, ⟨true, 0x42, true, 1, 1⟩]).1, [])) :=
  ⟨by decide, by decide,
    scanFilter_completion 0x11 FilterType.SdtFilter 1
      [⟨true, 0x42, true, 1, 1⟩, ⟨true, 0x42, true, 1, 1⟩] ⟨true, 0x42, true, 0, 1⟩
      (by decide) (by decide)⟩

/-! ## Theorems: device tuning -/

@[simp] theorem call_backendCalls (dev : DvbDevice) (c : BackendCall) :
    (dev.call c).backendCalls = dev.backendCalls ++ [c] := rfl

theorem setDeviceState_eq (dev : DvbDevice) (s : DeviceState) :
    dev.setDeviceState s =
      { dev with deviceState := s,
                 stateChanges := if dev.deviceState ≠ s then dev.stateChanges ++ [s]
                                 else dev.stateChanges } := by
  unfold DvbDevice.setDeviceState
  by_cases h : dev.deviceState = s
  · simp [h]
    subst h
    rfl
  · simp [h]

/-- What `discardBuffers` leaves alone: everything but the buffer lists. -/
theorem discardBuffers_eq (dev : DvbDevice) :
    ∃ b u, dev.discardBuffers = { dev with buffers := b, unusedBuffersHead := u } := by
  obtain ⟨ds, cfg, ft, fa, ia, at1, caps, fs, sfs, dd, cu, bufs, unused, used, tail, bc, sc⟩ := dev
  unfold DvbDevice.discardBuffers
  cases used with
  | none => exact ⟨bufs, unused, rfl⟩
  | some head =>
    simp only []
    cases (bufs[head]?).bind (fun b => b.next) with
    | none => exact ⟨_, unused, rfl⟩
    | some n => exact ⟨_, _, rfl⟩

/-- C7: for every transponder whose transmission type is neither DVB-S nor
DVB-S2, every device state and configuration and every answer of the backend,
`tune` issues exactly one backend command, the tune command with the
transponder unchanged; so it issues no setTone, setVoltage, sendMessage or
sendBurst command. -/
theorem tune_nonSatellite_only_tune_command (dev : DvbDevice) (transponder : DvbTransponder)
    (be : BackendAnswers) (hS : transponder.transmissionType ≠ .DvbS)
    (hS2 : transponder.transmissionType ≠ .DvbS2) :
    (dev.tune transponder be).backendCalls = dev.backendCalls ++ [.tune transponder] := by
  unfold DvbDevice.tune
  rw [if_pos ⟨hS, hS2⟩]
  unfold DvbDevice.tuneResult
  cases be.tune
  · simp [setDeviceState_eq]
  · simp only [if_true]
    obtain ⟨b, u, h⟩ := discardBuffers_eq
      { (dev.call (BackendCall.tune transponder)).setDeviceState DeviceState.DeviceTuning with
        frontendTimeout := (dev.call (BackendCall.tune transponder)).config.timeout,
        frontendTimerActive := true }
    rw [h]
    simp [setDeviceState_eq]

theorem tune_nonSatellite_only_tune_command_witness :
    (DvbTransponder.plain .DvbC 346000).transmissionType ≠ .DvbS ∧
      (DvbTransponder.plain .DvbC 346000).transmissionType ≠ .DvbS2 ∧
      ((DvbDevice.init (DvbConfigBase.plain 1500)).tune (DvbTransponder.plain .DvbC 346000)
          (BackendAnswers.accepting ⟨true, true, true, true⟩)).backendCalls =
        (DvbDevice.init (DvbConfigBase.plain 1500)).backendCalls ++
          [.tune (DvbTransponder.plain .DvbC 346000)] :=
  ⟨by decide, by decide,
    tune_nonSatellite_only_tune_command (DvbDevice.init (DvbConfigBase.plain 1500))
      (DvbTransponder.plain .DvbC 346000) (BackendAnswers.accepting ⟨true, true, true, true⟩)
      (by decide) (by decide)⟩

theorem nextFecRate_spec (x : FecRate) :
    ((nextFecRate x).2 = false ∧ fecPosition (nextFecRate x).1 = fecPosition x + 1) ∨
      ((nextFecRate x).2 = true ∧ fecPosition (nextFecRate x).1 = 0 ∧ fecPosition x = 4) := by
  cases x <;> decide

theorem nextGuardInterval_spec (x : GuardInterval) :
    ((nextGuardInterval x).2 = false ∧
        guardIntervalPosition (nextGuardInterval x).1 = guardIntervalPosition x + 1) ∨
      ((nextGuardInterval x).2 = true ∧ guardIntervalPosition (nextGuardInterval x).1 = 0 ∧
        guardIntervalPosition x = 3) := by
  cases x <;> decide

theorem nextModulation_spec (x : Modulation) :
    ((nextModulation x).2 = false ∧
        modulationPosition (nextModulation x).1 = modulationPosition x + 1) ∨
      ((nextModulation x).2 = true ∧ modulationPosition (nextModulation x).1 = 0 ∧
        modulationPosition x = 2) := by
  cases x <;> decide

theorem nextTransmissionMode_spec (x : TransmissionMode) :
    ((nextTransmissionMode x).2 = false ∧
        transmissionModePosition (nextTransmissionMode x).1 = transmissionModePosition x + 1) ∨
      ((nextTransmissionMode x).2 = true ∧
        transmissionModePosition (nextTransmissionMode x).1 = 0 ∧
        transmissionModePosition x = 1) := by
  cases x <;> decide

theorem cycleFecRate_skip (caps : Capabilities) (s : DvbTransponder × Bool) (h : s.2 = false) :
    cycleFecRate caps s = s := by
  unfold cycleFecRate; rw [if_neg (by rw [h]; simp)]

theorem cycleGuardInterval_skip (caps : Capabilities) (s : DvbTransponder × Bool)
    (h : s.2 = false) : cycleGuardInterval caps s = s := by
  unfold cycleGuardInterval; rw [if_neg (by rw [h]; simp)]

theorem cycleModulation_skip (caps : Capabilities) (s : DvbTransponder × Bool)
    (h : s.2 = false) : cycleModulation caps s = s := by
  unfold cycleModulation; rw [if_neg (by rw [h]; simp)]

theorem cycleTransmissionMode_skip (caps : Capabilities) (s : DvbTransponder × Bool)
    (h : s.2 = false) : cycleTransmissionMode caps s = s := by
  unfold cycleTransmissionMode; rw [if_neg (by rw [h]; simp)]

theorem cycleFecRate_go (caps : Capabilities) (s : DvbTransponder × Bool) (h : s.2 = true) :
    (cycleFecRate caps s).1.transmissionType = s.1.transmissionType ∧
      (cycleFecRate caps s).1.guardInterval = s.1.guardInterval ∧
      (cycleFecRate caps s).1.modulation = s.1.modulation ∧
      (cycleFecRate caps s).1.transmissionMode = s.1.transmissionMode ∧
      (((cycleFecRate caps s).2 = false ∧
          cycleDigit caps.dvbTFecAuto (fecPosition (cycleFecRate caps s).1.fecRateHigh) =
            cycleDigit caps.dvbTFecAuto (fecPosition s.1.fecRateHigh) + 1) ∨
        ((cycleFecRate caps s).2 = true ∧
          cycleDigit caps.dvbTFecAuto (fecPosition (cycleFecRate caps s).1.fecRateHigh) = 0 ∧
          cycleDigit caps.dvbTFecAuto (fecPosition s.1.fecRateHigh) + 1 =
            cycleLength caps.dvbTFecAuto 5)) := by
  unfold cycleFecRate cycleDigit cycleLength
  cases hc : caps.dvbTFecAuto
  · rw [if_pos ⟨h, rfl⟩]
    refine ⟨rfl, rfl, rfl, rfl, ?_⟩
    rcases nextFecRate_spec s.1.fecRateHigh with ⟨f1, f2⟩ | ⟨f1, f2, f3⟩
    · left; exact ⟨f1, by simpa using f2⟩
    · right; exact ⟨f1, by simpa using f2, by simpa using f3⟩
  · rw [if_neg (by simp)]
    exact ⟨rfl, rfl, rfl, rfl, Or.inr ⟨h, by simp, by simp⟩⟩

theorem cycleGuardInterval_go (caps : Capabilities) (s : DvbTransponder × Bool)
    (h : s.2 = true) :
    (cycleGuardInterval caps s).1.transmissionType = s.1.transmissionType ∧
      (cycleGuardInterval caps s).1.fecRateHigh = s.1.fecRateHigh ∧
      (cycleGuardInterval caps s).1.modulation = s.1.modulation ∧
      (cycleGuardInterval caps s).1.transmissionMode = s.1.transmissionMode ∧
      (((cycleGuardInterval caps s).2 = false ∧
          cycleDigit caps.dvbTGuardIntervalAuto
              (guardIntervalPosition (cycleGuardInterval caps s).1.guardInterval) =
            cycleDigit caps.dvbTGuardIntervalAuto (guardIntervalPosition s.1.guardInterval) + 1) ∨
        ((cycleGuardInterval caps s).2 = true ∧
          cycleDigit caps.dvbTGuardIntervalAuto
              (guardIntervalPosition (cycleGuardInterval caps s).1.guardInterval) = 0 ∧
          cycleDigit caps.dvbTGuardIntervalAuto (guardIntervalPosition s.1.guardInterval) + 1 =
            cycleLength caps.dvbTGuardIntervalAuto 4)) := by
  unfold cycleGuardInterval cycleDigit cycleLength
  cases hc : caps.dvbTGuardIntervalAuto
  · rw [if_pos ⟨h, rfl⟩]
    refine ⟨rfl, rfl, rfl, rfl, ?_⟩
    rcases nextGuardInterval_spec s.1.guardInterval with ⟨f1, f2⟩ | ⟨f1, f2, f3⟩
    · left; exact ⟨f1, by simpa using f2⟩
    · right; exact ⟨f1, by simpa using f2, by simpa using f3⟩
  · rw [if_neg (by simp)]
    exact ⟨rfl, rfl, rfl, rfl, Or.inr ⟨h, by simp, by simp⟩⟩

theorem cycleModulation_go (caps : Capabilities) (s : DvbTransponder × Bool) (h : s.2 = true) :
    (cycleModulation caps s).1.transmissionType = s.1.transmissionType ∧
      (cycleModulation caps s).1.fecRateHigh = s.1.fecRateHigh ∧
      (cycleModulation caps s).1.guardInterval = s.1.guardInterval ∧
      (cycleModulation caps s).1.transmissionMode = s.1.transmissionMode ∧
      (((cycleModulation caps s).2 = false ∧
          cycleDigit caps.dvbTModulationAuto
              (modulationPosition (cycleModulation caps s).1.modulation) =
            cycleDigit caps.dvbTModulationAuto (modulationPosition s.1.modulation) + 1) ∨
        ((cycleModulation caps s).2 = true ∧
          cycleDigit caps.dvbTModulationAuto
              (modulationPosition (cycleModulation caps s).1.modulation) = 0 ∧
          cycleDigit caps.dvbTModulationAuto (modulationPosition s.1.modulation) + 1 =
            cycleLength caps.dvbTModulationAuto 3)) := by
  unfold cycleModulation cycleDigit cycleLength
  cases hc : caps.dvbTModulationAuto
  · rw [if_pos ⟨h, rfl⟩]
    refine ⟨rfl, rfl, rfl, rfl, ?_⟩
    rcases nextModulation_spec s.1.modulation with ⟨f1, f2⟩ | ⟨f1, f2, f3⟩
    · left; exact ⟨f1, by simpa using f2⟩
    · right; exact ⟨f1, by simpa using f2, by simpa using f3⟩
  · rw [if_neg (by simp)]
    exact ⟨rfl, rfl, rfl, rfl, Or.inr ⟨h, by simp, by simp⟩⟩

theorem cycleTransmissionMode_go (caps : Capabilities) (s : DvbTransponder × Bool)
    (h : s.2 = true) :
    (cycleTransmissionMode caps s).1.transmissionType = s.1.transmissionType ∧
      (cycleTransmissionMode caps s).1.fecRateHigh = s.1.fecRateHigh ∧
      (cycleTransmissionMode caps s).1.guardInterval = s.1.guardInterval ∧
      (cycleTransmissionMode caps s).1.modulation = s.1.modulation ∧
      (((cycleTransmissionMode caps s).2 = false ∧
          cycleDigit caps.dvbTTransmissionModeAuto
              (transmissionModePosition (cycleTransmissionMode caps s).1.transmissionMode) =
            cycleDigit caps.dvbTTransmissionModeAuto
              (transmissionModePosition s.1.transmissionMode) + 1) ∨
        ((cycleTransmissionMode caps s).2 = true ∧
          cycleDigit caps.dvbTTransmissionModeAuto
              (transmissionModePosition (cycleTransmissionMode caps s).1.transmissionMode) = 0 ∧
          cycleDigit caps.dvbTTransmissionModeAuto
              (transmissionModePosition s.1.transmissionMode) + 1 =
            cycleLength caps.dvbTTransmissionModeAuto 2)) := by
  unfold cycleTransmissionMode cycleDigit cycleLength
  cases hc : caps.dvbTTransmissionModeAuto
  · rw [if_pos ⟨h, rfl⟩]
    refine ⟨rfl, rfl, rfl, rfl, ?_⟩
    rcases nextTransmissionMode_spec s.1.transmissionMode with ⟨f1, f2⟩ | ⟨f1, f2, f3⟩
    · left; exact ⟨f1, by simpa using f2⟩
    · right; exact ⟨f1, by simpa using f2, by simpa using f3⟩
  · rw [if_neg (by simp)]
    exact ⟨rfl, rfl, rfl, rfl, Or.inr ⟨h, by simp, by simp⟩⟩

theorem cycleAutoTransponder_type (caps : Capabilities) (t : DvbTransponder) :
    (cycleAutoTransponder caps t).1.transmissionType = t.transmissionType := by
  unfold cycleAutoTransponder cycleTransmissionMode cycleModulation cycleGuardInterval
    cycleFecRate
  split_ifs <;> rfl

/-- One step of the parameter cycle is one step of an odometer: either the
carry is cleared and the rank of the auto transponder grows by one, or the
carry stays set, the rank was the last one and the transponder is back at the
first combination. -/
theorem cycleAutoTransponder_rank (caps : Capabilities) (t : DvbTransponder) :
    ((cycleAutoTransponder caps t).2 = false ∧
        cycleRank caps (cycleAutoTransponder caps t).1 = cycleRank caps t + 1) ∨
      ((cycleAutoTransponder caps t).2 = true ∧
        cycleRank caps t + 1 = cycleProduct caps ∧
        cycleRank caps (cycleAutoTransponder caps t).1 = 0) := by
  unfold cycleAutoTransponder
  obtain ⟨_, p2, p3, p4, h1⟩ := cycleFecRate_go caps (t, true) rfl
  dsimp only at p2 p3 p4 h1
  rcases h1 with ⟨c1, e1⟩ | ⟨c1, e1, r1⟩
  · rw [cycleGuardInterval_skip _ _ c1, cycleModulation_skip _ _ c1,
      cycleTransmissionMode_skip _ _ c1]
    left
    refine ⟨c1, ?_⟩
    unfold cycleRank
    rw [e1, p2, p3, p4]
    ring
  · obtain ⟨_, q1, q3, q4, h2⟩ := cycleGuardInterval_go caps _ c1
    rw [p3] at q3
    rw [p4] at q4
    rw [p2] at h2
    rcases h2 with ⟨c2, e2⟩ | ⟨c2, e2, r2⟩
    · rw [cycleModulation_skip _ _ c2, cycleTransmissionMode_skip _ _ c2]
      left
      refine ⟨c2, ?_⟩
      unfold cycleRank
      rw [q1, e1, e2, q3, q4, ← r1]
      ring
    · obtain ⟨_, u1, u2, u4, h3⟩ := cycleModulation_go caps _ c2
      rw [q1] at u1
      rw [q4] at u4
      rw [q3] at h3
      rcases h3 with ⟨c3, e3⟩ | ⟨c3, e3, r3⟩
      · rw [cycleTransmissionMode_skip _ _ c3]
        left
        refine ⟨c3, ?_⟩
        unfold cycleRank
        rw [u1, u2, e1, e2, e3, u4, ← r1, ← r2]
        ring
      · obtain ⟨_, v1, v2, v3, h4⟩ := cycleTransmissionMode_go caps _ c3
        rw [u1] at v1
        rw [u2] at v2
        rw [u4] at h4
        rcases h4 with ⟨c4, e4⟩ | ⟨c4, e4, r4⟩
        · left
          refine ⟨c4, ?_⟩
          unfold cycleRank
          rw [v1, v2, v3, e1, e2, e3, e4, ← r1, ← r2, ← r3]
          ring
        · right
          refine ⟨c4, ?_, ?_⟩
          · unfold cycleRank cycleProduct
            rw [← r1, ← r2, ← r3, ← r4]
            ring
          · unfold cycleRank
            rw [v1, v2, v3, e1, e2, e3, e4]
            ring

theorem tuneCalls_append_tune (calls : List BackendCall) (t : DvbTransponder) :
    tuneCalls (calls ++ [.tune t]) = tuneCalls calls + 1 := by
  simp [tuneCalls, List.countP_append]

/-- An accepted tune of a transponder that is neither DVB-S nor DVB-S2. -/
theorem tune_nonSatellite_accepted (dev : DvbDevice) (t : DvbTransponder) (be : BackendAnswers)
    (hS : t.transmissionType ≠ .DvbS) (hS2 : t.transmissionType ≠ .DvbS2)
    (hacc : be.tune = true) :
    ∃ b u sc, dev.tune t be =
      { dev with deviceState := .DeviceTuning, stateChanges := sc,
                 frontendTimeout := dev.config.timeout, frontendTimerActive := true,
                 backendCalls := dev.backendCalls ++ [.tune t],
                 buffers := b, unusedBuffersHead := u } := by
  unfold DvbDevice.tune
  rw [if_pos ⟨hS, hS2⟩]
  unfold DvbDevice.tuneResult
  rw [hacc]
  simp only [if_true]
  obtain ⟨b, u, h⟩ := discardBuffers_eq
    { (dev.call (BackendCall.tune t)).setDeviceState DeviceState.DeviceTuning with
      frontendTimeout := (dev.call (BackendCall.tune t)).config.timeout,
      frontendTimerActive := true }
  rw [h]
  exact ⟨b, u, _, by simp [setDeviceState_eq, DvbDevice.call]; rfl⟩

theorem cycleRank_lt_cycleProduct (caps : Capabilities) (t : DvbTransponder) :
    cycleRank caps t < cycleProduct caps := by
  have h1 : fecPosition t.fecRateHigh ≤ 4 := by cases t.fecRateHigh <;> decide
  have h2 : guardIntervalPosition t.guardInterval ≤ 3 := by cases t.guardInterval <;> decide
  have h3 : modulationPosition t.modulation ≤ 2 := by cases t.modulation <;> decide
  have h4 : transmissionModePosition t.transmissionMode ≤ 1 := by
    cases t.transmissionMode <;> decide
  obtain ⟨a, b, c, d⟩ := caps
  unfold cycleRank cycleProduct cycleDigit cycleLength
  cases a <;> cases b <;> cases c <;> cases d <;>
    simp only [Bool.true_eq_false, if_true, if_false] <;> omega

theorem cycleProduct_le (caps : Capabilities) : cycleProduct caps ≤ 120 := by
  obtain ⟨a, b, c, d⟩ := caps
  cases a <;> cases b <;> cases c <;> cases d <;> decide

theorem cycleProduct_pos (caps : Capabilities) : 0 < cycleProduct caps := by
  obtain ⟨a, b, c, d⟩ := caps
  cases a <;> cases b <;> cases c <;> cases d <;> decide

theorem pollsUntilTimeout_pos (x : Int) : 0 < pollsUntilTimeout x := by
  unfold pollsUntilTimeout
  split
  · exact Nat.one_pos
  · next h =>
    have h2 : 1 ≤ (x + 99) / 100 := by omega
    have h3 := Int.toNat_of_nonneg (show 0 ≤ (x + 99) / 100 by omega)
    omega

theorem pollsUntilTimeout_sub (x : Int) (h : 100 < x) :
    pollsUntilTimeout (x - 100) + 1 = pollsUntilTimeout x := by
  have hx : pollsUntilTimeout x = ((x + 99) / 100).toNat := by
    unfold pollsUntilTimeout
    rw [if_neg (by omega)]
  rw [hx]
  unfold pollsUntilTimeout
  split
  · have h2 : (x + 99) / 100 = 2 := by omega
    rw [h2]
    rfl
  · have h1 : (x + 99) / 100 = (x - 100 + 99) / 100 + 1 := by omega
    have h2 : 0 ≤ (x - 100 + 99) / 100 := by omega
    rw [h1, Int.toNat_add h2 (by norm_num)]
    rfl
theorem pollAll_of_timer_stopped (bes : List BackendAnswers) (dev : DvbDevice)
    (h : dev.frontendTimerActive = false) : dev.pollAll bes = dev := by
  induction bes with
  | nil => rfl
  | cons be rest ih =>
    simp only [DvbDevice.pollAll, DvbDevice.poll, h]
    exact ih

/-- The three outcomes of `frontendEvent` in auto mode when the backend is not
tuned and reports no weak signal. -/
theorem frontendEvent_auto (dev : DvbDevice) (be : BackendAnswers)
    (hTuned : be.isTuned = false) (hAuto : dev.isAuto = true)
    (hSignal : ¬ (be.getSignal ≠ -1 ∧ be.getSignal < 15)) :
    dev.frontendEvent be =
      if dev.frontendTimeout - 100 ≤ 0 then
        if (cycleAutoTransponder dev.capabilities dev.autoTransponder).2 = false then
          DvbDevice.tune
            { dev with frontendTimeout := dev.frontendTimeout - 100, frontendTimerActive := false,
                       autoTransponder :=
                        (cycleAutoTransponder dev.capabilities dev.autoTransponder).1 }
            (cycleAutoTransponder dev.capabilities dev.autoTransponder).1 be
        else
          DvbDevice.setDeviceState
            { dev with frontendTimeout := dev.frontendTimeout - 100, frontendTimerActive := false,
                       autoTransponder :=
                        (cycleAutoTransponder dev.capabilities dev.autoTransponder).1 }
            .DeviceIdle
      else { dev with frontendTimeout := dev.frontendTimeout - 100 } := by
  unfold DvbDevice.frontendEvent
  rw [hTuned]
  simp only [Bool.false_eq_true, if_false, hAuto, Bool.true_eq_false]
  rw [if_neg hSignal]

/-- One poll during auto-tune with a backend that never tunes: either the
device is still auto-tuning and one poll less remains, or this was the last
poll and auto-tune has given up after exactly `cycleProduct` tune commands. -/
theorem poll_autoTuning (dev : DvbDevice) (caps : Capabilities) (timeout : Int) (base : Nat)
    (be : BackendAnswers) (h : AutoTuning dev caps timeout base) (hbe : be.neverTunes) :
    (AutoTuning (dev.poll be) caps timeout base ∧
        pollsRemaining (dev.poll be) caps timeout + 1 = pollsRemaining dev caps timeout) ∨
      (AutoTuneFailed (dev.poll be) (base + cycleProduct caps) ∧
        pollsRemaining dev caps timeout = 1) := by
  obtain ⟨hTimer, hAuto, hCaps, hCfg, hType, hState, hCalls⟩ := h
  obtain ⟨hTune, hTuned, hSignal⟩ := hbe
  subst hCaps
  have hCaps : dev.capabilities = dev.capabilities := rfl
  unfold DvbDevice.poll
  rw [hTimer]
  simp only [if_true]
  rw [frontendEvent_auto dev be hTuned hAuto hSignal]
  by_cases hto : dev.frontendTimeout - 100 ≤ 0
  · -- timeout
    rw [if_pos hto]
    have hp1 : pollsUntilTimeout dev.frontendTimeout = 1 := by
      unfold pollsUntilTimeout
      rw [if_pos (by omega)]
    have hty := cycleAutoTransponder_type dev.capabilities dev.autoTransponder
    rcases cycleAutoTransponder_rank dev.capabilities dev.autoTransponder with ⟨c, hr⟩ | ⟨c, hr, _⟩
    · -- retune with the next combination
      left
      rw [if_pos c]
      have hS : (cycleAutoTransponder dev.capabilities dev.autoTransponder).1.transmissionType ≠
          TransmissionType.DvbS := by rw [hty, hType]; decide
      have hS2 : (cycleAutoTransponder dev.capabilities dev.autoTransponder).1.transmissionType ≠
          TransmissionType.DvbS2 := by rw [hty, hType]; decide
      obtain ⟨b, u, sc, ht⟩ := tune_nonSatellite_accepted
        { dev with frontendTimeout := dev.frontendTimeout - 100, frontendTimerActive := false,
                   autoTransponder := (cycleAutoTransponder dev.capabilities dev.autoTransponder).1 }
        (cycleAutoTransponder dev.capabilities dev.autoTransponder).1 be hS hS2 hTune
      rw [ht]
      have hlt := cycleRank_lt_cycleProduct dev.capabilities (cycleAutoTransponder dev.capabilities dev.autoTransponder).1
      refine ⟨⟨rfl, hAuto, hCaps, hCfg, by rw [← hType]; exact hty, rfl, ?_⟩, ?_⟩
      · show tuneCalls (dev.backendCalls ++ _) = _
        rw [tuneCalls_append_tune, hCalls, hr]
        omega
      · unfold pollsRemaining
        show (cycleProduct dev.capabilities - 1 - cycleRank dev.capabilities (cycleAutoTransponder dev.capabilities dev.autoTransponder).1) *
            pollsUntilTimeout timeout + pollsUntilTimeout dev.config.timeout + 1 = _
        rw [hp1, hCfg]
        have ha : cycleProduct dev.capabilities - 1 - cycleRank dev.capabilities dev.autoTransponder =
            (cycleProduct dev.capabilities - 1 -
              cycleRank dev.capabilities (cycleAutoTransponder dev.capabilities dev.autoTransponder).1) + 1 := by omega
        rw [ha, Nat.add_mul, Nat.one_mul]
    · -- the cycle is exhausted
      right
      rw [if_neg (by rw [c]; simp)]
      refine ⟨⟨?_, ?_, ?_⟩, ?_⟩
      · rw [setDeviceState_eq]
      · rw [setDeviceState_eq]
      · rw [setDeviceState_eq]
        show tuneCalls dev.backendCalls = _
        rw [hCalls, ← hr]
        omega
      · unfold pollsRemaining
        rw [hp1]
        have ha : cycleProduct dev.capabilities - 1 - cycleRank dev.capabilities dev.autoTransponder = 0 := by omega
        rw [ha, Nat.zero_mul]
  · -- no timeout yet
    left
    rw [if_neg hto]
    refine ⟨⟨hTimer, hAuto, hCaps, hCfg, hType, hState, hCalls⟩, ?_⟩
    unfold pollsRemaining
    show _ + pollsUntilTimeout (dev.frontendTimeout - 100) + 1 = _
    rw [Nat.add_assoc, pollsUntilTimeout_sub dev.frontendTimeout (by omega)]

theorem pollAll_autoTuning (caps : Capabilities) (timeout : Int) (base : Nat) :
    ∀ (bes : List BackendAnswers) (dev : DvbDevice), AutoTuning dev caps timeout base →
      (∀ be ∈ bes, be.neverTunes) →
      tuneCalls (dev.pollAll bes).backendCalls ≤ base + cycleProduct caps ∧
        (pollsRemaining dev caps timeout ≤ bes.length →
          AutoTuneFailed (dev.pollAll bes) (base + cycleProduct caps)) := by
  intro bes
  induction bes with
  | nil =>
    intro dev h _
    have hlt := cycleRank_lt_cycleProduct caps dev.autoTransponder
    refine ⟨?_, ?_⟩
    · show tuneCalls dev.backendCalls ≤ _
      rw [h.2.2.2.2.2.2]
      omega
    · intro hle
      have := pollsUntilTimeout_pos dev.frontendTimeout
      unfold pollsRemaining at hle
      simp only [List.length_nil] at hle
      omega
  | cons be rest ih =>
    intro dev h hbes
    have hbe := hbes be (List.mem_cons_self _ _)
    have hrest : ∀ x ∈ rest, x.neverTunes := fun x hx => hbes x (List.mem_cons_of_mem _ hx)
    simp only [DvbDevice.pollAll, List.length_cons]
    rcases poll_autoTuning dev caps timeout base be h hbe with ⟨h2, hrem⟩ | ⟨h2, hrem⟩
    · obtain ⟨i1, i2⟩ := ih (dev.poll be) h2 hrest
      exact ⟨i1, fun hle => i2 (by omega)⟩
    · rw [pollAll_of_timer_stopped rest _ h2.1]
      exact ⟨by rw [h2.2.2], fun _ => h2⟩

theorem substituteDefaults_type (caps : Capabilities) (t : DvbTransponder) :
    (substituteDefaults caps t).transmissionType = t.transmissionType := by
  unfold substituteDefaults
  simp only []
  split_ifs <;> rfl

theorem substituteDefaults_rank (caps : Capabilities) (t : DvbTransponder) :
    cycleRank caps (substituteDefaults caps t) = 0 := by
  obtain ⟨a, b, c, d⟩ := caps
  cases a <;> cases b <;> cases c <;> cases d <;>
    simp [substituteDefaults, cycleRank, cycleDigit, cycleLength, fecPosition,
      guardIntervalPosition, modulationPosition, transmissionModePosition]

/-- After an accepted `autoTune` of a DVB-T transponder the device is
auto-tuning with the first combination of candidate values. -/
theorem autoTune_autoTuning (dev : DvbDevice) (t : DvbTransponder) (be0 : BackendAnswers)
    (ht : t.transmissionType = .DvbT) (h0 : be0.tune = true) :
    AutoTuning (dev.autoTune t be0) be0.getCapabilities dev.config.timeout
        (tuneCalls dev.backendCalls) ∧
      pollsRemaining (dev.autoTune t be0) be0.getCapabilities dev.config.timeout =
        cycleProduct be0.getCapabilities * pollsUntilTimeout dev.config.timeout := by
  unfold DvbDevice.autoTune
  rw [if_neg (by rw [ht]; simp)]
  simp only []
  have hty := substituteDefaults_type be0.getCapabilities t
  have hS : (substituteDefaults be0.getCapabilities t).transmissionType ≠ TransmissionType.DvbS := by
    rw [hty, ht]; decide
  have hS2 : (substituteDefaults be0.getCapabilities t).transmissionType ≠
      TransmissionType.DvbS2 := by rw [hty, ht]; decide
  obtain ⟨b, u, sc, h⟩ := tune_nonSatellite_accepted
    { dev with isAuto := true, autoTransponder := substituteDefaults be0.getCapabilities t,
               capabilities := be0.getCapabilities }
    (substituteDefaults be0.getCapabilities t) be0 hS hS2 h0
  rw [h]
  have hrank := substituteDefaults_rank be0.getCapabilities t
  have hpos := cycleProduct_pos be0.getCapabilities
  refine ⟨⟨rfl, rfl, rfl, rfl, by rw [← ht]; exact hty, rfl, ?_⟩, ?_⟩
  · show tuneCalls (dev.backendCalls ++ _) = _
    rw [tuneCalls_append_tune]
    show _ = _ + cycleRank be0.getCapabilities (substituteDefaults be0.getCapabilities t) + 1
    rw [hrank]
  · unfold pollsRemaining
    show (cycleProduct be0.getCapabilities - 1 -
        cycleRank be0.getCapabilities (substituteDefaults be0.getCapabilities t)) *
          pollsUntilTimeout dev.config.timeout + pollsUntilTimeout dev.config.timeout = _
    rw [hrank, Nat.sub_zero]
    have hp : cycleProduct be0.getCapabilities = (cycleProduct be0.getCapabilities - 1) + 1 := by
      omega
    conv => rhs; rw [hp]
    rw [Nat.add_mul, Nat.one_mul]

/-- C8: the auto-tune fallback is bounded. For every capability set and every
DVB-T transponder, if `autoTune` is accepted and afterwards the backend accepts
every tune command, never reports tuned and never reports a weak signal, then
after any number of polls the number of tune commands issued since `autoTune`
was called is at most the product of the candidate-cycle lengths of the
unsupported automatic parameters (5, 4, 3, 2, so at most 120); and once
`cycleProduct * pollsUntilTimeout timeout` polls have passed the device is
Idle, the polling timer is stopped and exactly that product of tune commands
has been issued, however many more polls follow. -/
theorem autoTune_retunes_bounded (dev : DvbDevice) (t : DvbTransponder) (be0 : BackendAnswers)
    (bes : List BackendAnswers) (ht : t.transmissionType = .DvbT) (h0 : be0.tune = true)
    (hbes : ∀ be ∈ bes, be.neverTunes) :
    tuneCalls ((dev.autoTune t be0).pollAll bes).backendCalls ≤
        tuneCalls dev.backendCalls + cycleProduct be0.getCapabilities ∧
      cycleProduct be0.getCapabilities ≤ 120 ∧
      (cycleProduct be0.getCapabilities * pollsUntilTimeout dev.config.timeout ≤ bes.length →
        ((dev.autoTune t be0).pollAll bes).deviceState = .DeviceIdle ∧
          ((dev.autoTune t be0).pollAll bes).frontendTimerActive = false ∧
          tuneCalls ((dev.autoTune t be0).pollAll bes).backendCalls =
            tuneCalls dev.backendCalls + cycleProduct be0.getCapabilities) := by
  obtain ⟨hinv, hrem⟩ := autoTune_autoTuning dev t be0 ht h0
  obtain ⟨h1, h2⟩ := pollAll_autoTuning be0.getCapabilities dev.config.timeout
    (tuneCalls dev.backendCalls) bes _ hinv hbes
  refine ⟨h1, cycleProduct_le _, ?_⟩
  intro hle
  rw [hrem] at h2
  obtain ⟨f1, f2, f3⟩ := h2 hle
  exact ⟨f2, f1, f3⟩

theorem autoTune_retunes_bounded_witness :
    (DvbTransponder.plain .DvbT 506000).transmissionType = .DvbT ∧
      (BackendAnswers.accepting ⟨false, true, true, false⟩).tune = true ∧
      (∀ be ∈ List.replicate 20 (BackendAnswers.accepting ⟨false, true, true, false⟩),
        be.neverTunes) ∧
      tuneCalls (((DvbDevice.init (DvbConfigBase.plain 150)).autoTune
          (DvbTransponder.plain .DvbT 506000)
          (BackendAnswers.accepting ⟨false, true, true, false⟩)).pollAll
            (List.replicate 20 (BackendAnswers.accepting ⟨false, true, true, false⟩))).backendCalls ≤
        tuneCalls (DvbDevice.init (DvbConfigBase.plain 150)).backendCalls +
          cycleProduct (BackendAnswers.accepting ⟨false, true, true, false⟩).getCapabilities ∧
      cycleProduct (BackendAnswers.accepting ⟨false, true, true, false⟩).getCapabilities ≤ 120 ∧
      (cycleProduct (BackendAnswers.accepting ⟨false, true, true, false⟩).getCapabilities *
          pollsUntilTimeout (DvbDevice.init (DvbConfigBase.plain 150)).config.timeout ≤
            (List.replicate 20 (BackendAnswers.accepting ⟨false, true, true, false⟩)).length →
        (((DvbDevice.init (DvbConfigBase.plain 150)).autoTune
          (DvbTransponder.plain .DvbT 506000)
          (BackendAnswers.accepting ⟨false, true, true, false⟩)).pollAll
            (List.replicate 20
              (BackendAnswers.accepting ⟨false, true, true, false⟩))).deviceState =
            .DeviceIdle ∧
          (((DvbDevice.init (DvbConfigBase.plain 150)).autoTune
          (DvbTransponder.plain .DvbT 506000)
          (BackendAnswers.accepting ⟨false, true, true, false⟩)).pollAll
            (List.replicate 20
              (BackendAnswers.accepting ⟨false, true, true, false⟩))).frontendTimerActive =
            false ∧
          tuneCalls (((DvbDevice.init (DvbConfigBase.plain 150)).autoTune
          (DvbTransponder.plain .DvbT 506000)
          (BackendAnswers.accepting ⟨false, true, true, false⟩)).pollAll
            (List.replicate 20
              (BackendAnswers.accepting ⟨false, true, true, false⟩))).backendCalls =
            tuneCalls (DvbDevice.init (DvbConfigBase.plain 150)).backendCalls +
              cycleProduct (BackendAnswers.accepting ⟨false, true, true, false⟩).getCapabilities) :=
  ⟨rfl, rfl, by decide,
    autoTune_retunes_bounded (DvbDevice.init (DvbConfigBase.plain 150))
      (DvbTransponder.plain .DvbT 506000) (BackendAnswers.accepting ⟨false, true, true, false⟩)
      (List.replicate 20 (BackendAnswers.accepting ⟨false, true, true, false⟩)) rfl rfl
      (by decide)⟩

/-! ## Theorems: PID filters -/

theorem qmapFind_nil {α : Type} (k : Int) : qmapFind ([] : List (Int × α)) k = none := rfl

theorem qmapFind_cons {α : Type} (k0 : Int) (x : α) (rest : List (Int × α)) (k : Int) :
    qmapFind ((k0, x) :: rest) k = if k0 = k then some x else qmapFind rest k := by
  unfold qmapFind
  rw [List.find?_cons]
  by_cases h : k0 = k
  · simp [h]
  · have h2 : (k0 == k) = false := by simpa using h
    rw [if_neg h]
    simp only [h2]

theorem qmapFind_qmapInsert {α : Type} (m : List (Int × α)) (key : Int) (value : α)
    (k : Int) :
    qmapFind (qmapInsert m key value) k = if k = key then some value else qmapFind m k := by
  induction m with
  | nil =>
    unfold qmapInsert
    rw [qmapFind_cons, qmapFind_nil]
    by_cases h : k = key
    · rw [if_pos h.symm, if_pos h]
    · rw [if_neg (fun e => h e.symm), if_neg h]
  | cons e rest ih =>
    obtain ⟨k0, x⟩ := e
    unfold qmapInsert
    by_cases h1 : key < k0
    · rw [if_pos h1, qmapFind_cons]
      by_cases h : k = key
      · rw [if_pos h.symm, if_pos h]
      · rw [if_neg (fun e => h e.symm), if_neg h]
    · rw [if_neg h1]
      by_cases h2 : key = k0
      · rw [if_pos h2, qmapFind_cons, qmapFind_cons]
        by_cases h : k = key
        · rw [if_pos h.symm, if_pos h]
        · rw [if_neg (fun e => h e.symm), if_neg h, if_neg (fun e => h (by rw [h2, e]))]
      · rw [if_neg h2, qmapFind_cons, qmapFind_cons, ih]
        by_cases h : k = key
        · rw [if_pos h, if_neg (fun e => h2 (by rw [e, h])), if_pos h]
        · rw [if_neg h, if_neg h]

theorem filterList_of_find (dev : DvbDevice) (pid : Int) (e : DvbFilterInternal)
    (h : qmapFind dev.filters pid = some e) : dev.filterList pid = e.filters := by
  unfold DvbDevice.filterList; rw [h]; rfl

theorem activeCount_of_find (dev : DvbDevice) (pid : Int) (e : DvbFilterInternal)
    (h : qmapFind dev.filters pid = some e) : dev.activeCount pid = e.activeFilters := by
  unfold DvbDevice.activeCount; rw [h]; rfl

theorem filterList_of_not_found (dev : DvbDevice) (pid : Int)
    (h : qmapFind dev.filters pid = none) : dev.filterList pid = [] := by
  unfold DvbDevice.filterList; rw [h]; rfl

theorem activeCount_of_not_found (dev : DvbDevice) (pid : Int)
    (h : qmapFind dev.filters pid = none) : dev.activeCount pid = 0 := by
  unfold DvbDevice.activeCount; rw [h]; rfl

/-- The filter list an `addPidFilter` call works on: the list of the PID, or
the list of a fresh entry. -/
theorem addPidFilter_spec (dev : DvbDevice) (pid : Int) (filter : PidFilter)
    (be : BackendAnswers) (hacc : be.addPidFilter = true) :
    ∃ l : List PidFilter, realCount l = realCount (dev.filterList pid) ∧
      (dev.addPidFilter pid filter be).2 = true ∧
      (dev.addPidFilter pid filter be).1.backendCalls =
        dev.backendCalls ++ (if dev.activeCount pid = 0 then [.addPidFilter pid] else []) ∧
      (∀ p, p ≠ pid →
        (dev.addPidFilter pid filter be).1.filterList p = dev.filterList p ∧
        (dev.addPidFilter pid filter be).1.activeCount p = dev.activeCount p) ∧
      ((filter ∈ l ∧ realCount ((dev.addPidFilter pid filter be).1.filterList pid) = realCount l ∧
          (dev.addPidFilter pid filter be).1.activeCount pid = dev.activeCount pid) ∨
        (filter ∉ l ∧ (dev.addPidFilter pid filter be).1.filterList pid = l ++ [filter] ∧
          (dev.addPidFilter pid filter be).1.activeCount pid = dev.activeCount pid + 1)) := by
  unfold DvbDevice.addPidFilter
  cases hfind : qmapFind dev.filters pid with
  | none =>
    have hc := activeCount_of_not_found dev pid hfind
    have hl := filterList_of_not_found dev pid hfind
    refine ⟨dev.newFilterEntry.filters, ?_, ?_⟩
    · rw [hl]
      unfold DvbDevice.newFilterEntry realCount
      cases dev.dataDumper <;> rfl
    · simp only [Option.getD_none, Option.isNone_none, if_true]
      have hz : dev.newFilterEntry.activeFilters = 0 := rfl
      rw [hc]
      simp only [hz, if_true, hacc, Bool.true_eq_false, and_false, if_false]
      by_cases hmem : filter ∈ dev.newFilterEntry.filters
      · rw [if_pos hmem]
        refine ⟨rfl, rfl, ?_, Or.inl ⟨hmem, ?_, ?_⟩⟩
        · intro p hp
          simp only [DvbDevice.filterList, DvbDevice.activeCount, DvbDevice.call,
            qmapFind_qmapInsert, if_neg hp]
          exact ⟨trivial, trivial⟩
        · simp only [DvbDevice.filterList, DvbDevice.call, qmapFind_qmapInsert, if_true]
          rfl
        · simp only [DvbDevice.activeCount, DvbDevice.call, qmapFind_qmapInsert, if_true]
          rfl
      · rw [if_neg hmem]
        refine ⟨rfl, rfl, ?_, Or.inr ⟨hmem, ?_, ?_⟩⟩
        · intro p hp
          simp only [DvbDevice.filterList, DvbDevice.activeCount, DvbDevice.call,
            qmapFind_qmapInsert, if_neg hp]
          exact ⟨trivial, trivial⟩
        · simp only [DvbDevice.filterList, DvbDevice.call, qmapFind_qmapInsert, if_true]
          rfl
        · simp only [DvbDevice.activeCount, DvbDevice.call, qmapFind_qmapInsert, if_true]
          rfl
  | some e =>
    have hc := activeCount_of_find dev pid e hfind
    have hl := filterList_of_find dev pid e hfind
    refine ⟨e.filters, by rw [hl], ?_⟩
    simp only [Option.getD_some, Option.isNone_some, Bool.false_eq_true, if_false]
    rw [hc]
    simp only [hacc, Bool.true_eq_false, and_false, if_false]
    by_cases hmem : filter ∈ e.filters
    · rw [if_pos hmem]
      refine ⟨rfl, ?_, ?_, Or.inl ⟨hmem, ?_, ?_⟩⟩
      · split
        · rfl
        · exact (List.append_nil _).symm
      · intro p _
        split <;> exact ⟨rfl, rfl⟩
      · have : (if e.activeFilters = 0 then dev.call (.addPidFilter pid) else dev).filterList pid =
            dev.filterList pid := by split <;> rfl
        rw [this, hl]
      · have : (if e.activeFilters = 0 then dev.call (.addPidFilter pid) else dev).activeCount pid =
            dev.activeCount pid := by split <;> rfl
        rw [this, hc]
    · rw [if_neg hmem]
      have hfs : (if e.activeFilters = 0 then dev.call (.addPidFilter pid) else dev).filters =
          dev.filters := by split <;> rfl
      refine ⟨rfl, ?_, ?_, Or.inr ⟨hmem, ?_, ?_⟩⟩
      · show (if e.activeFilters = 0 then dev.call (.addPidFilter pid) else dev).backendCalls = _
        split <;> simp [DvbDevice.call]
      · intro p hp
        simp only [DvbDevice.filterList, DvbDevice.activeCount, qmapFind_qmapInsert, if_neg hp,
          hfs]
        exact ⟨trivial, trivial⟩
      · simp only [DvbDevice.filterList, qmapFind_qmapInsert, if_true]
        rfl
      · simp only [DvbDevice.activeCount, qmapFind_qmapInsert, if_true]
        rfl

theorem removePidFilter_not_registered (dev : DvbDevice) (pid : Int) (filter : PidFilter)
    (h : filter ∉ dev.filterList pid) : dev.removePidFilter pid filter = dev := by
  unfold DvbDevice.removePidFilter
  cases hfind : qmapFind dev.filters pid with
  | none => rfl
  | some e =>
    rw [filterList_of_find dev pid e hfind] at h
    simp only [if_neg h]

theorem removePidFilter_eq (dev : DvbDevice) (pid : Int) (filter : PidFilter)
    (e : DvbFilterInternal) (hfind : qmapFind dev.filters pid = some e)
    (h : filter ∈ e.filters) :
    dev.removePidFilter pid filter =
      { dev with
        filters := qmapInsert dev.filters pid
          { filters := e.filters.set (e.filters.indexOf filter) .dummyPidFilter,
            activeFilters := e.activeFilters - 1 },
        backendCalls :=
          dev.backendCalls ++ (if e.activeFilters - 1 = 0 then [.removePidFilter pid] else []),
        cleanUpFilters := true } := by
  unfold DvbDevice.removePidFilter
  rw [hfind]
  simp only [if_pos h]
  by_cases hz : e.activeFilters - 1 = 0
  · rw [if_pos hz, if_pos hz]
    rfl
  · rw [if_neg hz, if_neg hz, List.append_nil]

theorem removePidFilter_registered (dev : DvbDevice) (pid : Int) (filter : PidFilter)
    (h : filter ∈ dev.filterList pid) :
    (dev.removePidFilter pid filter).filterList pid =
        (dev.filterList pid).set ((dev.filterList pid).indexOf filter) .dummyPidFilter ∧
      (dev.removePidFilter pid filter).activeCount pid = dev.activeCount pid - 1 ∧
      (dev.removePidFilter pid filter).backendCalls =
        dev.backendCalls ++
          (if dev.activeCount pid - 1 = 0 then [.removePidFilter pid] else []) ∧
      (dev.removePidFilter pid filter).cleanUpFilters = true ∧
      (∀ p, p ≠ pid →
        (dev.removePidFilter pid filter).filterList p = dev.filterList p ∧
        (dev.removePidFilter pid filter).activeCount p = dev.activeCount p) := by
  cases hfind : qmapFind dev.filters pid with
  | none =>
    rw [filterList_of_not_found dev pid hfind] at h
    exact absurd h (List.not_mem_nil _)
  | some e =>
    have hl := filterList_of_find dev pid e hfind
    have hc := activeCount_of_find dev pid e hfind
    rw [hl] at h
    rw [removePidFilter_eq dev pid filter e hfind h, hl, hc]
    refine ⟨?_, ?_, rfl, rfl, ?_⟩
    · simp only [DvbDevice.filterList, qmapFind_qmapInsert, if_true]
      rfl
    · simp only [DvbDevice.activeCount, qmapFind_qmapInsert, if_true]
      rfl
    · intro p hp
      simp only [DvbDevice.filterList, DvbDevice.activeCount, qmapFind_qmapInsert, if_neg hp]
      exact ⟨trivial, trivial⟩

theorem realCount_append_real (l : List PidFilter) (f : PidFilter) (hf : f.isReal = true) :
    realCount (l ++ [f]) = realCount l + 1 := by
  unfold realCount
  rw [List.countP_append]
  simp [List.countP_cons, hf]

theorem realCount_pos_of_mem (l : List PidFilter) (f : PidFilter) (hf : f.isReal = true)
    (h : f ∈ l) : 0 < realCount l := by
  unfold realCount
  exact List.countP_pos_iff.mpr ⟨f, h, hf⟩

theorem realCount_set_dummy (l : List PidFilter) (f : PidFilter) (hf : f.isReal = true)
    (h : f ∈ l) :
    realCount (l.set (l.indexOf f) .dummyPidFilter) + 1 = realCount l := by
  induction l with
  | nil => exact absurd h (List.not_mem_nil _)
  | cons x xs ih =>
    by_cases hx : x = f
    · subst hx
      have : (x :: xs).indexOf x = 0 := by simp [List.indexOf_cons]
      rw [this]
      simp only [List.set_cons_zero, realCount, List.countP_cons, hf]
      have hd : PidFilter.isReal PidFilter.dummyPidFilter = false := rfl
      rw [hd]
      simp
    · have hmem : f ∈ xs := by
        rcases List.mem_cons.mp h with h1 | h1
        · exact absurd h1.symm hx
        · exact h1
      have hidx : (x :: xs).indexOf f = xs.indexOf f + 1 := by
        rw [List.indexOf_cons]
        have : (x == f) = false := by simpa using hx
        simp [this]
      rw [hidx, List.set_cons_succ]
      have := ih hmem
      unfold realCount at this ⊢
      rw [List.countP_cons, List.countP_cons]
      omega

theorem pidCommands_append (a b : List BackendCall) (pid : Int) :
    pidCommands (a ++ b) pid = pidCommands a pid ++ pidCommands b pid := by
  unfold pidCommands
  rw [List.filterMap_append]

theorem alternatingStartStop_succ (n : Nat) :
    alternatingStartStop (n + 1) = alternatingStartStop n ++ [decide (n % 2 = 0)] := by
  unfold alternatingStartStop
  rw [List.range_succ, List.map_append]
  rfl

theorem alternatingStartStop_last (n : Nat) :
    (alternatingStartStop n).getLast?.getD false = decide (n % 2 = 1) := by
  cases n with
  | zero => rfl
  | succ n =>
    rw [alternatingStartStop_succ, List.getLast?_append]
    simp only [List.getLast?_singleton, Option.or_some, Option.getD_some]
    by_cases h : n % 2 = 0
    · have h2 : (n + 1) % 2 = 1 := by omega
      simp [h, h2]
    · have h2 : ¬ (n + 1) % 2 = 1 := by omega
      simp [h, h2]

/-- The fresh filter table satisfies the invariant. -/
theorem pidInvariant_fresh (dev : DvbDevice) (hf : dev.filters = []) (hc : dev.backendCalls = [])
    (pid : Int) : PidInvariant dev pid := by
  unfold PidInvariant DvbDevice.activeCount DvbDevice.filterList
  rw [hf, hc]
  exact ⟨rfl, 0, rfl, by simp [qmapFind]⟩

theorem pidCommands_nil (pid : Int) : pidCommands [] pid = [] := rfl

theorem pidCommands_single_add (q pid : Int) :
    pidCommands [BackendCall.addPidFilter q] pid = if q = pid then [true] else [] := by
  unfold pidCommands
  by_cases h : q = pid <;> simp [h]

theorem pidCommands_single_remove (q pid : Int) :
    pidCommands [BackendCall.removePidFilter q] pid = if q = pid then [false] else [] := by
  unfold pidCommands
  by_cases h : q = pid <;> simp [h]

/-- Adding a real filter on an accepting backend keeps the invariant. -/
theorem addPidFilter_invariant (dev : DvbDevice) (pid : Int) (filter : PidFilter)
    (be : BackendAnswers) (hacc : be.addPidFilter = true) (hreal : filter.isReal = true)
    (hinv : ∀ p, PidInvariant dev p) : ∀ p, PidInvariant (dev.addPidFilter pid filter be).1 p := by
  obtain ⟨l, hl, _, hcalls, hother, hself⟩ := addPidFilter_spec dev pid filter be hacc
  intro p
  obtain ⟨hcount, n, htrace, hpar⟩ := hinv p
  by_cases hp : p = pid
  · subst hp
    have hnonneg : (0 : Int) ≤ dev.activeCount p := by rw [hcount]; exact Int.natCast_nonneg _
    unfold PidInvariant
    rw [hcalls, pidCommands_append]
    by_cases hz : dev.activeCount p = 0
    · -- the PID had no active filter: the start command is issued
      rw [if_pos hz, pidCommands_single_add, if_pos rfl, htrace]
      have hl0 : realCount l = 0 := by
        rw [hl]
        have := hcount
        rw [hz] at this
        exact_mod_cast this.symm
      have hnotmem : filter ∉ l := fun hm => by
        have := realCount_pos_of_mem l filter hreal hm
        omega
      rcases hself with ⟨hm, _, _⟩ | ⟨_, hlist, hact⟩
      · exact absurd hm hnotmem
      · rw [hlist, hact, realCount_append_real l filter hreal, hl0, hz]
        refine ⟨rfl, n + 1, ?_, ?_⟩
        · have hn : n % 2 = 0 := by
            have := hpar
            rw [hz] at this
            have h2 : ¬ n % 2 = 1 := fun h => absurd (this.mp h) (by decide)
            omega
          rw [alternatingStartStop_succ, hn]
          rfl
        · have hn : ¬ n % 2 = 1 := fun h => by
            have := hpar.mp h
            rw [hz] at this
            exact absurd this (by decide)
          constructor
          · intro _; decide
          · intro _; omega
    · -- the PID has active filters: no command
      rw [if_neg hz, pidCommands_nil, List.append_nil]
      have hpos : 0 < dev.activeCount p := by omega
      rcases hself with ⟨_, hlist, hact⟩ | ⟨_, hlist, hact⟩
      · rw [hlist, hact, hl]
        exact ⟨hcount, n, htrace, hpar⟩
      · rw [hlist, hact, realCount_append_real l filter hreal, hl]
        refine ⟨by rw [hcount]; push_cast; rfl, n, htrace, ?_⟩
        constructor
        · intro _; omega
        · intro _; exact hpar.mpr hpos
  · obtain ⟨h1, h2⟩ := hother p hp
    unfold PidInvariant
    rw [h1, h2, hcalls, pidCommands_append]
    have : pidCommands (if dev.activeCount pid = 0 then [BackendCall.addPidFilter pid] else []) p =
        [] := by
      split
      · rw [pidCommands_single_add, if_neg (fun e => hp e.symm)]
      · rfl
    rw [this, List.append_nil]
    exact ⟨hcount, n, htrace, hpar⟩

/-- Removing a real filter keeps the invariant. -/
theorem removePidFilter_invariant (dev : DvbDevice) (pid : Int) (filter : PidFilter)
    (hreal : filter.isReal = true) (hinv : ∀ p, PidInvariant dev p) :
    ∀ p, PidInvariant (dev.removePidFilter pid filter) p := by
  by_cases hmem : filter ∈ dev.filterList pid
  · obtain ⟨hlist, hact, hcalls, _, hother⟩ := removePidFilter_registered dev pid filter hmem
    intro p
    obtain ⟨hcount, n, htrace, hpar⟩ := hinv p
    by_cases hp : p = pid
    · subst hp
      have hset := realCount_set_dummy (dev.filterList p) filter hreal hmem
      have hpos := realCount_pos_of_mem (dev.filterList p) filter hreal hmem
      have hapos : 0 < dev.activeCount p := by rw [hcount]; exact_mod_cast hpos
      unfold PidInvariant
      rw [hlist, hact, hcalls, pidCommands_append]
      refine ⟨by rw [hcount]; omega, ?_⟩
      by_cases hz : dev.activeCount p - 1 = 0
      · rw [if_pos hz, pidCommands_single_remove, if_pos rfl, htrace, hz]
        have hn : n % 2 = 1 := hpar.mpr hapos
        refine ⟨n + 1, ?_, ?_⟩
        · rw [alternatingStartStop_succ]
          have : ¬ n % 2 = 0 := by omega
          simp [this]
        · constructor
          · intro h; omega
          · intro h; exact absurd h (by decide)
      · rw [if_neg hz, pidCommands_nil, List.append_nil]
        refine ⟨n, htrace, ?_⟩
        constructor
        · intro _; omega
        · intro _; exact hpar.mpr hapos
    · obtain ⟨h1, h2⟩ := hother p hp
      unfold PidInvariant
      rw [h1, h2, hcalls, pidCommands_append]
      have : pidCommands
          (if dev.activeCount pid - 1 = 0 then [BackendCall.removePidFilter pid] else []) p =
            [] := by
        split
        · rw [pidCommands_single_remove, if_neg (fun e => hp e.symm)]
        · rfl
      rw [this, List.append_nil]
      exact ⟨hcount, n, htrace, hpar⟩
  · rw [removePidFilter_not_registered dev pid filter hmem]
    exact hinv

theorem applyOps_invariant (be : BackendAnswers) (hacc : be.addPidFilter = true) :
    ∀ (ops : List PidFilterOp) (dev : DvbDevice), (∀ op ∈ ops, op.filter.isReal = true) →
      (∀ p, PidInvariant dev p) → ∀ p, PidInvariant (dev.applyOps be ops) p := by
  intro ops
  induction ops with
  | nil => intro dev _ hinv; exact hinv
  | cons op rest ih =>
    intro dev hreal hinv
    have hop := hreal op (List.mem_cons_self _ _)
    have hrest : ∀ x ∈ rest, x.filter.isReal = true :=
      fun x hx => hreal x (List.mem_cons_of_mem _ hx)
    simp only [DvbDevice.applyOps]
    apply ih _ hrest
    cases op with
    | add pid filter => exact addPidFilter_invariant dev pid filter be hacc hop hinv
    | remove pid filter => exact removePidFilter_invariant dev pid filter hop hinv

theorem count_set_indexOf (l : List PidFilter) (f d g : PidFilter) (h : f ∈ l) (hd : g ≠ d) :
    (l.set (l.indexOf f) d).count g + (if g = f then 1 else 0) = l.count g := by
  induction l with
  | nil => exact absurd h (List.not_mem_nil _)
  | cons x xs ih =>
    by_cases hx : x = f
    · subst hx
      have : (x :: xs).indexOf x = 0 := by simp [List.indexOf_cons]
      rw [this, List.set_cons_zero, List.count_cons, List.count_cons]
      have hd2 : ¬ (d == g) = true := by simpa using fun e => hd e.symm
      rw [if_neg hd2]
      by_cases hg : g = x
      · subst hg
        simp
      · have hg2 : ¬ (x == g) = true := by simpa using fun e => hg e.symm
        rw [if_neg hg, if_neg hg2]
    · have hmem : f ∈ xs := by
        rcases List.mem_cons.mp h with h1 | h1
        · exact absurd h1.symm hx
        · exact h1
      have hidx : (x :: xs).indexOf f = xs.indexOf f + 1 := by
        rw [List.indexOf_cons]
        have : (x == f) = false := by simpa using hx
        simp [this]
      rw [hidx, List.set_cons_succ, List.count_cons, List.count_cons]
      have := ih hmem
      omega

theorem addPidFilter_counts (dev : DvbDevice) (pid : Int) (filter : PidFilter)
    (be : BackendAnswers) (hacc : be.addPidFilter = true) (hreal : filter.isReal = true) :
    (dev.addPidFilter pid filter be).1.backendCalls =
        dev.backendCalls ++ (if dev.activeCount pid = 0 then [.addPidFilter pid] else []) ∧
      (∀ p, p ≠ pid →
        (dev.addPidFilter pid filter be).1.filterList p = dev.filterList p ∧
        (dev.addPidFilter pid filter be).1.activeCount p = dev.activeCount p) ∧
      (∀ f, f.isReal = true →
        ((dev.addPidFilter pid filter be).1.filterList pid).count f =
          (dev.filterList pid).count f +
            (if f = filter ∧ filter ∉ dev.filterList pid then 1 else 0)) ∧
      (dev.addPidFilter pid filter be).1.activeCount pid =
        dev.activeCount pid + (if filter ∈ dev.filterList pid then 0 else 1) := by
  obtain ⟨l, _, _, hcalls, hother, _⟩ := addPidFilter_spec dev pid filter be hacc
  refine ⟨hcalls, hother, ?_⟩
  unfold DvbDevice.addPidFilter
  cases hfind : qmapFind dev.filters pid with
  | none =>
    have hc := activeCount_of_not_found dev pid hfind
    have hl := filterList_of_not_found dev pid hfind
    simp only [Option.getD_none, Option.isNone_none, if_true]
    have hz : dev.newFilterEntry.activeFilters = 0 := rfl
    have hnew : ∀ f, f.isReal = true → f ∉ dev.newFilterEntry.filters := by
      intro f hf hmem
      unfold DvbDevice.newFilterEntry at hmem
      cases hdd : dev.dataDumper with
      | false => simp [hdd] at hmem
      | true =>
        simp [hdd] at hmem
        rw [hmem] at hf
        exact absurd hf (by decide)
    rw [hc, hl]
    simp only [hz, if_true, hacc, Bool.true_eq_false, and_false, if_false]
    rw [if_neg (hnew filter hreal)]
    constructor
    · intro f hf
      simp only [DvbDevice.filterList, DvbDevice.call, qmapFind_qmapInsert, if_true,
        Option.map_some', Option.getD_some]
      rw [List.count_append, List.count_eq_zero_of_not_mem (hnew f hf)]
      by_cases e : f = filter
      · subst e
        simp
      · have e2 : ¬ (filter == f) = true := by simpa using fun h => e h.symm
        simp [List.count_cons, e, e2]
    · simp only [DvbDevice.activeCount, DvbDevice.call, qmapFind_qmapInsert, if_true,
        Option.map_some', Option.getD_some]
      simp [hz]
  | some e =>
    have hc := activeCount_of_find dev pid e hfind
    have hl := filterList_of_find dev pid e hfind
    simp only [Option.getD_some, Option.isNone_some, Bool.false_eq_true, if_false]
    rw [hc, hl]
    simp only [hacc, Bool.true_eq_false, and_false, if_false]
    by_cases hmem : filter ∈ e.filters
    · rw [if_pos hmem]
      have h1 : (if e.activeFilters = 0 then dev.call (.addPidFilter pid) else dev).filterList pid =
          dev.filterList pid := by split <;> rfl
      have h2 : (if e.activeFilters = 0 then dev.call (.addPidFilter pid) else dev).activeCount pid =
          dev.activeCount pid := by split <;> rfl
      rw [h1, h2, hl, hc]
      simp [hmem]
    · rw [if_neg hmem]
      constructor
      · intro f hf
        simp only [DvbDevice.filterList, qmapFind_qmapInsert, if_true, Option.map_some',
          Option.getD_some]
        rw [List.count_append]
        by_cases e1 : f = filter
        · subst e1
          simp [hmem]
        · have e2 : ¬ (filter == f) = true := by simpa using fun h => e1 h.symm
          simp [List.count_cons, e1, e2]
      · simp only [DvbDevice.activeCount, qmapFind_qmapInsert, if_true, Option.map_some',
          Option.getD_some]
        simp [hmem]
theorem countP_erase_mem {α : Type} [BEq α] [LawfulBEq α] (p : α → Bool) (l : List α) (a : α)
    (h : a ∈ l) : (l.erase a).countP p + (if p a = true then 1 else 0) = l.countP p := by
  induction l with
  | nil => exact absurd h (List.not_mem_nil _)
  | cons x xs ih =>
    by_cases hx : x = a
    · subst hx
      rw [List.erase_cons_head, List.countP_cons]
    · have hmem : a ∈ xs := by
        rcases List.mem_cons.mp h with h1 | h1
        · exact absurd h1.symm hx
        · exact h1
      have hb : ¬ (x == a) = true := by simpa using hx
      rw [List.erase_cons_tail hb, List.countP_cons, List.countP_cons]
      have := ih hmem
      omega

theorem activeFiltersOf_append (reg : List (Int × PidFilter)) (pid q : Int) (f : PidFilter) :
    activeFiltersOf (reg ++ [(q, f)]) pid = activeFiltersOf reg pid + (if q = pid then 1 else 0) := by
  unfold activeFiltersOf
  rw [List.countP_append]
  by_cases h : q = pid <;> simp [List.countP_cons, h]

theorem activeFiltersOf_erase (reg : List (Int × PidFilter)) (pid q : Int) (f : PidFilter)
    (h : (q, f) ∈ reg) :
    activeFiltersOf (reg.erase (q, f)) pid + (if q = pid then 1 else 0) =
      activeFiltersOf reg pid := by
  unfold activeFiltersOf
  have h1 := countP_erase_mem (fun r : Int × PidFilter => decide (r.1 = pid)) reg (q, f) h
  simp only [decide_eq_true_eq] at h1
  exact h1

theorem activeFiltersOf_pos (reg : List (Int × PidFilter)) (pid : Int) (f : PidFilter)
    (h : (pid, f) ∈ reg) : 0 < activeFiltersOf reg pid := by
  unfold activeFiltersOf
  exact List.countP_pos_iff.mpr ⟨(pid, f), h, by simp⟩

theorem registered_fresh (dev : DvbDevice) (hf : dev.filters = []) : Registered dev [] := by
  refine ⟨List.nodup_nil, fun r hr => absurd hr (List.not_mem_nil r), ?_⟩
  intro pid
  unfold DvbDevice.activeCount DvbDevice.filterList
  rw [hf]
  refine ⟨rfl, ?_⟩
  intro f _
  simp [qmapFind]

/-- One call with a real filter on an accepting backend: the device issues the
commands of the contract and agrees with the registrations afterwards. -/
theorem applyOp_registered (dev : DvbDevice) (be : BackendAnswers) (hacc : be.addPidFilter = true)
    (reg : List (Int × PidFilter)) (op : PidFilterOp) (hreal : op.filter.isReal = true)
    (h : Registered dev reg) :
    (dev.applyOp be op).backendCalls = dev.backendCalls ++ contractCommands reg op ∧
      Registered (dev.applyOp be op) (registerOp reg op) := by
  obtain ⟨hnodup, hregreal, hagree⟩ := h
  have hmemiff : ∀ pid f, f.isReal = true → (f ∈ dev.filterList pid ↔ (pid, f) ∈ reg) := by
    intro pid f hf
    have := (hagree pid).2 f hf
    by_cases hm : (pid, f) ∈ reg
    · rw [if_pos hm] at this
      exact ⟨fun _ => hm, fun _ => List.count_pos_iff.mp (by omega)⟩
    · rw [if_neg hm] at this
      exact ⟨fun hin => absurd (List.count_pos_iff.mpr hin) (by omega), fun h => absurd h hm⟩
  cases op with
  | add pid filter =>
    have hreal : filter.isReal = true := hreal
    obtain ⟨hcalls, hother, hcount, hact⟩ := addPidFilter_counts dev pid filter be hacc hreal
    have hzero : dev.activeCount pid = 0 ↔ activeFiltersOf reg pid = 0 := by
      rw [(hagree pid).1]
      omega
    refine ⟨?_, ?_⟩
    · show (dev.addPidFilter pid filter be).1.backendCalls = _
      rw [hcalls]
      show _ = _ ++ (if activeFiltersOf reg pid = 0 then [BackendCall.addPidFilter pid] else [])
      by_cases hz : dev.activeCount pid = 0
      · rw [if_pos hz, if_pos (hzero.mp hz)]
      · rw [if_neg hz, if_neg (fun e => hz (hzero.mpr e))]
    · show Registered (dev.addPidFilter pid filter be).1 (registerOp reg (.add pid filter))
      by_cases hm : (pid, filter) ∈ reg
      · have hreg : registerOp reg (.add pid filter) = reg := by simp [registerOp, hm]
        rw [hreg]
        have hin : filter ∈ dev.filterList pid := (hmemiff pid filter hreal).mpr hm
        refine ⟨hnodup, hregreal, ?_⟩
        intro p
        by_cases hp : p = pid
        · subst hp
          refine ⟨by rw [hact, if_pos hin, (hagree p).1]; omega, ?_⟩
          intro f hf
          rw [hcount f hf, if_neg (fun e => e.2 hin), Nat.add_zero]
          exact (hagree p).2 f hf
        · rw [(hother p hp).1, (hother p hp).2]
          exact hagree p
      · have hreg : registerOp reg (.add pid filter) = reg ++ [(pid, filter)] := by
          simp [registerOp, hm]
        rw [hreg]
        have hnotin : filter ∉ dev.filterList pid := fun e => hm ((hmemiff pid filter hreal).mp e)
        refine ⟨?_, ?_, ?_⟩
        · exact List.nodup_append.mpr ⟨hnodup, List.nodup_singleton _, by
            intro a ha hb
            rw [List.mem_singleton] at hb
            rw [hb] at ha
            exact hm ha⟩
        · intro r hr
          rcases List.mem_append.mp hr with h1 | h1
          · exact hregreal r h1
          · rw [List.mem_singleton] at h1
            rw [h1]
            exact hreal
        · intro p
          by_cases hp : p = pid
          · subst hp
            refine ⟨by rw [hact, if_neg hnotin, (hagree p).1, activeFiltersOf_append]; simp, ?_⟩
            intro f hf
            rw [hcount f hf, (hagree p).2 f hf]
            by_cases e : f = filter
            · subst e
              simp [hm, hnotin]
            · simp [e]
          · rw [(hother p hp).1, (hother p hp).2, activeFiltersOf_append,
              if_neg (fun e => hp e.symm)]
            refine ⟨(hagree p).1, ?_⟩
            intro f hf
            rw [(hagree p).2 f hf]
            have : (p, f) ∈ reg ++ [(pid, filter)] ↔ (p, f) ∈ reg := by
              simp [hp]
            simp only [this]
  | remove pid filter =>
    have hreal : filter.isReal = true := hreal
    show (dev.removePidFilter pid filter).backendCalls = _ ∧
      Registered (dev.removePidFilter pid filter) (reg.erase (pid, filter))
    by_cases hm : (pid, filter) ∈ reg
    · have hin : filter ∈ dev.filterList pid := (hmemiff pid filter hreal).mpr hm
      obtain ⟨hlist, hact, hcalls, _, hother⟩ := removePidFilter_registered dev pid filter hin
      have herase := activeFiltersOf_erase reg pid pid filter hm
      rw [if_pos rfl] at herase
      refine ⟨?_, ?_⟩
      · rw [hcalls]
        show _ = _ ++ (if (pid, filter) ∈ reg ∧
          activeFiltersOf (reg.erase (pid, filter)) pid = 0 then
            [BackendCall.removePidFilter pid] else [])
        have hiff : dev.activeCount pid - 1 = 0 ↔
            activeFiltersOf (reg.erase (pid, filter)) pid = 0 := by
          rw [(hagree pid).1]
          omega
        by_cases hz : dev.activeCount pid - 1 = 0
        · rw [if_pos hz, if_pos ⟨hm, hiff.mp hz⟩]
        · rw [if_neg hz, if_neg (fun e => hz (hiff.mpr e.2))]
      · refine ⟨hnodup.erase _, fun r hr => hregreal r (List.mem_of_mem_erase hr), ?_⟩
        intro p
        by_cases hp : p = pid
        · subst hp
          refine ⟨by rw [hact, (hagree p).1]; omega, ?_⟩
          intro f hf
          rw [hlist]
          have hne : f ≠ PidFilter.dummyPidFilter := by
            intro e
            rw [e] at hf
            exact absurd hf (by decide)
          have hc := count_set_indexOf (dev.filterList p) filter .dummyPidFilter f hin hne
          have hold := (hagree p).2 f hf
          by_cases e : f = filter
          · subst e
            rw [if_pos rfl, hold, if_pos hm] at hc
            rw [if_neg (fun h => (List.Nodup.mem_erase_iff hnodup).mp h |>.1 rfl)]
            omega
          · rw [if_neg e, hold, Nat.add_zero] at hc
            rw [hc]
            have : (p, f) ∈ reg.erase (p, filter) ↔ (p, f) ∈ reg := by
              rw [List.Nodup.mem_erase_iff hnodup]
              constructor
              · exact fun h => h.2
              · exact fun h => ⟨fun h2 => e (Prod.mk.inj h2).2, h⟩
            simp only [this]
        · rw [(hother p hp).1, (hother p hp).2]
          have hcnt := activeFiltersOf_erase reg p pid filter hm
          rw [if_neg (fun e => hp e.symm)] at hcnt
          refine ⟨by rw [(hagree p).1]; omega, ?_⟩
          intro f hf
          rw [(hagree p).2 f hf]
          have : (p, f) ∈ reg.erase (pid, filter) ↔ (p, f) ∈ reg := by
            rw [List.Nodup.mem_erase_iff hnodup]
            constructor
            · exact fun h => h.2
            · exact fun h => ⟨fun h2 => hp (Prod.mk.inj h2).1, h⟩
          simp only [this]
    · have hnotin : filter ∉ dev.filterList pid := fun e => hm ((hmemiff pid filter hreal).mp e)
      rw [removePidFilter_not_registered dev pid filter hnotin, List.erase_of_not_mem hm]
      refine ⟨?_, hnodup, hregreal, hagree⟩
      show _ = _ ++ (if (pid, filter) ∈ reg ∧
        activeFiltersOf (reg.erase (pid, filter)) pid = 0 then
          [BackendCall.removePidFilter pid] else [])
      rw [if_neg (fun e => hm e.1), List.append_nil]

theorem applyOps_registered (be : BackendAnswers) (hacc : be.addPidFilter = true) :
    ∀ (ops : List PidFilterOp) (dev : DvbDevice) (reg : List (Int × PidFilter)),
      (∀ op ∈ ops, op.filter.isReal = true) → Registered dev reg →
      (dev.applyOps be ops).backendCalls = dev.backendCalls ++ contractTrace reg ops ∧
        Registered (dev.applyOps be ops) (ops.foldl registerOp reg) := by
  intro ops
  induction ops with
  | nil =>
    intro dev reg _ h
    exact ⟨(List.append_nil _).symm, h⟩
  | cons op rest ih =>
    intro dev reg hreal h
    obtain ⟨h1, h2⟩ := applyOp_registered dev be hacc reg op (hreal op (List.mem_cons_self _ _)) h
    obtain ⟨h3, h4⟩ := ih (dev.applyOp be op) (registerOp reg op)
      (fun x hx => hreal x (List.mem_cons_of_mem _ hx)) h2
    refine ⟨?_, h4⟩
    show ((dev.applyOp be op).applyOps be rest).backendCalls = _
    rw [h3, h1, List.append_assoc]
    rfl
/-- C9: on a backend that accepts every request, starting from the empty
filter table, for every sequence `ops` of addPidFilter and removePidFilter
calls with real filters. The hardware commands issued are those of the
contract, computed from the calls alone (`contractTrace`, `contractCommands`):
each call that adds a filter while the PID has no active filter issues the
start command for the PID, each call that removes a registered filter and
leaves the PID with no active filter issues the stop command, and no other
command is issued; the same holds of a next call `op`. For every PID the
active count of the device is the number of filters registered for it, the
start and stop commands issued so far alternate strictly, beginning with
start, and the hardware is delivering the PID if and only if its number of
active filters is positive. -/
theorem pidFilter_start_stop (dev : DvbDevice) (be : BackendAnswers) (ops : List PidFilterOp)
    (op : PidFilterOp) (hfresh : dev.filters = []) (hcalls : dev.backendCalls = [])
    (hacc : be.addPidFilter = true) (hreal : ∀ x ∈ ops, x.filter.isReal = true)
    (hop : op.filter.isReal = true) :
    (dev.applyOps be ops).backendCalls = contractTrace [] ops ∧
      ((dev.applyOps be ops).applyOp be op).backendCalls =
        (dev.applyOps be ops).backendCalls ++ contractCommands (registrations ops) op ∧
      ∀ pid,
        (dev.applyOps be ops).activeCount pid = (activeFiltersOf (registrations ops) pid : Int) ∧
        (∃ n, pidCommands (dev.applyOps be ops).backendCalls pid = alternatingStartStop n) ∧
        (hardwareDelivering (dev.applyOps be ops).backendCalls pid = true ↔
          0 < activeFiltersOf (registrations ops) pid) := by
  obtain ⟨htrace, hreg⟩ := applyOps_registered be hacc ops dev [] hreal (registered_fresh dev hfresh)
  rw [hcalls, List.nil_append] at htrace
  refine ⟨htrace, (applyOp_registered _ be hacc _ op hop hreg).1, ?_⟩
  intro pid
  obtain ⟨_, n, hn, hpar⟩ :=
    applyOps_invariant be hacc ops dev hreal (pidInvariant_fresh dev hfresh hcalls) pid
  have hcount : (dev.applyOps be ops).activeCount pid =
      (activeFiltersOf (registrations ops) pid : Int) := (hreg.2.2 pid).1
  refine ⟨hcount, ⟨n, hn⟩, ?_⟩
  unfold hardwareDelivering
  rw [hn, alternatingStartStop_last, ← Int.natCast_pos, ← hcount, ← hpar]
  simp

set_option maxRecDepth 100000 in
theorem pidFilter_start_stop_witness :
    (DvbDevice.init (DvbConfigBase.plain 1500)).filters = [] ∧
      (DvbDevice.init (DvbConfigBase.plain 1500)).backendCalls = [] ∧
      (BackendAnswers.accepting ⟨true, true, true, true⟩).addPidFilter = true ∧
      (∀ x ∈ [PidFilterOp.add 0x11 (.client 1), .add 0x11 (.client 2),
          .remove 0x11 (.client 1)], x.filter.isReal = true) ∧
      (PidFilterOp.remove 0x11 (.client 2)).filter.isReal = true ∧
      ((DvbDevice.init (DvbConfigBase.plain 1500)).applyOps
          (BackendAnswers.accepting ⟨true, true, true, true⟩)
          [.add 0x11 (.client 1), .add 0x11 (.client 2),
            .remove 0x11 (.client 1)]).backendCalls = [.addPidFilter 0x11] ∧
      ((((DvbDevice.init (DvbConfigBase.plain 1500)).applyOps
            (BackendAnswers.accepting ⟨true, true, true, true⟩)
            [.add 0x11 (.client 1), .add 0x11 (.client 2), .remove 0x11 (.client 1)]).applyOp
          (BackendAnswers.accepting ⟨true, true, true, true⟩)
          (.remove 0x11 (.client 2))).backendCalls =
        ((DvbDevice.init (DvbConfigBase.plain 1500)).applyOps
            (BackendAnswers.accepting ⟨true, true, true, true⟩)
            [.add 0x11 (.client 1), .add 0x11 (.client 2),
              .remove 0x11 (.client 1)]).backendCalls ++ [.removePidFilter 0x11]) :=
  ⟨rfl, rfl, rfl, by decide, by decide,
    (pidFilter_start_stop (DvbDevice.init (DvbConfigBase.plain 1500))
      (BackendAnswers.accepting ⟨true, true, true, true⟩)
      [.add 0x11 (.client 1), .add 0x11 (.client 2), .remove 0x11 (.client 1)]
      (.remove 0x11 (.client 2)) rfl rfl rfl (by decide) (by decide)).1.trans (by decide),
    (pidFilter_start_stop (DvbDevice.init (DvbConfigBase.plain 1500))
      (BackendAnswers.accepting ⟨true, true, true, true⟩)
      [.add 0x11 (.client 1), .add 0x11 (.client 2), .remove 0x11 (.client 1)]
      (.remove 0x11 (.client 2)) rfl rfl rfl (by decide) (by decide)).2.1.trans (by decide)⟩

theorem qmapRemove_cons {α : Type} (k0 : Int) (x : α) (rest : List (Int × α)) (key : Int) :
    qmapRemove ((k0, x) :: rest) key =
      if k0 = key then qmapRemove rest key else (k0, x) :: qmapRemove rest key := by
  unfold qmapRemove
  rw [List.filter_cons]
  by_cases h : k0 = key
  · simp [h]
  · simp [h]

theorem qmapRemove_of_not_found {α : Type} (m : List (Int × α)) (key : Int)
    (h : qmapFind m key = none) : qmapRemove m key = m := by
  induction m with
  | nil => rfl
  | cons e rest ih =>
    obtain ⟨k0, x⟩ := e
    rw [qmapFind_cons] at h
    have hk : ¬ k0 = key := fun e => by rw [if_pos e] at h; exact Option.noConfusion h
    rw [if_neg hk] at h
    rw [qmapRemove_cons, if_neg hk, ih h]

theorem qmapRemove_qmapInsert_eq {α : Type} (m : List (Int × α)) (key : Int) (value : α) :
    qmapRemove (qmapInsert m key value) key = qmapRemove m key := by
  induction m with
  | nil =>
    unfold qmapInsert
    rw [qmapRemove_cons, if_pos rfl]
  | cons e rest ih =>
    obtain ⟨k0, x⟩ := e
    unfold qmapInsert
    by_cases h1 : key < k0
    · rw [if_pos h1, qmapRemove_cons, if_pos rfl]
    · rw [if_neg h1]
      by_cases h2 : key = k0
      · rw [if_pos h2, qmapRemove_cons, if_pos rfl, qmapRemove_cons, if_pos h2.symm]
      · rw [if_neg h2, qmapRemove_cons, qmapRemove_cons, ih]

theorem qmapRemove_qmapInsert {α : Type} (m : List (Int × α)) (key : Int) (value : α)
    (h : qmapFind m key = none) : qmapRemove (qmapInsert m key value) key = m := by
  rw [qmapRemove_qmapInsert_eq, qmapRemove_of_not_found m key h]

/-- A rejected `addPidFilter`: the entry of the PID is created if it was
missing, the command is recorded, nothing else changes. -/
theorem addPidFilter_rejected_eq (dev : DvbDevice) (pid : Int) (filter : PidFilter)
    (be : BackendAnswers) (hrej : be.addPidFilter = false) (hzero : dev.activeCount pid = 0) :
    dev.addPidFilter pid filter be =
      ({ dev with
          filters :=
            if (qmapFind dev.filters pid).isNone then
              qmapInsert dev.filters pid dev.newFilterEntry
            else dev.filters,
          backendCalls := dev.backendCalls ++ [.addPidFilter pid] }, false) := by
  unfold DvbDevice.addPidFilter
  cases hfind : qmapFind dev.filters pid with
  | none =>
    have hz : dev.newFilterEntry.activeFilters = 0 := rfl
    simp only [Option.getD_none, Option.isNone_none, if_true, hz, hrej, and_self]
    rfl
  | some e =>
    have hc := activeCount_of_find dev pid e hfind
    rw [hzero] at hc
    simp only [Option.getD_some, Option.isNone_some, Bool.false_eq_true, if_false, ← hc, hrej,
      and_self, if_true]
    rfl

/-- C10: when the backend rejects the hardware request (it is asked because the
PID has no active filter), `addPidFilter` returns false and a real filter that
was not registered is not registered: the filter list of the PID does not
contain it, the active-filter count of the PID stays zero, and no later packet
on that PID is delivered to it. Likewise `addSectionFilter` on a PID without a
reassembler returns false and leaves the table of section-filter registrations
exactly as it was. -/
theorem addFilter_rejected (dev : DvbDevice) (pid : Int) (filter : PidFilter)
    (sectionFilter : SectionFilter) (be : BackendAnswers)
    (hrej : be.addPidFilter = false) (hzero : dev.activeCount pid = 0)
    (hreal : filter.isReal = true) (hnew : filter ∉ dev.filterList pid)
    (hnone : qmapFind dev.sectionFilters pid = none) :
    ((dev.addPidFilter pid filter be).2 = false ∧
        filter ∉ (dev.addPidFilter pid filter be).1.filterList pid ∧
        (dev.addPidFilter pid filter be).1.activeCount pid = 0 ∧
        ∀ packet : List Nat, packetPid packet = pid →
          filter ∉ (dev.addPidFilter pid filter be).1.packetFilters packet) ∧
      ((dev.addSectionFilter pid sectionFilter be).2 = false ∧
        (dev.addSectionFilter pid sectionFilter be).1.sectionFilters = dev.sectionFilters) := by
  have hlist : filter ∉ (dev.addPidFilter pid filter be).1.filterList pid ∧
      (dev.addPidFilter pid filter be).1.activeCount pid = 0 := by
    rw [addPidFilter_rejected_eq dev pid filter be hrej hzero]
    cases hfind : qmapFind dev.filters pid with
    | none =>
      simp only [Option.isNone_none, if_true, DvbDevice.filterList, DvbDevice.activeCount,
        qmapFind_qmapInsert]
      refine ⟨?_, rfl⟩
      unfold DvbDevice.newFilterEntry
      cases dev.dataDumper
      · simp
      · intro hm
        have : filter = PidFilter.dataDumper := by simpa using hm
        rw [this] at hreal
        exact absurd hreal (by decide)
    | some e =>
      simp only [Option.isNone_some, Bool.false_eq_true, if_false]
      exact ⟨hnew, hzero⟩
  refine ⟨⟨?_, hlist.1, hlist.2, ?_⟩, ?_⟩
  · rw [addPidFilter_rejected_eq dev pid filter be hrej hzero]
  · intro packet hp
    unfold DvbDevice.packetFilters
    split
    · exact List.not_mem_nil _
    · rw [hp]
      have h1 := hlist.1
      unfold DvbDevice.filterList at h1
      cases hq : qmapFind (dev.addPidFilter pid filter be).1.filters pid with
      | none => exact List.not_mem_nil _
      | some e =>
        rw [hq] at h1
        exact h1
  · unfold DvbDevice.addSectionFilter
    rw [hnone]
    simp only []
    have h1 := addPidFilter_rejected_eq
      { dev with
        sectionFilters := qmapInsert dev.sectionFilters pid DvbSectionFilterInternal.init }
      pid (PidFilter.sectionFilter pid) be hrej hzero
    rw [h1]
    rw [if_pos rfl]
    exact ⟨rfl, qmapRemove_qmapInsert dev.sectionFilters pid _ hnone⟩

theorem addFilter_rejected_witness :
    ({ BackendAnswers.accepting ⟨true, true, true, true⟩ with
        addPidFilter := false }).addPidFilter = false ∧
      (DvbDevice.init (DvbConfigBase.plain 1500)).activeCount 0x11 = 0 ∧
      (PidFilter.client 7).isReal = true ∧
      PidFilter.client 7 ∉ (DvbDevice.init (DvbConfigBase.plain 1500)).filterList 0x11 ∧
      qmapFind (DvbDevice.init (DvbConfigBase.plain 1500)).sectionFilters 0x11 = none ∧
      ((((DvbDevice.init (DvbConfigBase.plain 1500)).addPidFilter 0x11 (.client 7)
            { BackendAnswers.accepting ⟨true, true, true, true⟩ with
              addPidFilter := false }).2 = false ∧
          PidFilter.client 7 ∉
            ((DvbDevice.init (DvbConfigBase.plain 1500)).addPidFilter 0x11 (.client 7)
              { BackendAnswers.accepting ⟨true, true, true, true⟩ with
                addPidFilter := false }).1.filterList 0x11 ∧
          ((DvbDevice.init (DvbConfigBase.plain 1500)).addPidFilter 0x11 (.client 7)
              { BackendAnswers.accepting ⟨true, true, true, true⟩ with
                addPidFilter := false }).1.activeCount 0x11 = 0 ∧
          ∀ packet : List Nat, packetPid packet = 0x11 →
            PidFilter.client 7 ∉
              ((DvbDevice.init (DvbConfigBase.plain 1500)).addPidFilter 0x11 (.client 7)
                { BackendAnswers.accepting ⟨true, true, true, true⟩ with
                  addPidFilter := false }).1.packetFilters packet) ∧
        (((DvbDevice.init (DvbConfigBase.plain 1500)).addSectionFilter 0x11 (.client 3)
            { BackendAnswers.accepting ⟨true, true, true, true⟩ with
              addPidFilter := false }).2 = false ∧
          ((DvbDevice.init (DvbConfigBase.plain 1500)).addSectionFilter 0x11 (.client 3)
            { BackendAnswers.accepting ⟨true, true, true, true⟩ with
              addPidFilter := false }).1.sectionFilters =
            (DvbDevice.init (DvbConfigBase.plain 1500)).sectionFilters)) :=
  ⟨rfl, rfl, rfl, by decide, rfl,
    addFilter_rejected (DvbDevice.init (DvbConfigBase.plain 1500)) 0x11 (.client 7) (.client 3)
      { BackendAnswers.accepting ⟨true, true, true, true⟩ with addPidFilter := false }
      rfl rfl rfl (by decide) rfl⟩

/-! ### Removal of filters -/

theorem removePidFilter_sectionFilters (dev : DvbDevice) (pid : Int) (filter : PidFilter) :
    (dev.removePidFilter pid filter).sectionFilters = dev.sectionFilters := by
  unfold DvbDevice.removePidFilter
  cases qmapFind dev.filters pid with
  | none => rfl
  | some e =>
    simp only
    split
    · split <;> rfl
    · rfl

theorem removePidFilter_filterList_other (dev : DvbDevice) (pid : Int) (filter : PidFilter)
    (p : Int) (hp : p ≠ pid) :
    (dev.removePidFilter pid filter).filterList p = dev.filterList p := by
  by_cases h : filter ∈ dev.filterList pid
  · exact ((removePidFilter_registered dev pid filter h).2.2.2.2 p hp).1
  · rw [removePidFilter_not_registered dev pid filter h]

theorem sectionFilterList_of_find (dev : DvbDevice) (pid : Int) (e : DvbSectionFilterInternal)
    (h : qmapFind dev.sectionFilters pid = some e) :
    dev.sectionFilterList pid = e.sectionFilters := by
  simp [DvbDevice.sectionFilterList, h]

theorem sectionFilterList_of_not_found (dev : DvbDevice) (pid : Int)
    (h : qmapFind dev.sectionFilters pid = none) : dev.sectionFilterList pid = [] := by
  simp [DvbDevice.sectionFilterList, h]

theorem removeSectionFilter_not_registered (dev : DvbDevice) (pid : Int)
    (filter : SectionFilter) (h : filter ∉ dev.sectionFilterList pid) :
    dev.removeSectionFilter pid filter = dev := by
  unfold DvbDevice.removeSectionFilter
  cases hfind : qmapFind dev.sectionFilters pid with
  | none => rfl
  | some e =>
    rw [sectionFilterList_of_find dev pid e hfind] at h
    simp only [if_neg h]

theorem removeSectionFilter_sectionFilters (dev : DvbDevice) (pid : Int)
    (filter : SectionFilter) (e : DvbSectionFilterInternal)
    (hfind : qmapFind dev.sectionFilters pid = some e) (h : filter ∈ e.sectionFilters) :
    (dev.removeSectionFilter pid filter).sectionFilters =
      qmapInsert dev.sectionFilters pid
        { e with
          sectionFilters :=
            e.sectionFilters.set (e.sectionFilters.indexOf filter) .dummySectionFilter,
          activeSectionFilters := e.activeSectionFilters - 1 } := by
  unfold DvbDevice.removeSectionFilter
  rw [hfind]
  simp only [if_pos h]
  split
  · exact removePidFilter_sectionFilters _ _ _
  · rfl

theorem removeSectionFilter_filterList_other (dev : DvbDevice) (pid : Int)
    (filter : SectionFilter) (p : Int) (hp : p ≠ pid) :
    (dev.removeSectionFilter pid filter).filterList p = dev.filterList p := by
  unfold DvbDevice.removeSectionFilter
  cases hfind : qmapFind dev.sectionFilters pid with
  | none => rfl
  | some e =>
    simp only
    split
    · split
      · exact removePidFilter_filterList_other _ pid _ p hp
      · rfl
    · rfl

/-- Claim C11: removing a registered filter replaces it in place by the
sentinel. For `removePidFilter` the filter list of the PID keeps its length,
every index other than the one of the removed filter keeps its filter, the slot
of the removed filter holds `dummyPidFilter`, and the filter lists of all other
PIDs are unchanged. For `removeSectionFilter` the same holds of the
section-filter list, with `dummySectionFilter` in the slot, and the byte-filter
lists of all other PIDs are unchanged as well. -/
theorem removeFilter_replaces_in_place (dev : DvbDevice) (pid : Int) (filter : PidFilter)
    (sectionFilter : SectionFilter) :
    (filter ∈ dev.filterList pid →
      ((dev.removePidFilter pid filter).filterList pid).length = (dev.filterList pid).length ∧
      (∀ j, j ≠ (dev.filterList pid).indexOf filter →
        ((dev.removePidFilter pid filter).filterList pid)[j]? = (dev.filterList pid)[j]?) ∧
      ((dev.removePidFilter pid filter).filterList pid)[(dev.filterList pid).indexOf filter]? =
        some PidFilter.dummyPidFilter ∧
      (∀ p, p ≠ pid → (dev.removePidFilter pid filter).filterList p = dev.filterList p)) ∧
    (sectionFilter ∈ dev.sectionFilterList pid →
      ((dev.removeSectionFilter pid sectionFilter).sectionFilterList pid).length =
        (dev.sectionFilterList pid).length ∧
      (∀ j, j ≠ (dev.sectionFilterList pid).indexOf sectionFilter →
        ((dev.removeSectionFilter pid sectionFilter).sectionFilterList pid)[j]? =
          (dev.sectionFilterList pid)[j]?) ∧
      ((dev.removeSectionFilter pid sectionFilter).sectionFilterList pid)[
          (dev.sectionFilterList pid).indexOf sectionFilter]? =
        some SectionFilter.dummySectionFilter ∧
      (∀ p, p ≠ pid →
        (dev.removeSectionFilter pid sectionFilter).sectionFilterList p =
            dev.sectionFilterList p ∧
          (dev.removeSectionFilter pid sectionFilter).filterList p = dev.filterList p)) := by
  constructor
  · intro hPid
    obtain ⟨hlist, _, _, _, hother⟩ := removePidFilter_registered dev pid filter hPid
    rw [hlist]
    refine ⟨List.length_set _ _ _, ?_, ?_, fun p hp => (hother p hp).1⟩
    · intro j hj
      exact List.getElem?_set_ne (Ne.symm hj)
    · rw [List.getElem?_set_self (List.indexOf_lt_length.mpr hPid)]
  · intro hSection
    cases hfind : qmapFind dev.sectionFilters pid with
    | none =>
      rw [sectionFilterList_of_not_found dev pid hfind] at hSection
      exact absurd hSection (List.not_mem_nil _)
    | some e =>
      have hl := sectionFilterList_of_find dev pid e hfind
      rw [hl] at hSection
      have hs := removeSectionFilter_sectionFilters dev pid sectionFilter e hfind hSection
      have hlist : (dev.removeSectionFilter pid sectionFilter).sectionFilterList pid =
          e.sectionFilters.set (e.sectionFilters.indexOf sectionFilter)
            SectionFilter.dummySectionFilter := by
        simp only [DvbDevice.sectionFilterList, hs, qmapFind_qmapInsert, if_true]
        rfl
      rw [hlist, hl]
      refine ⟨List.length_set _ _ _, ?_, ?_, ?_⟩
      · intro j hj
        exact List.getElem?_set_ne (Ne.symm hj)
      · rw [List.getElem?_set_self (List.indexOf_lt_length.mpr hSection)]
      · intro p hp
        refine ⟨?_, removeSectionFilter_filterList_other dev pid sectionFilter p hp⟩
        simp only [DvbDevice.sectionFilterList, hs, qmapFind_qmapInsert, if_neg hp]

theorem removeFilter_replaces_in_place_witness :
    (removalExample.removePidFilter 100 (.client 2)).filterList 100 =
        [.client 1, .dummyPidFilter, .client 3, .sectionFilter 100] ∧
      (removalExample.removeSectionFilter 100 (.client 1)).sectionFilterList 100 =
        [.dummySectionFilter, .client 2] ∧
      (((removalExample.removePidFilter 100 (.client 2)).filterList 100).length =
          (removalExample.filterList 100).length ∧
        (∀ j, j ≠ (removalExample.filterList 100).indexOf (PidFilter.client 2) →
          ((removalExample.removePidFilter 100 (.client 2)).filterList 100)[j]? =
            (removalExample.filterList 100)[j]?) ∧
        ((removalExample.removePidFilter 100 (.client 2)).filterList 100)[
            (removalExample.filterList 100).indexOf (PidFilter.client 2)]? =
          some PidFilter.dummyPidFilter ∧
        (∀ p, p ≠ 100 →
          (removalExample.removePidFilter 100 (.client 2)).filterList p =
            removalExample.filterList p)) ∧
      (((removalExample.removeSectionFilter 100 (.client 1)).sectionFilterList 100).length =
          (removalExample.sectionFilterList 100).length ∧
        (∀ j, j ≠ (removalExample.sectionFilterList 100).indexOf (SectionFilter.client 1) →
          ((removalExample.removeSectionFilter 100 (.client 1)).sectionFilterList 100)[j]? =
            (removalExample.sectionFilterList 100)[j]?) ∧
        ((removalExample.removeSectionFilter 100 (.client 1)).sectionFilterList 100)[
            (removalExample.sectionFilterList 100).indexOf (SectionFilter.client 1)]? =
          some SectionFilter.dummySectionFilter ∧
        (∀ p, p ≠ 100 →
          (removalExample.removeSectionFilter 100 (.client 1)).sectionFilterList p =
              removalExample.sectionFilterList p ∧
            (removalExample.removeSectionFilter 100 (.client 1)).filterList p =
              removalExample.filterList p)) :=
  ⟨by decide, by decide,
    (removeFilter_replaces_in_place removalExample 100 (.client 2) (.client 1)).1 (by decide),
    (removeFilter_replaces_in_place removalExample 100 (.client 2) (.client 1)).2 (by decide)⟩

/-- Claim C12: removing a filter that is not registered for the PID (the PID
has no entry, or its list does not hold the filter) leaves the device as it
was, for `removePidFilter` and for `removeSectionFilter`: every filter list and
active count is unchanged, no command reaches the backend and the
deferred-cleanup flag keeps its value. -/
theorem removeFilter_unregistered_noop (dev : DvbDevice) (pid : Int) (filter : PidFilter)
    (sectionFilter : SectionFilter) :
    (filter ∉ dev.filterList pid →
      dev.removePidFilter pid filter = dev ∧
        (∀ p, (dev.removePidFilter pid filter).filterList p = dev.filterList p ∧
          (dev.removePidFilter pid filter).activeCount p = dev.activeCount p ∧
          (dev.removePidFilter pid filter).sectionFilterList p = dev.sectionFilterList p ∧
          (dev.removePidFilter pid filter).activeSectionCount p = dev.activeSectionCount p) ∧
        (dev.removePidFilter pid filter).backendCalls = dev.backendCalls ∧
        (dev.removePidFilter pid filter).cleanUpFilters = dev.cleanUpFilters) ∧
      (sectionFilter ∉ dev.sectionFilterList pid →
        dev.removeSectionFilter pid sectionFilter = dev ∧
          (∀ p, (dev.removeSectionFilter pid sectionFilter).filterList p = dev.filterList p ∧
            (dev.removeSectionFilter pid sectionFilter).activeCount p = dev.activeCount p ∧
            (dev.removeSectionFilter pid sectionFilter).sectionFilterList p =
              dev.sectionFilterList p ∧
            (dev.removeSectionFilter pid sectionFilter).activeSectionCount p =
              dev.activeSectionCount p) ∧
          (dev.removeSectionFilter pid sectionFilter).backendCalls = dev.backendCalls ∧
          (dev.removeSectionFilter pid sectionFilter).cleanUpFilters = dev.cleanUpFilters) := by
  constructor
  · intro hPid
    rw [removePidFilter_not_registered dev pid filter hPid]
    exact ⟨rfl, fun _ => ⟨rfl, rfl, rfl, rfl⟩, rfl, rfl⟩
  · intro hSection
    rw [removeSectionFilter_not_registered dev pid sectionFilter hSection]
    exact ⟨rfl, fun _ => ⟨rfl, rfl, rfl, rfl⟩, rfl, rfl⟩

theorem removeFilter_unregistered_noop_witness :
    removalExample.cleanUpFilters = false ∧
      (removalExample.removePidFilter 300 (.client 2) = removalExample ∧
        removalExample.removeSectionFilter 100 (.client 5) = removalExample ∧
        (removalExample.removePidFilter 999 (.client 1)).backendCalls =
          removalExample.backendCalls) :=
  ⟨by decide,
    ((removeFilter_unregistered_noop removalExample 300 (.client 2) (.client 9)).1
      (by decide)).1,
    ((removeFilter_unregistered_noop removalExample 100 (.client 9) (.client 5)).2
      (by decide)).1,
    ((removeFilter_unregistered_noop removalExample 999 (.client 1) (.client 1)).1
      (by decide)).2.2.1⟩

/-! ### The dispatch loop of the consumer -/

theorem processPatEntries_eq (entries : List DvbPatSectionEntry) :
    ∀ patEntries : List DvbPatEntry,
      processPatEntries patEntries entries =
        patEntries ++
          ((entries.takeWhile (fun e => e.isValid)).filter
            (fun e => decide (e.programNumber ≠ 0))).map
            (fun e => (⟨e.programNumber, e.pid⟩ : DvbPatEntry)) := by
  induction entries with
  | nil => intro patEntries; simp [processPatEntries]
  | cons entry rest ih =>
    intro patEntries
    unfold processPatEntries
    by_cases hv : entry.isValid = false
    · rw [if_pos hv]
      simp [List.takeWhile_cons, hv]
    · have hv1 : entry.isValid = true := by simpa using hv
      rw [if_neg hv]
      by_cases hp : entry.programNumber ≠ 0x0
      · rw [if_pos hp, ih]
        simp [List.takeWhile_cons, hv1, List.filter_cons, hp]
      · rw [if_neg hp, ih]
        have hp0 : entry.programNumber = 0 := by simpa using hp
        simp [List.takeWhile_cons, hv1, List.filter_cons, hp0]

/-- Claim C14: `processPat` appends to the PAT entry list, after the entries
already there and in section order, exactly the pairs (programNumber, pid) of
the section entries that precede the first invalid entry and have a program
number other than 0; no pair with program number 0 is appended, and nothing
else of the scan changes. -/
theorem processPat_appends (scan : DvbScan) (pat : DvbPatSection) :
    (scan.processPat pat).patEntries =
        scan.patEntries ++
          ((pat.entries.takeWhile (fun e => e.isValid)).filter
            (fun e => decide (e.programNumber ≠ 0))).map
            (fun e => (⟨e.programNumber, e.pid⟩ : DvbPatEntry)) ∧
      (∀ e ∈ ((pat.entries.takeWhile (fun e => e.isValid)).filter
            (fun e => decide (e.programNumber ≠ 0))).map
            (fun e => (⟨e.programNumber, e.pid⟩ : DvbPatEntry)), e.programNumber ≠ 0) ∧
      scan.processPat pat = { scan with patEntries := (scan.processPat pat).patEntries } := by
  refine ⟨processPatEntries_eq pat.entries scan.patEntries, ?_, rfl⟩
  intro e he
  simp only [List.mem_map, List.mem_filter, decide_eq_true_eq] at he
  obtain ⟨x, ⟨_, hx⟩, rfl⟩ := he
  show ((x.programNumber : Nat) : Int) ≠ 0
  exact_mod_cast hx

theorem processPat_appends_witness :
    (scanExample.processPat patExample).patEntries = [⟨100, 200⟩] ∧
      (scanExample.processPat patExample).patEntries =
        scanExample.patEntries ++
          ((patExample.entries.takeWhile (fun e => e.isValid)).filter
            (fun e => decide (e.programNumber ≠ 0))).map
            (fun e => (⟨e.programNumber, e.pid⟩ : DvbPatEntry)) :=
  ⟨by decide, (processPat_appends scanExample patExample).1⟩

theorem processPmtEntries_eq (entries : List DvbPmtSectionEntry) :
    ∀ channel : DvbPreviewChannel,
      processPmtEntries channel entries =
        { channel with
          videoPid :=
            ((((entries.takeWhile (fun e => e.isValid)).filter
              (fun e => decide (e.streamType ∈ videoStreamTypes))).getLast?).map
                (fun e => (e.pid : Int))).getD channel.videoPid,
          audioPids :=
            channel.audioPids ++
              ((entries.takeWhile (fun e => e.isValid)).filter
                (fun e => decide (e.streamType ∈ audioStreamTypes))).map
                (fun e => (e.pid : Int)) } := by
  induction entries with
  | nil => intro channel; simp [processPmtEntries]
  | cons entry rest ih =>
    intro channel
    unfold processPmtEntries
    by_cases hv : entry.isValid = false
    · rw [if_pos hv]
      simp [List.takeWhile_cons, hv]
    · have hv1 : entry.isValid = true := by simpa using hv
      rw [if_neg hv]
      by_cases hvideo : entry.streamType ∈ videoStreamTypes
      · have haudio : entry.streamType ∉ audioStreamTypes := by
          intro h
          simp only [videoStreamTypes, audioStreamTypes, List.mem_cons, List.mem_singleton,
            List.mem_nil_iff, or_false] at hvideo h
          omega
        rw [if_pos hvideo, ih]
        simp only [List.takeWhile_cons, hv1, if_true, List.filter_cons, hvideo, haudio,
          decide_True, decide_False, Bool.false_eq_true, if_false]
        congr 1
        rw [List.getLast?_cons]
        cases (List.filter (fun e => decide (e.streamType ∈ videoStreamTypes))
          (List.takeWhile (fun e => e.isValid) rest)).getLast? <;> rfl
      · rw [if_neg hvideo]
        by_cases haudio : entry.streamType ∈ audioStreamTypes
        · rw [if_pos haudio, ih]
          simp [List.takeWhile_cons, hv1, List.filter_cons, hvideo, haudio]
        · rw [if_neg haudio, ih]
          simp [List.takeWhile_cons, hv1, List.filter_cons, hvideo, haudio]

/-- Claim C15: `processPmt` appends exactly one channel candidate if at least
one elementary-stream entry before the first invalid one has a video type
(0x01, 0x02, 0x10, 0x1b) or an audio type (0x03, 0x04, 0x0f, 0x11, 0x81, 0x87),
and changes nothing otherwise. The candidate is named by the program number of
the section, has that number as service id, the acquiring PID as PMT PID, the
current transponder, the SNR sampled at PAT time, the PID of the last video
entry as video PID (−1 without video entry) and the PIDs of the audio entries,
in order, as audio PIDs. The local channel starts with video PID −1 and no
audio PID. -/
theorem processPmt_candidate (scan : DvbScan) (channel : DvbPreviewChannel)
    (pmt : DvbPmtSection) (pid : Int) (hVideo : channel.videoPid = -1)
    (hAudio : channel.audioPids = []) :
    (pmtVideoEntries pmt = [] ∧ pmtAudioEntries pmt = [] →
        scan.processPmt channel pmt pid = scan) ∧
      (pmtVideoEntries pmt ≠ [] ∨ pmtAudioEntries pmt ≠ [] →
        ∃ candidate : DvbPreviewChannel,
          scan.processPmt channel pmt pid =
              { scan with channels := scan.channels ++ [candidate] } ∧
            candidate.name = programName pmt.programNumber ∧
            candidate.source = scan.source ∧
            candidate.serviceId = pmt.programNumber ∧
            candidate.pmtPid = pid ∧
            candidate.transponder = scan.transponder ∧
            candidate.snr = scan.snr ∧
            candidate.videoPid =
              (((pmtVideoEntries pmt).getLast?).map (fun e => (e.pid : Int))).getD (-1) ∧
            candidate.audioPids = (pmtAudioEntries pmt).map (fun e => (e.pid : Int))) := by
  have hloop := processPmtEntries_eq pmt.entries channel
  rw [hVideo, hAudio, List.nil_append] at hloop
  constructor
  · intro h
    unfold DvbScan.processPmt
    simp only
    rw [hloop]
    have hv : pmtVideoEntries pmt = [] := h.1
    have ha : pmtAudioEntries pmt = [] := h.2
    unfold pmtVideoEntries at hv
    unfold pmtAudioEntries at ha
    rw [hv, ha]
    simp
  · intro h
    have hcond : (processPmtEntries channel pmt.entries).videoPid ≠ -1 ∨
        (processPmtEntries channel pmt.entries).audioPids ≠ [] := by
      rw [hloop]
      rcases h with hv | ha
      · left
        show ((((pmtVideoEntries pmt).getLast?).map (fun e => (e.pid : Int))).getD (-1)) ≠ -1
        cases hlast : (pmtVideoEntries pmt).getLast? with
        | none => exact absurd (List.getLast?_eq_none_iff.mp hlast) hv
        | some e =>
          simp only [Option.map_some', Option.getD_some]
          omega
      · right
        show (pmtAudioEntries pmt).map (fun e => (e.pid : Int)) ≠ []
        intro hc
        exact ha (List.map_eq_nil_iff.mp hc)
    refine ⟨{ processPmtEntries channel pmt.entries with
        name := programName pmt.programNumber, source := scan.source,
        serviceId := pmt.programNumber, pmtPid := pid, transponder := scan.transponder,
        snr := scan.snr }, ?_, rfl, rfl, rfl, rfl, rfl, rfl, ?_, ?_⟩
    · unfold DvbScan.processPmt
      simp only
      rw [if_pos hcond]
    · show (processPmtEntries channel pmt.entries).videoPid = _
      rw [hloop]
      rfl
    · show (processPmtEntries channel pmt.entries).audioPids = _
      rw [hloop]
      rfl

theorem processPmt_candidate_witness :
    ((scanExample.processPmt DvbPreviewChannel.init pmtExample 200).channels.map
        (fun c => (c.serviceId, c.pmtPid, c.videoPid, c.audioPids, c.snr))) =
        [(100, 200, 301, [302], 42)] ∧
      ((pmtVideoEntries pmtExampleNoMedia = [] ∧ pmtAudioEntries pmtExampleNoMedia = [] →
          scanExample.processPmt DvbPreviewChannel.init pmtExampleNoMedia 200 = scanExample) ∧
        (pmtVideoEntries pmtExampleNoMedia ≠ [] ∨ pmtAudioEntries pmtExampleNoMedia ≠ [] →
          ∃ candidate : DvbPreviewChannel,
            scanExample.processPmt DvbPreviewChannel.init pmtExampleNoMedia 200 =
                { scanExample with channels := scanExample.channels ++ [candidate] } ∧
              candidate.name = programName pmtExampleNoMedia.programNumber ∧
              candidate.source = scanExample.source ∧
              candidate.serviceId = pmtExampleNoMedia.programNumber ∧
              candidate.pmtPid = 200 ∧
              candidate.transponder = scanExample.transponder ∧
              candidate.snr = scanExample.snr ∧
              candidate.videoPid =
                (((pmtVideoEntries pmtExampleNoMedia).getLast?).map
                  (fun e => (e.pid : Int))).getD (-1) ∧
              candidate.audioPids =
                (pmtAudioEntries pmtExampleNoMedia).map (fun e => (e.pid : Int)))) :=
  ⟨by decide,
    processPmt_candidate scanExample DvbPreviewChannel.init pmtExampleNoMedia 200 rfl rfl⟩

theorem mergeSdtEntry_serviceId (e : DvbSdtEntry) (c : DvbPreviewChannel) :
    (mergeSdtEntry e c).serviceId = c.serviceId := by
  unfold mergeSdtEntry
  split <;> rfl

theorem mergedChannel_cons (e : DvbSdtEntry) (rest : List DvbSdtEntry)
    (c : DvbPreviewChannel) :
    mergedChannel (e :: rest) c = mergedChannel rest (mergeSdtEntry e c) := by
  by_cases hm : c.serviceId = e.serviceId
  · have hm1 : e.serviceId = c.serviceId := hm.symm
    have hc : mergeSdtEntry e c =
        { c with
          networkId := e.networkId, transportStreamId := e.transportStreamId,
          scrambled := e.scrambled, name := if e.name ≠ "" then e.name else c.name,
          provider := e.provider } := by
      unfold mergeSdtEntry
      rw [if_pos hm]
    rw [hc]
    unfold mergedChannel
    simp only [List.filter_cons, hm1, decide_True, if_true]
    rw [List.getLast?_cons]
    cases hlast : (List.filter (fun e => decide (e.serviceId = c.serviceId)) rest).getLast? with
    | none =>
      have hnil := List.getLast?_eq_none_iff.mp hlast
      rw [hnil]
      by_cases hn : e.name = ""
      · simp [hn]
      · simp [hn]
    | some last =>
      simp only [Option.getD_some]
      by_cases hn : e.name = ""
      · simp [hn]
      · simp only [hn, ne_eq, not_false_eq_true, decide_True, if_true]
        rw [List.getLast?_cons]
        cases (List.filter (fun e => decide (e.name ≠ ""))
          (List.filter (fun e => decide (e.serviceId = c.serviceId)) rest)).getLast? <;> rfl
  · have hm1 : ¬ e.serviceId = c.serviceId := fun h => hm h.symm
    have hc : mergeSdtEntry e c = c := by
      unfold mergeSdtEntry
      rw [if_neg hm]
    rw [hc]
    unfold mergedChannel
    simp only [List.filter_cons, hm1, decide_False, Bool.false_eq_true, if_false]

theorem mergeSdtEntries_eq (sdtEntries : List DvbSdtEntry) :
    ∀ channels : List DvbPreviewChannel,
      mergeSdtEntries sdtEntries channels = channels.map (mergedChannel sdtEntries) := by
  induction sdtEntries with
  | nil =>
    intro channels
    have h : ∀ c : DvbPreviewChannel, mergedChannel [] c = c := fun c => rfl
    rw [List.map_congr_left (fun c _ => h c), List.map_id']
    rfl
  | cons e rest ih =>
    intro channels
    unfold mergeSdtEntries
    rw [ih, List.map_map]
    apply List.map_congr_left
    intro c _
    exact (mergedChannel_cons e rest c).symm

/-- Claim C16: the merge of the SDT records keeps the number and order of the
channel candidates; each candidate keeps its service id, PIDs, transponder and
SNR; a candidate without a record of its service id is unchanged; a candidate
with such records takes network id, transport stream id, scrambled flag and
provider from the last of them and its name from the last of them with a
non-empty name, keeping its name if all are empty. -/
theorem sdt_merge (sdtEntries : List DvbSdtEntry) (channels : List DvbPreviewChannel) :
    mergeSdtEntries sdtEntries channels = channels.map (mergedChannel sdtEntries) ∧
      (mergeSdtEntries sdtEntries channels).length = channels.length ∧
      (∀ c : DvbPreviewChannel,
        (mergedChannel sdtEntries c).serviceId = c.serviceId ∧
          (mergedChannel sdtEntries c).pmtPid = c.pmtPid ∧
          (mergedChannel sdtEntries c).videoPid = c.videoPid ∧
          (mergedChannel sdtEntries c).audioPids = c.audioPids ∧
          (mergedChannel sdtEntries c).transponder = c.transponder ∧
          (mergedChannel sdtEntries c).snr = c.snr ∧
          (mergedChannel sdtEntries c).source = c.source) ∧
      (∀ c : DvbPreviewChannel, (∀ e ∈ sdtEntries, e.serviceId ≠ c.serviceId) →
        mergedChannel sdtEntries c = c) ∧
      (∀ (c : DvbPreviewChannel) (last : DvbSdtEntry),
        (sdtEntries.filter (fun e => decide (e.serviceId = c.serviceId))).getLast? = some last →
          (mergedChannel sdtEntries c).networkId = last.networkId ∧
            (mergedChannel sdtEntries c).transportStreamId = last.transportStreamId ∧
            (mergedChannel sdtEntries c).scrambled = last.scrambled ∧
            (mergedChannel sdtEntries c).provider = last.provider ∧
            (mergedChannel sdtEntries c).name =
              ((((sdtEntries.filter (fun e => decide (e.serviceId = c.serviceId))).filter
                (fun e => decide (e.name ≠ ""))).getLast?).map (fun e => e.name)).getD
                c.name) := by
  refine ⟨mergeSdtEntries_eq sdtEntries channels, ?_, ?_, ?_, ?_⟩
  · rw [mergeSdtEntries_eq, List.length_map]
  · intro c
    unfold mergedChannel
    simp only
    split <;> exact ⟨rfl, rfl, rfl, rfl, rfl, rfl, rfl⟩
  · intro c h
    unfold mergedChannel
    have hnil : sdtEntries.filter (fun e => decide (e.serviceId = c.serviceId)) = [] := by
      rw [List.filter_eq_nil_iff]
      intro e he
      simpa using h e he
    simp only [hnil, List.getLast?_nil]
  · intro c last hlast
    unfold mergedChannel
    simp [hlast]

theorem sdt_merge_witness :
    (mergeSdtEntries scanExampleRead.sdtEntries scanExampleRead.channels).map
        (fun c => (c.name, c.serviceId, c.pmtPid, c.videoPid, c.audioPids)) =
        [("Channel One", 100, 200, 301, [302])] ∧
      scanExampleRead.patEntries = [⟨100, 200⟩] ∧
      mergeSdtEntries scanExampleRead.sdtEntries scanExampleRead.channels =
        scanExampleRead.channels.map (mergedChannel scanExampleRead.sdtEntries) :=
  ⟨by decide, by decide, (sdt_merge scanExampleRead.sdtEntries scanExampleRead.channels).1⟩

/-! ### The NIT -/

theorem appendUnlessKnown_eq (si : SiFunctions) (candidate : DvbTransponder)
    (transponders : List DvbTransponder) :
    appendUnlessKnown si candidate transponders =
      if knownTransponder si candidate transponders = true then transponders
      else transponders ++ [candidate] := by
  induction transponders with
  | nil => simp [appendUnlessKnown, knownTransponder]
  | cons it rest ih =>
    unfold appendUnlessKnown
    by_cases hs : si.getDvbSTransponder it = false
    · rw [if_pos hs, ih]
      have hk : knownTransponder si candidate (it :: rest) =
          knownTransponder si candidate rest := by
        simp [knownTransponder, hs]
      rw [hk]
      split <;> rfl
    · have hs1 : si.getDvbSTransponder it = true := by simpa using hs
      rw [if_neg hs]
      by_cases hm : it.frequency = candidate.frequency ∧ it.polarization = candidate.polarization
      · rw [if_pos hm]
        have hk : knownTransponder si candidate (it :: rest) = true := by
          simp [knownTransponder, hs1, hm.1, hm.2]
        rw [if_pos hk]
      · rw [if_neg hm, ih]
        have hk : knownTransponder si candidate (it :: rest) =
            knownTransponder si candidate rest := by
          have : (decide (it.frequency = candidate.frequency) &&
              decide (it.polarization = candidate.polarization)) = false := by
            by_cases hf : it.frequency = candidate.frequency
            · have hp : ¬ it.polarization = candidate.polarization := fun h => hm ⟨hf, h⟩
              simp [hf, hp]
            · simp [hf]
          simp only [knownTransponder, List.any_cons, hs1, Bool.true_and, this, Bool.false_or]
        rw [hk]
        split <;> rfl

theorem processNitDescriptors_dvbS (si : SiFunctions) (transponders : List DvbTransponder)
    (descriptors : List DvbDescriptor) :
    processNitDescriptors si .DvbS transponders descriptors =
      match examinedDescriptor descriptors with
      | none => transponders
      | some descriptor => nitStep si transponders descriptor := by
  induction descriptors with
  | nil => rfl
  | cons d rest ih =>
    unfold processNitDescriptors examinedDescriptor
    by_cases hv : d.isValid = false
    · rw [if_pos hv, if_pos hv]
    · rw [if_neg hv, if_neg hv]
      simp only
      by_cases ht : d.descriptorTag ≠ 0x43
      · rw [if_pos ht, if_pos ht, ih]
      · rw [if_neg ht, if_neg ht]
        simp only
        unfold nitStep
        by_cases htv : d.typedIsValid = false
        · rw [if_pos htv, if_neg (by simp [htv])]
        · have htv1 : d.typedIsValid = true := by simpa using htv
          rw [if_neg htv]
          by_cases h2 : d.isDvbS2 = true
          · rw [if_pos h2, if_neg (by simp [h2])]
          · have h21 : d.isDvbS2 = false := by simpa using h2
            rw [if_neg h2, appendUnlessKnown_eq]
            by_cases hk : knownTransponder si (satelliteTransponder si d) transponders = true
            · rw [if_pos hk, if_neg (by simp [hk])]
            · have hk1 : knownTransponder si (satelliteTransponder si d) transponders = false := by
                simpa using hk
              rw [if_neg hk, if_pos ⟨htv1, h21, hk1⟩]

theorem processNitEntries_dvbS (si : SiFunctions) (entries : List DvbNitSectionEntry) :
    ∀ transponders : List DvbTransponder,
      processNitEntries si .DvbS transponders entries =
        (examinedDescriptors entries).foldl (nitStep si) transponders := by
  induction entries with
  | nil => intro transponders; rfl
  | cons e rest ih =>
    intro transponders
    unfold processNitEntries examinedDescriptors
    by_cases hv : e.isValid = false
    · rw [if_pos hv]
      simp [List.takeWhile_cons, hv]
    · have hv1 : e.isValid = true := by simpa using hv
      rw [if_neg hv, ih, processNitDescriptors_dvbS]
      simp only [List.takeWhile_cons, hv1, if_true, List.filterMap_cons]
      cases examinedDescriptor e.descriptors with
      | none => rfl
      | some d => rfl

theorem processNitDescriptors_unused (si : SiFunctions) (type : TransmissionType)
    (htype : type ≠ .DvbS) (transponders : List DvbTransponder)
    (descriptors : List DvbDescriptor) :
    processNitDescriptors si type transponders descriptors = transponders := by
  induction descriptors with
  | nil => rfl
  | cons d rest ih =>
    unfold processNitDescriptors
    by_cases hv : d.isValid = false
    · rw [if_pos hv]
    · rw [if_neg hv]
      cases type with
      | DvbS => exact absurd rfl htype
      | DvbC => simp only; split <;> first | exact ih | rfl
      | DvbT => simp only; split <;> first | exact ih | rfl
      | DvbS2 => exact ih
      | Atsc => exact ih

theorem processNitEntries_unused (si : SiFunctions) (type : TransmissionType)
    (htype : type ≠ .DvbS) (entries : List DvbNitSectionEntry) :
    ∀ transponders : List DvbTransponder,
      processNitEntries si type transponders entries = transponders := by
  induction entries with
  | nil => intro transponders; rfl
  | cons e rest ih =>
    intro transponders
    unfold processNitEntries
    by_cases hv : e.isValid = false
    · rw [if_pos hv]
    · rw [if_neg hv, processNitDescriptors_unused si type htype, ih]

theorem knownTransponder_false_iff (si : SiFunctions) (candidate : DvbTransponder)
    (transponders : List DvbTransponder) :
    knownTransponder si candidate transponders = false ↔
      ∀ it ∈ transponders, si.getDvbSTransponder it = true → distinctTransponders it candidate := by
  unfold knownTransponder distinctTransponders
  rw [List.any_eq_false]
  constructor
  · intro h it hit hs hm
    have := h it hit
    simp [hs, hm.1, hm.2] at this
  · intro h it hit
    by_cases hs : si.getDvbSTransponder it = true
    · have := h it hit hs
      simp only [hs, Bool.true_and, Bool.and_eq_true, decide_eq_true_eq]
      exact this
    · simp [hs]

theorem nitSteps_added (si : SiFunctions)
    (hS : ∀ x : DvbTransponder, x.transmissionType = .DvbS → si.getDvbSTransponder x = true)
    (transponders : List DvbTransponder) (descriptors : List DvbDescriptor) :
    ∀ added : List DvbTransponder,
      added.Pairwise distinctTransponders →
      (∀ a ∈ added, a.transmissionType = .DvbS ∧
        knownTransponder si a transponders = false) →
      ∃ added1 : List DvbTransponder,
        descriptors.foldl (nitStep si) (transponders ++ added) = transponders ++ added1 ∧
          added1.Pairwise distinctTransponders ∧
          (∀ a ∈ added1, a.transmissionType = .DvbS ∧
            knownTransponder si a transponders = false) := by
  induction descriptors with
  | nil => intro added hp ha; exact ⟨added, rfl, hp, ha⟩
  | cons d rest ih =>
    intro added hp ha
    rw [List.foldl_cons]
    unfold nitStep
    by_cases hc : d.typedIsValid = true ∧ d.isDvbS2 = false ∧
        knownTransponder si (satelliteTransponder si d) (transponders ++ added) = false
    · rw [if_pos hc, List.append_assoc]
      have hk := (knownTransponder_false_iff si _ _).mp hc.2.2
      apply ih
      · rw [List.pairwise_append]
        refine ⟨hp, List.pairwise_singleton _ _, ?_⟩
        intro a ha1 b hb
        rw [List.mem_singleton] at hb
        subst hb
        exact hk a (List.mem_append_right _ ha1) (hS a (ha a ha1).1)
      · intro a ha1
        rcases List.mem_append.mp ha1 with h | h
        · exact ha a h
        · rw [List.mem_singleton] at h
          subst h
          refine ⟨rfl, (knownTransponder_false_iff si _ _).mpr ?_⟩
          intro it hit hs
          exact hk it (List.mem_append_left _ hit) hs
    · rw [if_neg hc]
      exact ih added hp ha

/-- Claim C17, amended: `processNit` only appends to the transponder list. While
scanning a DVB-S transponder it acts, in each entry before the first invalid
entry, on the first descriptor with tag 0x43 among the descriptors before the
first invalid one, and on no other descriptor; the transponder of such a
descriptor, when it is valid and not DVB-S2, is appended if and only if no
satellite transponder currently in the list, those appended earlier in the pass
included, has its frequency and polarization. Hence no two appended
transponders share frequency and polarization and none shares them with a
satellite transponder of the list. While scanning DVB-T or DVB-C the scan is
unchanged. Transponders of type DVB-S count as satellite transponders. -/
theorem processNit_appends_new_satellite (scan : DvbScan) (si : SiFunctions)
    (nit : DvbNitSection) (transponder : DvbTransponder)
    (hCurrent : scan.transponder = some transponder)
    (hS : ∀ x : DvbTransponder, x.transmissionType = .DvbS → si.getDvbSTransponder x = true) :
    (∃ added : List DvbTransponder,
        (scan.processNit si nit).transponders = scan.transponders ++ added ∧
          added.Pairwise distinctTransponders ∧
          (∀ a ∈ added, knownTransponder si a scan.transponders = false)) ∧
      (transponder.transmissionType = .DvbS →
        (scan.processNit si nit).transponders =
          (examinedDescriptors nit.entries).foldl (nitStep si) scan.transponders) ∧
      (transponder.transmissionType = .DvbT ∨ transponder.transmissionType = .DvbC →
        scan.processNit si nit = scan) ∧
      scan.processNit si nit =
        { scan with transponders := (scan.processNit si nit).transponders } := by
  have hdef : (scan.processNit si nit).transponders =
      processNitEntries si transponder.transmissionType scan.transponders nit.entries := by
    unfold DvbScan.processNit
    rw [hCurrent]
  have hrest : scan.processNit si nit =
      { scan with transponders := (scan.processNit si nit).transponders } := by
    unfold DvbScan.processNit
    rw [hCurrent]
  refine ⟨?_, ?_, ?_, hrest⟩
  · by_cases ht : transponder.transmissionType = .DvbS
    · rw [hdef, ht, processNitEntries_dvbS]
      obtain ⟨added1, h1, h2, h3⟩ := nitSteps_added si hS scan.transponders
        (examinedDescriptors nit.entries) [] List.Pairwise.nil
        (fun a ha => absurd ha (List.not_mem_nil a))
      rw [List.append_nil] at h1
      exact ⟨added1, h1, h2, fun a ha => (h3 a ha).2⟩
    · rw [hdef, processNitEntries_unused si _ ht]
      exact ⟨[], (List.append_nil _).symm, List.Pairwise.nil,
        fun a ha => absurd ha (List.not_mem_nil a)⟩
  · intro ht
    rw [hdef, ht, processNitEntries_dvbS]
  · intro ht
    have hne : transponder.transmissionType ≠ .DvbS := by
      rcases ht with h | h <;> rw [h] <;> decide
    rw [hrest, hdef, processNitEntries_unused si _ hne]

theorem processNit_appends_new_satellite_witness :
    (satelliteScanExample.processNit siExample nitExample).transponders.map
        (fun t => (t.frequency, t.polarization)) =
        [(11000, .Horizontal), (12000, .Horizontal)] ∧
      (satelliteScanExample.processNit siExample nitExample).transponders =
        (examinedDescriptors nitExample.entries).foldl (nitStep siExample)
          satelliteScanExample.transponders :=
  ⟨by decide,
    (processNit_appends_new_satellite satelliteScanExample siExample nitExample
      { DvbTransponder.plain .DvbS 11000 with polarization := .Horizontal } rfl
      (by intro x hx; simp [siExample, hx])).2.1 rfl⟩

/-- Counterexample to claim C17 as stated: a valid satellite descriptor that is
not DVB-S2 and whose frequency and polarization no transponder of the list has
is not appended when it follows another satellite descriptor in its entry. -/
theorem processNit_skips_later_descriptor :
    (satelliteDescriptor 1250 0).isValid = true ∧
      (satelliteDescriptor 1250 0).typedIsValid = true ∧
      (satelliteDescriptor 1250 0).isDvbS2 = false ∧
      knownTransponder siExample (satelliteTransponder siExample (satelliteDescriptor 1250 0))
        (satelliteScanExample.processNit siExample nitExample).transponders = false ∧
      satelliteTransponder siExample (satelliteDescriptor 1250 0) ∉
        (satelliteScanExample.processNit siExample nitExample).transponders := by
  decide

/-! ### The filter pool of the scan -/

theorem started_isActive (pid : Nat) (type : FilterType) :
    (DvbScanFilter.started (pid : Int) type).isActive = true := by
  unfold DvbScanFilter.isActive DvbScanFilter.started
  simp only [decide_eq_true_eq]
  omega

theorem stopFilter_not_active (f : DvbScanFilter) : f.stopFilter.isActive = false := by
  unfold DvbScanFilter.stopFilter DvbScanFilter.isActive
  by_cases h : f.pid ≠ -1
  · rw [if_pos h]
    simp
  · rw [if_neg h]
    simpa using h

theorem startFilter_fst_isActive (f : DvbScanFilter) (pid : Nat) (type : FilterType)
    (accepted : Bool) : (f.startFilter (pid : Int) type accepted).1.isActive = accepted := by
  unfold DvbScanFilter.startFilter
  cases accepted with
  | true => exact started_isActive pid type
  | false => rfl

theorem startFirstInactive_none (pid : Int) (type : FilterType) (accepted : Bool)
    (filters : List DvbScanFilter) (h : filters.countP (fun f => f.isActive) = filters.length) :
    startFirstInactive pid type accepted filters = none := by
  induction filters with
  | nil => rfl
  | cons f rest ih =>
    have hle := List.countP_le_length (fun f : DvbScanFilter => f.isActive) (l := rest)
    rw [List.countP_cons, List.length_cons] at h
    by_cases hf : f.isActive = true
    · simp only [hf, if_true] at h
      unfold startFirstInactive
      rw [if_neg (by simp [hf]), ih (by omega)]
      rfl
    · simp only [hf, Bool.false_eq_true, if_false] at h
      omega

theorem startFirstInactive_some (pid : Nat) (type : FilterType) (accepted : Bool)
    (filters : List DvbScanFilter) (h : filters.countP (fun f => f.isActive) ≠ filters.length) :
    ∃ filters1 : List DvbScanFilter,
      startFirstInactive (pid : Int) type accepted filters = some (filters1, accepted) ∧
        filters1.length = filters.length ∧
        filters1.countP (fun f => f.isActive) =
          filters.countP (fun f => f.isActive) + (if accepted = true then 1 else 0) := by
  induction filters with
  | nil => exact absurd rfl h
  | cons f rest ih =>
    unfold startFirstInactive
    by_cases hf : f.isActive = false
    · rw [if_pos hf]
      refine ⟨_, rfl, rfl, ?_⟩
      rw [List.countP_cons, List.countP_cons, startFilter_fst_isActive, hf]
      cases accepted <;> simp
    · have hf1 : f.isActive = true := by simpa using hf
      rw [if_neg hf]
      have hrest : rest.countP (fun f => f.isActive) ≠ rest.length := by
        intro hc
        apply h
        rw [List.countP_cons, List.length_cons, hc]
        simp [hf1]
      obtain ⟨filters1, h1, h2, h3⟩ := ih hrest
      rw [h1]
      refine ⟨f :: filters1, rfl, by simp [h2], ?_⟩
      rw [List.countP_cons, List.countP_cons, h3]
      omega

theorem countP_set_inactive (filters : List DvbScanFilter) :
    ∀ (i : Nat) (f g : DvbScanFilter), filters[i]? = some f → f.isActive = true →
      g.isActive = false →
      (filters.set i g).countP (fun f => f.isActive) + 1 =
        filters.countP (fun f => f.isActive) := by
  induction filters with
  | nil => intro i f g h; simp at h
  | cons x rest ih =>
    intro i f g h hf hg
    cases i with
    | zero =>
      simp only [List.getElem?_cons_zero, Option.some.injEq] at h
      subst h
      rw [List.set_cons_zero, List.countP_cons, List.countP_cons, hf, hg]
      simp
    | succ i =>
      simp only [List.getElem?_cons_succ] at h
      rw [List.set_cons_succ, List.countP_cons, List.countP_cons]
      have := ih i f g h hf hg
      omega

theorem startFilter_invariant (scan : DvbScan) (pid : Nat) (type : FilterType)
    (accepted : Bool) (h : scan.PoolInvariant) :
    (scan.startFilter (pid : Int) type accepted).1.PoolInvariant := by
  obtain ⟨hlen, hact⟩ := h
  unfold DvbScan.activeInstances at hact
  unfold DvbScan.startFilter
  by_cases hne : scan.activeFilters ≠ scan.filters.length
  · rw [if_pos hne]
    have hc : scan.filters.countP (fun f => f.isActive) ≠ scan.filters.length := by
      intro hc
      apply hne
      rw [hact, hc]
    obtain ⟨filters1, h1, h2, h3⟩ := startFirstInactive_some pid type accepted scan.filters hc
    rw [h1]
    cases accepted with
    | true =>
      refine ⟨by show filters1.length ≤ 10; omega, ?_⟩
      show scan.activeFilters + 1 = ((filters1.countP (fun f => f.isActive) : Nat) : Int)
      rw [h3, hact]
      simp
    | false =>
      refine ⟨by show filters1.length ≤ 10; omega, ?_⟩
      show scan.activeFilters = ((filters1.countP (fun f => f.isActive) : Nat) : Int)
      rw [h3, hact]
      simp
  · rw [if_neg hne]
    have heq : scan.activeFilters = scan.filters.length := by
      by_contra hc
      exact hne hc
    by_cases hlt : scan.activeFilters < 10
    · rw [if_pos hlt]
      cases accepted with
      | true =>
        have hs : (DvbScanFilter.startFilter ⟨-1, type, []⟩ (pid : Int) type true) =
            (DvbScanFilter.started pid type, true) := rfl
        rw [hs]
        simp only [if_true]
        refine ⟨?_, ?_⟩
        · show (scan.filters ++ [DvbScanFilter.started pid type]).length ≤ 10
          rw [List.length_append, List.length_singleton]
          omega
        · show scan.activeFilters + 1 =
            (((scan.filters ++ [DvbScanFilter.started pid type]).countP
              (fun f => f.isActive) : Nat) : Int)
          rw [List.countP_append, List.countP_cons, started_isActive, hact]
          simp
      | false =>
        have hs : (DvbScanFilter.startFilter ⟨-1, type, []⟩ (pid : Int) type false).2 =
            false := rfl
        rw [hs]
        exact ⟨hlen, hact⟩
    · rw [if_neg hlt]
      exact ⟨hlen, hact⟩

theorem poolStep_invariant (scan : DvbScan) (op : PoolOp) (h : scan.PoolInvariant) :
    (scan.poolStep op).PoolInvariant := by
  cases op with
  | startFilter pid type accepted => exact startFilter_invariant scan pid type accepted h
  | filterFinished i =>
    have hstep : scan.poolStep (.filterFinished i) =
        match scan.filters[i]? with
        | none => scan
        | some f => if f.isActive then scan.stopFilter i else scan := rfl
    rw [hstep]
    cases hget : scan.filters[i]? with
    | none => exact h
    | some f =>
      simp only
      by_cases hf : f.isActive = true
      · rw [if_pos hf]
        unfold DvbScan.stopFilter
        rw [hget]
        obtain ⟨hlen, hact⟩ := h
        unfold DvbScan.activeInstances at hact
        have hc := countP_set_inactive scan.filters i f f.stopFilter hget hf
          (stopFilter_not_active f)
        refine ⟨?_, ?_⟩
        · show (scan.filters.set i f.stopFilter).length ≤ 10
          rw [List.length_set]
          exact hlen
        · show scan.activeFilters - 1 =
            (((scan.filters.set i f.stopFilter).countP (fun f => f.isActive) : Nat) : Int)
          rw [hact]
          omega
      · rw [if_neg hf]
        exact h

theorem poolRun_invariant (ops : List PoolOp) :
    ∀ scan : DvbScan, scan.PoolInvariant → (scan.poolRun ops).PoolInvariant := by
  induction ops with
  | nil => intro scan h; exact h
  | cons op rest ih =>
    intro scan h
    exact ih _ (poolStep_invariant scan op h)

/-- Claim C18: across every sequence of `startFilter` and `filterFinished`
calls on a scan that starts without filter, the scan never holds more than 10
filter instances and its counter `activeFilters` equals the number of
instances that are active; a call of `startFilter` allocates a new instance
only when every existing instance is active; and with 10 active filters
`startFilter` returns false and changes nothing. -/
theorem scan_filter_pool (scan : DvbScan) (ops : List PoolOp)
    (hNew : scan.filters = [] ∧ scan.activeFilters = 0) :
    (scan.poolRun ops).filters.length ≤ 10 ∧
      (scan.poolRun ops).activeFilters = ((scan.poolRun ops).activeInstances : Int) ∧
      (∀ (pid : Nat) (type : FilterType) (accepted : Bool),
        (scan.poolRun ops).filters.length <
            ((scan.poolRun ops).startFilter (pid : Int) type accepted).1.filters.length →
          (scan.poolRun ops).activeInstances = (scan.poolRun ops).filters.length) ∧
      (∀ (pid : Nat) (type : FilterType) (accepted : Bool),
        (scan.poolRun ops).activeInstances = 10 →
          (scan.poolRun ops).startFilter (pid : Int) type accepted =
            (scan.poolRun ops, false)) := by
  have h0 : scan.PoolInvariant := by
    unfold DvbScan.PoolInvariant DvbScan.activeInstances
    rw [hNew.1, hNew.2]
    exact ⟨by simp, rfl⟩
  have hinv := poolRun_invariant ops scan h0
  obtain ⟨hlen, hact⟩ := hinv
  refine ⟨hlen, hact, ?_, ?_⟩
  · intro pid type accepted hgrow
    by_contra hne
    have hne1 : (scan.poolRun ops).activeFilters ≠ (scan.poolRun ops).filters.length := by
      rw [hact]
      exact_mod_cast hne
    unfold DvbScan.activeInstances at hne
    obtain ⟨filters1, h1, h2, _⟩ :=
      startFirstInactive_some pid type accepted (scan.poolRun ops).filters hne
    unfold DvbScan.startFilter at hgrow
    rw [if_pos hne1, h1] at hgrow
    cases accepted with
    | true =>
      have : filters1.length = (scan.poolRun ops).filters.length := h2
      have hg : (scan.poolRun ops).filters.length < filters1.length := hgrow
      omega
    | false =>
      have : filters1.length = (scan.poolRun ops).filters.length := h2
      have hg : (scan.poolRun ops).filters.length < filters1.length := hgrow
      omega
  · intro pid type accepted h10
    have hle := List.countP_le_length (fun f : DvbScanFilter => f.isActive)
      (l := (scan.poolRun ops).filters)
    have hall : (scan.poolRun ops).filters.length = 10 := by
      unfold DvbScan.activeInstances at h10
      omega
    unfold DvbScan.startFilter
    have heq : ¬ (scan.poolRun ops).activeFilters ≠ (scan.poolRun ops).filters.length := by
      rw [hact, h10, hall]
      simp
    rw [if_neg heq, if_neg (by rw [hact, h10]; simp)]

theorem scan_filter_pool_witness :
    ((DvbScan.offline "terrestrial" []).poolRun poolExample).filters.map (fun f => f.pid) =
        [0x100, 0x101, 0x102, 0x11, 0x104, 0x105, 0x106, 0x107, 0x108, 0x109] ∧
      ((DvbScan.offline "terrestrial" []).poolRun poolExample).filters.length ≤ 10 ∧
      ((DvbScan.offline "terrestrial" []).poolRun poolExample).activeFilters =
        (((DvbScan.offline "terrestrial" []).poolRun poolExample).activeInstances : Int) ∧
      ((DvbScan.offline "terrestrial" []).poolRun poolExample).startFilter 0x12 .SdtFilter true =
        ((DvbScan.offline "terrestrial" []).poolRun poolExample, false) :=
  ⟨by decide,
    (scan_filter_pool (DvbScan.offline "terrestrial" []) poolExample ⟨rfl, rfl⟩).1,
    (scan_filter_pool (DvbScan.offline "terrestrial" []) poolExample ⟨rfl, rfl⟩).2.1,
    (scan_filter_pool (DvbScan.offline "terrestrial" []) poolExample ⟨rfl, rfl⟩).2.2.2 0x12
      .SdtFilter true (by decide)⟩

/-! ### The free list and the pending queue -/

theorem updateBuffer_length (buffers : List DvbDeviceDataBuffer) (i : Nat)
    (f : DvbDeviceDataBuffer → DvbDeviceDataBuffer) :
    (updateBuffer buffers i f).length = buffers.length := by
  unfold updateBuffer
  cases buffers[i]? with
  | none => rfl
  | some b => exact List.length_set _ _ _

theorem bufferNext_updateBuffer_ne (buffers : List DvbDeviceDataBuffer) (i b : Nat)
    (f : DvbDeviceDataBuffer → DvbDeviceDataBuffer) (h : i ≠ b) :
    bufferNext (updateBuffer buffers i f) b = bufferNext buffers b := by
  unfold bufferNext updateBuffer
  cases buffers[i]? with
  | none => rfl
  | some x => rw [List.getElem?_set_ne h]

theorem bufferNext_updateBuffer_self (buffers : List DvbDeviceDataBuffer) (i : Nat)
    (f : DvbDeviceDataBuffer → DvbDeviceDataBuffer) (v : Option Nat)
    (hf : ∀ x, (f x).next = v) (hi : i < buffers.length) :
    bufferNext (updateBuffer buffers i f) i = v := by
  unfold bufferNext updateBuffer
  rw [List.getElem?_eq_getElem hi]
  simp only
  rw [List.getElem?_set_self hi]
  exact hf _

theorem bufferNext_updateBuffer_keep (buffers : List DvbDeviceDataBuffer) (i b : Nat)
    (f : DvbDeviceDataBuffer → DvbDeviceDataBuffer) (hf : ∀ x, (f x).next = x.next) :
    bufferNext (updateBuffer buffers i f) b = bufferNext buffers b := by
  by_cases h : i = b
  · subst h
    unfold bufferNext updateBuffer
    cases hget : buffers[i]? with
    | none => simp [hget]
    | some x =>
      have hi : i < buffers.length := by
        by_contra hc
        rw [List.getElem?_eq_none (by omega)] at hget
        exact Option.noConfusion hget
      simp only
      rw [List.getElem?_set_self hi]
      exact hf x
  · exact bufferNext_updateBuffer_ne buffers i b f h

theorem linkedFrom_frame (buffers : List DvbDeviceDataBuffer) (i : Nat)
    (f : DvbDeviceDataBuffer → DvbDeviceDataBuffer) (chain : List Nat) :
    ∀ start : Option Nat, LinkedFrom buffers start chain → i ∉ chain →
      LinkedFrom (updateBuffer buffers i f) start chain := by
  induction chain with
  | nil => intro start h _; exact h
  | cons b rest ih =>
    intro start h hi
    obtain ⟨h1, h2, h3⟩ := h
    refine ⟨h1, by rw [updateBuffer_length]; exact h2, ?_⟩
    rw [bufferNext_updateBuffer_ne buffers i b f (fun hc => hi (hc ▸ List.mem_cons_self _ _))]
    exact ih _ h3 (fun hc => hi (List.mem_cons_of_mem _ hc))

theorem linkedFrom_keep (buffers : List DvbDeviceDataBuffer) (i : Nat)
    (f : DvbDeviceDataBuffer → DvbDeviceDataBuffer) (hf : ∀ x, (f x).next = x.next)
    (chain : List Nat) :
    ∀ start : Option Nat, LinkedFrom buffers start chain →
      LinkedFrom (updateBuffer buffers i f) start chain := by
  induction chain with
  | nil => intro start h; exact h
  | cons b rest ih =>
    intro start h
    obtain ⟨h1, h2, h3⟩ := h
    refine ⟨h1, by rw [updateBuffer_length]; exact h2, ?_⟩
    rw [bufferNext_updateBuffer_keep buffers i b f hf]
    exact ih _ h3

theorem bufferNext_append (buffers : List DvbDeviceDataBuffer) (x : DvbDeviceDataBuffer)
    (b : Nat) (hb : b < buffers.length) :
    bufferNext (buffers ++ [x]) b = bufferNext buffers b := by
  unfold bufferNext
  rw [List.getElem?_append_left hb]

theorem linkedFrom_grow (buffers : List DvbDeviceDataBuffer) (x : DvbDeviceDataBuffer)
    (chain : List Nat) :
    ∀ start : Option Nat, LinkedFrom buffers start chain →
      LinkedFrom (buffers ++ [x]) start chain := by
  induction chain with
  | nil => intro start h; exact h
  | cons b rest ih =>
    intro start h
    obtain ⟨h1, h2, h3⟩ := h
    refine ⟨h1, by rw [List.length_append]; omega, ?_⟩
    rw [bufferNext_append buffers x b h2]
    exact ih _ h3

theorem linkedFrom_bound (buffers : List DvbDeviceDataBuffer) (chain : List Nat) :
    ∀ start : Option Nat, LinkedFrom buffers start chain → ∀ b ∈ chain, b < buffers.length := by
  induction chain with
  | nil => intro start _ b hb; exact absurd hb (List.not_mem_nil b)
  | cons x rest ih =>
    intro start h b hb
    obtain ⟨_, h2, h3⟩ := h
    rcases List.mem_cons.mp hb with h | h
    · rw [h]; exact h2
    · exact ih _ h3 b h

theorem linkedFrom_none (buffers : List DvbDeviceDataBuffer) (chain : List Nat)
    (h : LinkedFrom buffers none chain) : chain = [] := by
  cases chain with
  | nil => rfl
  | cons b rest => exact Option.noConfusion h.1

theorem linkedFrom_some (buffers : List DvbDeviceDataBuffer) (b : Nat) (chain : List Nat)
    (h : LinkedFrom buffers (some b) chain) :
    ∃ rest, chain = b :: rest ∧ b < buffers.length ∧
      LinkedFrom buffers (bufferNext buffers b) rest := by
  cases chain with
  | nil => exact Option.noConfusion h
  | cons x rest =>
    obtain ⟨h1, h2, h3⟩ := h
    have hx : b = x := Option.some.inj h1
    subst hx
    exact ⟨rest, rfl, h2, h3⟩

theorem chainFrom_eq (buffers : List DvbDeviceDataBuffer) (chain : List Nat) :
    ∀ (start : Option Nat) (fuel : Nat), LinkedFrom buffers start chain →
      chain.length < fuel → chainFrom buffers fuel start = chain := by
  induction chain with
  | nil =>
    intro start fuel h hf
    have hs : start = none := h
    subst hs
    cases fuel with
    | zero => rfl
    | succ n => rfl
  | cons b rest ih =>
    intro start fuel h hf
    obtain ⟨h1, _, h3⟩ := h
    subst h1
    cases fuel with
    | zero => simp at hf
    | succ n =>
      show b :: chainFrom buffers n (bufferNext buffers b) = b :: rest
      rw [ih _ n h3 (by simpa using hf)]

theorem nodup_length_le (chain : List Nat) (n : Nat) (hn : chain.Nodup)
    (hb : ∀ b ∈ chain, b < n) : chain.length ≤ n := by
  have hsub : chain ⊆ List.range n := fun b hbm => List.mem_range.mpr (hb b hbm)
  have := (List.subperm_of_subset hn hsub).length_le
  rwa [List.length_range] at this

/-- Linking `b` behind the buffer `t` of a chain cuts the chain after `t` and
ends it with `b`. -/
theorem linkedFrom_link (buffers : List DvbDeviceDataBuffer) (t b : Nat)
    (hb : b < buffers.length) (front back : List Nat) :
    ∀ start : Option Nat, LinkedFrom buffers start (front ++ t :: back) →
      (front ++ t :: back).Nodup → b ∉ front ++ t :: back →
      LinkedFrom
        (updateBuffer (updateBuffer buffers t (fun x => { x with next := some b })) b
          (fun x => { x with next := none }))
        start (front ++ [t, b]) := by
  induction front with
  | nil =>
    intro start h hn hnot
    obtain ⟨h1, h2, _⟩ := h
    have htb : b ≠ t := fun hc => hnot (hc ▸ List.mem_cons_self _ _)
    refine ⟨h1, by rw [updateBuffer_length, updateBuffer_length]; exact h2, ?_⟩
    rw [bufferNext_updateBuffer_ne _ b t _ htb,
      bufferNext_updateBuffer_self buffers t _ (some b) (fun _ => rfl) h2]
    refine ⟨rfl, by rw [updateBuffer_length, updateBuffer_length]; exact hb, ?_⟩
    rw [bufferNext_updateBuffer_self _ b _ none (fun _ => rfl)
      (by rw [updateBuffer_length]; exact hb)]
    rfl
  | cons x front ih =>
    intro start h hn hnot
    obtain ⟨h1, h2, h3⟩ := h
    have hxt : t ≠ x := by
      intro hc
      rw [List.cons_append, List.nodup_cons] at hn
      exact hn.1 (hc ▸ List.mem_append_right _ (List.mem_cons_self _ _))
    have hxb : b ≠ x := fun hc => hnot (hc ▸ List.mem_cons_self _ _)
    refine ⟨h1, by rw [updateBuffer_length, updateBuffer_length]; exact h2, ?_⟩
    rw [bufferNext_updateBuffer_ne _ b x _ hxb, bufferNext_updateBuffer_ne _ t x _ hxt]
    exact ih _ h3 (List.nodup_cons.mp hn).2 (fun hc => hnot (List.mem_cons_of_mem _ hc))

theorem getBuffer_some (dev : DvbDevice) (fresh : DvbDeviceDataBuffer) (u : Nat)
    (hU : dev.unusedBuffersHead = some u) :
    dev.getBuffer fresh = ({ dev with unusedBuffersHead := bufferNext dev.buffers u }, u) := by
  unfold DvbDevice.getBuffer
  split
  · rename_i b hb
    rw [hU] at hb
    cases hb
    rfl
  · rename_i hb
    rw [hU] at hb
    exact Option.noConfusion hb

theorem getBuffer_none (dev : DvbDevice) (fresh : DvbDeviceDataBuffer)
    (hU : dev.unusedBuffersHead = none) :
    dev.getBuffer fresh =
      ({ dev with buffers := dev.buffers ++ [fresh] }, dev.buffers.length) := by
  unfold DvbDevice.getBuffer
  split
  · rename_i b hb
    rw [hU] at hb
    exact Option.noConfusion hb
  · rfl

theorem writeBuffer_empty (dev : DvbDevice) (b : Nat) (data : List Nat) (dataSize : Int)
    (hsize : ¬ dataSize > 0) :
    (dev.writeBuffer b data dataSize).1 =
      { dev with
        buffers :=
          updateBuffer (updateBuffer dev.buffers b (fun x => { x with data := data })) b
            (fun x => { x with next := dev.unusedBuffersHead }),
        unusedBuffersHead := some b } := by
  unfold DvbDevice.writeBuffer
  simp only
  rw [if_neg hsize]

theorem writeBuffer_first (dev : DvbDevice) (b : Nat) (data : List Nat) (dataSize : Int)
    (hsize : dataSize > 0) (hH : dev.usedBuffersHead = none) :
    (dev.writeBuffer b data dataSize).1 =
      { dev with
        buffers :=
          updateBuffer
            (updateBuffer (updateBuffer dev.buffers b (fun x => { x with data := data })) b
              (fun x => { x with size := dataSize }))
            b (fun x => { x with next := none }),
        usedBuffersHead := some b,
        usedBuffersTail := some b } := by
  unfold DvbDevice.writeBuffer
  simp only
  rw [if_pos hsize]
  split
  · rename_i h hh
    rw [hH] at hh
    exact Option.noConfusion hh
  · rfl

theorem writeBuffer_behind (dev : DvbDevice) (b : Nat) (data : List Nat) (dataSize : Int)
    (hsize : dataSize > 0) (head t : Nat) (hH : dev.usedBuffersHead = some head)
    (hT : dev.usedBuffersTail = some t) :
    (dev.writeBuffer b data dataSize).1 =
      { dev with
        buffers :=
          updateBuffer
            (updateBuffer
              (updateBuffer (updateBuffer dev.buffers b (fun x => { x with data := data })) b
                (fun x => { x with size := dataSize }))
              t (fun x => { x with next := some b }))
            b (fun x => { x with next := none }),
        usedBuffersTail := some b } := by
  unfold DvbDevice.writeBuffer
  simp only
  rw [if_pos hsize]
  split
  · simp only [hT]
  · rename_i hh
    rw [hH] at hh
    exact Option.noConfusion hh

theorem writeBuffer_no_tail (dev : DvbDevice) (b : Nat) (data : List Nat) (dataSize : Int)
    (hsize : dataSize > 0) (head : Nat) (hH : dev.usedBuffersHead = some head)
    (hT : dev.usedBuffersTail = none) :
    (dev.writeBuffer b data dataSize).1 =
      { dev with
        buffers :=
          updateBuffer
            (updateBuffer (updateBuffer dev.buffers b (fun x => { x with data := data })) b
              (fun x => { x with size := dataSize }))
            b (fun x => { x with next := none }),
        usedBuffersTail := some b } := by
  unfold DvbDevice.writeBuffer
  simp only
  rw [if_pos hsize]
  split
  · simp only [hT]
  · rename_i hh
    rw [hH] at hh
    exact Option.noConfusion hh

theorem discardBuffers_none (dev : DvbDevice) (hH : dev.usedBuffersHead = none) :
    dev.discardBuffers = dev := by
  unfold DvbDevice.discardBuffers
  split
  · rfl
  · rename_i h hh
    rw [hH] at hh
    exact Option.noConfusion hh

theorem discardBuffers_single (dev : DvbDevice) (head : Nat)
    (hH : dev.usedBuffersHead = some head) (hN : bufferNext dev.buffers head = none) :
    dev.discardBuffers =
      { dev with
        buffers := updateBuffer dev.buffers head (fun b => { b with size := 0, next := none }) } := by
  unfold DvbDevice.discardBuffers
  split
  · rename_i hh
    rw [hH] at hh
    exact Option.noConfusion hh
  · rename_i h hh
    rw [hH] at hh
    cases hh
    unfold bufferNext at hN
    simp only [hN]

theorem discardBuffers_more (dev : DvbDevice) (head n : Nat)
    (hH : dev.usedBuffersHead = some head) (hN : bufferNext dev.buffers head = some n) :
    dev.discardBuffers =
      { dev with
        buffers :=
          updateBuffer
            (updateBuffer dev.buffers head (fun b => { b with size := 0, next := none })) n
            (fun b => { b with next := dev.unusedBuffersHead }),
        unusedBuffersHead := some n } := by
  unfold DvbDevice.discardBuffers
  split
  · rename_i hh
    rw [hH] at hh
    exact Option.noConfusion hh
  · rename_i h hh
    rw [hH] at hh
    cases hh
    unfold bufferNext at hN
    simp only [hN]

theorem nodup_of_count_le (old new : List Nat) (h : ∀ a, new.count a ≤ old.count a)
    (hn : old.Nodup) : new.Nodup := by
  rw [List.nodup_iff_count_le_one] at hn ⊢
  intro a
  exact Nat.le_trans (h a) (hn a)

theorem count_erase_held (held : List Nat) (b a : Nat) (hb : b ∈ held) :
    (held.erase b).count a + (if a = b then 1 else 0) = held.count a := by
  by_cases h : a = b
  · subst h
    rw [if_pos rfl, List.count_erase_self]
    have := List.count_pos_iff.mpr hb
    omega
  · rw [if_neg h, List.count_erase_of_ne h]
    rfl

theorem not_mem_of_nodup_held (pending free held : List Nat) (b : Nat)
    (hn : (pending ++ free ++ held).Nodup) (hb : b ∈ held) : b ∉ pending ∧ b ∉ free := by
  rw [List.nodup_append] at hn
  have hd := hn.2.2
  constructor
  · intro hc
    exact hd (List.mem_append_left _ hc) hb
  · intro hc
    exact hd (List.mem_append_right _ hc) hb
theorem step_getBuffer_wellFormed (s : BufferSystem) (fresh : DvbDeviceDataBuffer)
    (h : s.WellFormed) : (s.step (.getBuffer fresh)).WellFormed := by
  obtain ⟨pending, free, hp, hf, hn, hb, ht, hc⟩ := h
  have hstep : s.step (.getBuffer fresh) =
      { s with dev := (s.dev.getBuffer fresh).1, held := (s.dev.getBuffer fresh).2 :: s.held } :=
    rfl
  rw [hstep]
  cases hU : s.dev.unusedBuffersHead with
  | none =>
    rw [getBuffer_none s.dev fresh hU]
    rw [hU] at hf
    have hfree := linkedFrom_none _ _ hf
    subst hfree
    refine ⟨pending, [], linkedFrom_grow _ _ _ _ hp, hU, ?_, ?_, ht, hc⟩
    · have hbound := linkedFrom_bound _ _ _ hp
      simp only [List.append_nil] at hn ⊢
      rw [List.nodup_append] at hn ⊢
      refine ⟨hn.1, ?_, ?_⟩
      · rw [List.nodup_cons]
        exact ⟨fun hc1 => Nat.lt_irrefl _ (hb _ hc1), hn.2.1⟩
      · intro a ha1 ha2
        rcases List.mem_cons.mp ha2 with h1 | h1
        · have := hbound a ha1
          omega
        · exact hn.2.2 ha1 h1
    · intro b hb1
      show b < (s.dev.buffers ++ [fresh]).length
      rw [List.length_append, List.length_singleton]
      rcases List.mem_cons.mp hb1 with h1 | h1
      · omega
      · have := hb b h1
        omega
  | some u =>
    rw [getBuffer_some s.dev fresh u hU]
    rw [hU] at hf
    obtain ⟨rest, hfree, hu, hrest⟩ := linkedFrom_some _ _ _ hf
    subst hfree
    refine ⟨pending, rest, hp, hrest, ?_, ?_, ht, hc⟩
    · apply nodup_of_count_le _ _ _ hn
      intro a
      simp only [List.count_append, List.count_cons]
      omega
    · intro b hb1
      rcases List.mem_cons.mp hb1 with h1 | h1
      · rw [h1]; exact hu
      · exact hb b h1

theorem step_discardBuffers_wellFormed (s : BufferSystem) (h : s.WellFormed) :
    (s.step .discardBuffers).WellFormed := by
  obtain ⟨pending, free, hp, hf, hn, hb, ht, hc⟩ := h
  have hstep : s.step .discardBuffers = { s with dev := s.dev.discardBuffers } := rfl
  rw [hstep]
  cases hH : s.dev.usedBuffersHead with
  | none =>
    rw [discardBuffers_none s.dev hH]
    exact ⟨pending, free, hp, hf, hn, hb, ht, hc⟩
  | some head =>
    rw [hH] at hp
    obtain ⟨rest, hpending, hhead, hrest⟩ := linkedFrom_some _ _ _ hp
    subst hpending
    have hheadFree : head ∉ free := by
      intro hc1
      rw [List.nodup_append, List.nodup_append] at hn
      exact hn.1.2.2 (List.mem_cons_self _ _) hc1
    cases hN : bufferNext s.dev.buffers head with
    | none =>
      rw [discardBuffers_single s.dev head hH hN]
      rw [hN] at hrest
      have hr := linkedFrom_none _ _ hrest
      subst hr
      refine ⟨[head], free, ?_, linkedFrom_frame _ _ _ _ _ hf hheadFree, hn, ?_, ?_, ?_⟩
      · refine ⟨hH, by rw [updateBuffer_length]; exact hhead, ?_⟩
        rw [bufferNext_updateBuffer_self _ _ _ none (fun _ => rfl) hhead]
        rfl
      · intro b hb1
        show b < (updateBuffer _ _ _).length
        rw [updateBuffer_length]
        exact hb b hb1
      · exact ht
      · exact hc
    | some n =>
      rw [discardBuffers_more s.dev head n hH hN]
      rw [hN] at hrest
      obtain ⟨rest1, hr, hnb, _⟩ := linkedFrom_some _ _ _ hrest
      subst hr
      have hnh : n ≠ head := by
        intro hc1
        rw [List.nodup_append, List.nodup_append] at hn
        have := (List.nodup_cons.mp hn.1.1).1
        exact this (hc1 ▸ List.mem_cons_self _ _)
      have hnFree : n ∉ free := by
        intro hc1
        rw [List.nodup_append, List.nodup_append] at hn
        exact hn.1.2.2 (List.mem_cons_of_mem _ (List.mem_cons_self _ _)) hc1
      refine ⟨[head], n :: free, ?_, ?_, ?_, ?_, ?_, ?_⟩
      · refine ⟨hH, by rw [updateBuffer_length, updateBuffer_length]; exact hhead, ?_⟩
        rw [bufferNext_updateBuffer_ne _ _ _ _ hnh,
          bufferNext_updateBuffer_self _ _ _ none (fun _ => rfl) hhead]
        rfl
      · refine ⟨rfl, by rw [updateBuffer_length, updateBuffer_length]; exact hnb, ?_⟩
        rw [bufferNext_updateBuffer_self _ _ _ s.dev.unusedBuffersHead (fun _ => rfl)
          (by rw [updateBuffer_length]; exact hnb)]
        exact linkedFrom_frame _ _ _ _ _ (linkedFrom_frame _ _ _ _ _ hf hheadFree) hnFree
      · apply nodup_of_count_le _ _ _ hn
        intro a
        simp only [List.count_append, List.count_cons, List.count_nil]
        omega
      · intro b hb1
        show b < (updateBuffer (updateBuffer _ _ _) _ _).length
        rw [updateBuffer_length, updateBuffer_length]
        exact hb b hb1
      · intro t htail hmem
        have := ht t htail (List.mem_cons.mpr (Or.inl (List.mem_singleton.mp hmem)))
        rw [List.mem_singleton.mp hmem]
        rfl
      · exact hc

theorem nextBuffer_some (dev : DvbDevice) (c : Nat) :
    dev.nextBuffer (some c) =
      ({ dev with
          usedBuffersHead := bufferNext dev.buffers c,
          buffers :=
            updateBuffer dev.buffers c (fun x => { x with next := dev.unusedBuffersHead }),
          unusedBuffersHead := some c },
        bufferNext dev.buffers c) := rfl

theorem step_consumerRound_wellFormed (s : BufferSystem) (h : s.WellFormed) :
    (s.step .consumerRound).WellFormed := by
  obtain ⟨pending, free, hp, hf, hn, hb, ht, hc⟩ := h
  have hstep : s.step .consumerRound =
      { s with dev := (s.dev.nextBuffer s.current).1, current := (s.dev.nextBuffer s.current).2 } :=
    rfl
  rw [hstep]
  cases hcur : s.current with
  | none =>
    refine ⟨pending, free, hp, hf, hn, hb, ht, ?_⟩
    intro c hc1
    exact hc1
  | some c =>
    have hH := hc c hcur
    rw [hH] at hp
    obtain ⟨rest, hpending, hcb, hrest⟩ := linkedFrom_some _ _ _ hp
    subst hpending
    have hcRest : c ∉ rest := by
      rw [List.nodup_append, List.nodup_append] at hn
      exact (List.nodup_cons.mp hn.1.1).1
    have hcFree : c ∉ free := by
      intro hc1
      rw [List.nodup_append, List.nodup_append] at hn
      exact hn.1.2.2 (List.mem_cons_self _ _) hc1
    rw [nextBuffer_some]
    refine ⟨rest, c :: free, ?_, ?_, ?_, ?_, ?_, ?_⟩
    · exact linkedFrom_frame _ _ _ _ _ hrest hcRest
    · refine ⟨rfl, ?_, ?_⟩
      · show c < (updateBuffer _ _ _).length
        rw [updateBuffer_length]
        exact hcb
      · show LinkedFrom (updateBuffer s.dev.buffers c _)
          (bufferNext (updateBuffer s.dev.buffers c _) c) free
        rw [bufferNext_updateBuffer_self _ _ _ s.dev.unusedBuffersHead (fun _ => rfl) hcb]
        exact linkedFrom_frame _ _ _ _ _ hf hcFree
    · apply nodup_of_count_le _ _ _ hn
      intro a
      simp only [List.count_append, List.count_cons]
      omega
    · intro b hb1
      show b < (updateBuffer _ _ _).length
      rw [updateBuffer_length]
      exact hb b hb1
    · intro t htail hmem
      have hlast := ht t htail (List.mem_cons_of_mem _ hmem)
      rw [List.getLast?_cons] at hlast
      cases hl : rest.getLast? with
      | none =>
        rw [List.getLast?_eq_none_iff.mp hl] at hmem
        exact absurd hmem (List.not_mem_nil t)
      | some x =>
        rw [hl] at hlast
        exact hlast
    · intro c1 hc1
      exact hc1
theorem count_le_written (pending free held newPending newFree : List Nat) (b : Nat)
    (hb : b ∈ held)
    (h : ∀ a, newPending.count a + newFree.count a ≤
      pending.count a + free.count a + (if a = b then 1 else 0)) :
    ∀ a, (newPending ++ newFree ++ held.erase b).count a ≤ (pending ++ free ++ held).count a := by
  intro a
  have h1 := count_erase_held held b a hb
  have h2 := h a
  simp only [List.count_append]
  omega

theorem count_cons_ite (a b : Nat) (l : List Nat) :
    (b :: l).count a = l.count a + (if a = b then 1 else 0) := by
  rw [List.count_cons]
  by_cases h : a = b
  · subst h
    simp
  · have : (b == a) = false := by
      simp only [beq_eq_false_iff_ne, ne_eq]
      exact fun hc => h hc.symm
    rw [this, if_neg h]
    simp

theorem step_writeBuffer_wellFormed (s : BufferSystem) (b : Nat) (data : List Nat)
    (dataSize : Int) (h : s.WellFormed) :
    (s.step (.writeBuffer b data dataSize)).WellFormed := by
  have hstep : s.step (.writeBuffer b data dataSize) =
      if b ∈ s.held then
        { s with dev := (s.dev.writeBuffer b data dataSize).1, held := s.held.erase b }
      else s := rfl
  rw [hstep]
  by_cases hbm : b ∈ s.held
  swap
  · rw [if_neg hbm]
    exact h
  rw [if_pos hbm]
  obtain ⟨pending, free, hp, hf, hn, hb, ht, hc⟩ := h
  have hbl := hb b hbm
  obtain ⟨hbp, hbf⟩ := not_mem_of_nodup_held pending free s.held b hn hbm
  have hheld : ∀ x ∈ s.held.erase b, x < s.dev.buffers.length :=
    fun x hx => hb x (List.mem_of_mem_erase hx)
  have hkeepData : ∀ x : DvbDeviceDataBuffer, ({ x with data := data } : DvbDeviceDataBuffer).next =
      x.next := fun _ => rfl
  have hkeepSize : ∀ x : DvbDeviceDataBuffer,
      ({ x with size := dataSize } : DvbDeviceDataBuffer).next = x.next := fun _ => rfl
  by_cases hsize : dataSize > 0
  swap
  · rw [writeBuffer_empty s.dev b data dataSize hsize]
    refine ⟨pending, b :: free, ?_, ?_, ?_, ?_, ht, hc⟩
    · exact linkedFrom_frame _ _ _ _ _ (linkedFrom_keep _ _ _ hkeepData _ _ hp) hbp
    · refine ⟨rfl, ?_, ?_⟩
      · show b < (updateBuffer (updateBuffer _ _ _) _ _).length
        rw [updateBuffer_length, updateBuffer_length]
        exact hbl
      · show LinkedFrom (updateBuffer (updateBuffer s.dev.buffers b _) b _)
          (bufferNext (updateBuffer (updateBuffer s.dev.buffers b _) b _) b) free
        rw [bufferNext_updateBuffer_self _ _ _ s.dev.unusedBuffersHead (fun _ => rfl)
          (by rw [updateBuffer_length]; exact hbl)]
        exact linkedFrom_frame _ _ _ _ _ (linkedFrom_keep _ _ _ hkeepData _ _ hf) hbf
    · apply nodup_of_count_le _ _ _ hn
      apply count_le_written pending free s.held pending (b :: free) b hbm
      intro a
      rw [count_cons_ite]
      omega
    · intro x hx
      show x < (updateBuffer (updateBuffer _ _ _) _ _).length
      rw [updateBuffer_length, updateBuffer_length]
      exact hheld x hx
  have hK : ∀ (start : Option Nat) (chain : List Nat), LinkedFrom s.dev.buffers start chain →
      LinkedFrom
        (updateBuffer (updateBuffer s.dev.buffers b (fun x => { x with data := data })) b
          (fun x => { x with size := dataSize })) start chain :=
    fun start chain hl =>
      linkedFrom_keep _ _ _ hkeepSize _ _ (linkedFrom_keep _ _ _ hkeepData _ _ hl)
  have hKlen : (updateBuffer (updateBuffer s.dev.buffers b (fun x => { x with data := data })) b
      (fun x => { x with size := dataSize })).length = s.dev.buffers.length := by
    rw [updateBuffer_length, updateBuffer_length]
  cases hH : s.dev.usedBuffersHead with
  | none =>
    rw [writeBuffer_first s.dev b data dataSize hsize hH]
    rw [hH] at hp
    have hpe := linkedFrom_none _ _ hp
    subst hpe
    refine ⟨[b], free, ?_, ?_, ?_, ?_, ?_, ?_⟩
    · refine ⟨rfl, ?_, ?_⟩
      · show b < (updateBuffer _ _ _).length
        rw [updateBuffer_length, hKlen]
        exact hbl
      · show LinkedFrom (updateBuffer _ b _) (bufferNext (updateBuffer _ b _) b) []
        rw [bufferNext_updateBuffer_self _ _ _ none (fun _ => rfl) (by rw [hKlen]; exact hbl)]
        rfl
    · exact linkedFrom_frame _ _ _ _ _ (hK _ _ hf) hbf
    · apply nodup_of_count_le _ _ _ hn
      apply count_le_written [] free s.held [b] free b hbm
      intro a
      rw [count_cons_ite]
      simp only [List.count_nil]
      omega
    · intro x hx
      show x < (updateBuffer _ _ _).length
      rw [updateBuffer_length, hKlen]
      exact hheld x hx
    · intro t htail _
      have : t = b := (Option.some.inj htail).symm
      rw [this]
      rfl
    · intro c hcur
      have := hc c hcur
      rw [hH] at this
      exact Option.noConfusion this
  | some head =>
    cases hT : s.dev.usedBuffersTail with
    | none =>
      rw [writeBuffer_no_tail s.dev b data dataSize hsize head hH hT]
      refine ⟨pending, free, ?_, ?_, ?_, ?_, ?_, ?_⟩
      · exact linkedFrom_frame _ _ _ _ _ (hK _ _ hp) hbp
      · exact linkedFrom_frame _ _ _ _ _ (hK _ _ hf) hbf
      · apply nodup_of_count_le _ _ _ hn
        apply count_le_written pending free s.held pending free b hbm
        intro a
        omega
      · intro x hx
        show x < (updateBuffer _ _ _).length
        rw [updateBuffer_length, hKlen]
        exact hheld x hx
      · intro t htail hmem
        have : t = b := (Option.some.inj htail).symm
        rw [this] at hmem
        exact absurd hmem hbp
      · exact hc
    | some t =>
      rw [writeBuffer_behind s.dev b data dataSize hsize head t hH hT]
      have hbK : b < (updateBuffer (updateBuffer s.dev.buffers b
          (fun x => { x with data := data })) b (fun x => { x with size := dataSize })).length := by
        rw [hKlen]
        exact hbl
      have hlen4 : ∀ x, x < s.dev.buffers.length →
          x < (updateBuffer
            (updateBuffer
              (updateBuffer (updateBuffer s.dev.buffers b (fun x => { x with data := data })) b
                (fun x => { x with size := dataSize }))
              t (fun x => { x with next := some b }))
            b (fun x => { x with next := none })).length := by
        intro x hx
        rw [updateBuffer_length, updateBuffer_length, hKlen]
        exact hx
      have hpn : pending.Nodup := by
        rw [List.nodup_append, List.nodup_append] at hn
        exact hn.1.1
      have hfn : free.Nodup := by
        rw [List.nodup_append, List.nodup_append] at hn
        exact hn.1.2.1
      have hdisj : ∀ x, x ∈ pending → x ∉ free := by
        intro x hx1 hx2
        rw [List.nodup_append, List.nodup_append] at hn
        exact hn.1.2.2 hx1 hx2
      by_cases htp : t ∈ pending
      · have hlast := ht t hT htp
        obtain ⟨front, hfront⟩ := List.getLast?_eq_some_iff.mp hlast
        subst hfront
        have htf : t ∉ free := hdisj t htp
        refine ⟨front ++ [t, b], free, ?_, ?_, ?_, ?_, ?_, ?_⟩
        · exact linkedFrom_link _ t b hbK front [] _ (hK _ _ hp) hpn hbp
        · exact linkedFrom_frame _ _ _ _ _ (linkedFrom_frame _ _ _ _ _ (hK _ _ hf) htf) hbf
        · apply nodup_of_count_le _ _ _ hn
          apply count_le_written (front ++ [t]) free s.held (front ++ [t, b]) free b hbm
          intro a
          simp only [List.count_append, count_cons_ite, List.count_nil]
          omega
        · exact fun x hx => hlen4 x (hheld x hx)
        · intro t1 htail _
          have : t1 = b := (Option.some.inj htail).symm
          rw [this]
          have : front ++ [t, b] = (front ++ [t]) ++ [b] := by simp
          rw [this, List.getLast?_concat]
        · exact hc
      · by_cases htf : t ∈ free
        · obtain ⟨front, back, hfree⟩ := List.append_of_mem htf
          subst hfree
          refine ⟨pending, front ++ [t, b], ?_, ?_, ?_, ?_, ?_, ?_⟩
          · exact linkedFrom_frame _ _ _ _ _ (linkedFrom_frame _ _ _ _ _ (hK _ _ hp) htp) hbp
          · exact linkedFrom_link _ t b hbK front back _ (hK _ _ hf) hfn hbf
          · apply nodup_of_count_le _ _ _ hn
            apply count_le_written pending (front ++ t :: back) s.held pending
              (front ++ [t, b]) b hbm
            intro a
            simp only [List.count_append, count_cons_ite, List.count_nil]
            omega
          · exact fun x hx => hlen4 x (hheld x hx)
          · intro t1 htail hmem
            have : t1 = b := (Option.some.inj htail).symm
            rw [this] at hmem
            exact absurd hmem hbp
          · exact hc
        · refine ⟨pending, free, ?_, ?_, ?_, ?_, ?_, ?_⟩
          · exact linkedFrom_frame _ _ _ _ _ (linkedFrom_frame _ _ _ _ _ (hK _ _ hp) htp) hbp
          · exact linkedFrom_frame _ _ _ _ _ (linkedFrom_frame _ _ _ _ _ (hK _ _ hf) htf) hbf
          · apply nodup_of_count_le _ _ _ hn
            apply count_le_written pending free s.held pending free b hbm
            intro a
            omega
          · exact fun x hx => hlen4 x (hheld x hx)
          · intro t1 htail hmem
            have : t1 = b := (Option.some.inj htail).symm
            rw [this] at hmem
            exact absurd hmem hbp
          · exact hc
theorem step_wellFormed (s : BufferSystem) (op : BufferOp) (h : s.WellFormed) :
    (s.step op).WellFormed := by
  cases op with
  | getBuffer fresh => exact step_getBuffer_wellFormed s fresh h
  | writeBuffer b data dataSize => exact step_writeBuffer_wellFormed s b data dataSize h
  | discardBuffers => exact step_discardBuffers_wellFormed s h
  | consumerRound => exact step_consumerRound_wellFormed s h

theorem run_wellFormed (ops : List BufferOp) :
    ∀ s : BufferSystem, s.WellFormed → (s.run ops).WellFormed := by
  induction ops with
  | nil => intro s h; exact h
  | cons op rest ih =>
    intro s h
    exact ih _ (step_wellFormed s op h)

theorem init_wellFormed (config : DvbConfigBase) :
    (BufferSystem.init (DvbDevice.init config)).WellFormed := by
  refine ⟨[], [], rfl, rfl, List.nodup_nil, ?_, ?_, ?_⟩
  · intro b hb
    exact absurd hb (List.not_mem_nil b)
  · intro t ht
    exact Option.noConfusion ht
  · intro c hc
    exact Option.noConfusion hc

theorem wellFormed_lists (s : BufferSystem) (h : s.WellFormed) :
    LinkedFrom s.dev.buffers s.dev.unusedBuffersHead s.dev.freeList ∧
      LinkedFrom s.dev.buffers s.dev.usedBuffersHead s.dev.pendingQueue ∧
      (s.dev.freeList ++ s.dev.pendingQueue).Nodup ∧
      (∀ b ∈ s.held, b ∉ s.dev.freeList ++ s.dev.pendingQueue) := by
  obtain ⟨pending, free, hp, hf, hn, _, _, _⟩ := h
  have hpn : pending.Nodup := by
    rw [List.nodup_append, List.nodup_append] at hn
    exact hn.1.1
  have hfn : free.Nodup := by
    rw [List.nodup_append, List.nodup_append] at hn
    exact hn.1.2.1
  have hpl := nodup_length_le pending _ hpn (linkedFrom_bound _ _ _ hp)
  have hfl := nodup_length_le free _ hfn (linkedFrom_bound _ _ _ hf)
  have hfree : s.dev.freeList = free :=
    chainFrom_eq _ _ _ _ hf (by omega)
  have hpending : s.dev.pendingQueue = pending :=
    chainFrom_eq _ _ _ _ hp (by omega)
  rw [hfree, hpending]
  refine ⟨hf, hp, ?_, ?_⟩
  · rw [List.nodup_append] at hn
    exact List.nodup_append_comm.mp hn.1
  · intro b hb hmem
    obtain ⟨h1, h2⟩ := not_mem_of_nodup_held pending free s.held b hn hb
    rcases List.mem_append.mp hmem with h | h
    · exact h2 h
    · exact h1 h

/-- Claim C20: after every sequence of `getBuffer`, `writeBuffer`,
`discardBuffers` and rounds of the consumer loop of `customEvent`, started from
a new device, the free list and the pending queue are proper lists, each
buffer is in at most one of them and at most once in it, and a buffer the
producer holds is in neither. -/
theorem buffer_in_at_most_one_list (config : DvbConfigBase) (ops : List BufferOp) :
    LinkedFrom ((BufferSystem.init (DvbDevice.init config)).run ops).dev.buffers
        ((BufferSystem.init (DvbDevice.init config)).run ops).dev.unusedBuffersHead
        ((BufferSystem.init (DvbDevice.init config)).run ops).dev.freeList ∧
      LinkedFrom ((BufferSystem.init (DvbDevice.init config)).run ops).dev.buffers
        ((BufferSystem.init (DvbDevice.init config)).run ops).dev.usedBuffersHead
        ((BufferSystem.init (DvbDevice.init config)).run ops).dev.pendingQueue ∧
      (((BufferSystem.init (DvbDevice.init config)).run ops).dev.freeList ++
        ((BufferSystem.init (DvbDevice.init config)).run ops).dev.pendingQueue).Nodup ∧
      (∀ b ∈ ((BufferSystem.init (DvbDevice.init config)).run ops).held,
        b ∉ ((BufferSystem.init (DvbDevice.init config)).run ops).dev.freeList ++
          ((BufferSystem.init (DvbDevice.init config)).run ops).dev.pendingQueue) :=
  wellFormed_lists _ (run_wellFormed ops _ (init_wellFormed config))

theorem buffer_in_at_most_one_list_witness :
    ((BufferSystem.init (DvbDevice.init (DvbConfigBase.plain 1500))).run
        bufferExample).dev.pendingQueue = [0] ∧
      ((BufferSystem.init (DvbDevice.init (DvbConfigBase.plain 1500))).run
        bufferExample).dev.freeList = [1, 2] ∧
      (((BufferSystem.init (DvbDevice.init (DvbConfigBase.plain 1500))).run
          bufferExample).dev.freeList ++
        ((BufferSystem.init (DvbDevice.init (DvbConfigBase.plain 1500))).run
          bufferExample).dev.pendingQueue).Nodup :=
  ⟨by decide, by decide,
    (buffer_in_at_most_one_list (DvbConfigBase.plain 1500) bufferExample).2.2.1⟩

/-! ### The consumer run of `customEvent` -/

theorem significant_append (a b : List ScanEvent) :
    significant (a ++ b) = significant a ++ significant b := by
  unfold significant
  rw [List.filter_append]

theorem scanStartFilter_fields (scan : DvbScan) (pid : Int) (type : FilterType)
    (accepted : Bool) :
    (scan.startFilter pid type accepted).1 =
      { scan with
        filters := (scan.startFilter pid type accepted).1.filters,
        activeFilters := (scan.startFilter pid type accepted).1.activeFilters } := by
  unfold DvbScan.startFilter
  split
  · split <;> rfl
  · split
    · split <;> rfl
    · rfl

theorem any_inactive (filters : List DvbScanFilter)
    (h : filters.countP (fun f => f.isActive) ≠ filters.length) :
    filters.any (fun f => !f.isActive) = true := by
  induction filters with
  | nil => exact absurd rfl h
  | cons f rest ih =>
    rw [List.any_cons]
    by_cases hf : f.isActive = true
    · have hrest : rest.countP (fun f => f.isActive) ≠ rest.length := by
        intro hc
        apply h
        rw [List.countP_cons, List.length_cons, hc]
        simp [hf]
      rw [ih hrest]
      simp
    · simp [hf]

theorem scanStartFilter_accepted (scan : DvbScan) (pid : Int) (hpid : 0 ≤ pid)
    (type : FilterType) (hpool : scan.PoolInvariant) :
    (scan.asksDevice = true ∧ (scan.startFilter pid type true).2 = true ∧
        (scan.startFilter pid type true).1.activeFilters = scan.activeFilters + 1 ∧
        (scan.startFilter pid type true).1.PoolInvariant) ∨
      (scan.asksDevice = false ∧ scan.activeFilters = 10 ∧
        ∀ accepted, scan.startFilter pid type accepted = (scan, false)) := by
  obtain ⟨n, hn⟩ : ∃ n : Nat, pid = (n : Int) := ⟨pid.toNat, (Int.toNat_of_nonneg hpid).symm⟩
  subst hn
  have hinv := startFilter_invariant scan n type true hpool
  obtain ⟨hlen, hact⟩ := hpool
  unfold DvbScan.activeInstances at hact
  by_cases hne : scan.activeFilters ≠ scan.filters.length
  · left
    have hc : scan.filters.countP (fun f => f.isActive) ≠ scan.filters.length := by
      intro hc
      apply hne
      rw [hact, hc]
    obtain ⟨filters1, h1, _, _⟩ := startFirstInactive_some n type true scan.filters hc
    refine ⟨?_, ?_, ?_, hinv⟩
    · unfold DvbScan.asksDevice
      rw [if_pos hne]
      exact any_inactive _ hc
    · unfold DvbScan.startFilter
      rw [if_pos hne, h1]
    · unfold DvbScan.startFilter
      rw [if_pos hne, h1]
  · have heq : scan.activeFilters = scan.filters.length := by
      by_contra hc
      exact hne hc
    by_cases hlt : scan.activeFilters < 10
    · left
      refine ⟨?_, ?_, ?_, hinv⟩
      · unfold DvbScan.asksDevice
        rw [if_neg hne]
        simpa using hlt
      · unfold DvbScan.startFilter
        rw [if_neg hne, if_pos hlt]
        rfl
      · unfold DvbScan.startFilter
        rw [if_neg hne, if_pos hlt]
        rfl
    · right
      refine ⟨?_, by omega, ?_⟩
      · unfold DvbScan.asksDevice
        rw [if_neg hne]
        simpa using hlt
      · intro accepted
        unfold DvbScan.startFilter
        rw [if_neg hne, if_neg hlt]

theorem startFilter_world (env : ScanEnvironment)
    (hacc : ∀ n pid, env.addPidFilter n pid = true) (w : ScanWorld) (pid : Int)
    (hpid : 0 ≤ pid) (type : FilterType) (hpool : w.scan.PoolInvariant) :
    (w.startFilter env pid type).1.core = w.core ∧
      (w.startFilter env pid type).1.scan.PoolInvariant ∧
      (w.startFilter env pid type).1.scan.patEntries = w.scan.patEntries ∧
      (w.startFilter env pid type).1.scan.patIndex = w.scan.patIndex ∧
      (((w.startFilter env pid type).2 = true ∧
          (w.startFilter env pid type).1.scan.activeFilters = w.scan.activeFilters + 1) ∨
        ((w.startFilter env pid type).2 = false ∧ w.scan.activeFilters = 10 ∧
          (w.startFilter env pid type).1.scan.activeFilters = 10)) := by
  have hfields := scanStartFilter_fields w.scan pid type true
  rcases scanStartFilter_accepted w.scan pid hpid type hpool with
    ⟨hasks, hres, hact, hinv⟩ | ⟨hasks, hact, hsame⟩
  · have hw : w.startFilter env pid type =
        ({ w with
            scan := (w.scan.startFilter pid type true).1,
            trace := w.trace ++ [.addPidFilter pid true] },
          (w.scan.startFilter pid type true).2) := by
      unfold ScanWorld.startFilter
      rw [if_pos hasks, hacc]
    rw [hw]
    refine ⟨?_, hinv, ?_, ?_, Or.inl ⟨hres, hact⟩⟩
    · unfold ScanWorld.core
      simp only
      rw [hfields, significant_append]
      simp [significant]
    · show (w.scan.startFilter pid type true).1.patEntries = _
      rw [hfields]
    · show (w.scan.startFilter pid type true).1.patIndex = _
      rw [hfields]
  · have hw : w.startFilter env pid type = (w, false) := by
      unfold ScanWorld.startFilter
      rw [if_neg (by simp [hasks]), hsame false]
    rw [hw]
    exact ⟨rfl, hpool, rfl, rfl, Or.inr ⟨rfl, hact, hact⟩⟩

theorem sound_of_core (transponders : List DvbTransponder) (w w1 : ScanWorld)
    (hcore : w1.core = w.core) (hpool : w1.scan.PoolInvariant)
    (hpat : ∀ e ∈ w1.scan.patEntries, 0 ≤ e.pid) (h : w.Sound transponders) :
    w1.Sound transponders := by
  obtain ⟨h1, h2, h3, h4, h5, _, _, h8⟩ := h
  have c1 : w1.scan.transponders = w.scan.transponders := congrArg ScanCore.transponders hcore
  have c2 : w1.scan.isLive = w.scan.isLive := congrArg ScanCore.isLive hcore
  have c3 : w1.outOfFuel = w.outOfFuel := congrArg ScanCore.outOfFuel hcore
  have c3b : w1.crashed = w.crashed := congrArg ScanCore.crashed hcore
  have c4 : w1.scan.transponderIndex = w.scan.transponderIndex :=
    congrArg ScanCore.transponderIndex hcore
  have c5 : w1.scan.transponder = w.scan.transponder := congrArg ScanCore.transponder hcore
  refine ⟨by rw [c1, h1], by rw [c2, h2], by rw [c3, c3b]; exact h3, by rw [c4]; exact h4,
    by rw [c4]; exact h5, hpool, hpat, ?_⟩
  intro t ht
  rw [c5] at ht
  exact h8 t ht
theorem updateState_tune (env : ScanEnvironment) (fuel : Nat) (w : ScanWorld)
    (h : w.scan.state = .ScanTune) :
    ScanWorld.updateState env (fuel + 1) w =
      ScanWorld.tunePhase env (ScanWorld.updateState env fuel) w := by
  simp only [ScanWorld.updateState, h]

theorem updateState_pmt (env : ScanEnvironment) (fuel : Nat) (w : ScanWorld)
    (h : w.scan.state = .ScanPmt) :
    ScanWorld.updateState env (fuel + 1) w =
      ScanWorld.pmtPhase env (ScanWorld.updateState env fuel) w := by
  simp only [ScanWorld.updateState, h]

theorem updateState_pat (env : ScanEnvironment) (fuel : Nat) (w : ScanWorld)
    (h : w.scan.state = .ScanPat) :
    ScanWorld.updateState env (fuel + 1) w =
      ScanWorld.patPhase env (ScanWorld.updateState env fuel) w := by
  simp only [ScanWorld.updateState, h]

theorem tunePhase_tuning (env : ScanEnvironment) (update : ScanWorld → ScanWorld)
    (w : ScanWorld) (h : w.deviceState = .DeviceTuning) :
    ScanWorld.tunePhase env update w = w := by
  simp only [ScanWorld.tunePhase, h]

theorem tunePhase_tuned (env : ScanEnvironment) (update : ScanWorld → ScanWorld)
    (w : ScanWorld) (h : w.deviceState = .DeviceTuned) :
    ScanWorld.tunePhase env update w =
      update { w with scan := { w.scan with state := .ScanPat } } := by
  simp only [ScanWorld.tunePhase, h]

theorem tunePhase_end (env : ScanEnvironment) (update : ScanWorld → ScanWorld)
    (w : ScanWorld) (h : w.deviceState = .DeviceIdle)
    (hend : w.scan.transponderIndex ≥ w.scan.transponders.length) :
    ScanWorld.tunePhase env update w = w.emit .scanFinished := by
  simp only [ScanWorld.tunePhase, h]
  rw [if_pos hend]

theorem tunePhase_next (env : ScanEnvironment) (update : ScanWorld → ScanWorld)
    (w : ScanWorld) (h : w.deviceState = .DeviceIdle)
    (hmore : ¬ w.scan.transponderIndex ≥ w.scan.transponders.length)
    (transponder : DvbTransponder)
    (hget : w.scan.transponders[w.scan.transponderIndex.toNat]? = some transponder) :
    ScanWorld.tunePhase env update w =
      update
        (ScanWorld.tuneDevice env update
          { w with
            scan := { w.scan with
              transponder := some transponder,
              transponderIndex := w.scan.transponderIndex + 1 } }
          transponder) := by
  simp only [ScanWorld.tunePhase, h]
  rw [if_neg hmore]
  simp only [hget]

theorem updateState_tuning (env : ScanEnvironment) (fuel : Nat) (w : ScanWorld)
    (hstate : w.scan.state = .ScanTune) (h : w.deviceState = .DeviceTuning) :
    ScanWorld.updateState env (fuel + 1) w = w := by
  rw [updateState_tune env fuel w hstate, tunePhase_tuning env _ w h]

theorem tuneDevice_eq (env : ScanEnvironment) (fuel : Nat) (w : ScanWorld)
    (transponder : DvbTransponder) (hidle : w.deviceState = .DeviceIdle)
    (hstate : w.scan.state = .ScanTune) :
    ScanWorld.tuneDevice env (ScanWorld.updateState env (fuel + 1)) w transponder =
      match env.tune w.trace.length with
      | .rejected =>
        ScanWorld.updateState env (fuel + 1)
          { w with
            trace := w.trace ++ [.tuneDevice transponder], pendingTune := none,
            deviceState := .DeviceIdle }
      | .timesOut =>
        { w with
          trace := w.trace ++ [.tuneDevice transponder], pendingTune := some .timesOut,
          deviceState := .DeviceTuning }
      | .tuned =>
        { w with
          trace := w.trace ++ [.tuneDevice transponder], pendingTune := some .tuned,
          deviceState := .DeviceTuning } := by
  have h1 : ScanWorld.setDeviceState (ScanWorld.updateState env (fuel + 1))
      { (w.emit (.tuneDevice transponder)) with pendingTune := none } .DeviceTuning =
      { w with
        trace := w.trace ++ [.tuneDevice transponder], pendingTune := none,
        deviceState := .DeviceTuning } := by
    unfold ScanWorld.setDeviceState
    rw [if_pos (by show w.deviceState ≠ _; rw [hidle]; decide)]
    unfold ScanWorld.deviceStateChanged
    rw [if_neg (by show ¬ DeviceState.DeviceTuning = DeviceState.DeviceNotReady; decide),
      if_pos (by exact hstate)]
    exact updateState_tuning env fuel _ hstate rfl
  unfold ScanWorld.tuneDevice
  simp only
  rw [h1]
  cases env.tune w.trace.length with
  | rejected =>
    simp only
    unfold ScanWorld.setDeviceState
    rw [if_pos (by show DeviceState.DeviceTuning ≠ DeviceState.DeviceIdle; decide)]
    unfold ScanWorld.deviceStateChanged
    rw [if_neg (by show ¬ DeviceState.DeviceIdle = DeviceState.DeviceNotReady; decide),
      if_pos (by exact hstate)]
  | timesOut => rfl
  | tuned => rfl

theorem sound_emit (transponders : List DvbTransponder) (w : ScanWorld) (e : ScanEvent)
    (h : w.Sound transponders) : (w.emit e).Sound transponders := h

theorem updateState_settled (env : ScanEnvironment) (transponders : List DvbTransponder)
    (fuel : Nat) (w : ScanWorld) (h : w.Tuning transponders ∨ w.Finished transponders) :
    (ScanWorld.updateState env (fuel + 1) w).Tuning transponders ∨
      (ScanWorld.updateState env (fuel + 1) w).Finished transponders := by
  rcases h with h | h
  · rw [updateState_tuning env fuel w h.2.1 h.2.2.1]
    exact Or.inl h
  · obtain ⟨hs, hstate, hidle, hidx, hact, k, hk⟩ := h
    rw [updateState_tune env fuel w hstate,
      tunePhase_end env _ w hidle (by rw [hidx, hs.1])]
    right
    refine ⟨sound_emit _ w _ hs, hstate, hidle, hidx, hact, k + 1, ?_⟩
    show significant (w.trace ++ [ScanEvent.scanFinished]) = _
    rw [significant_append, hk, List.append_assoc]
    congr 1
    rw [List.replicate_succ' (k + 1)]
    rfl
theorem tuneRequests_succ (transponders : List DvbTransponder) (i : Int) (hi : 0 ≤ i)
    (t : DvbTransponder) (hget : transponders[i.toNat]? = some t) :
    tuneRequests transponders (i + 1) = tuneRequests transponders i ++ [.tuneDevice t] := by
  unfold tuneRequests
  have h1 : (i + 1).toNat = i.toNat + 1 := by omega
  rw [h1, List.take_succ, List.map_append, hget]
  rfl

theorem tuneRequests_all (transponders : List DvbTransponder) :
    tuneRequests transponders transponders.length = transponders.map ScanEvent.tuneDevice := by
  unfold tuneRequests
  rw [Int.toNat_ofNat, List.take_length]

theorem tunePhase_rejected (env : ScanEnvironment) (f : Nat) (w : ScanWorld)
    (hidle : w.deviceState = .DeviceIdle) (hstate : w.scan.state = .ScanTune)
    (hmore : ¬ w.scan.transponderIndex ≥ w.scan.transponders.length)
    (transponder : DvbTransponder)
    (hget : w.scan.transponders[w.scan.transponderIndex.toNat]? = some transponder)
    (ho : env.tune w.trace.length = .rejected) :
    ScanWorld.tunePhase env (ScanWorld.updateState env (f + 1)) w =
      ScanWorld.updateState env (f + 1)
        (ScanWorld.updateState env (f + 1) (w.requested transponder none .DeviceIdle)) := by
  rw [tunePhase_next env _ w hidle hmore _ hget]
  have htd := tuneDevice_eq env f
    { w with
      scan := { w.scan with
        transponder := some transponder,
        transponderIndex := w.scan.transponderIndex + 1 } }
    transponder hidle hstate
  rw [htd]
  simp only [ho]
  rfl

theorem tunePhase_accepted (env : ScanEnvironment) (f : Nat) (w : ScanWorld)
    (hidle : w.deviceState = .DeviceIdle) (hstate : w.scan.state = .ScanTune)
    (hmore : ¬ w.scan.transponderIndex ≥ w.scan.transponders.length)
    (transponder : DvbTransponder)
    (hget : w.scan.transponders[w.scan.transponderIndex.toNat]? = some transponder)
    (o : TuneOutcome) (ho : env.tune w.trace.length = o) (hne : o ≠ .rejected) :
    ScanWorld.tunePhase env (ScanWorld.updateState env (f + 1)) w =
      w.requested transponder (some o) .DeviceTuning := by
  rw [tunePhase_next env _ w hidle hmore _ hget]
  have htd := tuneDevice_eq env f
    { w with
      scan := { w.scan with
        transponder := some transponder,
        transponderIndex := w.scan.transponderIndex + 1 } }
    transponder hidle hstate
  rw [htd]
  cases o with
  | rejected => exact absurd rfl hne
  | timesOut =>
    simp only [ho]
    exact updateState_tuning env f _ hstate rfl
  | tuned =>
    simp only [ho]
    exact updateState_tuning env f _ hstate rfl

theorem tunePhase_ready (env : ScanEnvironment) (transponders : List DvbTransponder)
    (hT : ∀ t ∈ transponders, t.transmissionType = .DvbT) :
    ∀ (k fuel : Nat) (w : ScanWorld), w.Ready transponders →
      transponders.length - w.scan.transponderIndex.toNat = k → k + 1 ≤ fuel →
      (ScanWorld.tunePhase env (ScanWorld.updateState env fuel) w).Tuning transponders ∨
        (ScanWorld.tunePhase env (ScanWorld.updateState env fuel) w).Finished transponders := by
  intro k
  induction k with
  | zero =>
    intro fuel w hready hk _
    obtain ⟨hs, hstate, hidle, hact, hsig⟩ := hready
    have hs' := hs
    obtain ⟨h1, _, _, h4, h5, _, _, _⟩ := hs'
    have hidx : w.scan.transponderIndex = transponders.length := by omega
    rw [tunePhase_end env _ w hidle (by rw [h1, hidx])]
    right
    refine ⟨sound_emit _ w _ hs, hstate, hidle, hidx, hact, 0, ?_⟩
    show significant (w.trace ++ [ScanEvent.scanFinished]) = _
    rw [significant_append, hsig, hidx, tuneRequests_all]
    rfl
  | succ k ih =>
    intro fuel w hready hk hfuel
    obtain ⟨hs, hstate, hidle, hact, hsig⟩ := hready
    have hs' := hs
    obtain ⟨h1, h2, h3, h4, h5, h6, h7, h8⟩ := hs'
    obtain ⟨f, rfl⟩ : ∃ f, fuel = f + 1 := ⟨fuel - 1, by omega⟩
    have hlt : w.scan.transponderIndex.toNat < transponders.length := by omega
    have hget : w.scan.transponders[w.scan.transponderIndex.toNat]? =
        some (transponders[w.scan.transponderIndex.toNat]) := by
      rw [h1]
      exact List.getElem?_eq_getElem hlt
    have hmore : ¬ w.scan.transponderIndex ≥ w.scan.transponders.length := by
      rw [h1]
      omega
    have hsound1 : ∀ (p : Option TuneOutcome) (d : DeviceState),
        (w.requested (transponders[w.scan.transponderIndex.toNat]) p d).Sound transponders := by
      intro p d
      refine ⟨h1, h2, h3, ?_, ?_, h6, h7, ?_⟩
      · show 0 ≤ w.scan.transponderIndex + 1
        omega
      · show w.scan.transponderIndex + 1 ≤ transponders.length
        omega
      · intro t ht
        have : transponders[w.scan.transponderIndex.toNat] = t := Option.some.inj ht
        rw [← this]
        exact hT _ (List.getElem_mem _)
    have hsig1 : ∀ (p : Option TuneOutcome) (d : DeviceState),
        significant (w.requested (transponders[w.scan.transponderIndex.toNat]) p d).trace =
          tuneRequests transponders
            (w.requested (transponders[w.scan.transponderIndex.toNat]) p d).scan.transponderIndex := by
      intro p d
      show significant (w.trace ++ [.tuneDevice (transponders[w.scan.transponderIndex.toNat])]) =
        tuneRequests transponders (w.scan.transponderIndex + 1)
      rw [significant_append, hsig, tuneRequests_succ transponders _ h4 _
        (List.getElem?_eq_getElem hlt)]
      rfl
    cases ho : env.tune w.trace.length with
    | rejected =>
      rw [tunePhase_rejected env f w hidle hstate hmore _ hget ho]
      apply updateState_settled
      rw [updateState_tune env f
        (w.requested (transponders[w.scan.transponderIndex.toNat]) none .DeviceIdle) hstate]
      exact ih f _ ⟨hsound1 none .DeviceIdle, hstate, rfl, hact, hsig1 none .DeviceIdle⟩
        (by show transponders.length - (w.scan.transponderIndex + 1).toNat = k; omega)
        (by omega)
    | timesOut =>
      rw [tunePhase_accepted env f w hidle hstate hmore _ hget _ ho (by decide)]
      exact Or.inl ⟨hsound1 _ _, hstate, rfl, Or.inr rfl, hact, hsig1 _ _,
        fun h => Option.noConfusion h⟩
    | tuned =>
      rw [tunePhase_accepted env f w hidle hstate hmore _ hget _ ho (by decide)]
      exact Or.inl ⟨hsound1 _ _, hstate, rfl, Or.inl rfl, hact, hsig1 _ _,
        fun h => Option.noConfusion h⟩

theorem updateState_ready (env : ScanEnvironment) (transponders : List DvbTransponder)
    (hT : ∀ t ∈ transponders, t.transmissionType = .DvbT) (fuel : Nat) (w : ScanWorld)
    (h : w.Ready transponders) (hfuel : transponders.length + 2 ≤ fuel) :
    (ScanWorld.updateState env fuel w).Tuning transponders ∨
      (ScanWorld.updateState env fuel w).Finished transponders := by
  obtain ⟨f, rfl⟩ : ∃ f, fuel = f + 1 := ⟨fuel - 1, by omega⟩
  rw [updateState_tune env f w h.2.1]
  exact tunePhase_ready env transponders hT _ f w h rfl (by omega)
theorem startPmtFilters_spec (env : ScanEnvironment)
    (hacc : ∀ n pid, env.addPidFilter n pid = true) :
    ∀ (rounds : Nat) (w : ScanWorld), w.scan.PoolInvariant →
      (∀ e ∈ w.scan.patEntries, 0 ≤ e.pid) →
      (ScanWorld.startPmtFilters env rounds w).1.core = w.core ∧
        (ScanWorld.startPmtFilters env rounds w).1.scan.PoolInvariant ∧
        (ScanWorld.startPmtFilters env rounds w).1.scan.patEntries = w.scan.patEntries ∧
        w.scan.activeFilters ≤ (ScanWorld.startPmtFilters env rounds w).1.scan.activeFilters ∧
        ((ScanWorld.startPmtFilters env rounds w).2 = false →
          (ScanWorld.startPmtFilters env rounds w).1.scan.activeFilters = 10) := by
  intro rounds
  induction rounds with
  | zero =>
    intro w hpool _
    exact ⟨rfl, hpool, rfl, Int.le_refl _, fun h => Bool.noConfusion h⟩
  | succ rounds ih =>
    intro w hpool hpat
    unfold ScanWorld.startPmtFilters
    cases hget : w.scan.patEntries[w.scan.patIndex]? with
    | none => exact ⟨rfl, hpool, rfl, Int.le_refl _, fun h => Bool.noConfusion h⟩
    | some entry =>
      simp only
      have hpid : 0 ≤ entry.pid := hpat entry (List.mem_iff_getElem?.mpr ⟨_, hget⟩)
      obtain ⟨hcore, hpool1, hpat1, _, hres⟩ :=
        startFilter_world env hacc w entry.pid hpid .PmtFilter hpool
      rcases hres with ⟨htrue, hact⟩ | ⟨hfalse, hact0, hact⟩
      · rw [if_neg (by rw [htrue]; decide)]
        obtain ⟨c1, c2, c3, c4, c5⟩ := ih
          { (w.startFilter env entry.pid .PmtFilter).1 with
            scan := { (w.startFilter env entry.pid .PmtFilter).1.scan with
              patIndex := (w.startFilter env entry.pid .PmtFilter).1.scan.patIndex + 1 } }
          hpool1 (by show ∀ e ∈ (w.startFilter env entry.pid .PmtFilter).1.scan.patEntries, _
                     rw [hpat1]; exact hpat)
        exact ⟨c1.trans hcore, c2, c3.trans hpat1,
          Int.le_trans (by rw [hact]; omega) c4, c5⟩
      · rw [if_pos hfalse]
        exact ⟨hcore, hpool1, hpat1, by rw [hact, hact0], fun _ => hact⟩

theorem stopDevice_eq (update : ScanWorld → ScanWorld) (w : ScanWorld)
    (hd : w.deviceState = .DeviceTuned) (hst : w.scan.state = .ScanPmt) :
    ScanWorld.stopDevice update w =
      { w with
        trace := w.trace ++ [.stopDevice], pendingTune := none,
        deviceState := .DeviceIdle } := by
  unfold ScanWorld.stopDevice ScanWorld.setDeviceState
  rw [if_pos (by show w.deviceState ≠ _; rw [hd]; decide)]
  unfold ScanWorld.deviceStateChanged
  rw [if_neg (by show ¬ DeviceState.DeviceIdle = DeviceState.DeviceNotReady; decide),
    if_neg (by show ¬ w.scan.state = _; rw [hst]; decide)]
  rfl

theorem reportChannels_core (w : ScanWorld) :
    w.reportChannels.core = w.core ∧
      w.reportChannels.scan.filters = w.scan.filters ∧
      w.reportChannels.scan.activeFilters = w.scan.activeFilters ∧
      w.reportChannels.scan.patEntries = w.scan.patEntries := by
  unfold ScanWorld.reportChannels
  split
  · refine ⟨?_, rfl, rfl, rfl⟩
    unfold ScanWorld.core ScanWorld.emit
    simp only
    rw [significant_append]
    simp [significant]
  · exact ⟨rfl, rfl, rfl, rfl⟩

theorem poolInvariant_of_eq (a b : DvbScan) (hf : a.filters = b.filters)
    (ha : a.activeFilters = b.activeFilters) (h : b.PoolInvariant) : a.PoolInvariant := by
  unfold DvbScan.PoolInvariant DvbScan.activeInstances at h ⊢
  rw [hf, ha]
  exact h

theorem leaveTransponder_ready (update : ScanWorld → ScanWorld)
    (transponders : List DvbTransponder) (w : ScanWorld) (hs : w.Sound transponders)
    (hst : w.scan.state = .ScanPmt) (hd : w.deviceState = .DeviceTuned)
    (hact : w.scan.activeFilters = 0)
    (hsig : significant w.trace = tuneRequests transponders w.scan.transponderIndex) :
    (ScanWorld.leaveTransponder update w).Ready transponders := by
  unfold ScanWorld.leaveTransponder
  have hstop := stopDevice_eq update
    { w with scan := { w.scan with
        patEntries := [], patIndex := 0, sdtEntries := [], channels := [] } } hd hst
  rw [hstop]
  obtain ⟨h1, h2, h3, h4, h5, h6, _, h8⟩ := hs
  refine ⟨⟨h1, h2, h3, h4, h5, h6, ?_, h8⟩, rfl, rfl, hact, ?_⟩
  · intro e he
    exact absurd he (List.not_mem_nil e)
  · show significant (w.trace ++ [ScanEvent.stopDevice]) = _
    rw [significant_append, hsig]
    simp [significant]

theorem pmtPhase_progress (env : ScanEnvironment)
    (hacc : ∀ n pid, env.addPidFilter n pid = true) (transponders : List DvbTransponder)
    (hT : ∀ t ∈ transponders, t.transmissionType = .DvbT) (fuel : Nat) (w : ScanWorld)
    (hs : w.Sound transponders) (hst : w.scan.state = .ScanPmt)
    (hd : w.deviceState = .DeviceTuned)
    (hsig : significant w.trace = tuneRequests transponders w.scan.transponderIndex)
    (hfuel : transponders.length + 1 ≤ fuel) :
    (ScanWorld.pmtPhase env (ScanWorld.updateState env fuel) w).Progress transponders := by
  obtain ⟨c1, c2, c3, c4, c5⟩ := startPmtFilters_spec env hacc
    (w.scan.patEntries.length - w.scan.patIndex) w hs.2.2.2.2.2.1 hs.2.2.2.2.2.2.1
  have hs1 : (ScanWorld.startPmtFilters env (w.scan.patEntries.length - w.scan.patIndex)
      w).1.Sound transponders :=
    sound_of_core transponders w _ c1 c2 (by rw [c3]; exact hs.2.2.2.2.2.2.1) hs
  have hst1 : (ScanWorld.startPmtFilters env (w.scan.patEntries.length - w.scan.patIndex)
      w).1.scan.state = .ScanPmt := (congrArg ScanCore.state c1).trans hst
  have hd1 : (ScanWorld.startPmtFilters env (w.scan.patEntries.length - w.scan.patIndex)
      w).1.deviceState = .DeviceTuned := (congrArg ScanCore.deviceState c1).trans hd
  have hidx1 : (ScanWorld.startPmtFilters env (w.scan.patEntries.length - w.scan.patIndex)
      w).1.scan.transponderIndex = w.scan.transponderIndex :=
    congrArg ScanCore.transponderIndex c1
  have hsig1 : significant (ScanWorld.startPmtFilters env
      (w.scan.patEntries.length - w.scan.patIndex) w).1.trace =
      tuneRequests transponders (ScanWorld.startPmtFilters env
        (w.scan.patEntries.length - w.scan.patIndex) w).1.scan.transponderIndex := by
    rw [hidx1, ← hsig]
    exact congrArg ScanCore.events c1
  have hnonneg : 0 ≤ (ScanWorld.startPmtFilters env
      (w.scan.patEntries.length - w.scan.patIndex) w).1.scan.activeFilters := by
    rw [c2.2]
    exact Int.ofNat_nonneg _
  unfold ScanWorld.pmtPhase
  simp only
  by_cases hr : (ScanWorld.startPmtFilters env (w.scan.patEntries.length - w.scan.patIndex)
      w).2 = false
  · rw [if_pos hr]
    exact Or.inr (Or.inl ⟨hs1, hst1, hd1, by rw [c5 hr]; decide, hsig1⟩)
  · rw [if_neg hr]
    by_cases ha : (ScanWorld.startPmtFilters env (w.scan.patEntries.length - w.scan.patIndex)
        w).1.scan.activeFilters ≠ 0
    · rw [if_pos ha]
      exact Or.inr (Or.inl ⟨hs1, hst1, hd1, by omega, hsig1⟩)
    · rw [if_neg ha]
      have ha0 : (ScanWorld.startPmtFilters env (w.scan.patEntries.length - w.scan.patIndex)
          w).1.scan.activeFilters = 0 := by
        by_contra hc
        exact ha hc
      obtain ⟨r1, r2, r3, r4⟩ := reportChannels_core
        (ScanWorld.startPmtFilters env (w.scan.patEntries.length - w.scan.patIndex) w).1
      have hs2 := sound_of_core transponders _ _ r1
        (poolInvariant_of_eq _ _ r2 r3 hs1.2.2.2.2.2.1)
        (by rw [r4]; exact hs1.2.2.2.2.2.2.1) hs1
      rw [if_neg (by rw [hs2.2.1]; decide)]
      have hready := leaveTransponder_ready (ScanWorld.updateState env fuel) transponders _ hs2
        ((congrArg ScanCore.state r1).trans hst1)
        ((congrArg ScanCore.deviceState r1).trans hd1) (r3.trans ha0)
        (by
          have hidx2 : (ScanWorld.startPmtFilters env
              (w.scan.patEntries.length - w.scan.patIndex) w).1.reportChannels.scan.transponderIndex =
              (ScanWorld.startPmtFilters env
                (w.scan.patEntries.length - w.scan.patIndex) w).1.scan.transponderIndex :=
            congrArg ScanCore.transponderIndex r1
          rw [hidx2, ← hsig1]
          exact congrArg ScanCore.events r1)
      rcases tunePhase_ready env transponders hT _ fuel _ hready rfl (by omega) with h | h
      · exact Or.inl h
      · exact Or.inr (Or.inr h)
theorem startFilter_world_free (env : ScanEnvironment)
    (hacc : ∀ n pid, env.addPidFilter n pid = true) (transponders : List DvbTransponder)
    (w : ScanWorld) (pid : Int) (hpid : 0 ≤ pid) (type : FilterType)
    (hs : w.Sound transponders) (hd : w.deviceState = .DeviceTuned)
    (hsig : significant w.trace = tuneRequests transponders w.scan.transponderIndex)
    (hlow : w.scan.activeFilters < 10) :
    (w.startFilter env pid type).2 = true ∧
      (w.startFilter env pid type).1.Sound transponders ∧
      (w.startFilter env pid type).1.deviceState = .DeviceTuned ∧
      significant (w.startFilter env pid type).1.trace =
        tuneRequests transponders (w.startFilter env pid type).1.scan.transponderIndex ∧
      (w.startFilter env pid type).1.scan.activeFilters = w.scan.activeFilters + 1 := by
  obtain ⟨hcore, hpool1, hpat1, _, hres⟩ :=
    startFilter_world env hacc w pid hpid type hs.2.2.2.2.2.1
  have hidx : (w.startFilter env pid type).1.scan.transponderIndex = w.scan.transponderIndex :=
    congrArg ScanCore.transponderIndex hcore
  rcases hres with ⟨htrue, hact⟩ | ⟨_, hact0, _⟩
  · refine ⟨htrue, sound_of_core transponders w _ hcore hpool1
      (by rw [hpat1]; exact hs.2.2.2.2.2.2.1) hs,
      (congrArg ScanCore.deviceState hcore).trans hd, ?_, hact⟩
    rw [hidx, ← hsig]
    exact congrArg ScanCore.events hcore
  · omega

theorem sdtPhase_progress (env : ScanEnvironment)
    (hacc : ∀ n pid, env.addPidFilter n pid = true) (transponders : List DvbTransponder)
    (hT : ∀ t ∈ transponders, t.transmissionType = .DvbT) (fuel : Nat) (w : ScanWorld)
    (hs : w.Sound transponders) (hd : w.deviceState = .DeviceTuned)
    (hsig : significant w.trace = tuneRequests transponders w.scan.transponderIndex)
    (hlow : w.scan.activeFilters < 10) (hfuel : transponders.length + 1 ≤ fuel) :
    (ScanWorld.sdtPhase env (ScanWorld.updateState env fuel) w).Progress transponders := by
  obtain ⟨h1, h2, h3, h4, _⟩ :=
    startFilter_world_free env hacc transponders w 0x11 (by decide) .SdtFilter hs hd hsig hlow
  unfold ScanWorld.sdtPhase
  rw [if_neg (by rw [h1]; decide)]
  exact pmtPhase_progress env hacc transponders hT fuel _ h2 rfl h3 h4 hfuel

theorem nitPhase_progress (env : ScanEnvironment)
    (hacc : ∀ n pid, env.addPidFilter n pid = true) (transponders : List DvbTransponder)
    (hT : ∀ t ∈ transponders, t.transmissionType = .DvbT) (fuel : Nat) (w : ScanWorld)
    (hs : w.Sound transponders) (hd : w.deviceState = .DeviceTuned)
    (hsig : significant w.trace = tuneRequests transponders w.scan.transponderIndex)
    (hlow : w.scan.activeFilters < 9) (htr : w.scan.transponder ≠ none)
    (hfuel : transponders.length + 1 ≤ fuel) :
    (ScanWorld.nitPhase env (ScanWorld.updateState env fuel) w).Progress transponders := by
  obtain ⟨t, ht⟩ := Option.ne_none_iff_exists'.mp htr
  have hr : w.scan.readsNit = some true := by
    unfold DvbScan.readsNit
    rw [hs.2.1, ht]
    simp [hs.2.2.2.2.2.2.2 t ht]
  unfold ScanWorld.nitPhase
  rw [hr]
  simp only
  obtain ⟨h1, h2, h3, h4, h5⟩ :=
    startFilter_world_free env hacc transponders w 0x10 (by decide) .NitFilter hs hd hsig
      (by omega)
  rw [if_neg (by rw [h1]; decide)]
  exact sdtPhase_progress env hacc transponders hT fuel _ h2 h3 h4
    (by show (w.startFilter env 0x10 .NitFilter).1.scan.activeFilters < 10; omega) hfuel

theorem patPhase_progress (env : ScanEnvironment)
    (hacc : ∀ n pid, env.addPidFilter n pid = true) (transponders : List DvbTransponder)
    (hT : ∀ t ∈ transponders, t.transmissionType = .DvbT) (fuel : Nat) (w : ScanWorld)
    (hs : w.Sound transponders) (hd : w.deviceState = .DeviceTuned)
    (hsig : significant w.trace = tuneRequests transponders w.scan.transponderIndex)
    (hact : w.scan.activeFilters = 0) (htr : w.scan.transponder ≠ none)
    (hfuel : transponders.length + 1 ≤ fuel) :
    (ScanWorld.patPhase env (ScanWorld.updateState env fuel) w).Progress transponders := by
  obtain ⟨h1, h2, h3, h4, h5⟩ :=
    startFilter_world_free env hacc transponders w 0x0 (by decide) .PatFilter hs hd hsig
      (by omega)
  have htr1 : (w.startFilter env 0x0 .PatFilter).1.scan.transponder = w.scan.transponder :=
    congrArg ScanCore.transponder
      (startFilter_world env hacc w 0x0 (by decide) .PatFilter hs.2.2.2.2.2.1).1
  unfold ScanWorld.patPhase
  rw [if_neg (by rw [h1]; decide)]
  exact nitPhase_progress env hacc transponders hT fuel _ h2 h3 h4
    (by show (w.startFilter env 0x0 .PatFilter).1.scan.activeFilters < 9; omega)
    (by show (w.startFilter env 0x0 .PatFilter).1.scan.transponder ≠ none; rw [htr1]; exact htr)
    hfuel

theorem updateState_reading (env : ScanEnvironment)
    (hacc : ∀ n pid, env.addPidFilter n pid = true) (transponders : List DvbTransponder)
    (hT : ∀ t ∈ transponders, t.transmissionType = .DvbT) (fuel : Nat) (w : ScanWorld)
    (hs : w.Sound transponders) (hst : w.scan.state = .ScanPmt)
    (hd : w.deviceState = .DeviceTuned)
    (hsig : significant w.trace = tuneRequests transponders w.scan.transponderIndex)
    (hfuel : transponders.length + 2 ≤ fuel) :
    (ScanWorld.updateState env fuel w).Progress transponders := by
  obtain ⟨f, rfl⟩ : ∃ f, fuel = f + 1 := ⟨fuel - 1, by omega⟩
  rw [updateState_pmt env f w hst]
  exact pmtPhase_progress env hacc transponders hT f w hs hst hd hsig (by omega)

theorem updateState_tuned (env : ScanEnvironment)
    (hacc : ∀ n pid, env.addPidFilter n pid = true) (transponders : List DvbTransponder)
    (hT : ∀ t ∈ transponders, t.transmissionType = .DvbT) (fuel : Nat) (w : ScanWorld)
    (hs : w.Sound transponders) (hst : w.scan.state = .ScanTune)
    (hd : w.deviceState = .DeviceTuned)
    (hsig : significant w.trace = tuneRequests transponders w.scan.transponderIndex)
    (hact : w.scan.activeFilters = 0) (htr : w.scan.transponder ≠ none)
    (hfuel : transponders.length + 3 ≤ fuel) :
    (ScanWorld.updateState env fuel w).Progress transponders := by
  obtain ⟨f, rfl⟩ : ∃ f, fuel = f + 2 := ⟨fuel - 2, by omega⟩
  rw [updateState_tune env (f + 1) w hst, tunePhase_tuned env _ w hd,
    updateState_pat env f { w with scan := { w.scan with state := .ScanPat } } rfl]
  exact patPhase_progress env hacc transponders hT f _ hs hd hsig hact htr (by omega)
theorem stopFilter_fields (scan : DvbScan) (i : Nat) :
    scan.stopFilter i =
      { scan with
        filters := (scan.stopFilter i).filters,
        activeFilters := (scan.stopFilter i).activeFilters } := by
  unfold DvbScan.stopFilter
  cases scan.filters[i]? <;> rfl

theorem stopFilter_invariant (scan : DvbScan) (i : Nat) (f : DvbScanFilter)
    (hget : scan.filters[i]? = some f) (hf : f.isActive = true) (h : scan.PoolInvariant) :
    (scan.stopFilter i).PoolInvariant := by
  have hstep := poolStep_invariant scan (.filterFinished i) h
  have heq : scan.poolStep (.filterFinished i) = scan.stopFilter i := by
    have hstep : scan.poolStep (.filterFinished i) =
        match scan.filters[i]? with
        | none => scan
        | some f => if f.isActive then scan.stopFilter i else scan := rfl
    rw [hstep, hget]
    simp only
    rw [if_pos hf]
  rw [heq] at hstep
  exact hstep

theorem filterFinished_progress (env : ScanEnvironment)
    (hacc : ∀ n pid, env.addPidFilter n pid = true) (transponders : List DvbTransponder)
    (hT : ∀ t ∈ transponders, t.transmissionType = .DvbT) (w : ScanWorld) (i : Nat)
    (f : DvbScanFilter) (hs : w.Sound transponders) (hst : w.scan.state = .ScanPmt)
    (hd : w.deviceState = .DeviceTuned)
    (hsig : significant w.trace = tuneRequests transponders w.scan.transponderIndex)
    (hget : w.scan.filters[i]? = some f) (hf : f.isActive = true) :
    (w.filterFinished env i).Progress transponders := by
  unfold ScanWorld.filterFinished
  rw [hget]
  simp only
  rw [if_pos hf]
  have hfields := stopFilter_fields w.scan i
  have hpool := stopFilter_invariant w.scan i f hget hf hs.2.2.2.2.2.1
  obtain ⟨h1, h2, h3, h4, h5, _, h7, h8⟩ := hs
  apply updateState_reading env hacc transponders hT
  · refine ⟨?_, ?_, h3, ?_, ?_, hpool, ?_, ?_⟩
    · show (w.scan.stopFilter i).transponders = _
      rw [hfields]; exact h1
    · show (w.scan.stopFilter i).isLive = _
      rw [hfields]; exact h2
    · show 0 ≤ (w.scan.stopFilter i).transponderIndex
      rw [hfields]; exact h4
    · show (w.scan.stopFilter i).transponderIndex ≤ _
      rw [hfields]; exact h5
    · show ∀ e ∈ (w.scan.stopFilter i).patEntries, _
      rw [hfields]; exact h7
    · show ∀ t, (w.scan.stopFilter i).transponder = some t → _
      rw [hfields]; exact h8
  · show (w.scan.stopFilter i).state = _
    rw [hfields]; exact hst
  · exact hd
  · show significant (w.emit (.removePidFilter f.pid)).trace =
      tuneRequests transponders (w.scan.stopFilter i).transponderIndex
    rw [hfields]
    show significant (w.trace ++ [ScanEvent.removePidFilter f.pid]) = _
    rw [significant_append, hsig]
    simp [significant]
  · show transponders.length + 2 ≤ w.scan.transponders.length + 3
    rw [h1]
    omega

theorem no_active_filter (scan : DvbScan) (i : Nat) (f : DvbScanFilter)
    (hpool : scan.PoolInvariant) (hact : scan.activeFilters = 0)
    (hget : scan.filters[i]? = some f) : f.isActive = false := by
  obtain ⟨_, h⟩ := hpool
  unfold DvbScan.activeInstances at h
  rw [hact] at h
  have hz : scan.filters.countP (fun f => f.isActive) = 0 := by omega
  have := List.countP_eq_zero.mp hz f (List.mem_iff_getElem?.mpr ⟨i, hget⟩)
  simpa using this

theorem processSection_calls (f : DvbScanFilter) (sec : ScanSection) :
    (f.processSection sec).1.pid = f.pid ∧
      ((f.processSection sec).2 = [] ∨ (f.processSection sec).2 = [f.type.call f.pid] ∨
        (f.processSection sec).2 = [f.type.call f.pid, .filterFinished]) := by
  unfold DvbScanFilter.processSection
  split
  · exact ⟨rfl, Or.inl rfl⟩
  · split
    · exact ⟨rfl, Or.inl rfl⟩
    · split
      · exact ⟨rfl, Or.inl rfl⟩
      · simp only
        split
        · exact ⟨rfl, Or.inl rfl⟩
        · split
          · exact ⟨rfl, Or.inr (Or.inr rfl)⟩
          · exact ⟨rfl, Or.inr (Or.inl rfl)⟩

theorem countP_set_same (filters : List DvbScanFilter) :
    ∀ (i : Nat) (f g : DvbScanFilter), filters[i]? = some f → g.isActive = f.isActive →
      (filters.set i g).countP (fun f => f.isActive) =
        filters.countP (fun f => f.isActive) := by
  induction filters with
  | nil => intro i f g h; simp at h
  | cons x rest ih =>
    intro i f g h hg
    cases i with
    | zero =>
      simp only [List.getElem?_cons_zero, Option.some.injEq] at h
      subst h
      rw [List.set_cons_zero, List.countP_cons, List.countP_cons, hg]
    | succ i =>
      simp only [List.getElem?_cons_succ] at h
      rw [List.set_cons_succ, List.countP_cons, List.countP_cons, ih i f g h hg]

theorem tableCall_sound (env : ScanEnvironment) (transponders : List DvbTransponder)
    (w : ScanWorld) (i : Nat) (contents : SectionContents) (pid : Int) (type : FilterType)
    (hs : w.Sound transponders) :
    (w.scanCall env i contents (type.call pid)).Sound transponders ∧
      (w.scanCall env i contents (type.call pid)).core = w.core ∧
      (w.scanCall env i contents (type.call pid)).scan.filters = w.scan.filters ∧
      (w.scanCall env i contents (type.call pid)).scan.activeFilters = w.scan.activeFilters := by
  obtain ⟨h1, h2, h3, h4, h5, h6, h7, h8⟩ := hs
  cases type with
  | PatFilter =>
    refine ⟨⟨h1, h2, h3, h4, h5, h6, ?_, h8⟩, rfl, rfl, rfl⟩
    intro e he
    have hp : (w.scan.processPat contents.pat).patEntries = _ :=
      processPatEntries_eq contents.pat.entries w.scan.patEntries
    have he1 : e ∈ (w.scan.processPat contents.pat).patEntries := he
    rw [hp] at he1
    rcases List.mem_append.mp he1 with h | h
    · exact h7 e h
    · simp only [List.mem_map] at h
      obtain ⟨x, _, rfl⟩ := h
      exact Int.ofNat_nonneg _
  | PmtFilter =>
    have hfields : w.scan.processPmt DvbPreviewChannel.init contents.pmt pid =
        { w.scan with
          channels := (w.scan.processPmt DvbPreviewChannel.init contents.pmt pid).channels } := by
      unfold DvbScan.processPmt
      simp only
      split <;> rfl
    have hw : w.scanCall env i contents (FilterType.PmtFilter.call pid) =
        { w with scan := w.scan.processPmt DvbPreviewChannel.init contents.pmt pid } := rfl
    rw [hw, hfields]
    exact ⟨⟨h1, h2, h3, h4, h5, h6, h7, h8⟩, rfl, rfl, rfl⟩
  | SdtFilter => exact ⟨⟨h1, h2, h3, h4, h5, h6, h7, h8⟩, rfl, rfl, rfl⟩
  | NitFilter =>
    have hsame : w.scan.processNit env.si contents.nit = w.scan := by
      unfold DvbScan.processNit
      cases ht : w.scan.transponder with
      | none => rfl
      | some t =>
        simp only
        rw [processNitEntries_unused env.si _ (by rw [h8 t ht]; decide), ← ht]
    have hw : w.scanCall env i contents (FilterType.NitFilter.call pid) =
        { w with scan := w.scan.processNit env.si contents.nit } := rfl
    rw [hw, hsame]
    exact ⟨⟨h1, h2, h3, h4, h5, h6, h7, h8⟩, rfl, rfl, rfl⟩
theorem setDeviceState_changed (update : ScanWorld → ScanWorld) (w : ScanWorld)
    (s : DeviceState) (hne : w.deviceState ≠ s) (hs : s ≠ .DeviceNotReady)
    (hst : w.scan.state = .ScanTune) :
    ScanWorld.setDeviceState update w s = update { w with deviceState := s } := by
  unfold ScanWorld.setDeviceState
  rw [if_pos hne]
  unfold ScanWorld.deviceStateChanged
  rw [if_neg (by exact hs), if_pos (by exact hst)]

theorem input_tuneSettled_progress (env : ScanEnvironment)
    (hacc : ∀ n pid, env.addPidFilter n pid = true) (transponders : List DvbTransponder)
    (hT : ∀ t ∈ transponders, t.transmissionType = .DvbT) (w : ScanWorld)
    (h : w.Progress transponders) : (w.input env .tuneSettled).Progress transponders := by
  have hinput : w.input env .tuneSettled =
      if w.deviceState = .DeviceTuning then
        match w.pendingTune with
        | some .tuned =>
          ScanWorld.setDeviceState (ScanWorld.updateState env w.fuel)
            { w with pendingTune := none } .DeviceTuned
        | some .timesOut =>
          ScanWorld.setDeviceState (ScanWorld.updateState env w.fuel)
            { w with pendingTune := none } .DeviceIdle
        | _ => w
      else w := rfl
  rw [hinput]
  rcases h with h | h | h
  · obtain ⟨hs, hst, hd, hp, hact, hsig, htr⟩ := h
    rw [if_pos hd]
    have hfuel : w.fuel = transponders.length + 3 := by
      unfold ScanWorld.fuel
      rw [hs.1]
    rcases hp with hp | hp
    · rw [hp]
      simp only
      rw [setDeviceState_changed _ { w with pendingTune := none } .DeviceTuned
        (by show w.deviceState ≠ _; rw [hd]; decide) (by decide) hst]
      exact updateState_tuned env hacc transponders hT _ _ hs hst rfl hsig hact htr
        (by rw [hfuel])
    · rw [hp]
      simp only
      rw [setDeviceState_changed _ { w with pendingTune := none } .DeviceIdle
        (by show w.deviceState ≠ _; rw [hd]; decide) (by decide) hst]
      rcases updateState_ready env transponders hT w.fuel
        { w with pendingTune := none, deviceState := .DeviceIdle }
        ⟨hs, hst, rfl, hact, hsig⟩ (by rw [hfuel]; omega) with h1 | h1
      · exact Or.inl h1
      · exact Or.inr (Or.inr h1)
  · rw [if_neg (by rw [h.2.2.1]; decide)]
    exact Or.inr (Or.inl h)
  · rw [if_neg (by rw [h.2.2.1]; decide)]
    exact Or.inr (Or.inr h)

theorem input_timeout_progress (env : ScanEnvironment)
    (hacc : ∀ n pid, env.addPidFilter n pid = true) (transponders : List DvbTransponder)
    (hT : ∀ t ∈ transponders, t.transmissionType = .DvbT) (w : ScanWorld) (i : Nat)
    (h : w.Progress transponders) : (w.input env (.timeout i)).Progress transponders := by
  have hinput : w.input env (.timeout i) =
      match w.scan.filters[i]? with
      | none => w
      | some f => if f.isActive then w.filterFinished env i else w := rfl
  rw [hinput]
  cases hget : w.scan.filters[i]? with
  | none => exact h
  | some f =>
    simp only
    by_cases hf : f.isActive = true
    · rw [if_pos hf]
      rcases h with h | h | h
      · have := no_active_filter w.scan i f h.1.2.2.2.2.2.1 h.2.2.2.2.1 hget
        rw [hf] at this
        exact Bool.noConfusion this
      · exact filterFinished_progress env hacc transponders hT w i f h.1 h.2.1 h.2.2.1
          h.2.2.2.2 hget hf
      · have := no_active_filter w.scan i f h.1.2.2.2.2.2.1 h.2.2.2.2.1 hget
        rw [hf] at this
        exact Bool.noConfusion this
    · rw [if_neg hf]
      exact h

theorem input_section_progress (env : ScanEnvironment)
    (hacc : ∀ n pid, env.addPidFilter n pid = true) (transponders : List DvbTransponder)
    (hT : ∀ t ∈ transponders, t.transmissionType = .DvbT) (w : ScanWorld) (i : Nat)
    (sec : ScanSection) (contents : SectionContents) (hvalid : sec.isValid = true)
    (h : w.Progress transponders) :
    (w.input env (.sectionArrived i sec contents)).Progress transponders := by
  have hnocrash : invalidSectionCrash env.si w.scan.transponder sec = false := by
    unfold invalidSectionCrash
    rw [hvalid]
    rfl
  have hinput : w.input env (.sectionArrived i sec contents) =
      match w.scan.filters[i]? with
      | none => w
      | some f =>
        if f.isActive then
          ScanWorld.scanCalls env
            { w with scan := { w.scan with
                filters := w.scan.filters.set i (f.processSection sec).1 } }
            i contents (f.processSection sec).2
        else w := by
    unfold ScanWorld.input
    simp only [hnocrash, Bool.false_eq_true, if_false]
  rw [hinput]
  cases hget : w.scan.filters[i]? with
  | none => exact h
  | some f =>
    simp only
    by_cases hf : f.isActive = true
    swap
    · rw [if_neg hf]
      exact h
    rw [if_pos hf]
    rcases h with h | h | h
    · have := no_active_filter w.scan i f h.1.2.2.2.2.2.1 h.2.2.2.2.1 hget
      rw [hf] at this
      exact Bool.noConfusion this
    swap
    · have := no_active_filter w.scan i f h.1.2.2.2.2.2.1 h.2.2.2.2.1 hget
      rw [hf] at this
      exact Bool.noConfusion this
    obtain ⟨hs, hst, hd, hact, hsig⟩ := h
    obtain ⟨hpid, hcalls⟩ := processSection_calls f sec
    have hactive1 : (f.processSection sec).1.isActive = f.isActive := by
      unfold DvbScanFilter.isActive
      rw [hpid]
    have hi : i < w.scan.filters.length := by
      by_contra hc
      rw [List.getElem?_eq_none (by omega)] at hget
      exact Option.noConfusion hget
    obtain ⟨h1, h2, h3, h4, h5, h6, h7, h8⟩ := hs
    have hs1 : ScanWorld.Sound transponders
        { w with scan := { w.scan with
            filters := w.scan.filters.set i (f.processSection sec).1 } } := by
      refine ⟨h1, h2, h3, h4, h5, ?_, h7, h8⟩
      obtain ⟨hlen, hcount⟩ := h6
      refine ⟨?_, ?_⟩
      · show (w.scan.filters.set i _).length ≤ 10
        rw [List.length_set]
        exact hlen
      · show w.scan.activeFilters =
          (((w.scan.filters.set i (f.processSection sec).1).countP
            (fun f => f.isActive) : Nat) : Int)
        rw [countP_set_same _ i f _ hget hactive1]
        exact hcount
    rcases hcalls with hc | hc | hc
    · rw [hc]
      exact Or.inr (Or.inl ⟨hs1, hst, hd, hact, hsig⟩)
    · rw [hc]
      obtain ⟨t1, t2, _, t4⟩ := tableCall_sound env transponders
        { w with scan := { w.scan with
            filters := w.scan.filters.set i (f.processSection sec).1 } }
        i contents f.pid f.type hs1
      refine Or.inr (Or.inl ⟨t1, (congrArg ScanCore.state t2).trans hst,
        (congrArg ScanCore.deviceState t2).trans hd, lt_of_lt_of_eq hact t4.symm, ?_⟩)
      have e1 := congrArg ScanCore.events t2
      have e2 := congrArg ScanCore.transponderIndex t2
      exact (e1.trans hsig).trans (congrArg (tuneRequests transponders) e2.symm)
    · rw [hc]
      obtain ⟨t1, t2, t3, _⟩ := tableCall_sound env transponders
        { w with scan := { w.scan with
            filters := w.scan.filters.set i (f.processSection sec).1 } }
        i contents f.pid f.type hs1
      have e1 := congrArg ScanCore.events t2
      have e2 := congrArg ScanCore.transponderIndex t2
      refine filterFinished_progress env hacc transponders hT _ i (f.processSection sec).1 t1
        ((congrArg ScanCore.state t2).trans hst) ((congrArg ScanCore.deviceState t2).trans hd)
        ((e1.trans hsig).trans (congrArg (tuneRequests transponders) e2.symm)) ?_
        (hactive1.trans hf)
      rw [t3]
      exact List.getElem?_set_self hi

theorem input_progress (env : ScanEnvironment)
    (hacc : ∀ n pid, env.addPidFilter n pid = true) (transponders : List DvbTransponder)
    (hT : ∀ t ∈ transponders, t.transmissionType = .DvbT) (w : ScanWorld) (input : ScanInput)
    (hvalid : input.sectionValid = true)
    (h : w.Progress transponders) : (w.input env input).Progress transponders := by
  cases input with
  | tuneSettled => exact input_tuneSettled_progress env hacc transponders hT w h
  | sectionArrived i sec contents =>
    exact input_section_progress env hacc transponders hT w i sec contents hvalid h
  | timeout i => exact input_timeout_progress env hacc transponders hT w i h

theorem progress_sound (transponders : List DvbTransponder) (w : ScanWorld)
    (h : w.Progress transponders) : w.Sound transponders := by
  rcases h with h | h | h
  · exact h.1
  · exact h.1
  · exact h.1

theorem run_cons (env : ScanEnvironment) (w : ScanWorld) (input : ScanInput)
    (rest : List ScanInput) (h : w.crashed = false) :
    w.run env (input :: rest) = (w.input env input).run env rest := by
  show (if w.crashed then w else ScanWorld.run env (w.input env input) rest) = _
  rw [h]
  rfl

theorem run_progress (env : ScanEnvironment)
    (hacc : ∀ n pid, env.addPidFilter n pid = true) (transponders : List DvbTransponder)
    (hT : ∀ t ∈ transponders, t.transmissionType = .DvbT) (inputs : List ScanInput)
    (hvalid : ∀ x ∈ inputs, x.sectionValid = true) :
    ∀ w : ScanWorld, w.Progress transponders → (w.run env inputs).Progress transponders := by
  induction inputs with
  | nil => intro w h; exact h
  | cons input rest ih =>
    intro w h
    rw [run_cons env w input rest (progress_sound transponders w h).2.2.1.2]
    exact ih (fun x hx => hvalid x (List.mem_cons_of_mem _ hx)) _
      (input_progress env hacc transponders hT w input (hvalid input (List.mem_cons_self _ _)) h)

theorem start_progress (env : ScanEnvironment) (source : String)
    (transponders : List DvbTransponder)
    (hT : ∀ t ∈ transponders, t.transmissionType = .DvbT) :
    (ScanWorld.start env (DvbScan.offline source transponders) .DeviceIdle).Progress
      transponders := by
  unfold ScanWorld.start
  have hready : ScanWorld.Ready transponders
      { scan := DvbScan.offline source transponders, deviceState := .DeviceIdle,
        pendingTune := none, trace := [], outOfFuel := false, crashed := false } := by
    refine ⟨⟨rfl, rfl, ⟨rfl, rfl⟩, Int.le_refl _, ?_, ⟨by simp [DvbScan.offline], rfl⟩, ?_, ?_⟩,
      rfl, rfl, rfl, rfl⟩
    · show (0 : Int) ≤ transponders.length
      exact Int.ofNat_nonneg _
    · intro e he
      exact absurd he (List.not_mem_nil e)
    · intro t ht
      exact Option.noConfusion ht
  rcases updateState_ready env transponders hT _ _ hready (by show _ ≤ transponders.length + 3; omega)
    with h | h
  · exact Or.inl h
  · exact Or.inr (Or.inr h)
theorem stalled_run (inputs : List ScanInput) :
    scanExampleStalled.run (scanEnvironmentNoFilter (fun _ => .tuned)) inputs =
      scanExampleStalled := by
  have hfilters : scanExampleStalled.scan.filters = [] := by decide
  have hdevice : scanExampleStalled.deviceState = .DeviceTuned := by decide
  have hstep : ∀ input : ScanInput,
      scanExampleStalled.input (scanEnvironmentNoFilter (fun _ => .tuned)) input =
        scanExampleStalled := by
    intro input
    cases input with
    | tuneSettled =>
      have hinput : ∀ w : ScanWorld, w.deviceState ≠ .DeviceTuning →
          w.input (scanEnvironmentNoFilter (fun _ => .tuned)) .tuneSettled = w := by
        intro w hw
        unfold ScanWorld.input
        rw [if_neg hw]
      exact hinput _ (by rw [hdevice]; decide)
    | sectionArrived i sec contents =>
      have hinput : ∀ w : ScanWorld, w.scan.filters = [] →
          w.input (scanEnvironmentNoFilter (fun _ => .tuned)) (.sectionArrived i sec contents) = w := by
        intro w hw
        unfold ScanWorld.input
        rw [hw]
        rfl
      exact hinput _ hfilters
    | timeout i =>
      have hinput : ∀ w : ScanWorld, w.scan.filters = [] →
          w.input (scanEnvironmentNoFilter (fun _ => .tuned)) (.timeout i) = w := by
        intro w hw
        unfold ScanWorld.input
        rw [hw]
        rfl
      exact hinput _ hfilters
  induction inputs with
  | nil => rfl
  | cons input rest ih =>
    show ScanWorld.run _ (scanExampleStalled.input _ input) rest = _
    rw [hstep input]
    exact ih

/-- Counterexample to claim C19 as stated: on a device that gets tuned but
rejects every filter request, the offline scan of two terrestrial transponders
starts no filter after the first tune; nothing is in progress then, and
whatever happens afterwards the scan stays where it is: the second transponder
is never requested and `scanFinished` is never signalled. -/
theorem offline_scan_stalls_without_filter :
    scanExampleStalled.quiescent ∧
      scanExampleStalled.trace =
        [.tuneDevice (DvbTransponder.plain .DvbT 506000000), .addPidFilter 0 false] ∧
      (∀ inputs : List ScanInput,
        scanExampleStalled.run (scanEnvironmentNoFilter (fun _ => .tuned)) inputs =
          scanExampleStalled) :=
  ⟨by decide, by decide, stalled_run⟩

theorem remainingWork_of_core (w w1 : ScanWorld) (hcore : w1.core = w.core)
    (hpe : w1.scan.patEntries = w.scan.patEntries) (hpi : w1.scan.patIndex = w.scan.patIndex) :
    w1.remainingWork + w.scan.activeFilters.toNat =
      w.remainingWork + w1.scan.activeFilters.toNat := by
  have c1 : w1.scan.transponders = w.scan.transponders := congrArg ScanCore.transponders hcore
  have c2 : w1.deviceState = w.deviceState := congrArg ScanCore.deviceState hcore
  have c4 : w1.scan.transponderIndex = w.scan.transponderIndex :=
    congrArg ScanCore.transponderIndex hcore
  unfold ScanWorld.remainingWork
  rw [c1, c2, c4, hpe, hpi]
  omega

theorem updateState_settled_work (env : ScanEnvironment) (transponders : List DvbTransponder)
    (fuel : Nat) (w : ScanWorld) (h : w.Tuning transponders ∨ w.Finished transponders) :
    (ScanWorld.updateState env (fuel + 1) w).remainingWork = w.remainingWork := by
  rcases h with h | h
  · rw [updateState_tuning env fuel w h.2.1 h.2.2.1]
  · obtain ⟨hs, hstate, hidle, hidx, _, _⟩ := h
    rw [updateState_tune env fuel w hstate, tunePhase_end env _ w hidle (by rw [hidx, hs.1])]
    rfl

theorem requested_ready (transponders : List DvbTransponder)
    (hT : ∀ t ∈ transponders, t.transmissionType = .DvbT) (w : ScanWorld)
    (h : w.Ready transponders)
    (hlt : w.scan.transponderIndex.toNat < transponders.length) :
    (w.requested (transponders[w.scan.transponderIndex.toNat]) none .DeviceIdle).Ready
      transponders := by
  obtain ⟨hs, hstate, hidle, hact, hsig⟩ := h
  obtain ⟨h1, h2, h3, h4, h5, h6, h7, h8⟩ := hs
  refine ⟨⟨h1, h2, h3, ?_, ?_, h6, h7, ?_⟩, hstate, rfl, hact, ?_⟩
  · show 0 ≤ w.scan.transponderIndex + 1
    omega
  · show w.scan.transponderIndex + 1 ≤ transponders.length
    omega
  · intro t ht
    have : transponders[w.scan.transponderIndex.toNat] = t := Option.some.inj ht
    rw [← this]
    exact hT _ (List.getElem_mem _)
  · show significant (w.trace ++ [.tuneDevice (transponders[w.scan.transponderIndex.toNat])]) =
      tuneRequests transponders (w.scan.transponderIndex + 1)
    rw [significant_append, hsig, tuneRequests_succ transponders _ h4 _
      (List.getElem?_eq_getElem hlt)]
    rfl

/-- The tune phase with an idle device does not add to the work left. -/
theorem tunePhase_ready_work (env : ScanEnvironment) (transponders : List DvbTransponder)
    (hT : ∀ t ∈ transponders, t.transmissionType = .DvbT) :
    ∀ (k fuel : Nat) (w : ScanWorld), w.Ready transponders →
      transponders.length - w.scan.transponderIndex.toNat = k → k + 1 ≤ fuel →
      (ScanWorld.tunePhase env (ScanWorld.updateState env fuel) w).remainingWork ≤
        w.remainingWork := by
  intro k
  induction k with
  | zero =>
    intro fuel w hready hk _
    obtain ⟨hs, hstate, hidle, hact, hsig⟩ := hready
    obtain ⟨h1, _, _, h4, h5, _, _, _⟩ := hs
    have hidx : w.scan.transponderIndex = transponders.length := by omega
    rw [tunePhase_end env _ w hidle (by rw [h1, hidx])]
    exact Nat.le_refl _
  | succ k ih =>
    intro fuel w hready hk hfuel
    have hready0 := hready
    obtain ⟨hs, hstate, hidle, hact, hsig⟩ := hready
    obtain ⟨h1, h2, h3, h4, h5, h6, h7, h8⟩ := hs
    obtain ⟨f, rfl⟩ : ∃ f, fuel = f + 1 := ⟨fuel - 1, by omega⟩
    have hlt : w.scan.transponderIndex.toNat < transponders.length := by omega
    have hget : w.scan.transponders[w.scan.transponderIndex.toNat]? =
        some (transponders[w.scan.transponderIndex.toNat]) := by
      rw [h1]
      exact List.getElem?_eq_getElem hlt
    have hmore : ¬ w.scan.transponderIndex ≥ w.scan.transponders.length := by
      rw [h1]
      omega
    have hwork : ∀ (p : Option TuneOutcome) (d : DeviceState),
        (w.requested (transponders[w.scan.transponderIndex.toNat]) p d).remainingWork +
            4 =
          w.remainingWork + (if d = .DeviceTuning then 4 else 0) := by
      intro p d
      unfold ScanWorld.remainingWork
      show 4 * (w.scan.transponders.length - (w.scan.transponderIndex + 1).toNat) +
          (if d = DeviceState.DeviceTuning then 4 else 0) + w.scan.activeFilters.toNat +
          2 * (w.scan.patEntries.length - w.scan.patIndex) + 4 = _
      rw [hidle, h1]
      have hni : (if DeviceState.DeviceIdle = DeviceState.DeviceTuning then (4 : Nat) else 0) =
          0 := rfl
      rw [hni]
      have : (w.scan.transponderIndex + 1).toNat = w.scan.transponderIndex.toNat + 1 := by omega
      rw [this]
      omega
    cases ho : env.tune w.trace.length with
    | rejected =>
      rw [tunePhase_rejected env f w hidle hstate hmore _ hget ho]
      have hr := requested_ready transponders hT w hready0 hlt
      have hk1 : transponders.length -
          (w.requested (transponders[w.scan.transponderIndex.toNat]) none
            .DeviceIdle).scan.transponderIndex.toNat = k := by
        show transponders.length - (w.scan.transponderIndex + 1).toNat = k
        omega
      have hinner := ih f _ hr hk1 (by omega)
      have hprog := tunePhase_ready env transponders hT k f _ hr hk1 (by omega)
      rw [updateState_tune env f
        (w.requested (transponders[w.scan.transponderIndex.toNat]) none .DeviceIdle) hstate]
      rw [updateState_settled_work env transponders f _ hprog]
      have := hwork none .DeviceIdle
      rw [if_neg (by decide)] at this
      omega
    | timesOut =>
      rw [tunePhase_accepted env f w hidle hstate hmore _ hget _ ho (by decide)]
      have := hwork (some .timesOut) .DeviceTuning
      rw [if_pos rfl] at this
      omega
    | tuned =>
      rw [tunePhase_accepted env f w hidle hstate hmore _ hget _ ho (by decide)]
      have := hwork (some .tuned) .DeviceTuning
      rw [if_pos rfl] at this
      omega

theorem updateState_ready_work (env : ScanEnvironment) (transponders : List DvbTransponder)
    (hT : ∀ t ∈ transponders, t.transmissionType = .DvbT) (fuel : Nat) (w : ScanWorld)
    (h : w.Ready transponders) (hfuel : transponders.length + 2 ≤ fuel) :
    (ScanWorld.updateState env fuel w).remainingWork ≤ w.remainingWork := by
  obtain ⟨f, rfl⟩ : ∃ f, fuel = f + 1 := ⟨fuel - 1, by omega⟩
  rw [updateState_tune env f w h.2.1]
  exact tunePhase_ready_work env transponders hT _ f w h rfl (by omega)
theorem startFilter_work (env : ScanEnvironment)
    (hacc : ∀ n pid, env.addPidFilter n pid = true) (w : ScanWorld) (pid : Int)
    (hpid : 0 ≤ pid) (type : FilterType) (hpool : w.scan.PoolInvariant) :
    (w.startFilter env pid type).1.remainingWork ≤ w.remainingWork + 1 ∧
      ((w.startFilter env pid type).2 = false →
        (w.startFilter env pid type).1.remainingWork = w.remainingWork) := by
  obtain ⟨hcore, hpool1, hpe, hpi, hres⟩ := startFilter_world env hacc w pid hpid type hpool
  have h := remainingWork_of_core w _ hcore hpe hpi
  rcases hres with ⟨htrue, hact⟩ | ⟨hfalse, hact0, hact⟩
  · rw [hact] at h
    have hnn : 0 ≤ w.scan.activeFilters := by rw [hpool.2]; exact Int.natCast_nonneg _
    refine ⟨by omega, ?_⟩
    intro hf
    rw [htrue] at hf
    exact Bool.noConfusion hf
  · rw [hact, hact0] at h
    exact ⟨by omega, fun _ => by omega⟩

/-- The loop that starts the PMT filters does not add to the work left. -/
theorem startPmtFilters_work (env : ScanEnvironment)
    (hacc : ∀ n pid, env.addPidFilter n pid = true) :
    ∀ (rounds : Nat) (w : ScanWorld), w.scan.PoolInvariant →
      (∀ e ∈ w.scan.patEntries, 0 ≤ e.pid) →
      (ScanWorld.startPmtFilters env rounds w).1.remainingWork ≤ w.remainingWork := by
  intro rounds
  induction rounds with
  | zero =>
    intro w _ _
    exact Nat.le_refl _
  | succ rounds ih =>
    intro w hpool hpat
    unfold ScanWorld.startPmtFilters
    cases hget : w.scan.patEntries[w.scan.patIndex]? with
    | none => exact Nat.le_refl _
    | some entry =>
      simp only
      have hpid : 0 ≤ entry.pid := hpat entry (List.mem_iff_getElem?.mpr ⟨_, hget⟩)
      have hlt : w.scan.patIndex < w.scan.patEntries.length := by
        by_contra hc
        rw [List.getElem?_eq_none (by omega)] at hget
        exact Option.noConfusion hget
      obtain ⟨hcore, hpool1, hpe, hpi, hres⟩ :=
        startFilter_world env hacc w entry.pid hpid .PmtFilter hpool
      have hw := remainingWork_of_core w _ hcore hpe hpi
      have hnn : 0 ≤ w.scan.activeFilters := by rw [hpool.2]; exact Int.natCast_nonneg _
      rcases hres with ⟨htrue, hact⟩ | ⟨hfalse, hact0, hact⟩
      · rw [if_neg (by rw [htrue]; decide)]
        have hstep := ih
          { (w.startFilter env entry.pid .PmtFilter).1 with
            scan := { (w.startFilter env entry.pid .PmtFilter).1.scan with
              patIndex := (w.startFilter env entry.pid .PmtFilter).1.scan.patIndex + 1 } }
          hpool1 (by show ∀ e ∈ (w.startFilter env entry.pid .PmtFilter).1.scan.patEntries, _
                     rw [hpe]; exact hpat)
        refine Nat.le_trans hstep ?_
        have c1 : (w.startFilter env entry.pid .PmtFilter).1.scan.transponders =
            w.scan.transponders := congrArg ScanCore.transponders hcore
        have c2 : (w.startFilter env entry.pid .PmtFilter).1.deviceState = w.deviceState :=
          congrArg ScanCore.deviceState hcore
        have c4 : (w.startFilter env entry.pid .PmtFilter).1.scan.transponderIndex =
            w.scan.transponderIndex := congrArg ScanCore.transponderIndex hcore
        unfold ScanWorld.remainingWork
        show 4 * ((w.startFilter env entry.pid .PmtFilter).1.scan.transponders.length -
              (w.startFilter env entry.pid .PmtFilter).1.scan.transponderIndex.toNat) +
            (if (w.startFilter env entry.pid .PmtFilter).1.deviceState = DeviceState.DeviceTuning
              then 4 else 0) +
            (w.startFilter env entry.pid .PmtFilter).1.scan.activeFilters.toNat +
            2 * ((w.startFilter env entry.pid .PmtFilter).1.scan.patEntries.length -
              ((w.startFilter env entry.pid .PmtFilter).1.scan.patIndex + 1)) ≤ _
        rw [c1, c2, c4, hpe, hpi, hact]
        omega
      · rw [if_pos hfalse]
        rw [hact, hact0] at hw
        show (w.startFilter env entry.pid .PmtFilter).1.remainingWork ≤ w.remainingWork
        omega

theorem leaveTransponder_work (update : ScanWorld → ScanWorld) (w : ScanWorld)
    (hst : w.scan.state = .ScanPmt) (hd : w.deviceState = .DeviceTuned) :
    (ScanWorld.leaveTransponder update w).remainingWork ≤ w.remainingWork := by
  unfold ScanWorld.leaveTransponder
  have hstop := stopDevice_eq update
    { w with scan := { w.scan with
        patEntries := [], patIndex := 0, sdtEntries := [], channels := [] } } hd hst
  rw [hstop]
  unfold ScanWorld.remainingWork
  show 4 * (w.scan.transponders.length - w.scan.transponderIndex.toNat) +
      (if DeviceState.DeviceIdle = DeviceState.DeviceTuning then 4 else 0) +
      w.scan.activeFilters.toNat + 2 * (([] : List DvbPatEntry).length - 0) ≤ _
  rw [hd]
  have h1 : (if DeviceState.DeviceIdle = DeviceState.DeviceTuning then (4 : Nat) else 0) = 0 := rfl
  have h2 : (if DeviceState.DeviceTuned = DeviceState.DeviceTuning then (4 : Nat) else 0) = 0 := rfl
  rw [h1, h2]
  simp

/-- The case `ScanPmt` does not add to the work left. -/
theorem pmtPhase_work (env : ScanEnvironment)
    (hacc : ∀ n pid, env.addPidFilter n pid = true) (transponders : List DvbTransponder)
    (hT : ∀ t ∈ transponders, t.transmissionType = .DvbT) (fuel : Nat) (w : ScanWorld)
    (hs : w.Sound transponders) (hst : w.scan.state = .ScanPmt)
    (hd : w.deviceState = .DeviceTuned)
    (hsig : significant w.trace = tuneRequests transponders w.scan.transponderIndex)
    (hfuel : transponders.length + 1 ≤ fuel) :
    (ScanWorld.pmtPhase env (ScanWorld.updateState env fuel) w).remainingWork ≤
      w.remainingWork := by
  obtain ⟨c1, c2, c3, c4, c5⟩ := startPmtFilters_spec env hacc
    (w.scan.patEntries.length - w.scan.patIndex) w hs.2.2.2.2.2.1 hs.2.2.2.2.2.2.1
  have hwork := startPmtFilters_work env hacc
    (w.scan.patEntries.length - w.scan.patIndex) w hs.2.2.2.2.2.1 hs.2.2.2.2.2.2.1
  have hs1 : (ScanWorld.startPmtFilters env (w.scan.patEntries.length - w.scan.patIndex)
      w).1.Sound transponders :=
    sound_of_core transponders w _ c1 c2 (by rw [c3]; exact hs.2.2.2.2.2.2.1) hs
  have hst1 : (ScanWorld.startPmtFilters env (w.scan.patEntries.length - w.scan.patIndex)
      w).1.scan.state = .ScanPmt := (congrArg ScanCore.state c1).trans hst
  have hd1 : (ScanWorld.startPmtFilters env (w.scan.patEntries.length - w.scan.patIndex)
      w).1.deviceState = .DeviceTuned := (congrArg ScanCore.deviceState c1).trans hd
  have hidx1 : (ScanWorld.startPmtFilters env (w.scan.patEntries.length - w.scan.patIndex)
      w).1.scan.transponderIndex = w.scan.transponderIndex :=
    congrArg ScanCore.transponderIndex c1
  have hsig1 : significant (ScanWorld.startPmtFilters env
      (w.scan.patEntries.length - w.scan.patIndex) w).1.trace =
      tuneRequests transponders (ScanWorld.startPmtFilters env
        (w.scan.patEntries.length - w.scan.patIndex) w).1.scan.transponderIndex := by
    rw [hidx1, ← hsig]
    exact congrArg ScanCore.events c1
  unfold ScanWorld.pmtPhase
  simp only
  by_cases hr : (ScanWorld.startPmtFilters env (w.scan.patEntries.length - w.scan.patIndex)
      w).2 = false
  · rw [if_pos hr]
    exact hwork
  · rw [if_neg hr]
    by_cases ha : (ScanWorld.startPmtFilters env (w.scan.patEntries.length - w.scan.patIndex)
        w).1.scan.activeFilters ≠ 0
    · rw [if_pos ha]
      exact hwork
    · rw [if_neg ha]
      have ha0 : (ScanWorld.startPmtFilters env (w.scan.patEntries.length - w.scan.patIndex)
          w).1.scan.activeFilters = 0 := by
        by_contra hc
        exact ha hc
      obtain ⟨r1, r2, r3, r4⟩ := reportChannels_core
        (ScanWorld.startPmtFilters env (w.scan.patEntries.length - w.scan.patIndex) w).1
      have hs2 := sound_of_core transponders _ _ r1
        (poolInvariant_of_eq _ _ r2 r3 hs1.2.2.2.2.2.1)
        (by rw [r4]; exact hs1.2.2.2.2.2.2.1) hs1
      rw [if_neg (by rw [hs2.2.1]; decide)]
      have hst2 := (congrArg ScanCore.state r1).trans hst1
      have hd2 := (congrArg ScanCore.deviceState r1).trans hd1
      have hready := leaveTransponder_ready (ScanWorld.updateState env fuel) transponders _ hs2
        hst2 hd2 (r3.trans ha0)
        (by
          have hidx2 : (ScanWorld.startPmtFilters env
              (w.scan.patEntries.length - w.scan.patIndex) w).1.reportChannels.scan.transponderIndex =
              (ScanWorld.startPmtFilters env
                (w.scan.patEntries.length - w.scan.patIndex) w).1.scan.transponderIndex :=
            congrArg ScanCore.transponderIndex r1
          rw [hidx2, ← hsig1]
          exact congrArg ScanCore.events r1)
      have h1 := tunePhase_ready_work env transponders hT _ fuel _ hready rfl (by
        have := hready.1.2.2.2.2.1
        have := hready.1.2.2.2.1
        omega)
      have h2 := leaveTransponder_work (ScanWorld.updateState env fuel) _ hst2 hd2
      have hpi : (ScanWorld.startPmtFilters env (w.scan.patEntries.length - w.scan.patIndex)
          w).1.reportChannels.scan.patIndex =
          (ScanWorld.startPmtFilters env (w.scan.patEntries.length - w.scan.patIndex)
            w).1.scan.patIndex := by
        unfold ScanWorld.reportChannels
        split <;> rfl
      have h3 := remainingWork_of_core _ _ r1 r4 hpi
      rw [r3] at h3
      omega
theorem sdtPhase_work (env : ScanEnvironment)
    (hacc : ∀ n pid, env.addPidFilter n pid = true) (transponders : List DvbTransponder)
    (hT : ∀ t ∈ transponders, t.transmissionType = .DvbT) (fuel : Nat) (w : ScanWorld)
    (hs : w.Sound transponders) (hd : w.deviceState = .DeviceTuned)
    (hsig : significant w.trace = tuneRequests transponders w.scan.transponderIndex)
    (hlow : w.scan.activeFilters < 10) (hfuel : transponders.length + 1 ≤ fuel) :
    (ScanWorld.sdtPhase env (ScanWorld.updateState env fuel) w).remainingWork ≤
      w.remainingWork + 1 := by
  obtain ⟨h1, h2, h3, h4, _⟩ :=
    startFilter_world_free env hacc transponders w 0x11 (by decide) .SdtFilter hs hd hsig hlow
  have hw := (startFilter_work env hacc w 0x11 (by decide) .SdtFilter hs.2.2.2.2.2.1).1
  unfold ScanWorld.sdtPhase
  rw [if_neg (by rw [h1]; decide)]
  have hp := pmtPhase_work env hacc transponders hT fuel
    { (w.startFilter env 0x11 .SdtFilter).1 with
      scan := { (w.startFilter env 0x11 .SdtFilter).1.scan with state := .ScanPmt } }
    h2 rfl h3 h4 hfuel
  exact Nat.le_trans hp hw

theorem nitPhase_work (env : ScanEnvironment)
    (hacc : ∀ n pid, env.addPidFilter n pid = true) (transponders : List DvbTransponder)
    (hT : ∀ t ∈ transponders, t.transmissionType = .DvbT) (fuel : Nat) (w : ScanWorld)
    (hs : w.Sound transponders) (hd : w.deviceState = .DeviceTuned)
    (hsig : significant w.trace = tuneRequests transponders w.scan.transponderIndex)
    (hlow : w.scan.activeFilters < 9) (htr : w.scan.transponder ≠ none)
    (hfuel : transponders.length + 1 ≤ fuel) :
    (ScanWorld.nitPhase env (ScanWorld.updateState env fuel) w).remainingWork ≤
      w.remainingWork + 2 := by
  obtain ⟨t, ht⟩ := Option.ne_none_iff_exists'.mp htr
  have hr : w.scan.readsNit = some true := by
    unfold DvbScan.readsNit
    rw [hs.2.1, ht]
    simp [hs.2.2.2.2.2.2.2 t ht]
  unfold ScanWorld.nitPhase
  rw [hr]
  simp only
  obtain ⟨h1, h2, h3, h4, h5⟩ :=
    startFilter_world_free env hacc transponders w 0x10 (by decide) .NitFilter hs hd hsig
      (by omega)
  have hw := (startFilter_work env hacc w 0x10 (by decide) .NitFilter hs.2.2.2.2.2.1).1
  rw [if_neg (by rw [h1]; decide)]
  have hp := sdtPhase_work env hacc transponders hT fuel
    { (w.startFilter env 0x10 .NitFilter).1 with
      scan := { (w.startFilter env 0x10 .NitFilter).1.scan with state := .ScanSdt } }
    h2 h3 h4
    (by show (w.startFilter env 0x10 .NitFilter).1.scan.activeFilters < 10; omega) hfuel
  refine Nat.le_trans hp ?_
  show (w.startFilter env 0x10 .NitFilter).1.remainingWork + 1 ≤ w.remainingWork + 2
  omega

theorem patPhase_work (env : ScanEnvironment)
    (hacc : ∀ n pid, env.addPidFilter n pid = true) (transponders : List DvbTransponder)
    (hT : ∀ t ∈ transponders, t.transmissionType = .DvbT) (fuel : Nat) (w : ScanWorld)
    (hs : w.Sound transponders) (hd : w.deviceState = .DeviceTuned)
    (hsig : significant w.trace = tuneRequests transponders w.scan.transponderIndex)
    (hact : w.scan.activeFilters = 0) (htr : w.scan.transponder ≠ none)
    (hfuel : transponders.length + 1 ≤ fuel) :
    (ScanWorld.patPhase env (ScanWorld.updateState env fuel) w).remainingWork ≤
      w.remainingWork + 3 := by
  obtain ⟨h1, h2, h3, h4, h5⟩ :=
    startFilter_world_free env hacc transponders w 0x0 (by decide) .PatFilter hs hd hsig
      (by omega)
  have hw := (startFilter_work env hacc w 0x0 (by decide) .PatFilter hs.2.2.2.2.2.1).1
  have htr1 : (w.startFilter env 0x0 .PatFilter).1.scan.transponder = w.scan.transponder :=
    congrArg ScanCore.transponder
      (startFilter_world env hacc w 0x0 (by decide) .PatFilter hs.2.2.2.2.2.1).1
  unfold ScanWorld.patPhase
  rw [if_neg (by rw [h1]; decide)]
  have hp := nitPhase_work env hacc transponders hT fuel
    { (w.startFilter env 0x0 .PatFilter).1 with
      scan := { (w.startFilter env 0x0 .PatFilter).1.scan with
        snr := env.getSnr (w.startFilter env 0x0 .PatFilter).1.trace.length,
        state := .ScanNit } }
    h2 h3 h4
    (by show (w.startFilter env 0x0 .PatFilter).1.scan.activeFilters < 9; omega)
    (by show (w.startFilter env 0x0 .PatFilter).1.scan.transponder ≠ none; rw [htr1]; exact htr)
    hfuel
  refine Nat.le_trans hp ?_
  show (w.startFilter env 0x0 .PatFilter).1.remainingWork + 2 ≤ w.remainingWork + 3
  omega

theorem updateState_tuned_work (env : ScanEnvironment)
    (hacc : ∀ n pid, env.addPidFilter n pid = true) (transponders : List DvbTransponder)
    (hT : ∀ t ∈ transponders, t.transmissionType = .DvbT) (fuel : Nat) (w : ScanWorld)
    (hs : w.Sound transponders) (hst : w.scan.state = .ScanTune)
    (hd : w.deviceState = .DeviceTuned)
    (hsig : significant w.trace = tuneRequests transponders w.scan.transponderIndex)
    (hact : w.scan.activeFilters = 0) (htr : w.scan.transponder ≠ none)
    (hfuel : transponders.length + 3 ≤ fuel) :
    (ScanWorld.updateState env fuel w).remainingWork ≤ w.remainingWork + 3 := by
  obtain ⟨f, rfl⟩ : ∃ f, fuel = f + 2 := ⟨fuel - 2, by omega⟩
  rw [updateState_tune env (f + 1) w hst, tunePhase_tuned env _ w hd,
    updateState_pat env f { w with scan := { w.scan with state := .ScanPat } } rfl]
  exact patPhase_work env hacc transponders hT f _ hs hd hsig hact htr (by omega)

/-- The end of a started filter takes one unit off the work left. -/
theorem filterFinished_work (env : ScanEnvironment)
    (hacc : ∀ n pid, env.addPidFilter n pid = true) (transponders : List DvbTransponder)
    (hT : ∀ t ∈ transponders, t.transmissionType = .DvbT) (w : ScanWorld) (i : Nat)
    (f : DvbScanFilter) (hs : w.Sound transponders) (hst : w.scan.state = .ScanPmt)
    (hd : w.deviceState = .DeviceTuned) (hpos : 0 < w.scan.activeFilters)
    (hsig : significant w.trace = tuneRequests transponders w.scan.transponderIndex)
    (hget : w.scan.filters[i]? = some f) (hf : f.isActive = true) :
    (w.filterFinished env i).remainingWork + 1 ≤ w.remainingWork := by
  unfold ScanWorld.filterFinished
  rw [hget]
  simp only
  rw [if_pos hf]
  have hfields := stopFilter_fields w.scan i
  have hpool := stopFilter_invariant w.scan i f hget hf hs.2.2.2.2.2.1
  have hactive : (w.scan.stopFilter i).activeFilters = w.scan.activeFilters - 1 := by
    unfold DvbScan.stopFilter
    rw [hget]
  obtain ⟨h1, h2, h3, h4, h5, _, h7, h8⟩ := hs
  have hs1 : ScanWorld.Sound transponders
      { (w.emit (.removePidFilter f.pid)) with scan := w.scan.stopFilter i } := by
    refine ⟨?_, ?_, h3, ?_, ?_, hpool, ?_, ?_⟩
    · show (w.scan.stopFilter i).transponders = _
      rw [hfields]; exact h1
    · show (w.scan.stopFilter i).isLive = _
      rw [hfields]; exact h2
    · show 0 ≤ (w.scan.stopFilter i).transponderIndex
      rw [hfields]; exact h4
    · show (w.scan.stopFilter i).transponderIndex ≤ _
      rw [hfields]; exact h5
    · show ∀ e ∈ (w.scan.stopFilter i).patEntries, _
      rw [hfields]; exact h7
    · show ∀ t, (w.scan.stopFilter i).transponder = some t → _
      rw [hfields]; exact h8
  have hst1 : (w.scan.stopFilter i).state = .ScanPmt := by
    rw [hfields]; exact hst
  have hsig1 : significant (w.emit (.removePidFilter f.pid)).trace =
      tuneRequests transponders (w.scan.stopFilter i).transponderIndex := by
    rw [hfields]
    show significant (w.trace ++ [ScanEvent.removePidFilter f.pid]) = _
    rw [significant_append, hsig]
    simp [significant]
  have hfuel : w.fuel = transponders.length + 3 := by
    unfold ScanWorld.fuel
    rw [h1]
  rw [hfuel, updateState_pmt env (transponders.length + 2)
    { (w.emit (.removePidFilter f.pid)) with scan := w.scan.stopFilter i } hst1]
  have hp := pmtPhase_work env hacc transponders hT (transponders.length + 2)
    { (w.emit (.removePidFilter f.pid)) with scan := w.scan.stopFilter i }
    hs1 hst1 hd hsig1 (by omega)
  refine Nat.le_trans (Nat.add_le_add_right hp 1) ?_
  unfold ScanWorld.remainingWork
  show 4 * ((w.scan.stopFilter i).transponders.length -
        (w.scan.stopFilter i).transponderIndex.toNat) +
      (if w.deviceState = DeviceState.DeviceTuning then 4 else 0) +
      (w.scan.stopFilter i).activeFilters.toNat +
      2 * ((w.scan.stopFilter i).patEntries.length - (w.scan.stopFilter i).patIndex) + 1 ≤ _
  rw [hactive]
  have e1 : (w.scan.stopFilter i).transponders = w.scan.transponders := by rw [hfields]
  have e2 : (w.scan.stopFilter i).transponderIndex = w.scan.transponderIndex := by rw [hfields]
  have e3 : (w.scan.stopFilter i).patEntries = w.scan.patEntries := by rw [hfields]
  have e4 : (w.scan.stopFilter i).patIndex = w.scan.patIndex := by rw [hfields]
  rw [e1, e2, e3, e4]
  omega
theorem input_not_pending (env : ScanEnvironment) (w : ScanWorld) (x : ScanInput)
    (hx : x.isSection = false) (h : ¬ w.pending x) : w.input env x = w := by
  cases x with
  | tuneSettled =>
    have hd : ¬ w.deviceState = .DeviceTuning := h
    unfold ScanWorld.input
    rw [if_neg hd]
  | sectionArrived i sec contents => exact Bool.noConfusion hx
  | timeout i =>
    have hinput : w.input env (.timeout i) =
        match w.scan.filters[i]? with
        | none => w
        | some f => if f.isActive then w.filterFinished env i else w := rfl
    rw [hinput]
    cases hget : w.scan.filters[i]? with
    | none => rfl
    | some f =>
      simp only
      have hf : ¬ f.isActive = true := fun hf => h ⟨f, hget, hf⟩
      rw [if_neg hf]

theorem settle_sectionValid (x : ScanInput) (hx : x.isSection = false) :
    x.sectionValid = true := by
  cases x with
  | tuneSettled => rfl
  | sectionArrived i sec contents => exact Bool.noConfusion hx
  | timeout i => rfl

/-- A tune settlement or filter timeout that has an effect takes at least one
unit off the work left. -/
theorem input_pending_work (env : ScanEnvironment)
    (hacc : ∀ n pid, env.addPidFilter n pid = true) (transponders : List DvbTransponder)
    (hT : ∀ t ∈ transponders, t.transmissionType = .DvbT) (w : ScanWorld) (x : ScanInput)
    (h : w.Progress transponders) (hp : w.pending x) :
    (w.input env x).remainingWork + 1 ≤ w.remainingWork := by
  cases x with
  | sectionArrived i sec contents => exact absurd hp (fun h => h)
  | tuneSettled =>
    have hd : w.deviceState = .DeviceTuning := hp
    have hinput : w.input env .tuneSettled =
        if w.deviceState = .DeviceTuning then
          match w.pendingTune with
          | some .tuned =>
            ScanWorld.setDeviceState (ScanWorld.updateState env w.fuel)
              { w with pendingTune := none } .DeviceTuned
          | some .timesOut =>
            ScanWorld.setDeviceState (ScanWorld.updateState env w.fuel)
              { w with pendingTune := none } .DeviceIdle
          | _ => w
        else w := rfl
    rw [hinput, if_pos hd]
    rcases h with h | h | h
    · obtain ⟨hs, hst, _, hpt, hact, hsig, htr⟩ := h
      have hfuel : w.fuel = transponders.length + 3 := by
        unfold ScanWorld.fuel
        rw [hs.1]
      have hwork : ∀ (p : Option TuneOutcome) (d : DeviceState), d ≠ .DeviceTuning →
          ScanWorld.remainingWork { w with pendingTune := p, deviceState := d } + 4 =
            w.remainingWork := by
        intro p d hne
        unfold ScanWorld.remainingWork
        show 4 * (w.scan.transponders.length - w.scan.transponderIndex.toNat) +
            (if d = DeviceState.DeviceTuning then 4 else 0) + w.scan.activeFilters.toNat +
            2 * (w.scan.patEntries.length - w.scan.patIndex) + 4 = _
        rw [if_neg hne, hd, if_pos rfl]
        omega
      rcases hpt with hpt | hpt
      · rw [hpt]
        simp only
        rw [setDeviceState_changed _ { w with pendingTune := none } .DeviceTuned
          (by show w.deviceState ≠ _; rw [hd]; decide) (by decide) hst]
        have h1 := updateState_tuned_work env hacc transponders hT w.fuel
          { w with pendingTune := none, deviceState := .DeviceTuned } hs hst rfl hsig hact htr
          (by rw [hfuel])
        have h2 := hwork none .DeviceTuned (by decide)
        refine Nat.le_trans (Nat.add_le_add_right h1 1) ?_
        omega
      · rw [hpt]
        simp only
        rw [setDeviceState_changed _ { w with pendingTune := none } .DeviceIdle
          (by show w.deviceState ≠ _; rw [hd]; decide) (by decide) hst]
        have h1 := updateState_ready_work env transponders hT w.fuel
          { w with pendingTune := none, deviceState := .DeviceIdle }
          ⟨hs, hst, rfl, hact, hsig⟩ (by rw [hfuel]; omega)
        have h2 := hwork none .DeviceIdle (by decide)
        refine Nat.le_trans (Nat.add_le_add_right h1 1) ?_
        omega
    · rw [h.2.2.1] at hd
      exact absurd hd (by decide)
    · rw [h.2.2.1] at hd
      exact absurd hd (by decide)
  | timeout i =>
    obtain ⟨f, hget, hf⟩ := hp
    have hinput : w.input env (.timeout i) =
        match w.scan.filters[i]? with
        | none => w
        | some f => if f.isActive then w.filterFinished env i else w := rfl
    rw [hinput, hget]
    simp only
    rw [if_pos hf]
    rcases h with h | h | h
    · have := no_active_filter w.scan i f h.1.2.2.2.2.2.1 h.2.2.2.2.1 hget
      rw [hf] at this
      exact Bool.noConfusion this
    · exact filterFinished_work env hacc transponders hT w i f h.1 h.2.1 h.2.2.1 h.2.2.2.1
        h.2.2.2.2 hget hf
    · have := no_active_filter w.scan i f h.1.2.2.2.2.2.1 h.2.2.2.2.1 hget
      rw [hf] at this
      exact Bool.noConfusion this

theorem run_crashed (env : ScanEnvironment) (w : ScanWorld) (xs : List ScanInput)
    (h : w.crashed = true) : w.run env xs = w := by
  cases xs with
  | nil => rfl
  | cons x rest =>
    show (if w.crashed then w else ScanWorld.run env (w.input env x) rest) = w
    rw [h]
    rfl

theorem run_append (env : ScanEnvironment) (a b : List ScanInput) :
    ∀ w : ScanWorld, w.run env (a ++ b) = (w.run env a).run env b := by
  induction a with
  | nil => intro w; rfl
  | cons x rest ih =>
    intro w
    cases hc : w.crashed with
    | true =>
      rw [run_crashed env w _ hc, run_crashed env w _ hc, run_crashed env w _ hc]
    | false =>
      rw [List.cons_append, run_cons env w x _ hc, run_cons env w x _ hc, ih]

/-- Tune settlements and filter timeouts never add to the work left, and take
off at least one unit when one of them has an effect. -/
theorem run_settle_work (env : ScanEnvironment)
    (hacc : ∀ n pid, env.addPidFilter n pid = true) (transponders : List DvbTransponder)
    (hT : ∀ t ∈ transponders, t.transmissionType = .DvbT) :
    ∀ (xs : List ScanInput) (w : ScanWorld), (∀ x ∈ xs, x.isSection = false) →
      w.Progress transponders →
      (w.run env xs).Progress transponders ∧
        (w.run env xs).remainingWork ≤ w.remainingWork ∧
        ((∃ x ∈ xs, w.pending x) → (w.run env xs).remainingWork + 1 ≤ w.remainingWork) := by
  intro xs
  induction xs with
  | nil =>
    intro w _ h
    exact ⟨h, Nat.le_refl _, fun ⟨x, hx, _⟩ => absurd hx (List.not_mem_nil x)⟩
  | cons y ys ih =>
    intro w hxs h
    have hy := hxs y (List.mem_cons_self _ _)
    have hys : ∀ x ∈ ys, x.isSection = false := fun x hx => hxs x (List.mem_cons_of_mem _ hx)
    rw [run_cons env w y ys (progress_sound transponders w h).2.2.1.2]
    by_cases hp : w.pending y
    · have h1 := input_progress env hacc transponders hT w y (settle_sectionValid y hy) h
      have hw := input_pending_work env hacc transponders hT w y h hp
      obtain ⟨i1, i2, _⟩ := ih (w.input env y) hys h1
      exact ⟨i1, by omega, fun _ => by omega⟩
    · rw [input_not_pending env w y hy hp]
      obtain ⟨i1, i2, i3⟩ := ih w hys h
      refine ⟨i1, i2, ?_⟩
      rintro ⟨x, hx, hpx⟩
      rcases List.mem_cons.mp hx with e | e
      · rw [e] at hpx
        exact absurd hpx hp
      · exact i3 ⟨x, e, hpx⟩
theorem settleRound_isSection (x : ScanInput) (hx : x ∈ settleRound) : x.isSection = false := by
  unfold settleRound at hx
  rcases List.mem_cons.mp hx with e | e
  · rw [e]
    rfl
  · obtain ⟨i, _, rfl⟩ := List.mem_map.mp e
    rfl

theorem settleRounds_isSection :
    ∀ (n : Nat) (x : ScanInput), x ∈ settleRounds n → x.isSection = false := by
  intro n
  induction n with
  | zero => intro x hx; exact absurd hx (List.not_mem_nil x)
  | succ n ih =>
    intro x hx
    rcases List.mem_append.mp hx with e | e
    · exact settleRound_isSection x e
    · exact ih x e

theorem exists_active_filter (scan : DvbScan) (hpool : scan.PoolInvariant)
    (hpos : 0 < scan.activeFilters) :
    ∃ i f, i < 10 ∧ scan.filters[i]? = some f ∧ f.isActive = true := by
  obtain ⟨hlen, hact⟩ := hpool
  unfold DvbScan.activeInstances at hact
  have hc : 0 < scan.filters.countP (fun f => f.isActive) := by omega
  obtain ⟨f, hmem, hf⟩ := List.countP_pos_iff.mp hc
  obtain ⟨i, hi, hget⟩ := List.getElem_of_mem hmem
  exact ⟨i, f, by omega, by rw [List.getElem?_eq_getElem hi, hget], hf⟩

/-- Unless the scan is over, a tune settlement or a filter timeout of the
round has an effect. -/
theorem settleRound_pending (transponders : List DvbTransponder) (w : ScanWorld)
    (h : w.Tuning transponders ∨ w.Reading transponders) : ∃ x ∈ settleRound, w.pending x := by
  rcases h with h | h
  · exact ⟨.tuneSettled, List.mem_cons_self _ _, h.2.2.1⟩
  · obtain ⟨i, f, hi, hget, hf⟩ := exists_active_filter w.scan h.1.2.2.2.2.2.1 h.2.2.2.1
    refine ⟨.timeout i, ?_, f, hget, hf⟩
    unfold settleRound
    exact List.mem_cons_of_mem _ (List.mem_map.mpr ⟨i, List.mem_range.mpr hi, rfl⟩)

theorem finished_not_pending (transponders : List DvbTransponder) (w : ScanWorld)
    (h : w.Finished transponders) (x : ScanInput) : ¬ w.pending x := by
  cases x with
  | tuneSettled =>
    intro hp
    have hd : w.deviceState = .DeviceTuning := hp
    rw [h.2.2.1] at hd
    exact absurd hd (by decide)
  | sectionArrived i sec contents => exact fun hp => hp
  | timeout i =>
    rintro ⟨f, hget, hf⟩
    have := no_active_filter w.scan i f h.1.2.2.2.2.2.1 h.2.2.2.2.1 hget
    rw [hf] at this
    exact Bool.noConfusion this

theorem finished_run (env : ScanEnvironment) (transponders : List DvbTransponder)
    (w : ScanWorld) (h : w.Finished transponders) :
    ∀ xs : List ScanInput, (∀ x ∈ xs, x.isSection = false) → w.run env xs = w := by
  intro xs
  induction xs with
  | nil => intro _; rfl
  | cons y ys ih =>
    intro hxs
    rw [run_cons env w y ys h.1.2.2.1.2,
      input_not_pending env w y (hxs y (List.mem_cons_self _ _))
        (finished_not_pending transponders w h y)]
    exact ih (fun x hx => hxs x (List.mem_cons_of_mem _ hx))

/-- After as many rounds as there is work left the scan is over. -/
theorem settleRounds_finish (env : ScanEnvironment)
    (hacc : ∀ n pid, env.addPidFilter n pid = true) (transponders : List DvbTransponder)
    (hT : ∀ t ∈ transponders, t.transmissionType = .DvbT) :
    ∀ (n : Nat) (w : ScanWorld), w.Progress transponders → w.remainingWork ≤ n →
      (w.run env (settleRounds n)).Finished transponders := by
  intro n
  induction n with
  | zero =>
    intro w h hn
    rcases h with h | h | h
    · have : 4 ≤ w.remainingWork := by
        unfold ScanWorld.remainingWork
        rw [h.2.2.1, if_pos rfl]
        omega
      omega
    · have : 1 ≤ w.remainingWork := by
        unfold ScanWorld.remainingWork
        have := h.2.2.2.1
        omega
      omega
    · exact h
  | succ n ih =>
    intro w h hn
    show (w.run env (settleRound ++ settleRounds n)).Finished transponders
    rw [run_append]
    rcases h with h | h | h
    · obtain ⟨p1, _, p3⟩ := run_settle_work env hacc transponders hT settleRound w
        settleRound_isSection (Or.inl h)
      have := p3 (settleRound_pending transponders w (Or.inl h))
      exact ih _ p1 (by omega)
    · obtain ⟨p1, _, p3⟩ := run_settle_work env hacc transponders hT settleRound w
        settleRound_isSection (Or.inr (Or.inl h))
      have := p3 (settleRound_pending transponders w (Or.inr h))
      exact ih _ p1 (by omega)
    · rw [finished_run env transponders w h settleRound settleRound_isSection,
        finished_run env transponders w h (settleRounds n) (settleRounds_isSection n)]
      exact h

/-- Claim C19, amended: for every offline scan of a list of terrestrial
transponders, started on an idle device that accepts every filter request, and
every sequence `inputs` of tune settlements (tuned or timed out), valid
sections and filter timeouts, with `w` the world after them. No run of
`updateState` is cut and no null pointer is dereferenced; the tune requests
made so far are those for an initial part of the list, in list order, and
`scanFinished` is signalled only after the request for the last transponder;
when nothing is in progress (no tune request unsettled, no filter started),
every transponder of the list has been requested, once and in list order, and
after that `scanFinished` has been signalled at least once, with no request
after it. The scan gets there: while something is in progress, a tune
settlement or a filter timeout is pending; each pending tune settlement or
filter timeout takes at least one unit off the work left; and once the
environment has let everything pending end for as many rounds as there is work
left, nothing is in progress and every transponder has been requested, once
and in list order, followed by `scanFinished`. -/
theorem offline_scan_visits_all (env : ScanEnvironment) (source : String)
    (transponders : List DvbTransponder) (inputs : List ScanInput) (w : ScanWorld)
    (hAccept : ∀ n pid, env.addPidFilter n pid = true)
    (hTerrestrial : ∀ t ∈ transponders, t.transmissionType = .DvbT)
    (hValid : ∀ x ∈ inputs, x.sectionValid = true)
    (hw : w = (ScanWorld.start env (DvbScan.offline source transponders) .DeviceIdle).run env
      inputs) :
    (w.outOfFuel = false ∧ w.crashed = false) ∧
      (∃ n k : Nat,
        significant w.trace =
          (transponders.take n).map ScanEvent.tuneDevice ++
            List.replicate k ScanEvent.scanFinished ∧
          (0 < k → transponders.length ≤ n)) ∧
      (w.quiescent →
        ∃ k : Nat,
          significant w.trace =
            transponders.map ScanEvent.tuneDevice ++
              List.replicate (k + 1) ScanEvent.scanFinished) ∧
      (w.quiescent ∨ ∃ x ∈ settleRound, w.pending x) ∧
      (∀ x : ScanInput, x.isSection = false → w.pending x →
        (w.input env x).remainingWork < w.remainingWork) ∧
      (w.run env (settleRounds w.remainingWork)).quiescent ∧
      ∃ k : Nat,
        significant (w.run env (settleRounds w.remainingWork)).trace =
          transponders.map ScanEvent.tuneDevice ++
            List.replicate (k + 1) ScanEvent.scanFinished := by
  have h := run_progress env hAccept transponders hTerrestrial inputs hValid _
    (start_progress env source transponders hTerrestrial)
  rw [← hw] at h
  have hfin := settleRounds_finish env hAccept transponders hTerrestrial w.remainingWork w h
    (Nat.le_refl _)
  have hwork : ∀ x : ScanInput, x.isSection = false → w.pending x →
      (w.input env x).remainingWork < w.remainingWork := by
    intro x _ hp
    have := input_pending_work env hAccept transponders hTerrestrial w x h hp
    omega
  have hlast : (w.run env (settleRounds w.remainingWork)).quiescent ∧
      ∃ k : Nat,
        significant (w.run env (settleRounds w.remainingWork)).trace =
          transponders.map ScanEvent.tuneDevice ++
            List.replicate (k + 1) ScanEvent.scanFinished := by
    obtain ⟨_, _, hidle, _, hact, k, hk⟩ := hfin
    exact ⟨⟨by rw [hidle]; decide, hact⟩, k, hk⟩
  rcases h with h | h | h
  · refine ⟨h.1.2.2.1,
      ⟨w.scan.transponderIndex.toNat, 0, ?_, fun hk => absurd hk (Nat.lt_irrefl 0)⟩, ?_,
      Or.inr (settleRound_pending transponders w (Or.inl h)), hwork, hlast⟩
    · rw [h.2.2.2.2.2.1]
      unfold tuneRequests
      simp
    · intro hq
      exact absurd h.2.2.1 hq.1
  · refine ⟨h.1.2.2.1,
      ⟨w.scan.transponderIndex.toNat, 0, ?_, fun hk => absurd hk (Nat.lt_irrefl 0)⟩, ?_,
      Or.inr (settleRound_pending transponders w (Or.inr h)), hwork, hlast⟩
    · rw [h.2.2.2.2]
      unfold tuneRequests
      simp
    · intro hq
      have := h.2.2.2.1
      rw [hq.2] at this
      exact absurd this (Int.lt_irrefl 0)
  · have h0 := h
    obtain ⟨hs, _, hidle, _, hact, k, hk⟩ := h
    refine ⟨hs.2.2.1, ⟨transponders.length, k + 1, ?_, fun _ => Nat.le_refl _⟩,
      fun _ => ⟨k, hk⟩, Or.inl ⟨by rw [hidle]; decide, hact⟩, hwork, hlast⟩
    rw [hk, List.take_length]

set_option maxRecDepth 100000 in
theorem offline_scan_visits_all_witness :
    (∀ n pid, scanEnvironmentSecondFails.addPidFilter n pid = true) ∧
      (∀ t ∈ terrestrialExample, t.transmissionType = .DvbT) ∧
      (∀ x ∈ [ScanInput.tuneSettled, .timeout 0], x.sectionValid = true) ∧
      significant scanExampleRun.trace =
        [.tuneDevice (DvbTransponder.plain .DvbT 506000000),
          .tuneDevice (DvbTransponder.plain .DvbT 514000000), .scanFinished, .scanFinished] ∧
      ((ScanWorld.start scanEnvironmentSecondFails
          (DvbScan.offline "terrestrial" terrestrialExample) .DeviceIdle).run
          scanEnvironmentSecondFails [.tuneSettled, .timeout 0]).remainingWork = 6 ∧
      ∃ k : Nat,
        significant
            (((ScanWorld.start scanEnvironmentSecondFails
                (DvbScan.offline "terrestrial" terrestrialExample) .DeviceIdle).run
                scanEnvironmentSecondFails [.tuneSettled, .timeout 0]).run
              scanEnvironmentSecondFails
              (settleRounds
                ((ScanWorld.start scanEnvironmentSecondFails
                  (DvbScan.offline "terrestrial" terrestrialExample) .DeviceIdle).run
                  scanEnvironmentSecondFails
                  [.tuneSettled, .timeout 0]).remainingWork)).trace =
          terrestrialExample.map ScanEvent.tuneDevice ++
            List.replicate (k + 1) ScanEvent.scanFinished :=
  ⟨fun _ _ => rfl, by decide, by decide, by decide, by decide,
    (offline_scan_visits_all scanEnvironmentSecondFails "terrestrial" terrestrialExample
      [.tuneSettled, .timeout 0] _ (fun _ _ => rfl) (by decide) (by decide)
      rfl).2.2.2.2.2.2⟩

set_option maxRecDepth 100000 in
/-- On a terrestrial transponder an invalid section ends the program: line 141
of `DvbScanFilter::processSection` reads the frequency of the DVB-S part of the
transponder, which a DVB-T transponder does not have. Shown for the offline
scan of the two terrestrial transponders after the first tune is settled, for
every invalid section delivered to the PAT filter. -/
theorem offline_scan_invalid_section_crash (sec : ScanSection) (contents : SectionContents)
    (hinvalid : sec.isValid = false) :
    ((ScanWorld.start scanEnvironmentSecondFails (DvbScan.offline "terrestrial" terrestrialExample)
      .DeviceIdle).run scanEnvironmentSecondFails
        [.tuneSettled, .sectionArrived 0 sec contents]).crashed = true := by
  have hstep : ∀ w : ScanWorld, w.crashed = false →
      (w.scan.filters[0]?.map (fun f => f.isActive)) = some true →
      invalidSectionCrash scanEnvironmentSecondFails.si w.scan.transponder sec = true →
      (w.run scanEnvironmentSecondFails [.sectionArrived 0 sec contents]).crashed = true := by
    intro w hc hf hcrash
    unfold ScanWorld.run
    rw [hc]
    simp only [Bool.false_eq_true, if_false]
    unfold ScanWorld.input
    cases hfi : w.scan.filters[0]? with
    | none => rw [hfi] at hf; cases hf
    | some f =>
      rw [hfi] at hf
      have hact : f.isActive = true := by simpa using hf
      simp only [hcrash, if_true]
      rw [hfi]
      simp only [hact, if_true]
      rfl
  have hrun : (ScanWorld.start scanEnvironmentSecondFails
      (DvbScan.offline "terrestrial" terrestrialExample) .DeviceIdle).run scanEnvironmentSecondFails
        [.tuneSettled, .sectionArrived 0 sec contents] =
      ((ScanWorld.start scanEnvironmentSecondFails
        (DvbScan.offline "terrestrial" terrestrialExample) .DeviceIdle).input
          scanEnvironmentSecondFails .tuneSettled).run scanEnvironmentSecondFails
        [.sectionArrived 0 sec contents] := rfl
  rw [hrun]
  refine hstep _ (by decide) (by decide) ?_
  unfold invalidSectionCrash
  rw [hinvalid]
  have ht : ((ScanWorld.start scanEnvironmentSecondFails
      (DvbScan.offline "terrestrial" terrestrialExample) .DeviceIdle).input
        scanEnvironmentSecondFails .tuneSettled).scan.transponder =
      some (DvbTransponder.plain .DvbT 506000000) := by decide
  rw [ht]
  decide

/-! ## Theorems: reassembly passes and payload -/

theorem sectionEndOffset_eq_declaredSize (rest : List Nat) :
    sectionEndOffset rest = declaredSize rest := by
  unfold sectionEndOffset declaredSize
  have h1 : (rest.getD 1 0 % 256) &&& 0x0f = rest.getD 1 0 % 16 := by
    have := Nat.and_pow_two_sub_one_eq_mod (rest.getD 1 0 % 256) 4
    have e : (2 ^ 4 - 1 : Nat) = 0x0f := by decide
    rw [e] at this
    rw [this]
    omega
  have h2 : rest.getD 2 0 % 256 < 2 ^ 8 := by
    have : (2 ^ 8 : Nat) = 256 := by decide
    omega
  rw [h1, Nat.shiftLeft_eq, Nat.mul_comm, ← Nat.mul_add_lt_is_or h2]
  have : (2 ^ 8 : Nat) = 256 := by decide
  omega

theorem declaredSize_bounds (sec : List Nat) : 3 ≤ declaredSize sec ∧ declaredSize sec ≤ 4098 := by
  unfold declaredSize
  omega

theorem paddedStartLoop_succ (fuel : Nat) (rest : List Nat) :
    paddedStartLoop (fuel + 1) rest =
      if rest.length = 0 then false
      else if rest.getD 0 0 % 256 = 0xff then true
      else if rest.length < 3 then false
      else if sectionEndOffset rest ≤ rest.length then
        paddedStartLoop fuel (rest.drop (sectionEndOffset rest))
      else false := rfl

theorem paddedStartLoop_fuel :
    ∀ (n f1 f2 : Nat) (rest : List Nat), rest.length ≤ n → rest.length < f1 → rest.length < f2 →
      paddedStartLoop f1 rest = paddedStartLoop f2 rest := by
  intro n
  induction n with
  | zero =>
    intro f1 f2 rest h0 h1 h2
    obtain ⟨g1, rfl⟩ : ∃ g, f1 = g + 1 := ⟨f1 - 1, by omega⟩
    obtain ⟨g2, rfl⟩ : ∃ g, f2 = g + 1 := ⟨f2 - 1, by omega⟩
    rw [paddedStartLoop_succ, paddedStartLoop_succ, if_pos (by omega), if_pos (by omega)]
  | succ n ih =>
    intro f1 f2 rest h0 h1 h2
    obtain ⟨g1, rfl⟩ : ∃ g, f1 = g + 1 := ⟨f1 - 1, by omega⟩
    obtain ⟨g2, rfl⟩ : ∃ g, f2 = g + 1 := ⟨f2 - 1, by omega⟩
    rw [paddedStartLoop_succ, paddedStartLoop_succ]
    have h3 := three_le_sectionEndOffset rest
    split_ifs with a b c d
    · rfl
    · rfl
    · rfl
    · exact ih g1 g2 _ (by rw [List.length_drop]; omega) (by rw [List.length_drop]; omega)
        (by rw [List.length_drop]; omega)
    · rfl

/-- One step of the walk over the section start positions, without fuel. -/
theorem paddedStart_eq (buffer : List Nat) :
    paddedStart buffer =
      if buffer.length = 0 then false
      else if buffer.getD 0 0 % 256 = 0xff then true
      else if buffer.length < 3 then false
      else if sectionEndOffset buffer ≤ buffer.length then
        paddedStart (buffer.drop (sectionEndOffset buffer))
      else false := by
  unfold paddedStart
  rw [paddedStartLoop_succ]
  have h3 := three_le_sectionEndOffset buffer
  split_ifs with a b c d
  · rfl
  · rfl
  · rfl
  · exact paddedStartLoop_fuel buffer.length _ _ _ (by rw [List.length_drop]; omega)
      (by rw [List.length_drop]; omega) (by omega)
  · rfl

theorem sectionEndOffset_take (rest : List Nat) (n : Nat) (h : 3 ≤ n) (hl : 3 ≤ rest.length) :
    sectionEndOffset (rest.take n) = sectionEndOffset rest := by
  conv => rhs; rw [← List.take_append_drop n rest]
  rw [sectionEndOffset_append _ _ (by rw [List.length_take]; omega)]

/-- The opportunistic pass over an accumulator with no 0xff at a section start
position: the split is lossless, every dispatched section has its declared
size, and what is left is shorter than 3 bytes or than its declared size. -/
theorem processSections_false_lossless :
    ∀ (n : Nat) (buffer : List Nat), buffer.length ≤ n → paddedStart buffer = false →
      dispatchedBytes (processSections false buffer).1 ++ (processSections false buffer).2 =
          buffer ∧
        (∀ d ∈ (processSections false buffer).1, d.bytes.length = declaredSize d.bytes) ∧
        ((processSections false buffer).2.length < 3 ∨
          (processSections false buffer).2.length <
            declaredSize (processSections false buffer).2) := by
  intro n
  induction n with
  | zero =>
    intro buffer hb _
    have : buffer = [] := List.length_eq_zero.mp (Nat.le_zero.mp hb)
    subst this
    refine ⟨rfl, ?_, Or.inl (by decide)⟩
    intro d hd
    simp [processSections, processSectionsLoop] at hd
  | succ n ih =>
    intro buffer hb hpadded
    rw [paddedStart_eq] at hpadded
    rw [processSections_eq]
    by_cases h0 : buffer.length = 0
    · rw [if_pos h0]
      exact ⟨rfl, fun d hd => by simp at hd, Or.inl (by show buffer.length < 3; omega)⟩
    · rw [if_neg h0] at hpadded ⊢
      by_cases hpad : buffer.getD 0 0 % 256 = 0xff
      · rw [if_pos hpad] at hpadded
        exact absurd hpadded (by decide)
      · rw [if_neg hpad] at hpadded ⊢
        by_cases hshort : buffer.length < 3
        · rw [if_pos hshort]
          simp only [Bool.false_eq_true, if_false]
          exact ⟨rfl, fun d hd => by simp at hd, Or.inl hshort⟩
        · rw [if_neg hshort] at hpadded ⊢
          rw [sectionSize_false]
          have h3 := three_le_sectionEndOffset buffer
          by_cases hle : sectionEndOffset buffer ≤ buffer.length
          · rw [if_pos hle] at hpadded ⊢
            obtain ⟨i1, i2, i3⟩ := ih (buffer.drop (sectionEndOffset buffer))
              (by rw [List.length_drop]; omega) hpadded
            refine ⟨?_, ?_, i3⟩
            · show (buffer.take (sectionEndOffset buffer) ++
                  dispatchedBytes (processSections false
                    (buffer.drop (sectionEndOffset buffer))).1) ++ _ = buffer
              rw [List.append_assoc, i1, List.take_append_drop]
            · intro d hd
              rcases List.mem_cons.mp hd with hd1 | hd2
              · rw [hd1]
                show (buffer.take (sectionEndOffset buffer)).length = _
                rw [← sectionEndOffset_eq_declaredSize,
                  sectionEndOffset_take buffer _ h3 (by omega), List.length_take]
                omega
              · exact i2 d hd2
          · rw [if_neg hle]
            refine ⟨rfl, fun d hd => by simp at hd, Or.inr ?_⟩
            show buffer.length < declaredSize buffer
            rw [← sectionEndOffset_eq_declaredSize]
            omega
theorem processSections_true_nil : processSections true [] = ([], []) := rfl

/-- The forced pass: the accumulator is left empty; the dispatched sections are
a prefix of the accumulator, and what follows them is nothing, starts with 0xff
or is shorter than 3 bytes; every dispatched section but the last has its
declared size, and the last has it too or is cut at the end of the
accumulator. -/
theorem processSections_true_spec :
    ∀ (n : Nat) (buffer : List Nat), buffer.length ≤ n →
      (processSections true buffer).2 = [] ∧
        ∃ discarded : List Nat,
          dispatchedBytes (processSections true buffer).1 ++ discarded = buffer ∧
          (discarded = [] ∨ discarded.getD 0 0 % 256 = 0xff ∨ discarded.length < 3) ∧
          (∀ d ∈ (processSections true buffer).1,
            3 ≤ d.bytes.length ∧ d.bytes.getD 0 0 % 256 ≠ 0xff) ∧
          (∀ d ∈ (processSections true buffer).1.dropLast,
            d.bytes.length = declaredSize d.bytes) ∧
          (∀ d, (processSections true buffer).1.getLast? = some d →
            d.bytes.length = declaredSize d.bytes ∨
              (d.bytes.length < declaredSize d.bytes ∧ discarded = [])) := by
  intro n
  induction n with
  | zero =>
    intro buffer hb
    have : buffer = [] := List.length_eq_zero.mp (Nat.le_zero.mp hb)
    subst this
    rw [processSections_true_nil]
    exact ⟨rfl, [], rfl, Or.inl rfl, fun d hd => by simp at hd, fun d hd => by simp at hd,
      fun d hd => by simp at hd⟩
  | succ n ih =>
    intro buffer hb
    rw [processSections_eq]
    by_cases h0 : buffer.length = 0
    · rw [if_pos h0]
      have : buffer = [] := List.length_eq_zero.mp h0
      subst this
      exact ⟨rfl, [], rfl, Or.inl rfl, fun d hd => by simp at hd, fun d hd => by simp at hd,
        fun d hd => by simp at hd⟩
    · rw [if_neg h0]
      by_cases hpad : buffer.getD 0 0 % 256 = 0xff
      · rw [if_pos hpad]
        exact ⟨rfl, buffer, rfl, Or.inr (Or.inl hpad), fun d hd => by simp at hd,
          fun d hd => by simp at hd, fun d hd => by simp at hd⟩
      · rw [if_neg hpad]
        by_cases hshort : buffer.length < 3
        · rw [if_pos hshort]
          rw [if_pos rfl]
          exact ⟨rfl, buffer, rfl, Or.inr (Or.inr hshort), fun d hd => by simp at hd,
            fun d hd => by simp at hd, fun d hd => by simp at hd⟩
        · rw [if_neg hshort]
          have h3 := three_le_sectionSize true buffer (by omega)
          have h3e := three_le_sectionEndOffset buffer
          have hle : sectionSize true buffer ≤ buffer.length := by
            unfold sectionSize
            by_cases hend : sectionEndOffset buffer > buffer.length
            · rw [if_pos ⟨rfl, hend⟩]
            · rw [if_neg (fun h => hend h.2)]; omega
          rw [if_pos hle]
          obtain ⟨i1, disc, i2, i3, i4, i5, i6⟩ := ih (buffer.drop (sectionSize true buffer))
            (by rw [List.length_drop]; omega)
          have hfirst : (buffer.take (sectionSize true buffer)).length = sectionSize true buffer := by
            rw [List.length_take]; omega
          have hdecl : declaredSize (buffer.take (sectionSize true buffer)) =
              sectionEndOffset buffer := by
            rw [← sectionEndOffset_eq_declaredSize, sectionEndOffset_take buffer _ h3 (by omega)]
          have hhead : (buffer.take (sectionSize true buffer)).getD 0 0 = buffer.getD 0 0 := by
            conv => rhs; rw [← List.take_append_drop (sectionSize true buffer) buffer]
            rw [getD_append_of_lt _ _ 0 (by omega)]
          refine ⟨i1, disc, ?_, i3, ?_, ?_, ?_⟩
          · show (buffer.take (sectionSize true buffer) ++
                dispatchedBytes (processSections true
                  (buffer.drop (sectionSize true buffer))).1) ++ _ = buffer
            rw [List.append_assoc, i2, List.take_append_drop]
          · intro d hd
            rcases List.mem_cons.mp hd with hd1 | hd2
            · rw [hd1]
              show 3 ≤ (buffer.take (sectionSize true buffer)).length ∧
                (buffer.take (sectionSize true buffer)).getD 0 0 % 256 ≠ 0xff
              rw [hfirst, hhead]
              exact ⟨h3, hpad⟩
            · exact i4 d hd2
          · -- every section but the last
            by_cases hend : sectionEndOffset buffer ≤ buffer.length
            · have hsz : sectionSize true buffer = sectionEndOffset buffer := by
                unfold sectionSize; rw [if_neg (by omega)]
              intro d hd
              cases hR : (processSections true (buffer.drop (sectionSize true buffer))).1 with
              | nil => rw [hR] at hd; simp at hd
              | cons r R =>
                rw [hR, List.dropLast_cons₂] at hd
                rcases List.mem_cons.mp hd with hd1 | hd2
                · rw [hd1]
                  show (buffer.take (sectionSize true buffer)).length = _
                  rw [hfirst, hdecl, hsz]
                · exact i5 d (by rw [hR]; exact hd2)
            · have hsz : sectionSize true buffer = buffer.length := by
                unfold sectionSize; rw [if_pos ⟨rfl, by omega⟩]
              have hdrop : buffer.drop (sectionSize true buffer) = [] := by
                rw [hsz]; exact List.drop_length buffer
              rw [hdrop, processSections_true_nil]
              intro d hd
              simp at hd
          · intro d hd
            cases hR : (processSections true (buffer.drop (sectionSize true buffer))).1 with
            | nil =>
              rw [hR] at hd
              simp only [List.getLast?_singleton, Option.some.injEq] at hd
              rw [← hd]
              show (buffer.take (sectionSize true buffer)).length = _ ∨
                ((buffer.take (sectionSize true buffer)).length < _ ∧ _)
              rw [hfirst, hdecl]
              by_cases hend : sectionEndOffset buffer ≤ buffer.length
              · left
                unfold sectionSize; rw [if_neg (by omega)]
              · right
                have hsz : sectionSize true buffer = buffer.length := by
                  unfold sectionSize; rw [if_pos ⟨rfl, by omega⟩]
                have hdrop : buffer.drop (sectionSize true buffer) = [] := by
                  rw [hsz]; exact List.drop_length buffer
                rw [hdrop, processSections_true_nil] at i2
                refine ⟨by omega, ?_⟩
                simpa [dispatchedBytes] using i2
            | cons r R =>
              rw [hR, List.getLast?_cons_cons] at hd
              exact i6 d (by rw [hR]; exact hd)
/-- C25: for every accumulator content in which no section start position
holds the byte 0xff, the opportunistic pass `processSections(false)` splits it
without loss: the bytes of the dispatched sections, concatenated in dispatch
order, followed by the accumulator left, are the accumulator before; every
dispatched section has the size its header declares, 3 plus the 12-bit value
`(byte1 mod 16) * 256 + byte2`, which lies between 3 and 4098; the bytes left
are fewer than 3 or fewer than the size their header declares; a second
opportunistic pass dispatches nothing and leaves the accumulator as it is. -/
theorem opportunistic_pass_lossless (buffer : List Nat) (h : paddedStart buffer = false) :
    dispatchedBytes (processSections false buffer).1 ++ (processSections false buffer).2 =
        buffer ∧
      (∀ d ∈ (processSections false buffer).1,
        d.bytes.length = 3 + ((d.bytes.getD 1 0 % 16) * 256 + d.bytes.getD 2 0 % 256) ∧
          3 ≤ d.bytes.length ∧ d.bytes.length ≤ 4098) ∧
      ((processSections false buffer).2.length < 3 ∨
        (processSections false buffer).2.length <
          3 + (((processSections false buffer).2.getD 1 0 % 16) * 256 +
            (processSections false buffer).2.getD 2 0 % 256)) ∧
      processSections false (processSections false buffer).2 =
        ([], (processSections false buffer).2) := by
  obtain ⟨h1, h2, h3⟩ := processSections_false_lossless buffer.length buffer (Nat.le_refl _) h
  refine ⟨h1, ?_, h3, processSections_false_idem buffer.length buffer (Nat.le_refl _)⟩
  intro d hd
  have hsize := h2 d hd
  have hb := declaredSize_bounds d.bytes
  rw [← hsize] at hb
  exact ⟨hsize, hb.1, hb.2⟩

theorem opportunistic_pass_lossless_witness :
    paddedStart [0x00, 0xb0, 0x01, 0xaa, 0x42, 0xf0, 0x00, 0x4e, 0x01] = false ∧
      (processSections false [0x00, 0xb0, 0x01, 0xaa, 0x42, 0xf0, 0x00, 0x4e, 0x01]).1.map
          SectionDispatch.bytes = [[0x00, 0xb0, 0x01, 0xaa], [0x42, 0xf0, 0x00]] ∧
      (processSections false [0x00, 0xb0, 0x01, 0xaa, 0x42, 0xf0, 0x00, 0x4e, 0x01]).2 =
        [0x4e, 0x01] ∧
      dispatchedBytes (processSections false
            [0x00, 0xb0, 0x01, 0xaa, 0x42, 0xf0, 0x00, 0x4e, 0x01]).1 ++
          (processSections false [0x00, 0xb0, 0x01, 0xaa, 0x42, 0xf0, 0x00, 0x4e, 0x01]).2 =
        [0x00, 0xb0, 0x01, 0xaa, 0x42, 0xf0, 0x00, 0x4e, 0x01] :=
  ⟨by decide, by decide, by decide,
    (opportunistic_pass_lossless [0x00, 0xb0, 0x01, 0xaa, 0x42, 0xf0, 0x00, 0x4e, 0x01]
      (by decide)).1⟩

/-- C26: the forced pass `processSections(true)` is total and the loop of the
source runs to its end for every accumulator content: the result obeys the
equation of one loop iteration, and the accumulator is left empty. The
dispatched sections are consecutive pieces of the accumulator from its start;
each has at least 3 bytes and a table id other than 0xff; every one but the
last has the size its header declares, and the last has it too or its header
declares more than the bytes available and it is cut at the end of the
accumulator; the bytes after the dispatched sections are discarded without
dispatch, and they are none, or begin with the table id 0xff, or are fewer than
3. -/
theorem forced_pass_empties_accumulator (buffer : List Nat) :
    (processSections true buffer).2 = [] ∧
      processSections true buffer =
        (if buffer.length = 0 ∨ buffer.getD 0 0 % 256 = 0xff ∨ buffer.length < 3 then ([], [])
        else
          (⟨buffer.take (min (declaredSize buffer) buffer.length),
              verifyCrc32 (buffer.take (min (declaredSize buffer) buffer.length))⟩ ::
              (processSections true
                (buffer.drop (min (declaredSize buffer) buffer.length))).1, [])) ∧
      ∃ discarded : List Nat,
        dispatchedBytes (processSections true buffer).1 ++ discarded = buffer ∧
        (discarded = [] ∨ discarded.getD 0 0 % 256 = 0xff ∨ discarded.length < 3) ∧
        (∀ d ∈ (processSections true buffer).1,
          3 ≤ d.bytes.length ∧ d.bytes.getD 0 0 % 256 ≠ 0xff) ∧
        (∀ d ∈ (processSections true buffer).1.dropLast,
          d.bytes.length = declaredSize d.bytes) ∧
        (∀ d, (processSections true buffer).1.getLast? = some d →
          d.bytes.length = declaredSize d.bytes ∨
            (d.bytes.length < declaredSize d.bytes ∧ discarded = [])) := by
  obtain ⟨h1, h2⟩ := processSections_true_spec buffer.length buffer (Nat.le_refl _)
  refine ⟨h1, ?_, h2⟩
  have hsz : sectionSize true buffer = min (declaredSize buffer) buffer.length := by
    unfold sectionSize
    rw [← sectionEndOffset_eq_declaredSize]
    by_cases hend : sectionEndOffset buffer > buffer.length
    · rw [if_pos ⟨rfl, hend⟩]; omega
    · rw [if_neg (fun h => hend h.2)]; omega
  rw [processSections_eq]
  by_cases h0 : buffer.length = 0
  · rw [if_pos h0, if_pos (Or.inl h0)]
    have : buffer = [] := List.length_eq_zero.mp h0
    rw [this]
  · rw [if_neg h0]
    by_cases hpad : buffer.getD 0 0 % 256 = 0xff
    · rw [if_pos hpad, if_pos (Or.inr (Or.inl hpad))]
    · rw [if_neg hpad]
      by_cases hshort : buffer.length < 3
      · rw [if_pos hshort, if_pos rfl, if_pos (Or.inr (Or.inr hshort))]
      · have hnone : ¬ (buffer.length = 0 ∨ buffer.getD 0 0 % 256 = 0xff ∨ buffer.length < 3) := by
          rintro (h | h | h)
          · exact h0 h
          · exact hpad h
          · exact hshort h
        rw [if_neg hshort, hsz, if_pos (Nat.min_le_right _ _), if_neg hnone]
        have := (processSections_true_spec buffer.length
          (buffer.drop (min (declaredSize buffer) buffer.length))
          (by rw [List.length_drop]; omega)).1
        rw [this]
theorem adaptationPayload_eq (data : List Nat) (hlen : data.length = 188)
    (hL : data.getD 4 0 % 256 ≤ 182) :
    adaptationPayload data = data.drop (5 + data.getD 4 0 % 256) ∧
      (adaptationPayload data).length = 183 - data.getD 4 0 % 256 := by
  unfold adaptationPayload
  have hl : (data.drop (5 + data.getD 4 0 % 256)).length = 183 - data.getD 4 0 % 256 := by
    rw [List.length_drop, hlen]; omega
  rw [List.take_of_length_le (by omega)]
  exact ⟨rfl, hl⟩

theorem processData_located (s : DvbSectionFilterInternal) (data : List Nat)
    (hlen : data.length = 188) (hpayload : data.getD 3 0 &&& 0x10 ≠ 0)
    (hadapt : data.getD 3 0 &&& 0x20 ≠ 0) (hL : data.getD 4 0 % 256 ≤ 182) :
    processData s data =
      match s.checkContinuity (data.getD 3 0 &&& 0x0f) with
      | none => (s, [])
      | some s1 =>
        s1.processPayload (decide (data.getD 1 0 &&& 0x40 ≠ 0)) (adaptationPayload data) := by
  obtain ⟨hP, hPl⟩ := adaptationPayload_eq data hlen hL
  rw [hP] at hPl ⊢
  unfold processData DvbSectionFilterInternal.checkContinuity
  rw [if_neg hpayload]
  simp only []
  by_cases hdup : s.bufferValid = true ∧ data.getD 3 0 &&& 0x0f = s.continuityCounter
  · rw [if_pos hdup, if_pos hdup]
  · rw [if_neg hdup, if_neg hdup, if_neg hadapt, if_neg (by omega)]
    simp only []
    unfold DvbSectionFilterInternal.processPayload
    have hlen2 : 188 - 5 - data.getD 4 0 % 256 =
        (data.drop (5 + data.getD 4 0 % 256)).length := by omega
    rw [hlen2]
    generalize data.drop (5 + data.getD 4 0 % 256) = payload
    by_cases hstart : data.getD 1 0 &&& 0x40 ≠ 0
    · rw [decide_eq_true hstart]
      simp only [if_true]
      have htail : ∀ p, (payload.drop (p + 1)).take (payload.length - (p + 1)) =
          payload.drop (p + 1) := by
        intro p
        rw [List.take_of_length_le (by rw [List.length_drop])]
      rw [htail]
    · rw [decide_eq_false hstart]
      simp only [Bool.false_eq_true, if_false, List.take_length]

/-- C27: for every reassembler state and every 188-byte packet that carries
payload and has the adaptation-field flag set: if the adaptation-field length
byte exceeds 182, `processData` leaves the accumulator unchanged and dispatches
no section; if the length byte L is at most 182, the payload consists of the
183 - L bytes that start at offset 5 + L, and `processData` does with exactly
these bytes what follows the location of the payload (nothing, if the packet is
dropped as a duplicate). -/
theorem processData_adaptation_field (s : DvbSectionFilterInternal) (data : List Nat)
    (hlen : data.length = 188) (hpayload : data.getD 3 0 &&& 0x10 ≠ 0)
    (hadapt : data.getD 3 0 &&& 0x20 ≠ 0) :
    (182 < data.getD 4 0 % 256 →
        (processData s data).1.buffer = s.buffer ∧ (processData s data).2 = []) ∧
      (data.getD 4 0 % 256 ≤ 182 →
        adaptationPayload data = (data.drop (5 + data.getD 4 0 % 256)).take
            (183 - data.getD 4 0 % 256) ∧
          (adaptationPayload data).length = 183 - data.getD 4 0 % 256 ∧
          processData s data =
            match s.checkContinuity (data.getD 3 0 &&& 0x0f) with
            | none => (s, [])
            | some s1 =>
              s1.processPayload (decide (data.getD 1 0 &&& 0x40 ≠ 0))
                (adaptationPayload data)) := by
  refine ⟨?_, ?_⟩
  · intro hL
    unfold processData
    rw [if_neg hpayload]
    simp only []
    by_cases hdup : s.bufferValid = true ∧ data.getD 3 0 &&& 0x0f = s.continuityCounter
    · rw [if_pos hdup]
      exact ⟨rfl, rfl⟩
    · rw [if_neg hdup, if_neg hadapt, if_pos hL]
      exact ⟨rfl, rfl⟩
  · intro hL
    exact ⟨rfl, (adaptationPayload_eq data hlen hL).2,
      processData_located s data hlen hpayload hadapt hL⟩

set_option maxRecDepth 100000 in
theorem processData_adaptation_field_witness :
    (stuffedPacket 0x40 0x35 [0x00, 0x00, 0xb0]).length = 188 ∧
      (stuffedPacket 0x40 0x35 [0x00, 0x00, 0xb0]).getD 4 0 % 256 = 180 ∧
      adaptationPayload (stuffedPacket 0x40 0x35 [0x00, 0x00, 0xb0]) = [0x00, 0x00, 0xb0] ∧
      processData DvbSectionFilterInternal.init (stuffedPacket 0x40 0x35 [0x00, 0x00, 0xb0]) =
        (reassembler [0x00, 0xb0] 5 true, []) ∧
      (adaptationPayload (stuffedPacket 0x40 0x35 [0x00, 0x00, 0xb0])).length =
        183 - (stuffedPacket 0x40 0x35 [0x00, 0x00, 0xb0]).getD 4 0 % 256 :=
  ⟨by decide, by decide, by decide, by decide,
    ((processData_adaptation_field DvbSectionFilterInternal.init
      (stuffedPacket 0x40 0x35 [0x00, 0x00, 0xb0]) (by decide) (by decide) (by decide)).2
        (by decide)).2.1⟩

/-! ## Theorems: tuning and polling -/

/-- A rejected tune command: Tuning is set (and announced unless the device
was in it already), then Idle. -/
theorem tuneResult_rejected (dev : DvbDevice) (moveRotor : Bool) :
    dev.tuneResult false moveRotor =
      { dev with
        deviceState := .DeviceIdle,
        stateChanges :=
          dev.stateChanges ++
            (if dev.deviceState = .DeviceTuning then [] else [DeviceState.DeviceTuning]) ++
            [DeviceState.DeviceIdle] } := by
  unfold DvbDevice.tuneResult
  simp only [Bool.false_eq_true, if_false]
  rw [setDeviceState_eq, setDeviceState_eq]
  by_cases h : dev.deviceState = .DeviceTuning
  · simp [h]
  · simp [h]

/-- An accepted tune command. -/
theorem tuneResult_accepted (dev : DvbDevice) (moveRotor : Bool) :
    ∃ b u, dev.tuneResult true moveRotor =
      { dev with
        deviceState := if moveRotor then .DeviceRotorMoving else .DeviceTuning,
        stateChanges :=
          if dev.deviceState ≠ (if moveRotor then .DeviceRotorMoving else .DeviceTuning) then
            dev.stateChanges ++ [if moveRotor then .DeviceRotorMoving else .DeviceTuning]
          else dev.stateChanges,
        frontendTimeout := if moveRotor then 15000 else dev.config.timeout,
        frontendTimerActive := true,
        buffers := b, unusedBuffersHead := u } := by
  unfold DvbDevice.tuneResult
  simp only [if_true]
  cases moveRotor with
  | false =>
    simp only [if_true, Bool.false_eq_true, if_false]
    obtain ⟨b, u, h⟩ := discardBuffers_eq
      { dev.setDeviceState DeviceState.DeviceTuning with
        frontendTimeout := dev.config.timeout, frontendTimerActive := true }
    refine ⟨b, u, ?_⟩
    rw [h, setDeviceState_eq]
  | true =>
    simp only [Bool.true_eq_false, if_false, if_true]
    obtain ⟨b, u, h⟩ := discardBuffers_eq
      { dev.setDeviceState DeviceState.DeviceRotorMoving with
        frontendTimeout := 15000, frontendTimerActive := true }
    refine ⟨b, u, ?_⟩
    rw [h, setDeviceState_eq]

theorem wrapInt32_eq (x : Int) (hlow : -2147483648 ≤ x) (hhigh : x < 2147483648) :
    wrapInt32 x = x := by
  unfold wrapInt32
  omega

/-- Without overflow the `int` computation `abs(a - b)` yields the distance. -/
theorem absDifference_eq (a b : Int) (h : |a - b| < 2147483648) :
    absDifference a b = |a - b| := by
  unfold absDifference
  have h0 : 0 ≤ |a - b| := abs_nonneg _
  have h1 : -2147483648 < a - b ∧ a - b < 2147483648 := by
    rcases abs_cases (a - b) with ⟨he, _⟩ | ⟨he, _⟩ <;> constructor <;> omega
  rw [wrapInt32_eq (a - b) (by omega) h1.2, wrapInt32_eq _ (by omega) h]

/-- The frequency and band computed by the satellite branch of `tune`. -/
theorem tune_band (config : DvbConfigBase) (t : DvbTransponder) :
    (if config.switchFrequency ≠ 0 then
        if t.frequency < config.switchFrequency then
          (absDifference t.frequency config.lowBandFrequency, false)
        else (absDifference t.frequency config.highBandFrequency, true)
      else if config.highBandFrequency ≠ 0 then
        if (decide (t.polarization = .Horizontal) ||
            decide (t.polarization = .CircularLeft)) = true then
          (absDifference t.frequency config.lowBandFrequency, false)
        else (absDifference t.frequency config.highBandFrequency, false)
      else (absDifference t.frequency config.lowBandFrequency, false)) =
      (absDifference t.frequency (config.localOscillator t), config.highBand t) := by
  unfold DvbConfigBase.localOscillator DvbConfigBase.highBand
  by_cases hs : config.switchFrequency = 0
  · by_cases hh : config.highBandFrequency = 0
    · simp [hs, hh]
    · cases hp : t.polarization <;> simp [hs, hh]
  · by_cases hf : t.frequency < config.switchFrequency
    · simp [hs, hf]
    · simp [hs, hf]

/-- The satellite branch of `tune`: the commands issued, then the end of the
function. -/
theorem tune_satellite (dev : DvbDevice) (t : DvbTransponder) (be : BackendAnswers)
    (hsat : t.isSatellite = true) :
    dev.tune t be =
      DvbDevice.tuneResult
        { dev with
          backendCalls :=
            dev.backendCalls ++
              ([.setTone .ToneOff,
                  .setVoltage (if t.horizontal then .Voltage18V else .Voltage13V)] ++
                (positionerCalls dev.config t.horizontal (dev.config.highBand t)).1 ++
                [.setTone (if dev.config.highBand t then .ToneOn else .ToneOff),
                  .tune (dev.config.intermediate t)]) }
        be.tune (positionerCalls dev.config t.horizontal (dev.config.highBand t)).2 := by
  have hne : ¬ (t.transmissionType ≠ .DvbS ∧ t.transmissionType ≠ .DvbS2) := by
    unfold DvbTransponder.isSatellite at hsat
    simp only [Bool.or_eq_true, decide_eq_true_eq] at hsat
    tauto
  unfold DvbDevice.tune
  rw [if_neg hne]
  simp only []
  rw [tune_band]
  unfold DvbConfigBase.intermediate DvbTransponder.horizontal DvbDevice.call
  simp only [List.append_assoc, List.cons_append, List.nil_append]

/-- The other branch of `tune`. -/
theorem tune_nonSatellite (dev : DvbDevice) (t : DvbTransponder) (be : BackendAnswers)
    (hsat : t.isSatellite = false) :
    dev.tune t be =
      DvbDevice.tuneResult { dev with backendCalls := dev.backendCalls ++ [.tune t] }
        be.tune false := by
  have hne : t.transmissionType ≠ .DvbS ∧ t.transmissionType ≠ .DvbS2 := by
    unfold DvbTransponder.isSatellite at hsat
    simp only [Bool.or_eq_false_iff, decide_eq_false_iff_not] at hsat
    exact hsat
  unfold DvbDevice.tune
  rw [if_pos hne]
  rfl

/-- Whether the rotor is moved, by configuration. -/
theorem positionerCalls_moveRotor (config : DvbConfigBase) (h b : Bool) :
    (positionerCalls config h b).2 =
      (decide (config.configuration = .UsalsRotor) ||
        decide (config.configuration = .PositionsRotor)) := by
  unfold positionerCalls
  cases config.configuration <;> rfl

/-- Every call of `tune` ends with `tuneResult` on a device that differs from
the given one in the trace of backend commands only, with the rotor flag of
`movesRotor`. -/
theorem tune_eq_tuneResult (dev : DvbDevice) (t : DvbTransponder) (be : BackendAnswers) :
    ∃ calls, dev.tune t be =
      DvbDevice.tuneResult { dev with backendCalls := dev.backendCalls ++ calls } be.tune
        (dev.config.movesRotor t) ∧ tuneCalls calls = 1 := by
  cases hsat : t.isSatellite with
  | false =>
    refine ⟨[.tune t], ?_, rfl⟩
    rw [tune_nonSatellite dev t be hsat]
    unfold DvbConfigBase.movesRotor
    rw [hsat]
    rfl
  | true =>
    refine ⟨[.setTone .ToneOff,
          .setVoltage (if t.horizontal then .Voltage18V else .Voltage13V)] ++
        (positionerCalls dev.config t.horizontal (dev.config.highBand t)).1 ++
        [.setTone (if dev.config.highBand t then .ToneOn else .ToneOff),
          .tune (dev.config.intermediate t)], ?_, ?_⟩
    · rw [tune_satellite dev t be hsat, positionerCalls_moveRotor]
      unfold DvbConfigBase.movesRotor
      rw [hsat, Bool.true_and]
    · unfold positionerCalls
      cases dev.config.configuration <;> simp [tuneCalls, List.countP_cons]
/-- C21: for every device, transponder (satellite or not), configuration and
answer of the backend: if the backend rejects the tune command, `tune` ends
with the device Idle, having set the state Tuning in between (Tuning is
announced before Idle unless the device was in Tuning already), and the polling
timer and the timeout budget are left as they were; if the backend accepts, the
device is in state Tuning, or RotorMoving when a rotor command was sent, and
the polling timer runs. -/
theorem tune_outcome (dev : DvbDevice) (t : DvbTransponder) (be : BackendAnswers) :
    (be.tune = false →
        (dev.tune t be).deviceState = .DeviceIdle ∧
          (dev.tune t be).stateChanges =
            dev.stateChanges ++
              (if dev.deviceState = .DeviceTuning then [] else [DeviceState.DeviceTuning]) ++
              [DeviceState.DeviceIdle] ∧
          (dev.tune t be).frontendTimerActive = dev.frontendTimerActive ∧
          (dev.tune t be).frontendTimeout = dev.frontendTimeout) ∧
      (be.tune = true →
        (dev.tune t be).deviceState =
            (if dev.config.movesRotor t then .DeviceRotorMoving else .DeviceTuning) ∧
          (dev.tune t be).frontendTimerActive = true) := by
  obtain ⟨calls, h, _⟩ := tune_eq_tuneResult dev t be
  refine ⟨?_, ?_⟩
  · intro hrej
    rw [h, hrej, tuneResult_rejected]
    exact ⟨rfl, rfl, rfl, rfl⟩
  · intro hacc
    rw [h, hacc]
    obtain ⟨b, u, h2⟩ := tuneResult_accepted
      { dev with backendCalls := dev.backendCalls ++ calls } (dev.config.movesRotor t)
    rw [h2]
    exact ⟨rfl, rfl⟩

theorem tune_outcome_witness :
    ((DvbDevice.init (DvbConfigBase.plain 1500)).tune (DvbTransponder.plain .DvbS 11836000)
          { BackendAnswers.accepting ⟨true, true, true, true⟩ with tune := false }).deviceState =
        .DeviceIdle ∧
      ((DvbDevice.init (DvbConfigBase.plain 1500)).tune (DvbTransponder.plain .DvbS 11836000)
          { BackendAnswers.accepting ⟨true, true, true, true⟩ with tune := false }).stateChanges =
        [.DeviceTuning, .DeviceIdle] ∧
      ((DvbDevice.init { DvbConfigBase.plain 1500 with configuration := .PositionsRotor }).tune
          (DvbTransponder.plain .DvbS 11836000)
          (BackendAnswers.accepting ⟨true, true, true, true⟩)).deviceState =
        .DeviceRotorMoving ∧
      ((DvbDevice.init { DvbConfigBase.plain 1500 with configuration := .PositionsRotor }).tune
          (DvbTransponder.plain .DvbS 11836000)
          (BackendAnswers.accepting ⟨true, true, true, true⟩)).frontendTimerActive = true :=
  ⟨((tune_outcome (DvbDevice.init (DvbConfigBase.plain 1500))
      (DvbTransponder.plain .DvbS 11836000)
      { BackendAnswers.accepting ⟨true, true, true, true⟩ with tune := false }).1 rfl).1,
    by decide, by decide,
    ((tune_outcome (DvbDevice.init { DvbConfigBase.plain 1500 with configuration := .PositionsRotor })
      (DvbTransponder.plain .DvbS 11836000)
      (BackendAnswers.accepting ⟨true, true, true, true⟩)).2 rfl).2⟩

/-- C28, amended: for every DVB-S (or DVB-S2) transponder, every device and
every configuration (other than USALS rotor, and also for it, with the angle
value of its message taken as given), `tune` issues these backend commands, in
this order and no others: tone off; voltage, 18V if the polarization is
horizontal or circular-left and 13V otherwise; the positioner commands of the
configured mode, if any; tone, on if and only if the high band holds; tune,
with the frequency replaced by the result of the `int` computation
`abs(f - LO)` and every other parameter of the transponder unchanged. That
frequency is the distance between the frequency and the local oscillator
frequency whenever the distance is below 2^31, that is, whenever `f - LO` does
not overflow. The high band holds if and only if the switch frequency is
non-zero and the frequency is not below it; the local oscillator frequency is
the high-band frequency when the high band holds or when the switch frequency
is zero, the high-band frequency is non-zero and the polarization is vertical
or circular-right, and the low-band frequency otherwise. -/
theorem tune_satellite_commands (dev : DvbDevice) (t : DvbTransponder) (be : BackendAnswers)
    (hsat : t.transmissionType = .DvbS ∨ t.transmissionType = .DvbS2) :
    (dev.tune t be).backendCalls =
        dev.backendCalls ++
          ([.setTone .ToneOff,
              .setVoltage
                (if t.polarization = .Horizontal ∨ t.polarization = .CircularLeft then
                  .Voltage18V
                else .Voltage13V)] ++
            (positionerCalls dev.config t.horizontal (dev.config.highBand t)).1 ++
            [.setTone (if dev.config.highBand t then .ToneOn else .ToneOff),
              .tune { t with
                frequency := absDifference t.frequency (dev.config.localOscillator t) }]) ∧
      (|t.frequency - dev.config.localOscillator t| < 2147483648 →
        absDifference t.frequency (dev.config.localOscillator t) =
            |t.frequency - dev.config.localOscillator t| ∧
          (dev.tune t be).backendCalls =
            dev.backendCalls ++
              ([.setTone .ToneOff,
                  .setVoltage
                    (if t.polarization = .Horizontal ∨ t.polarization = .CircularLeft then
                      .Voltage18V
                    else .Voltage13V)] ++
                (positionerCalls dev.config t.horizontal (dev.config.highBand t)).1 ++
                [.setTone (if dev.config.highBand t then .ToneOn else .ToneOff),
                  .tune { t with
                    frequency := |t.frequency - dev.config.localOscillator t| }])) ∧
      (dev.config.highBand t = true ↔
        (dev.config.switchFrequency ≠ 0 ∧ ¬ t.frequency < dev.config.switchFrequency)) ∧
      dev.config.localOscillator t =
        (if dev.config.highBand t = true ∨
            (dev.config.switchFrequency = 0 ∧ dev.config.highBandFrequency ≠ 0 ∧
              (t.polarization = .Vertical ∨ t.polarization = .CircularRight)) then
          dev.config.highBandFrequency
        else dev.config.lowBandFrequency) ∧
      (positionerCalls dev.config t.horizontal (dev.config.highBand t)).1.length ≤ 2 ∧
      (dev.config.configuration = .NoDiseqc →
        (positionerCalls dev.config t.horizontal (dev.config.highBand t)).1 = []) := by
  have hs : t.isSatellite = true := by
    unfold DvbTransponder.isSatellite
    rcases hsat with h | h <;> simp [h]
  have hcalls : ∀ accepted moveRotor (d : DvbDevice),
      (d.tuneResult accepted moveRotor).backendCalls = d.backendCalls := by
    intro accepted moveRotor d
    cases accepted with
    | false => rw [tuneResult_rejected]
    | true =>
      obtain ⟨b, u, h2⟩ := tuneResult_accepted d moveRotor
      rw [h2]
  have hvolt : (if t.horizontal = true then SecVoltage.Voltage18V else SecVoltage.Voltage13V) =
      (if t.polarization = .Horizontal ∨ t.polarization = .CircularLeft then
        SecVoltage.Voltage18V else SecVoltage.Voltage13V) := by
    unfold DvbTransponder.horizontal
    cases t.polarization <;> rfl
  have hmain : (dev.tune t be).backendCalls =
      dev.backendCalls ++
        ([.setTone .ToneOff,
            .setVoltage
              (if t.polarization = .Horizontal ∨ t.polarization = .CircularLeft then
                .Voltage18V
              else .Voltage13V)] ++
          (positionerCalls dev.config t.horizontal (dev.config.highBand t)).1 ++
          [.setTone (if dev.config.highBand t then .ToneOn else .ToneOff),
            .tune { t with
              frequency := absDifference t.frequency (dev.config.localOscillator t) }]) := by
    rw [tune_satellite dev t be hs, hcalls, hvolt]
    rfl
  refine ⟨hmain, ?_, ?_, rfl, ?_, ?_⟩
  · intro hrange
    have habs := absDifference_eq t.frequency (dev.config.localOscillator t) hrange
    refine ⟨habs, ?_⟩
    rw [hmain, habs]
  · unfold DvbConfigBase.highBand
    simp
  · unfold positionerCalls
    cases dev.config.configuration <;> simp
  · intro hno
    unfold positionerCalls
    rw [hno]

theorem tune_satellite_commands_witness :
    (|(DvbTransponder.plain .DvbS 11836000).frequency -
          ({ timeout := 1500, configuration := .NoDiseqc, lnbNumber := 0,
              lowBandFrequency := 9750000, switchFrequency := 11700000,
              highBandFrequency := 10600000, usalsValue := 0 } : DvbConfigBase).localOscillator
            (DvbTransponder.plain .DvbS 11836000)| < 2147483648) ∧
      ((DvbDevice.init
            { timeout := 1500, configuration := .NoDiseqc, lnbNumber := 0,
              lowBandFrequency := 9750000, switchFrequency := 11700000,
              highBandFrequency := 10600000, usalsValue := 0 }).tune
          (DvbTransponder.plain .DvbS 11836000)
          (BackendAnswers.accepting ⟨true, true, true, true⟩)).backendCalls =
        [.setTone .ToneOff, .setVoltage .Voltage18V, .setTone .ToneOn,
          .tune (DvbTransponder.plain .DvbS 1236000)] :=
  ⟨by decide,
    ((tune_satellite_commands
      (DvbDevice.init
        { timeout := 1500, configuration := .NoDiseqc, lnbNumber := 0,
          lowBandFrequency := 9750000, switchFrequency := 11700000,
          highBandFrequency := 10600000, usalsValue := 0 })
      (DvbTransponder.plain .DvbS 11836000)
      (BackendAnswers.accepting ⟨true, true, true, true⟩) (Or.inl rfl)).2.1 (by decide)).2⟩

set_option maxRecDepth 100000 in
/-- C28 as stated fails when `f - LO` overflows: for the DVB-S transponder at
frequency 2147483647 and a single local oscillator at -1 the distance is
2147483648, and the tune command carries the frequency -2147483648. -/
theorem tune_frequency_overflow :
    overflowExample.2.transmissionType = .DvbS ∧
      overflowExample.1.config.localOscillator overflowExample.2 = -1 ∧
      |overflowExample.2.frequency - overflowExample.1.config.localOscillator overflowExample.2| =
        2147483648 ∧
      (overflowExample.1.tune overflowExample.2
          (BackendAnswers.accepting ⟨true, true, true, true⟩)).backendCalls =
        [.setTone .ToneOff, .setVoltage .Voltage18V, .setTone .ToneOff,
          .tune (DvbTransponder.plain .DvbS (-2147483648))] := by
  decide

/-- The last byte of the DiSEqC switch message as `tune` computes it, for an
LNB number of at most 3. -/
theorem diseqcByte_eq (n : Nat) (h b : Bool) (hn : n ≤ 3) :
    (0xf0 ||| (n <<< 2) ||| (if h then 2 else 0) ||| (if b then 1 else 0)) % 256 =
      diseqcByte n h b := by
  interval_cases n <;> cases h <;> cases b <;> decide

theorem diseqcByte_injective (n n2 : Nat) (h h2 b b2 : Bool)
    (he : diseqcByte n h b = diseqcByte n2 h2 b2) : n = n2 ∧ h = h2 ∧ b = b2 := by
  unfold diseqcByte at he
  cases h <;> cases h2 <;> cases b <;> cases b2 <;> simp at he ⊢ <;> omega

/-- C29: for every DVB-S or DVB-S2 transponder. In DiSEqC-switch mode, for
every LNB number n in 0..3, `tune` sends, between the voltage command and the
final tone command, the 4-byte message E0 10 38 XX with
XX = 0xF0 + 4 n + 2 h + b (h = 1 for horizontal or circular-left polarization,
b = 1 for the high band), followed by the tone burst mini-A if n is even and
mini-B if n is odd; XX lies in 0xF0..0xFF, and distinct triples (n, h, b) give
distinct bytes. In stored-position rotor mode, for every position number n
below 256, it sends the message E0 31 6B n, and when the backend accepts the
tune command the device is in state RotorMoving with the polling timer running
on a timeout budget of 15000 ms. -/
theorem tune_positioner_commands (dev : DvbDevice) (t : DvbTransponder) (be : BackendAnswers)
    (hsat : t.transmissionType = .DvbS ∨ t.transmissionType = .DvbS2) :
    (dev.config.configuration = .DiseqcSwitch → dev.config.lnbNumber ≤ 3 →
        (dev.tune t be).backendCalls =
            dev.backendCalls ++
              [.setTone .ToneOff,
                .setVoltage (if t.horizontal then .Voltage18V else .Voltage13V),
                .sendMessage [0xe0, 0x10, 0x38,
                  diseqcByte dev.config.lnbNumber t.horizontal (dev.config.highBand t)],
                .sendBurst (if dev.config.lnbNumber % 2 = 0 then .BurstMiniA else .BurstMiniB),
                .setTone (if dev.config.highBand t then .ToneOn else .ToneOff),
                .tune (dev.config.intermediate t)] ∧
          0xf0 ≤ diseqcByte dev.config.lnbNumber t.horizontal (dev.config.highBand t) ∧
          diseqcByte dev.config.lnbNumber t.horizontal (dev.config.highBand t) ≤ 0xff) ∧
      (dev.config.configuration = .PositionsRotor → dev.config.lnbNumber < 256 →
        (dev.tune t be).backendCalls =
            dev.backendCalls ++
              [.setTone .ToneOff,
                .setVoltage (if t.horizontal then .Voltage18V else .Voltage13V),
                .sendMessage [0xe0, 0x31, 0x6b, dev.config.lnbNumber],
                .setTone (if dev.config.highBand t then .ToneOn else .ToneOff),
                .tune (dev.config.intermediate t)] ∧
          (be.tune = true →
            (dev.tune t be).frontendTimeout = 15000 ∧
              (dev.tune t be).frontendTimerActive = true ∧
              (dev.tune t be).deviceState = .DeviceRotorMoving)) ∧
      (∀ (n n2 : Nat) (h h2 b b2 : Bool),
        diseqcByte n h b = diseqcByte n2 h2 b2 → n = n2 ∧ h = h2 ∧ b = b2) := by
  have hs : t.isSatellite = true := by
    unfold DvbTransponder.isSatellite
    rcases hsat with h | h <;> simp [h]
  have hcalls : ∀ accepted moveRotor (d : DvbDevice),
      (d.tuneResult accepted moveRotor).backendCalls = d.backendCalls := by
    intro accepted moveRotor d
    cases accepted with
    | false => rw [tuneResult_rejected]
    | true =>
      obtain ⟨b, u, h2⟩ := tuneResult_accepted d moveRotor
      rw [h2]
  refine ⟨?_, ?_, fun n n2 h h2 b b2 => diseqcByte_injective n n2 h h2 b b2⟩
  · intro hconf hn
    refine ⟨?_, ?_, ?_⟩
    · rw [tune_satellite dev t be hs, hcalls]
      have hp : (positionerCalls dev.config t.horizontal (dev.config.highBand t)).1 =
          [.sendMessage [0xe0, 0x10, 0x38,
              diseqcByte dev.config.lnbNumber t.horizontal (dev.config.highBand t)],
            .sendBurst (if dev.config.lnbNumber % 2 = 0 then .BurstMiniA else .BurstMiniB)] := by
        unfold positionerCalls
        rw [hconf]
        simp only []
        rw [diseqcByte_eq _ _ _ hn]
        have hodd : (dev.config.lnbNumber &&& 0x1 = 0) ↔ dev.config.lnbNumber % 2 = 0 := by
          have := Nat.and_pow_two_sub_one_eq_mod dev.config.lnbNumber 1
          have e : (2 ^ 1 - 1 : Nat) = 0x1 := by decide
          rw [e] at this
          rw [this]
        simp only [hodd]
      rw [hp]
      rfl
    · unfold diseqcByte; omega
    · unfold diseqcByte
      cases t.horizontal <;> cases dev.config.highBand t <;> simp <;> omega
  · intro hconf hn
    refine ⟨?_, ?_⟩
    · rw [tune_satellite dev t be hs, hcalls]
      have hp : (positionerCalls dev.config t.horizontal (dev.config.highBand t)).1 =
          [.sendMessage [0xe0, 0x31, 0x6b, dev.config.lnbNumber]] := by
        unfold positionerCalls
        rw [hconf]
        simp only []
        rw [Nat.mod_eq_of_lt hn]
      rw [hp]
      rfl
    · intro hacc
      obtain ⟨calls, h, _⟩ := tune_eq_tuneResult dev t be
      rw [h, hacc]
      obtain ⟨b, u, h2⟩ := tuneResult_accepted
        { dev with backendCalls := dev.backendCalls ++ calls } (dev.config.movesRotor t)
      rw [h2]
      have hm : dev.config.movesRotor t = true := by
        unfold DvbConfigBase.movesRotor
        rw [hs, hconf]
        rfl
      rw [hm]
      exact ⟨rfl, rfl, rfl⟩

theorem tune_positioner_commands_witness :
    ((DvbDevice.init
          { timeout := 1500, configuration := .DiseqcSwitch, lnbNumber := 3,
            lowBandFrequency := 9750000, switchFrequency := 11700000,
            highBandFrequency := 10600000, usalsValue := 0 }).tune
        (DvbTransponder.plain .DvbS 11836000)
        (BackendAnswers.accepting ⟨true, true, true, true⟩)).backendCalls =
      [.setTone .ToneOff, .setVoltage .Voltage18V, .sendMessage [0xe0, 0x10, 0x38, 0xff],
        .sendBurst .BurstMiniB, .setTone .ToneOn,
        .tune (DvbTransponder.plain .DvbS 1236000)] ∧
      ((DvbDevice.init
          { timeout := 1500, configuration := .PositionsRotor, lnbNumber := 7,
            lowBandFrequency := 9750000, switchFrequency := 11700000,
            highBandFrequency := 10600000, usalsValue := 0 }).tune
        (DvbTransponder.plain .DvbS 11836000)
        (BackendAnswers.accepting ⟨true, true, true, true⟩)).frontendTimeout = 15000 :=
  ⟨((tune_positioner_commands
      (DvbDevice.init
        { timeout := 1500, configuration := .DiseqcSwitch, lnbNumber := 3,
          lowBandFrequency := 9750000, switchFrequency := 11700000,
          highBandFrequency := 10600000, usalsValue := 0 })
      (DvbTransponder.plain .DvbS 11836000)
      (BackendAnswers.accepting ⟨true, true, true, true⟩) (Or.inl rfl)).1 rfl (by decide)).1,
    by decide⟩
theorem frontendEvent_tuned (dev : DvbDevice) (be : BackendAnswers) (h : be.isTuned = true) :
    dev.frontendEvent be =
      DvbDevice.setDeviceState { dev with frontendTimerActive := false } .DeviceTuned := by
  unfold DvbDevice.frontendEvent
  rw [h]
  rfl

theorem frontendEvent_nonAuto (dev : DvbDevice) (be : BackendAnswers)
    (hT : be.isTuned = false) (hA : dev.isAuto = false) :
    dev.frontendEvent be =
      if dev.frontendTimeout - 100 ≤ 0 then
        DvbDevice.setDeviceState
          { dev with frontendTimeout := dev.frontendTimeout - 100, frontendTimerActive := false }
          .DeviceIdle
      else { dev with frontendTimeout := dev.frontendTimeout - 100 } := by
  unfold DvbDevice.frontendEvent
  rw [hT]
  simp only [Bool.false_eq_true, if_false, hA, if_true]

theorem ceilHundredths_eq (x : Int) (h : 0 < x) : ceilHundredths x = pollsUntilTimeout x := by
  unfold ceilHundredths pollsUntilTimeout
  split
  · have h2 : (x + 99) / 100 = 1 := by omega
    rw [h2]
    rfl
  · rfl

/-- Polling a device that is not in auto mode while the backend does not
report tuned: nothing but the timeout budget changes before the poll at which
the budget is used up, and from that poll on the device is Idle and the timer
stopped. -/
theorem pollAll_nonAuto :
    ∀ (bes : List BackendAnswers) (dev : DvbDevice), dev.frontendTimerActive = true →
      dev.isAuto = false → (∀ be ∈ bes, be.isTuned = false) →
      (bes.length < pollsUntilTimeout dev.frontendTimeout →
          dev.pollAll bes =
            { dev with frontendTimeout := dev.frontendTimeout - 100 * bes.length }) ∧
        (pollsUntilTimeout dev.frontendTimeout ≤ bes.length →
          (dev.pollAll bes).deviceState = .DeviceIdle ∧
            (dev.pollAll bes).frontendTimerActive = false) := by
  intro bes
  induction bes with
  | nil =>
    intro dev _ _ _
    refine ⟨fun _ => ?_, fun h => ?_⟩
    · show dev = _
      simp
    · have := pollsUntilTimeout_pos dev.frontendTimeout
      simp only [List.length_nil] at h
      omega
  | cons be rest ih =>
    intro dev hTimer hAuto hbes
    have hbe := hbes be (List.mem_cons_self _ _)
    have hrest : ∀ x ∈ rest, x.isTuned = false := fun x hx => hbes x (List.mem_cons_of_mem _ hx)
    simp only [DvbDevice.pollAll, List.length_cons]
    have hpoll : dev.poll be = dev.frontendEvent be := by
      unfold DvbDevice.poll
      rw [hTimer]
      rfl
    rw [hpoll, frontendEvent_nonAuto dev be hbe hAuto]
    by_cases hto : dev.frontendTimeout - 100 ≤ 0
    · rw [if_pos hto]
      have hp1 : pollsUntilTimeout dev.frontendTimeout = 1 := by
        unfold pollsUntilTimeout
        rw [if_pos (by omega)]
      rw [hp1]
      refine ⟨fun h => by omega, fun _ => ?_⟩
      rw [pollAll_of_timer_stopped rest _ (by rw [setDeviceState_eq])]
      rw [setDeviceState_eq]
      exact ⟨rfl, rfl⟩
    · rw [if_neg hto]
      have hsub := pollsUntilTimeout_sub dev.frontendTimeout (by omega)
      obtain ⟨i1, i2⟩ := ih { dev with frontendTimeout := dev.frontendTimeout - 100 } hTimer hAuto
        hrest
      refine ⟨fun h => ?_, fun h => ?_⟩
      · rw [i1 (by show rest.length < pollsUntilTimeout (dev.frontendTimeout - 100); omega)]
        show { dev with frontendTimeout := dev.frontendTimeout - 100 - 100 * (rest.length : Int) } =
          { dev with frontendTimeout := dev.frontendTimeout - 100 * ((rest.length + 1 : Nat) : Int) }
        have : dev.frontendTimeout - 100 - 100 * (rest.length : Int) =
            dev.frontendTimeout - 100 * ((rest.length + 1 : Nat) : Int) := by
          push_cast; ring
        rw [this]
      · exact i2 (by show pollsUntilTimeout (dev.frontendTimeout - 100) ≤ rest.length; omega)

theorem pollAll_append (dev : DvbDevice) (xs ys : List BackendAnswers) :
    dev.pollAll (xs ++ ys) = (dev.pollAll xs).pollAll ys := by
  induction xs generalizing dev with
  | nil => rfl
  | cons x xs ih => exact ih (dev.poll x)

/-- A call of `tune` leaves the auto mode as it was. -/
theorem tune_isAuto (dev : DvbDevice) (t : DvbTransponder) (be : BackendAnswers) :
    (dev.tune t be).isAuto = dev.isAuto := by
  obtain ⟨calls, h, _⟩ := tune_eq_tuneResult dev t be
  rw [h]
  cases be.tune with
  | false => rw [tuneResult_rejected]
  | true =>
    obtain ⟨b, u, h2⟩ := tuneResult_accepted
      { dev with backendCalls := dev.backendCalls ++ calls } (dev.config.movesRotor t)
    rw [h2]

/-- An accepted tune arms the polling with the timeout budget `tuneTimeout`. -/
theorem tune_accepted (dev : DvbDevice) (t : DvbTransponder) (be : BackendAnswers)
    (hacc : be.tune = true) :
    (dev.tune t be).deviceState =
        (if dev.config.movesRotor t then .DeviceRotorMoving else .DeviceTuning) ∧
      (dev.tune t be).frontendTimerActive = true ∧
      (dev.tune t be).frontendTimeout = dev.config.tuneTimeout t ∧
      (dev.tune t be).isAuto = dev.isAuto := by
  obtain ⟨calls, h, _⟩ := tune_eq_tuneResult dev t be
  rw [h, hacc]
  obtain ⟨b, u, h2⟩ := tuneResult_accepted
    { dev with backendCalls := dev.backendCalls ++ calls } (dev.config.movesRotor t)
  rw [h2]
  exact ⟨rfl, rfl, rfl, rfl⟩

/-- Amended C30: for every device with auto-tune mode off and every configured
timeout T > 0 (ms), after a tune that the backend accepts the timeout budget is
T if no rotor command was sent and 15000 ms, whatever T, if one was sent. If
the backend never reports tuned, the device stays in Tuning (RotorMoving after
a rotor command) with the timer running at every poll before the
ceil(budget/100)-th, and at that poll it goes to Idle and the timer stops; if
the backend reports tuned at that poll or an earlier one, the device goes to
Tuned at that poll and the timer stops. -/
theorem tune_timeout_polls (dev : DvbDevice) (t : DvbTransponder) (be0 : BackendAnswers)
    (bes : List BackendAnswers) (hauto : dev.isAuto = false) (hacc : be0.tune = true)
    (hT : 0 < dev.config.timeout) (hbes : ∀ be ∈ bes, be.isTuned = false) :
    dev.config.tuneTimeout t = (if dev.config.movesRotor t then 15000 else dev.config.timeout) ∧
      (bes.length < ceilHundredths (dev.config.tuneTimeout t) →
        ((dev.tune t be0).pollAll bes).deviceState =
            (if dev.config.movesRotor t then .DeviceRotorMoving else .DeviceTuning) ∧
          ((dev.tune t be0).pollAll bes).frontendTimerActive = true) ∧
      (ceilHundredths (dev.config.tuneTimeout t) ≤ bes.length →
        ((dev.tune t be0).pollAll bes).deviceState = .DeviceIdle ∧
          ((dev.tune t be0).pollAll bes).frontendTimerActive = false) ∧
      (bes.length < ceilHundredths (dev.config.tuneTimeout t) →
        ∀ be : BackendAnswers, be.isTuned = true →
          ((dev.tune t be0).pollAll (bes ++ [be])).deviceState = .DeviceTuned ∧
            ((dev.tune t be0).pollAll (bes ++ [be])).frontendTimerActive = false) := by
  obtain ⟨hstate, htimer, hbudget, hauto2⟩ := tune_accepted dev t be0 hacc
  rw [hauto] at hauto2
  have hpos : 0 < dev.config.tuneTimeout t := by
    unfold DvbConfigBase.tuneTimeout
    split
    · decide
    · exact hT
  obtain ⟨p1, p2⟩ := pollAll_nonAuto bes (dev.tune t be0) htimer hauto2 hbes
  rw [hbudget, ← ceilHundredths_eq _ hpos] at p1 p2
  refine ⟨rfl, ?_, p2, ?_⟩
  · intro hlt
    rw [p1 hlt]
    exact ⟨hstate, htimer⟩
  · intro hlt be hbe
    rw [pollAll_append, p1 hlt]
    show (DvbDevice.poll _ be).deviceState = _ ∧ (DvbDevice.poll _ be).frontendTimerActive = _
    unfold DvbDevice.poll
    rw [if_pos (by exact htimer), frontendEvent_tuned _ _ hbe, setDeviceState_eq]
    exact ⟨rfl, rfl⟩

set_option maxRecDepth 100000 in
theorem tune_timeout_polls_witness :
    (∀ be ∈ List.replicate 14 (BackendAnswers.accepting ⟨true, true, true, true⟩),
        be.isTuned = false) ∧
      ceilHundredths ((DvbConfigBase.plain 1450).tuneTimeout (DvbTransponder.plain .DvbT 506000)) =
        15 ∧
      (((DvbDevice.init (DvbConfigBase.plain 1450)).tune (DvbTransponder.plain .DvbT 506000)
          (BackendAnswers.accepting ⟨true, true, true, true⟩)).pollAll
          (List.replicate 14 (BackendAnswers.accepting ⟨true, true, true, true⟩))).deviceState =
        .DeviceTuning ∧
      (((DvbDevice.init (DvbConfigBase.plain 1450)).tune (DvbTransponder.plain .DvbT 506000)
          (BackendAnswers.accepting ⟨true, true, true, true⟩)).pollAll
          (List.replicate 15 (BackendAnswers.accepting ⟨true, true, true, true⟩))).deviceState =
        .DeviceIdle :=
  ⟨by decide, by decide,
    ((tune_timeout_polls (DvbDevice.init (DvbConfigBase.plain 1450))
      (DvbTransponder.plain .DvbT 506000) (BackendAnswers.accepting ⟨true, true, true, true⟩)
      (List.replicate 14 (BackendAnswers.accepting ⟨true, true, true, true⟩)) rfl rfl
      (by decide) (by decide)).2.1 (by decide)).1,
    by decide⟩

set_option maxRecDepth 100000 in
/-- C30 as stated fails when a rotor command was sent: with a stored-position
rotor, auto-tune mode off and a configured timeout of 100 ms (so that
ceil(T/100) = 1), a DVB-S tune that the backend accepts and never reports as
tuned is still in RotorMoving with the timer running after the first poll and
after 149 polls, and goes to Idle at the 150th. -/
theorem rotor_tune_outlasts_configured_timeout :
    rotorTuneExample.isAuto = false ∧ rotorTuneExample.config.timeout = 100 ∧
      ceilHundredths rotorTuneExample.config.timeout = 1 ∧
      (BackendAnswers.accepting ⟨true, true, true, true⟩).isTuned = false ∧
      (rotorTuneExample.pollAll
          [BackendAnswers.accepting ⟨true, true, true, true⟩]).deviceState =
        .DeviceRotorMoving ∧
      (rotorTuneExample.pollAll
          [BackendAnswers.accepting ⟨true, true, true, true⟩]).frontendTimerActive = true ∧
      (rotorTuneExample.pollAll
          (List.replicate 149 (BackendAnswers.accepting ⟨true, true, true, true⟩))).deviceState =
        .DeviceRotorMoving ∧
      (rotorTuneExample.pollAll
          (List.replicate 150 (BackendAnswers.accepting ⟨true, true, true, true⟩))).deviceState =
        .DeviceIdle := by
  decide
theorem tuneCalls_append (xs ys : List BackendCall) :
    tuneCalls (xs ++ ys) = tuneCalls xs + tuneCalls ys := by
  simp [tuneCalls, List.countP_append]

/-- Every call of `tune` issues exactly one tune command. -/
theorem tune_tuneCalls (dev : DvbDevice) (t : DvbTransponder) (be : BackendAnswers) :
    tuneCalls (dev.tune t be).backendCalls = tuneCalls dev.backendCalls + 1 := by
  obtain ⟨calls, h, hc⟩ := tune_eq_tuneResult dev t be
  rw [h]
  cases be.tune with
  | false =>
    rw [tuneResult_rejected]
    show tuneCalls (dev.backendCalls ++ calls) = _
    rw [tuneCalls_append, hc]
  | true =>
    obtain ⟨b, u, h2⟩ := tuneResult_accepted
      { dev with backendCalls := dev.backendCalls ++ calls } (dev.config.movesRotor t)
    rw [h2]
    show tuneCalls (dev.backendCalls ++ calls) = _
    rw [tuneCalls_append, hc]

/-- With the automatic mode of all four parameters supported, the parameter
cycle changes nothing and the carry stays set. -/
theorem cycleAutoTransponder_allSupported (caps : Capabilities) (t : DvbTransponder)
    (h : caps = ⟨true, true, true, true⟩) : cycleAutoTransponder caps t = (t, true) := by
  subst h
  rfl

/-- C24: on a poll timeout in auto-tune mode (the backend does not report
tuned and the timeout budget is used up at this poll): if the backend reports a
signal value other than -1 that is below 15, or if the hardware supports the
automatic mode of all four parameters, the device goes to Idle, the timer is
stopped, no backend command is issued and the auto transponder is unchanged. A
reported signal of -1 never causes failure by itself: the poll has the same
outcome as with any signal of 15 or more, and if a parameter is left to vary
(the carry of the parameter cycle is cleared) exactly one tune command is
issued, for the auto transponder moved one step on. -/
theorem autoTune_timeout_failure (dev : DvbDevice) (be : BackendAnswers)
    (hTuned : be.isTuned = false) (hAuto : dev.isAuto = true)
    (hto : dev.frontendTimeout - 100 ≤ 0) :
    (((be.getSignal ≠ -1 ∧ be.getSignal < 15) ∨ dev.capabilities = ⟨true, true, true, true⟩) →
        (dev.frontendEvent be).deviceState = .DeviceIdle ∧
          (dev.frontendEvent be).frontendTimerActive = false ∧
          (dev.frontendEvent be).backendCalls = dev.backendCalls ∧
          (dev.frontendEvent be).autoTransponder = dev.autoTransponder) ∧
      (be.getSignal = -1 →
        (∀ signal : Int, 15 ≤ signal →
          dev.frontendEvent be = dev.frontendEvent { be with getSignal := signal }) ∧
        ((cycleAutoTransponder dev.capabilities dev.autoTransponder).2 = false →
          tuneCalls (dev.frontendEvent be).backendCalls = tuneCalls dev.backendCalls + 1 ∧
            (dev.frontendEvent be).autoTransponder =
              (cycleAutoTransponder dev.capabilities dev.autoTransponder).1)) := by
  refine ⟨?_, ?_⟩
  · intro h
    by_cases hweak : be.getSignal ≠ -1 ∧ be.getSignal < 15
    · unfold DvbDevice.frontendEvent
      rw [hTuned]
      simp only [Bool.false_eq_true, if_false, hAuto, Bool.true_eq_false]
      rw [if_pos hto, if_pos hweak, setDeviceState_eq]
      exact ⟨rfl, rfl, rfl, rfl⟩
    · have hcaps : dev.capabilities = ⟨true, true, true, true⟩ := by
        rcases h with h | h
        · exact absurd h hweak
        · exact h
      rw [frontendEvent_auto dev be hTuned hAuto hweak, if_pos hto,
        cycleAutoTransponder_allSupported _ _ hcaps, if_neg (by simp), setDeviceState_eq]
      exact ⟨rfl, rfl, rfl, rfl⟩
  · intro hsig
    have hweak : ¬ (be.getSignal ≠ -1 ∧ be.getSignal < 15) := fun h => h.1 hsig
    refine ⟨?_, ?_⟩
    · intro signal hs
      have hweak2 : ¬ (({ be with getSignal := signal } : BackendAnswers).getSignal ≠ -1 ∧
          ({ be with getSignal := signal } : BackendAnswers).getSignal < 15) := by
        show ¬ (signal ≠ -1 ∧ signal < 15)
        omega
      rw [frontendEvent_auto dev be hTuned hAuto hweak,
        frontendEvent_auto dev { be with getSignal := signal } hTuned hAuto hweak2]
      have htune : ∀ (d : DvbDevice) (t : DvbTransponder),
          d.tune t { be with getSignal := signal } = d.tune t be := by
        intro d t
        unfold DvbDevice.tune
        rfl
      simp only [htune]
    · intro hcarry
      rw [frontendEvent_auto dev be hTuned hAuto hweak, if_pos hto, if_pos hcarry]
      refine ⟨?_, ?_⟩
      · rw [tune_tuneCalls]
      · obtain ⟨calls, h, _⟩ := tune_eq_tuneResult
          { dev with frontendTimeout := dev.frontendTimeout - 100, frontendTimerActive := false,
                     autoTransponder :=
                      (cycleAutoTransponder dev.capabilities dev.autoTransponder).1 }
          (cycleAutoTransponder dev.capabilities dev.autoTransponder).1 be
        rw [h]
        cases be.tune with
        | false => rw [tuneResult_rejected]
        | true =>
          obtain ⟨b, u, h2⟩ := tuneResult_accepted
            { ({ dev with frontendTimeout := dev.frontendTimeout - 100,
                          frontendTimerActive := false,
                          autoTransponder :=
                            (cycleAutoTransponder dev.capabilities dev.autoTransponder).1 } :
                DvbDevice) with
              backendCalls := dev.backendCalls ++ calls }
            (DvbConfigBase.movesRotor dev.config
              (cycleAutoTransponder dev.capabilities dev.autoTransponder).1)
          rw [h2]

theorem autoTune_timeout_failure_witness :
    ((((DvbDevice.init (DvbConfigBase.plain 100)).autoTune (DvbTransponder.plain .DvbT 506000)
          (BackendAnswers.accepting ⟨false, true, true, true⟩)).frontendEvent
          { BackendAnswers.accepting ⟨false, true, true, true⟩ with getSignal := 14 }).deviceState =
        .DeviceIdle) ∧
      tuneCalls (((DvbDevice.init (DvbConfigBase.plain 100)).autoTune
          (DvbTransponder.plain .DvbT 506000)
          (BackendAnswers.accepting ⟨false, true, true, true⟩)).frontendEvent
          (BackendAnswers.accepting ⟨false, true, true, true⟩)).backendCalls = 2 :=
  ⟨((autoTune_timeout_failure
      ((DvbDevice.init (DvbConfigBase.plain 100)).autoTune (DvbTransponder.plain .DvbT 506000)
        (BackendAnswers.accepting ⟨false, true, true, true⟩))
      { BackendAnswers.accepting ⟨false, true, true, true⟩ with getSignal := 14 }
      rfl rfl (by decide)).1 (Or.inl (by decide))).1,
    by decide⟩
theorem autoTuneCombinations_length (caps : Capabilities) (t : DvbTransponder) :
    (autoTuneCombinations caps t).length = cycleProduct caps := by
  obtain ⟨a, b, c, d⟩ := caps
  cases a <;> cases b <;> cases c <;> cases d <;> rfl

theorem mem_autoTuneCombinations (caps : Capabilities) (t c : DvbTransponder) :
    c ∈ autoTuneCombinations caps t ↔
      ∃ tm ∈ candidateValues caps.dvbTTransmissionModeAuto transmissionModeCandidates
          t.transmissionMode,
        ∃ m ∈ candidateValues caps.dvbTModulationAuto modulationCandidates t.modulation,
          ∃ g ∈ candidateValues caps.dvbTGuardIntervalAuto guardIntervalCandidates
              t.guardInterval,
            ∃ f ∈ candidateValues caps.dvbTFecAuto fecCandidates t.fecRateHigh,
              { t with fecRateHigh := f, guardInterval := g, modulation := m,
                       transmissionMode := tm } = c := by
  unfold autoTuneCombinations
  simp only [List.mem_flatMap, List.mem_map]

set_option maxRecDepth 100000 in
/-- The combinations are listed in the order of their ranks. -/
theorem autoTuneCombinations_rank (caps : Capabilities) (t : DvbTransponder) :
    (autoTuneCombinations caps t).map (cycleRank caps) = List.range (cycleProduct caps) := by
  obtain ⟨a, b, c, d⟩ := caps
  cases a <;> cases b <;> cases c <;> cases d <;> rfl
theorem autoTuneCombinations_nodup (caps : Capabilities) (t : DvbTransponder) :
    (autoTuneCombinations caps t).Nodup := by
  apply List.Nodup.of_map (cycleRank caps)
  rw [autoTuneCombinations_rank]
  exact List.nodup_range _

/-- A combination sits at the index given by its rank. -/
theorem autoTuneCombinations_getElem (caps : Capabilities) (t c : DvbTransponder)
    (h : c ∈ autoTuneCombinations caps t) :
    (autoTuneCombinations caps t)[cycleRank caps c]? = some c := by
  obtain ⟨i, hi⟩ := List.mem_iff_getElem?.mp h
  have h1 : ((autoTuneCombinations caps t).map (cycleRank caps))[i]? =
      some (cycleRank caps c) := by
    rw [List.getElem?_map, hi]
    rfl
  rw [autoTuneCombinations_rank] at h1
  have hlt : i < cycleProduct caps := by
    by_contra hge
    rw [List.getElem?_eq_none (by rw [List.length_range]; omega)] at h1
    exact absurd h1 (by simp)
  rw [List.getElem?_range hlt] at h1
  have : i = cycleRank caps c := by simpa using h1
  rw [← this]
  exact hi

theorem nextFecRate_candidate (f : FecRate) : (nextFecRate f).1 ∈ fecCandidates := by
  cases f <;> decide

theorem nextGuardInterval_candidate (g : GuardInterval) :
    (nextGuardInterval g).1 ∈ guardIntervalCandidates := by
  cases g <;> decide

theorem nextModulation_candidate (m : Modulation) :
    (nextModulation m).1 ∈ modulationCandidates := by
  cases m <;> decide

theorem nextTransmissionMode_candidate (tm : TransmissionMode) :
    (nextTransmissionMode tm).1 ∈ transmissionModeCandidates := by
  cases tm <;> decide

theorem cycleFecRate_combination (caps : Capabilities) (t : DvbTransponder)
    (s : DvbTransponder × Bool) (h : s.1 ∈ autoTuneCombinations caps t) :
    (cycleFecRate caps s).1 ∈ autoTuneCombinations caps t := by
  unfold cycleFecRate
  split
  · next hc =>
    rw [mem_autoTuneCombinations] at h ⊢
    obtain ⟨tm, htm, m, hm, g, hg, f, _, he⟩ := h
    refine ⟨tm, htm, m, hm, g, hg, (nextFecRate s.1.fecRateHigh).1, ?_, ?_⟩
    · unfold candidateValues
      rw [if_pos hc.2]
      exact nextFecRate_candidate _
    · rw [← he]
  · exact h

theorem cycleGuardInterval_combination (caps : Capabilities) (t : DvbTransponder)
    (s : DvbTransponder × Bool) (h : s.1 ∈ autoTuneCombinations caps t) :
    (cycleGuardInterval caps s).1 ∈ autoTuneCombinations caps t := by
  unfold cycleGuardInterval
  split
  · next hc =>
    rw [mem_autoTuneCombinations] at h ⊢
    obtain ⟨tm, htm, m, hm, g, _, f, hf, he⟩ := h
    refine ⟨tm, htm, m, hm, (nextGuardInterval s.1.guardInterval).1, ?_, f, hf, ?_⟩
    · unfold candidateValues
      rw [if_pos hc.2]
      exact nextGuardInterval_candidate _
    · rw [← he]
  · exact h

theorem cycleModulation_combination (caps : Capabilities) (t : DvbTransponder)
    (s : DvbTransponder × Bool) (h : s.1 ∈ autoTuneCombinations caps t) :
    (cycleModulation caps s).1 ∈ autoTuneCombinations caps t := by
  unfold cycleModulation
  split
  · next hc =>
    rw [mem_autoTuneCombinations] at h ⊢
    obtain ⟨tm, htm, m, _, g, hg, f, hf, he⟩ := h
    refine ⟨tm, htm, (nextModulation s.1.modulation).1, ?_, g, hg, f, hf, ?_⟩
    · unfold candidateValues
      rw [if_pos hc.2]
      exact nextModulation_candidate _
    · rw [← he]
  · exact h

theorem cycleTransmissionMode_combination (caps : Capabilities) (t : DvbTransponder)
    (s : DvbTransponder × Bool) (h : s.1 ∈ autoTuneCombinations caps t) :
    (cycleTransmissionMode caps s).1 ∈ autoTuneCombinations caps t := by
  unfold cycleTransmissionMode
  split
  · next hc =>
    rw [mem_autoTuneCombinations] at h ⊢
    obtain ⟨tm, _, m, hm, g, hg, f, hf, he⟩ := h
    refine ⟨(nextTransmissionMode s.1.transmissionMode).1, ?_, m, hm, g, hg, f, hf, ?_⟩
    · unfold candidateValues
      rw [if_pos hc.2]
      exact nextTransmissionMode_candidate _
    · rw [← he]
  · exact h

/-- One step of the parameter cycle leads from a combination to a
combination. -/
theorem cycleAutoTransponder_combination (caps : Capabilities) (t c : DvbTransponder)
    (h : c ∈ autoTuneCombinations caps t) :
    (cycleAutoTransponder caps c).1 ∈ autoTuneCombinations caps t := by
  unfold cycleAutoTransponder
  exact cycleTransmissionMode_combination caps t _
    (cycleModulation_combination caps t _
      (cycleGuardInterval_combination caps t _
        (cycleFecRate_combination caps t (c, true) h)))

/-- The first combination is the transponder `autoTune` starts with. -/
theorem substituteDefaults_combination (caps : Capabilities) (t : DvbTransponder) :
    substituteDefaults caps t ∈ autoTuneCombinations caps t := by
  obtain ⟨a, b, c, d⟩ := caps
  cases a <;> cases b <;> cases c <;> cases d <;>
    simp [mem_autoTuneCombinations, candidateValues, substituteDefaults, fecCandidates,
      guardIntervalCandidates, modulationCandidates, transmissionModeCandidates]

/-- The parameters whose automatic mode the hardware supports have, in every
combination, the value they have in the given transponder, and so has every
parameter that is not cycled. -/
theorem autoTuneCombinations_supported (caps : Capabilities) (t c : DvbTransponder)
    (h : c ∈ autoTuneCombinations caps t) :
    (caps.dvbTFecAuto = true → c.fecRateHigh = t.fecRateHigh) ∧
      (caps.dvbTGuardIntervalAuto = true → c.guardInterval = t.guardInterval) ∧
      (caps.dvbTModulationAuto = true → c.modulation = t.modulation) ∧
      (caps.dvbTTransmissionModeAuto = true → c.transmissionMode = t.transmissionMode) ∧
      c = { t with fecRateHigh := c.fecRateHigh, guardInterval := c.guardInterval,
                   modulation := c.modulation, transmissionMode := c.transmissionMode } := by
  rw [mem_autoTuneCombinations] at h
  obtain ⟨tm, htm, m, hm, g, hg, f, hf, he⟩ := h
  subst he
  unfold candidateValues at htm hm hg hf
  refine ⟨?_, ?_, ?_, ?_, rfl⟩
  · intro hs
    rw [hs] at hf
    simpa using hf
  · intro hs
    rw [hs] at hg
    simpa using hg
  · intro hs
    rw [hs] at hm
    simpa using hm
  · intro hs
    rw [hs] at htm
    simpa using htm
theorem tunedTransponders_append_tune (calls : List BackendCall) (t : DvbTransponder) :
    tunedTransponders (calls ++ [.tune t]) = tunedTransponders calls ++ [t] := by
  simp [tunedTransponders, List.filterMap_append]

/-- One poll during auto-tune with a backend that never tunes keeps the tune
trace in step with the list of combinations; when the poll stops the timer,
every combination has been tuned. -/
theorem poll_autoCycle (dev : DvbDevice) (caps : Capabilities) (timeout : Int) (n : Nat)
    (t : DvbTransponder) (base : List DvbTransponder) (be : BackendAnswers)
    (h : AutoTuning dev caps timeout n) (hc : AutoCycle dev caps t base)
    (hbe : be.neverTunes) :
    ((dev.poll be).frontendTimerActive = true → AutoCycle (dev.poll be) caps t base) ∧
      ((dev.poll be).frontendTimerActive = false →
        tunedTransponders (dev.poll be).backendCalls = base ++ autoTuneCombinations caps t) := by
  obtain ⟨hTimer, hAuto, hCaps, hCfg, hType, hState, hCalls⟩ := h
  obtain ⟨hTune, hTuned, hSignal⟩ := hbe
  obtain ⟨hmem, htr⟩ := hc
  subst hCaps
  unfold DvbDevice.poll
  rw [hTimer]
  simp only [if_true]
  rw [frontendEvent_auto dev be hTuned hAuto hSignal]
  by_cases hto : dev.frontendTimeout - 100 ≤ 0
  · rw [if_pos hto]
    have hty := cycleAutoTransponder_type dev.capabilities dev.autoTransponder
    have hmem2 := cycleAutoTransponder_combination dev.capabilities t _ hmem
    rcases cycleAutoTransponder_rank dev.capabilities dev.autoTransponder with ⟨c, hr⟩ | ⟨c, hr, _⟩
    · rw [if_pos c]
      have hS : (cycleAutoTransponder dev.capabilities dev.autoTransponder).1.transmissionType ≠
          TransmissionType.DvbS := by rw [hty, hType]; decide
      have hS2 : (cycleAutoTransponder dev.capabilities dev.autoTransponder).1.transmissionType ≠
          TransmissionType.DvbS2 := by rw [hty, hType]; decide
      obtain ⟨b, u, sc, ht⟩ := tune_nonSatellite_accepted
        { dev with frontendTimeout := dev.frontendTimeout - 100, frontendTimerActive := false,
                   autoTransponder := (cycleAutoTransponder dev.capabilities dev.autoTransponder).1 }
        (cycleAutoTransponder dev.capabilities dev.autoTransponder).1 be hS hS2 hTune
      rw [ht]
      refine ⟨fun _ => ⟨hmem2, ?_⟩, fun hf => absurd hf (by simp)⟩
      show tunedTransponders (dev.backendCalls ++ _) = base ++
        (autoTuneCombinations dev.capabilities t).take
          (cycleRank dev.capabilities
            (cycleAutoTransponder dev.capabilities dev.autoTransponder).1 + 1)
      rw [tunedTransponders_append_tune, htr, hr, List.take_succ (n := cycleRank _ _ + 1),
        ← hr, autoTuneCombinations_getElem _ _ _ hmem2, List.append_assoc]
      rfl
    · rw [if_neg (by rw [c]; simp), setDeviceState_eq]
      refine ⟨fun hf => absurd hf (by simp), fun _ => ?_⟩
      show tunedTransponders dev.backendCalls = _
      rw [htr, List.take_of_length_le (by rw [autoTuneCombinations_length]; omega)]
  · rw [if_neg hto]
    exact ⟨fun _ => ⟨hmem, htr⟩, fun hf => absurd (hTimer.symm.trans hf) (by simp)⟩

theorem pollAll_autoCycle (caps : Capabilities) (timeout : Int) (n : Nat) (t : DvbTransponder)
    (base : List DvbTransponder) :
    ∀ (bes : List BackendAnswers) (dev : DvbDevice), AutoTuning dev caps timeout n →
      AutoCycle dev caps t base → (∀ be ∈ bes, be.neverTunes) →
      (bes.length < pollsRemaining dev caps timeout →
          AutoTuning (dev.pollAll bes) caps timeout n ∧ AutoCycle (dev.pollAll bes) caps t base) ∧
        (pollsRemaining dev caps timeout ≤ bes.length →
          AutoTuneFailed (dev.pollAll bes) (n + cycleProduct caps) ∧
            tunedTransponders (dev.pollAll bes).backendCalls =
              base ++ autoTuneCombinations caps t) := by
  intro bes
  induction bes with
  | nil =>
    intro dev h hc _
    refine ⟨fun _ => ⟨h, hc⟩, fun hle => ?_⟩
    have := pollsUntilTimeout_pos dev.frontendTimeout
    unfold pollsRemaining at hle
    simp only [List.length_nil] at hle
    omega
  | cons be rest ih =>
    intro dev h hc hbes
    have hbe := hbes be (List.mem_cons_self _ _)
    have hrest : ∀ x ∈ rest, x.neverTunes := fun x hx => hbes x (List.mem_cons_of_mem _ hx)
    simp only [DvbDevice.pollAll, List.length_cons]
    obtain ⟨c1, c2⟩ := poll_autoCycle dev caps timeout n t base be h hc hbe
    rcases poll_autoTuning dev caps timeout n be h hbe with ⟨h2, hrem⟩ | ⟨h2, hrem⟩
    · obtain ⟨i1, i2⟩ := ih (dev.poll be) h2 (c1 h2.1) hrest
      exact ⟨fun hlt => i1 (by omega), fun hle => i2 (by omega)⟩
    · rw [pollAll_of_timer_stopped rest _ h2.1]
      exact ⟨fun hlt => by omega, fun _ => ⟨h2, c2 h2.1⟩⟩

/-- After an accepted `autoTune` the tune trace holds the first combination. -/
theorem autoTune_autoCycle (dev : DvbDevice) (t : DvbTransponder) (be0 : BackendAnswers)
    (ht : t.transmissionType = .DvbT) (h0 : be0.tune = true) :
    AutoCycle (dev.autoTune t be0) be0.getCapabilities t
      (tunedTransponders dev.backendCalls) := by
  unfold DvbDevice.autoTune
  rw [if_neg (by rw [ht]; simp)]
  simp only []
  have hty := substituteDefaults_type be0.getCapabilities t
  have hS : (substituteDefaults be0.getCapabilities t).transmissionType ≠ TransmissionType.DvbS := by
    rw [hty, ht]; decide
  have hS2 : (substituteDefaults be0.getCapabilities t).transmissionType ≠
      TransmissionType.DvbS2 := by rw [hty, ht]; decide
  obtain ⟨b, u, sc, h⟩ := tune_nonSatellite_accepted
    { dev with isAuto := true, autoTransponder := substituteDefaults be0.getCapabilities t,
               capabilities := be0.getCapabilities }
    (substituteDefaults be0.getCapabilities t) be0 hS hS2 h0
  rw [h]
  have hmem := substituteDefaults_combination be0.getCapabilities t
  refine ⟨hmem, ?_⟩
  show tunedTransponders (dev.backendCalls ++ _) = _ ++
    (autoTuneCombinations be0.getCapabilities t).take
      (cycleRank be0.getCapabilities (substituteDefaults be0.getCapabilities t) + 1)
  have hget := autoTuneCombinations_getElem _ _ _ hmem
  rw [substituteDefaults_rank] at hget ⊢
  rw [tunedTransponders_append_tune, List.take_succ, hget]
  rfl
/-- C23: the auto-tune fallback is an exhaustive odometer. For every device,
every capability set and every DVB-T transponder, if `autoTune` is accepted and
afterwards the backend accepts every tune command, never reports tuned and
never reports a weak signal, then: as long as fewer than
`cycleProduct * pollsUntilTimeout timeout` polls have passed the device is in
Tuning and the transponders tuned since `autoTune` was called are a non-empty
initial part of the list of combinations; once that many polls have passed the
device is Idle, the timer is stopped and the transponders tuned are exactly the
list of combinations, however many more polls follow. That list holds every
combination of candidate values of the unsupported parameters exactly once
(it has no duplicates and its length is the product of the cycle lengths), in
the order of an odometer with the forward-error-correction rate as fastest
digit, then guard interval, modulation and transmission mode; a parameter whose
automatic mode the hardware supports has in every tuned transponder the value
given to `autoTune`, and so has every parameter that is not cycled. -/
theorem autoTune_exhaustive_odometer (dev : DvbDevice) (t : DvbTransponder)
    (be0 : BackendAnswers) (bes : List BackendAnswers) (ht : t.transmissionType = .DvbT)
    (h0 : be0.tune = true) (hbes : ∀ be ∈ bes, be.neverTunes) :
    (bes.length < cycleProduct be0.getCapabilities * pollsUntilTimeout dev.config.timeout →
        ((dev.autoTune t be0).pollAll bes).deviceState = .DeviceTuning ∧
          ∃ j, 1 ≤ j ∧ j ≤ (autoTuneCombinations be0.getCapabilities t).length ∧
            tunedTransponders ((dev.autoTune t be0).pollAll bes).backendCalls =
              tunedTransponders dev.backendCalls ++
                (autoTuneCombinations be0.getCapabilities t).take j) ∧
      (cycleProduct be0.getCapabilities * pollsUntilTimeout dev.config.timeout ≤ bes.length →
        ((dev.autoTune t be0).pollAll bes).deviceState = .DeviceIdle ∧
          ((dev.autoTune t be0).pollAll bes).frontendTimerActive = false ∧
          tunedTransponders ((dev.autoTune t be0).pollAll bes).backendCalls =
            tunedTransponders dev.backendCalls ++ autoTuneCombinations be0.getCapabilities t) ∧
      (autoTuneCombinations be0.getCapabilities t).Nodup ∧
      (autoTuneCombinations be0.getCapabilities t).length = cycleProduct be0.getCapabilities ∧
      (autoTuneCombinations be0.getCapabilities t).map (cycleRank be0.getCapabilities) =
        List.range (cycleProduct be0.getCapabilities) ∧
      (∀ tm ∈ candidateValues be0.getCapabilities.dvbTTransmissionModeAuto
            transmissionModeCandidates t.transmissionMode,
        ∀ m ∈ candidateValues be0.getCapabilities.dvbTModulationAuto modulationCandidates
            t.modulation,
        ∀ g ∈ candidateValues be0.getCapabilities.dvbTGuardIntervalAuto guardIntervalCandidates
            t.guardInterval,
        ∀ f ∈ candidateValues be0.getCapabilities.dvbTFecAuto fecCandidates t.fecRateHigh,
          { t with fecRateHigh := f, guardInterval := g, modulation := m,
                   transmissionMode := tm } ∈ autoTuneCombinations be0.getCapabilities t) ∧
      (∀ c ∈ autoTuneCombinations be0.getCapabilities t,
        (be0.getCapabilities.dvbTFecAuto = true → c.fecRateHigh = t.fecRateHigh) ∧
          (be0.getCapabilities.dvbTGuardIntervalAuto = true →
            c.guardInterval = t.guardInterval) ∧
          (be0.getCapabilities.dvbTModulationAuto = true → c.modulation = t.modulation) ∧
          (be0.getCapabilities.dvbTTransmissionModeAuto = true →
            c.transmissionMode = t.transmissionMode) ∧
          c = { t with fecRateHigh := c.fecRateHigh, guardInterval := c.guardInterval,
                       modulation := c.modulation,
                       transmissionMode := c.transmissionMode }) := by
  obtain ⟨hinv, hrem⟩ := autoTune_autoTuning dev t be0 ht h0
  have hcyc := autoTune_autoCycle dev t be0 ht h0
  obtain ⟨p1, p2⟩ := pollAll_autoCycle be0.getCapabilities dev.config.timeout
    (tuneCalls dev.backendCalls) t (tunedTransponders dev.backendCalls) bes _ hinv hcyc hbes
  rw [hrem] at p1 p2
  refine ⟨?_, ?_, autoTuneCombinations_nodup _ _, autoTuneCombinations_length _ _,
    autoTuneCombinations_rank _ _, ?_, autoTuneCombinations_supported _ _⟩
  · intro hlt
    obtain ⟨q1, q2, q3⟩ := p1 hlt
    refine ⟨q1.2.2.2.2.2.1, _, Nat.le_add_left 1 _, ?_, q3⟩
    have := cycleRank_lt_cycleProduct be0.getCapabilities
      ((dev.autoTune t be0).pollAll bes).autoTransponder
    rw [autoTuneCombinations_length]
    omega
  · intro hle
    obtain ⟨q1, q2⟩ := p2 hle
    exact ⟨q1.2.1, q1.1, q2⟩
  · intro tm htm m hm g hg f hf
    rw [mem_autoTuneCombinations]
    exact ⟨tm, htm, m, hm, g, hg, f, hf, rfl⟩

set_option maxRecDepth 100000 in
theorem autoTune_exhaustive_odometer_witness :
    (DvbTransponder.plain .DvbT 506000).transmissionType = .DvbT ∧
      (∀ be ∈ List.replicate 20 (BackendAnswers.accepting ⟨false, true, true, false⟩),
        be.neverTunes) ∧
      cycleProduct (BackendAnswers.accepting ⟨false, true, true, false⟩).getCapabilities *
          pollsUntilTimeout (DvbDevice.init (DvbConfigBase.plain 150)).config.timeout ≤
        (List.replicate 20 (BackendAnswers.accepting ⟨false, true, true, false⟩)).length ∧
      (autoTuneCombinations ⟨false, true, true, false⟩ (DvbTransponder.plain .DvbT 506000)).map
          (fun c => (c.fecRateHigh, c.transmissionMode)) =
        [(.Fec2_3, .TransmissionMode8k), (.Fec3_4, .TransmissionMode8k),
          (.Fec1_2, .TransmissionMode8k), (.Fec5_6, .TransmissionMode8k),
          (.Fec7_8, .TransmissionMode8k), (.Fec2_3, .TransmissionMode2k),
          (.Fec3_4, .TransmissionMode2k), (.Fec1_2, .TransmissionMode2k),
          (.Fec5_6, .TransmissionMode2k), (.Fec7_8, .TransmissionMode2k)] ∧
      tunedTransponders (((DvbDevice.init (DvbConfigBase.plain 150)).autoTune
          (DvbTransponder.plain .DvbT 506000)
          (BackendAnswers.accepting ⟨false, true, true, false⟩)).pollAll
            (List.replicate 20
              (BackendAnswers.accepting ⟨false, true, true, false⟩))).backendCalls =
        tunedTransponders (DvbDevice.init (DvbConfigBase.plain 150)).backendCalls ++
          autoTuneCombinations
            (BackendAnswers.accepting ⟨false, true, true, false⟩).getCapabilities
            (DvbTransponder.plain .DvbT 506000) :=
  ⟨rfl, by decide, by decide, by decide,
    ((autoTune_exhaustive_odometer (DvbDevice.init (DvbConfigBase.plain 150))
      (DvbTransponder.plain .DvbT 506000) (BackendAnswers.accepting ⟨false, true, true, false⟩)
      (List.replicate 20 (BackendAnswers.accepting ⟨false, true, true, false⟩)) rfl rfl
      (by decide)).2.1 (by decide)).2.2⟩

/-! ## Theorems: stop, reacquire, release -/

theorem isReal_iff (f : PidFilter) :
    f.isReal = true ↔ (f ≠ .dummyPidFilter ∧ f ≠ .dataDumper) := by
  unfold PidFilter.isReal
  simp

theorem stopped_of_real (f : PidFilter) (h : f.isReal = true) : f.stopped = .dummyPidFilter := by
  unfold PidFilter.stopped
  rw [if_pos h]

theorem stopped_of_not_real (f : PidFilter) (h : f.isReal = false) : f.stopped = f := by
  unfold PidFilter.stopped
  rw [if_neg (by rw [h]; simp)]

theorem stopped_not_real (f : PidFilter) : f.stopped.isReal = false := by
  cases hf : f.isReal with
  | true => rw [stopped_of_real f hf]; rfl
  | false => rw [stopped_of_not_real f hf]; exact hf

theorem stopped_stopped (f : PidFilter) : f.stopped.stopped = f.stopped :=
  stopped_of_not_real _ (stopped_not_real f)

theorem realCount_map_stopped (l : List PidFilter) : realCount (l.map PidFilter.stopped) = 0 := by
  unfold realCount
  rw [List.countP_eq_zero]
  intro f hf
  obtain ⟨g, _, rfl⟩ := List.mem_map.mp hf
  rw [stopped_not_real]
  simp

theorem realCount_cons (f : PidFilter) (l : List PidFilter) :
    realCount (f :: l) = realCount l + (if f.isReal then 1 else 0) := by
  unfold realCount
  rw [List.countP_cons]

theorem set_indexOf_append {α : Type} [DecidableEq α] (pre rest : List α) (f x : α)
    (h : f ∉ pre) :
    (pre ++ f :: rest).set ((pre ++ f :: rest).indexOf f) x = pre ++ x :: rest := by
  induction pre with
  | nil => simp [List.indexOf_cons]
  | cons a pre ih =>
    have hne : a ≠ f := fun e => h (by rw [e]; exact List.mem_cons_self _ _)
    have hpre : f ∉ pre := fun m => h (List.mem_cons_of_mem _ m)
    have hidx : (a :: pre ++ f :: rest).indexOf f = (pre ++ f :: rest).indexOf f + 1 := by
      show (a :: (pre ++ f :: rest)).indexOf f = _
      rw [List.indexOf_cons]
      have : (a == f) = false := by simpa using hne
      simp [this]
    rw [hidx]
    show (a :: (pre ++ f :: rest)).set _ x = _
    rw [List.set_cons_succ, ih hpre]
    rfl

theorem FilterUpdate.refl (dev : DvbDevice) : dev.FilterUpdate dev :=
  ⟨dev.filters, dev.sectionFilters, dev.cleanUpFilters, dev.backendCalls, rfl⟩

theorem FilterUpdate.trans {a b c : DvbDevice} (h1 : a.FilterUpdate b) (h2 : b.FilterUpdate c) :
    a.FilterUpdate c := by
  obtain ⟨fs, sfs, cu, calls, rfl⟩ := h1
  obtain ⟨fs2, sfs2, cu2, calls2, rfl⟩ := h2
  exact ⟨fs2, sfs2, cu2, calls2, rfl⟩

theorem removePidFilter_filterUpdate (dev : DvbDevice) (pid : Int) (filter : PidFilter) :
    dev.FilterUpdate (dev.removePidFilter pid filter) := by
  by_cases h : filter ∈ dev.filterList pid
  · cases hfind : qmapFind dev.filters pid with
    | none =>
      rw [filterList_of_not_found dev pid hfind] at h
      exact absurd h (List.not_mem_nil _)
    | some e =>
      rw [filterList_of_find dev pid e hfind] at h
      rw [removePidFilter_eq dev pid filter e hfind h]
      exact ⟨_, dev.sectionFilters, _, _, rfl⟩
  · rw [removePidFilter_not_registered dev pid filter h]
    exact FilterUpdate.refl dev

/-- The loop of `stop` over the filter list of one PID: what is still to walk
is `pending`, what has been walked is `pre`. -/
theorem removePendingPidFilters_spec (pid : Int) :
    ∀ (pending pre : List PidFilter) (dev : DvbDevice),
      dev.filterList pid = pre ++ pending → (∀ f ∈ pre, f.isReal = false) →
      dev.activeCount pid = realCount pending →
      dev.FilterUpdate (dev.removePendingPidFilters pid pending) ∧
        (dev.removePendingPidFilters pid pending).sectionFilters = dev.sectionFilters ∧
        (dev.removePendingPidFilters pid pending).filterList pid =
          pre ++ pending.map PidFilter.stopped ∧
        (dev.removePendingPidFilters pid pending).activeCount pid = 0 ∧
        (∀ p, p ≠ pid →
          (dev.removePendingPidFilters pid pending).filterList p = dev.filterList p ∧
            (dev.removePendingPidFilters pid pending).activeCount p = dev.activeCount p) ∧
        (dev.removePendingPidFilters pid pending).backendCalls =
          dev.backendCalls ++
            (if 0 < realCount pending then [BackendCall.removePidFilter pid] else []) := by
  intro pending
  induction pending with
  | nil =>
    intro pre dev hfl _ hcount
    refine ⟨FilterUpdate.refl dev, rfl, ?_, ?_, fun p _ => ⟨rfl, rfl⟩, ?_⟩
    · show dev.filterList pid = _
      rw [hfl]; rfl
    · show dev.activeCount pid = 0
      rw [hcount]; rfl
    · show dev.backendCalls = _
      simp [realCount]
  | cons f rest ih =>
    intro pre dev hfl hpre hcount
    by_cases hreal : f.isReal = true
    · have hcond := (isReal_iff f).mp hreal
      have hstep : dev.removePendingPidFilters pid (f :: rest) =
          (dev.removePidFilter pid f).removePendingPidFilters pid rest := by
        show (if f ≠ .dummyPidFilter ∧ f ≠ .dataDumper then _ else _) = _
        rw [if_pos hcond]
      rw [hstep]
      have hmem : f ∈ dev.filterList pid := by rw [hfl]; simp
      have hnotpre : f ∉ pre := fun m => by
        have := hpre f m
        rw [hreal] at this
        exact absurd this (by simp)
      obtain ⟨r1, r2, r3, r4, r5⟩ := removePidFilter_registered dev pid f hmem
      rw [hfl, set_indexOf_append pre rest f _ hnotpre] at r1
      have hrc := realCount_cons f rest
      rw [hreal] at hrc
      simp only [if_true] at hrc
      have hcount1 : (dev.removePidFilter pid f).activeCount pid = realCount rest := by
        rw [r2, hcount, hrc]
        push_cast
        ring
      have hpre1 : ∀ g ∈ pre ++ [PidFilter.dummyPidFilter], g.isReal = false := by
        intro g hg
        rcases List.mem_append.mp hg with hg | hg
        · exact hpre g hg
        · rw [List.mem_singleton.mp hg]; rfl
      obtain ⟨i1, i2, i3, i4, i5, i6⟩ := ih (pre ++ [PidFilter.dummyPidFilter])
        (dev.removePidFilter pid f) (by rw [r1]; simp) hpre1 hcount1
      refine ⟨FilterUpdate.trans (removePidFilter_filterUpdate dev pid f) i1, ?_, ?_, i4, ?_, ?_⟩
      · rw [i2, removePidFilter_sectionFilters]
      · rw [i3, List.map_cons, stopped_of_real f hreal]
        simp
      · intro p hp
        obtain ⟨j1, j2⟩ := i5 p hp
        obtain ⟨k1, k2⟩ := r5 p hp
        exact ⟨j1.trans k1, j2.trans k2⟩
      · rw [i6, r3, hcount, hrc]
        by_cases hz : realCount rest = 0
        · rw [hz]
          simp
        · have hz2 : ¬ ((realCount rest + 1 : Nat) : Int) - 1 = 0 := by push_cast; omega
          rw [if_neg hz2, if_pos (by omega), if_pos (by omega)]
          simp
    · have hreal2 : f.isReal = false := by simpa using hreal
      have hcond : ¬ (f ≠ .dummyPidFilter ∧ f ≠ .dataDumper) := fun h =>
        hreal ((isReal_iff f).mpr h)
      have hstep : dev.removePendingPidFilters pid (f :: rest) =
          dev.removePendingPidFilters pid rest := by
        show (if f ≠ .dummyPidFilter ∧ f ≠ .dataDumper then _ else _) = _
        rw [if_neg hcond]
      rw [hstep]
      have hrc := realCount_cons f rest
      rw [hreal2] at hrc
      simp only [Bool.false_eq_true, if_false, Nat.add_zero] at hrc
      have hpre1 : ∀ g ∈ pre ++ [f], g.isReal = false := by
        intro g hg
        rcases List.mem_append.mp hg with hg | hg
        · exact hpre g hg
        · rw [List.mem_singleton.mp hg]; exact hreal2
      obtain ⟨i1, i2, i3, i4, i5, i6⟩ := ih (pre ++ [f]) dev (by rw [hfl]; simp) hpre1
        (by rw [hcount, hrc])
      refine ⟨i1, i2, ?_, i4, i5, ?_⟩
      · rw [i3, List.map_cons, stopped_of_not_real f hreal2]
        simp
      · rw [i6, hrc]
theorem map_stopped_idem (l : List PidFilter) :
    (l.map PidFilter.stopped).map PidFilter.stopped = l.map PidFilter.stopped := by
  rw [List.map_map]
  apply List.map_congr_left
  intro f _
  exact stopped_stopped f

theorem qmapFind_none_of_not_mem {α : Type} (m : List (Int × α)) (key : Int)
    (h : key ∉ m.map Prod.fst) : qmapFind m key = none := by
  induction m with
  | nil => rfl
  | cons e rest ih =>
    obtain ⟨k0, x⟩ := e
    rw [qmapFind_cons]
    have hne : k0 ≠ key := fun e => h (by rw [← e]; simp)
    rw [if_neg hne]
    exact ih (fun m => h (by simp only [List.map_cons, List.mem_cons]; exact Or.inr m))

/-- The first loop of `stop`, over any list of keys, on a device whose active
counts agree with the filter lists. -/
theorem stopPidFilters_spec :
    ∀ (keys : List Int) (dev : DvbDevice),
      (∀ pid, dev.activeCount pid = realCount (dev.filterList pid)) →
      dev.FilterUpdate (dev.stopPidFilters keys) ∧
        (dev.stopPidFilters keys).sectionFilters = dev.sectionFilters ∧
        (∀ pid, (dev.stopPidFilters keys).filterList pid =
          if pid ∈ keys then (dev.filterList pid).map PidFilter.stopped
          else dev.filterList pid) ∧
        (∀ pid, (dev.stopPidFilters keys).activeCount pid =
          if pid ∈ keys then 0 else dev.activeCount pid) ∧
        ∃ added, (dev.stopPidFilters keys).backendCalls = dev.backendCalls ++ added ∧
          (∀ c ∈ added, ∃ p, c = BackendCall.removePidFilter p) ∧
          ∀ pid, added.count (BackendCall.removePidFilter pid) =
            if pid ∈ keys ∧ 0 < dev.activeCount pid then 1 else 0 := by
  intro keys
  induction keys with
  | nil =>
    intro dev _
    refine ⟨FilterUpdate.refl dev, rfl, fun pid => by simp; rfl, fun pid => by simp; rfl,
      [], by simp; rfl, fun c hc => by simp at hc, fun pid => by simp⟩
  | cons k rest ih =>
    intro dev hinv
    obtain ⟨s1, s2, s3, s4, s5, s6⟩ := removePendingPidFilters_spec k (dev.filterList k) [] dev
      (by simp) (fun f hf => by simp at hf) (hinv k)
    simp only [List.nil_append] at s3
    have hinv1 : ∀ pid, (dev.removePendingPidFilters k (dev.filterList k)).activeCount pid =
        realCount ((dev.removePendingPidFilters k (dev.filterList k)).filterList pid) := by
      intro pid
      by_cases hp : pid = k
      · subst hp
        rw [s3, s4, realCount_map_stopped]
        rfl
      · rw [(s5 pid hp).1, (s5 pid hp).2]
        exact hinv pid
    obtain ⟨i1, i2, i3, i4, added, i5, i6, i7⟩ :=
      ih (dev.removePendingPidFilters k (dev.filterList k)) hinv1
    have hstep : dev.stopPidFilters (k :: rest) =
        (dev.removePendingPidFilters k (dev.filterList k)).stopPidFilters rest := rfl
    rw [hstep]
    refine ⟨FilterUpdate.trans s1 i1, i2.trans s2, ?_, ?_, ?_⟩
    · intro pid
      rw [i3]
      by_cases hp : pid = k
      · subst hp
        rw [s3, if_pos (List.mem_cons_self _ _), map_stopped_idem]
        simp
      · rw [(s5 pid hp).1]
        simp only [List.mem_cons, hp, false_or]
    · intro pid
      rw [i4]
      by_cases hp : pid = k
      · subst hp
        rw [s4, if_pos (List.mem_cons_self _ _)]
        simp
      · rw [(s5 pid hp).2]
        simp only [List.mem_cons, hp, false_or]
    · refine ⟨(if 0 < realCount (dev.filterList k) then [BackendCall.removePidFilter k] else [])
        ++ added, ?_, ?_, ?_⟩
      · rw [i5, s6, List.append_assoc]
      · intro c hc
        rcases List.mem_append.mp hc with hc | hc
        · split at hc
          · exact ⟨k, List.mem_singleton.mp hc⟩
          · exact absurd hc (List.not_mem_nil _)
        · exact i6 c hc
      · intro pid
        rw [List.count_append, i7]
        by_cases hp : pid = k
        · subst hp
          rw [s4]
          have hk := hinv pid
          by_cases hpos : 0 < realCount (dev.filterList pid)
          · rw [if_pos hpos, if_neg (by simp), if_pos ⟨List.mem_cons_self _ _, by omega⟩]
            simp
          · rw [if_neg hpos, if_neg (by simp), if_neg (by rintro ⟨_, h⟩; omega)]
            simp
        · rw [(s5 pid hp).2]
          have hcount0 : List.count (BackendCall.removePidFilter pid)
              (if 0 < realCount (dev.filterList k) then [BackendCall.removePidFilter k]
                else []) = 0 := by
            rw [List.count_eq_zero]
            intro hm
            split at hm
            · have := List.mem_singleton.mp hm
              injection this with e
              exact hp e
            · exact absurd hm (List.not_mem_nil _)
          rw [hcount0]
          simp only [List.mem_cons, hp, false_or, Nat.zero_add]
theorem activeSectionCount_of_find (dev : DvbDevice) (pid : Int) (e : DvbSectionFilterInternal)
    (h : qmapFind dev.sectionFilters pid = some e) :
    dev.activeSectionCount pid = e.activeSectionFilters := by
  simp [DvbDevice.activeSectionCount, h]

/-- Removing a registered section filter when the reassembler of the PID is
not (or no longer) in the byte-filter list of the PID: only the section-filter
table and the deferred-cleanup flag change. -/
theorem removeSectionFilter_eq (dev : DvbDevice) (pid : Int) (filter : SectionFilter)
    (e : DvbSectionFilterInternal) (hfind : qmapFind dev.sectionFilters pid = some e)
    (h : filter ∈ e.sectionFilters)
    (hno : PidFilter.sectionFilter pid ∉ dev.filterList pid) :
    dev.removeSectionFilter pid filter =
      { dev with
        sectionFilters := qmapInsert dev.sectionFilters pid
          { e with
            sectionFilters :=
              e.sectionFilters.set (e.sectionFilters.indexOf filter) .dummySectionFilter,
            activeSectionFilters := e.activeSectionFilters - 1 },
        cleanUpFilters := true } := by
  unfold DvbDevice.removeSectionFilter
  rw [hfind]
  simp only [if_pos h]
  split
  · rw [removePidFilter_not_registered _ pid _ (by exact hno)]
  · rfl

theorem removeSectionFilter_registered (dev : DvbDevice) (pid : Int) (filter : SectionFilter)
    (h : filter ∈ dev.sectionFilterList pid)
    (hno : PidFilter.sectionFilter pid ∉ dev.filterList pid) :
    dev.FilterUpdate (dev.removeSectionFilter pid filter) ∧
      (dev.removeSectionFilter pid filter).filters = dev.filters ∧
      (dev.removeSectionFilter pid filter).backendCalls = dev.backendCalls ∧
      (dev.removeSectionFilter pid filter).sectionFilterList pid =
        (dev.sectionFilterList pid).set ((dev.sectionFilterList pid).indexOf filter)
          .dummySectionFilter ∧
      (dev.removeSectionFilter pid filter).activeSectionCount pid =
        dev.activeSectionCount pid - 1 ∧
      (∀ p, p ≠ pid →
        (dev.removeSectionFilter pid filter).sectionFilterList p = dev.sectionFilterList p ∧
          (dev.removeSectionFilter pid filter).activeSectionCount p =
            dev.activeSectionCount p) := by
  cases hfind : qmapFind dev.sectionFilters pid with
  | none =>
    rw [sectionFilterList_of_not_found dev pid hfind] at h
    exact absurd h (List.not_mem_nil _)
  | some e =>
    have hl := sectionFilterList_of_find dev pid e hfind
    have hc := activeSectionCount_of_find dev pid e hfind
    rw [hl] at h
    rw [removeSectionFilter_eq dev pid filter e hfind h hno, hl, hc]
    refine ⟨⟨dev.filters, _, true, dev.backendCalls, rfl⟩, rfl, rfl, ?_, ?_, ?_⟩
    · simp only [DvbDevice.sectionFilterList, qmapFind_qmapInsert, if_true]
      rfl
    · simp only [DvbDevice.activeSectionCount, qmapFind_qmapInsert, if_true]
      rfl
    · intro p hp
      simp only [DvbDevice.sectionFilterList, DvbDevice.activeSectionCount, qmapFind_qmapInsert,
        if_neg hp]
      exact ⟨trivial, trivial⟩

theorem realSectionCount_cons (f : SectionFilter) (l : List SectionFilter) :
    realSectionCount (f :: l) =
      realSectionCount l + (if f ≠ .dummySectionFilter then 1 else 0) := by
  unfold realSectionCount
  rw [List.countP_cons]
  simp

theorem realSectionCount_replicate (n : Nat) :
    realSectionCount (List.replicate n SectionFilter.dummySectionFilter) = 0 := by
  unfold realSectionCount
  rw [List.countP_eq_zero]
  intro f hf
  rw [List.eq_of_mem_replicate hf]
  simp

/-- The loop of `stop` over the section-filter list of one PID. -/
theorem removePendingSectionFilters_spec (pid : Int) :
    ∀ (pending pre : List SectionFilter) (dev : DvbDevice),
      dev.sectionFilterList pid = pre ++ pending →
      (∀ f ∈ pre, f = SectionFilter.dummySectionFilter) →
      dev.activeSectionCount pid = realSectionCount pending →
      PidFilter.sectionFilter pid ∉ dev.filterList pid →
      dev.FilterUpdate (dev.removePendingSectionFilters pid pending) ∧
        (dev.removePendingSectionFilters pid pending).filters = dev.filters ∧
        (dev.removePendingSectionFilters pid pending).backendCalls = dev.backendCalls ∧
        (dev.removePendingSectionFilters pid pending).sectionFilterList pid =
          pre ++ List.replicate pending.length SectionFilter.dummySectionFilter ∧
        (dev.removePendingSectionFilters pid pending).activeSectionCount pid = 0 ∧
        (∀ p, p ≠ pid →
          (dev.removePendingSectionFilters pid pending).sectionFilterList p =
              dev.sectionFilterList p ∧
            (dev.removePendingSectionFilters pid pending).activeSectionCount p =
              dev.activeSectionCount p) := by
  intro pending
  induction pending with
  | nil =>
    intro pre dev hfl _ hcount _
    refine ⟨FilterUpdate.refl dev, rfl, rfl, ?_, ?_, fun p _ => ⟨rfl, rfl⟩⟩
    · show dev.sectionFilterList pid = _
      rw [hfl]; rfl
    · show dev.activeSectionCount pid = 0
      rw [hcount]; rfl
  | cons f rest ih =>
    intro pre dev hfl hpre hcount hno
    by_cases hreal : f ≠ .dummySectionFilter
    · have hstep : dev.removePendingSectionFilters pid (f :: rest) =
          (dev.removeSectionFilter pid f).removePendingSectionFilters pid rest := by
        show (if f ≠ .dummySectionFilter then _ else _) = _
        rw [if_pos hreal]
      rw [hstep]
      have hmem : f ∈ dev.sectionFilterList pid := by rw [hfl]; simp
      have hnotpre : f ∉ pre := fun m => hreal (hpre f m)
      obtain ⟨r0, r1, r2, r3, r4, r5⟩ := removeSectionFilter_registered dev pid f hmem hno
      rw [hfl, set_indexOf_append pre rest f _ hnotpre] at r3
      have hrc := realSectionCount_cons f rest
      rw [if_pos hreal] at hrc
      have hcount1 : (dev.removeSectionFilter pid f).activeSectionCount pid =
          realSectionCount rest := by
        rw [r4, hcount, hrc]
        push_cast
        ring
      have hpre1 : ∀ g ∈ pre ++ [SectionFilter.dummySectionFilter],
          g = SectionFilter.dummySectionFilter := by
        intro g hg
        rcases List.mem_append.mp hg with hg | hg
        · exact hpre g hg
        · exact List.mem_singleton.mp hg
      have hno1 : PidFilter.sectionFilter pid ∉ (dev.removeSectionFilter pid f).filterList pid := by
        unfold DvbDevice.filterList
        rw [r1]
        exact hno
      obtain ⟨i0, i1, i2, i3, i4, i5⟩ := ih (pre ++ [SectionFilter.dummySectionFilter])
        (dev.removeSectionFilter pid f) (by rw [r3]; simp) hpre1 hcount1 hno1
      refine ⟨FilterUpdate.trans r0 i0, i1.trans r1, i2.trans r2, ?_, i4, ?_⟩
      · rw [i3]
        simp [List.replicate_succ]
      · intro p hp
        obtain ⟨j1, j2⟩ := i5 p hp
        obtain ⟨k1, k2⟩ := r5 p hp
        exact ⟨j1.trans k1, j2.trans k2⟩
    · have hdummy : f = .dummySectionFilter := by
        by_contra hne
        exact hreal hne
      have hstep : dev.removePendingSectionFilters pid (f :: rest) =
          dev.removePendingSectionFilters pid rest := by
        show (if f ≠ .dummySectionFilter then _ else _) = _
        rw [if_neg hreal]
      rw [hstep]
      have hrc := realSectionCount_cons f rest
      rw [if_neg hreal, Nat.add_zero] at hrc
      have hpre1 : ∀ g ∈ pre ++ [f], g = SectionFilter.dummySectionFilter := by
        intro g hg
        rcases List.mem_append.mp hg with hg | hg
        · exact hpre g hg
        · rw [List.mem_singleton.mp hg]; exact hdummy
      obtain ⟨i0, i1, i2, i3, i4, i5⟩ := ih (pre ++ [f]) dev (by rw [hfl]; simp) hpre1
        (by rw [hcount, hrc]) hno
      refine ⟨i0, i1, i2, ?_, i4, i5⟩
      rw [i3, hdummy]
      simp [List.replicate_succ]

/-- The second loop of `stop`, over any list of keys, on a device whose active
section counts agree with the section-filter lists and whose byte-filter lists
hold no section reassembler any more. -/
theorem stopSectionFilters_spec :
    ∀ (keys : List Int) (dev : DvbDevice),
      (∀ pid, dev.activeSectionCount pid = realSectionCount (dev.sectionFilterList pid)) →
      (∀ pid, PidFilter.sectionFilter pid ∉ dev.filterList pid) →
      dev.FilterUpdate (dev.stopSectionFilters keys) ∧
        (dev.stopSectionFilters keys).filters = dev.filters ∧
        (dev.stopSectionFilters keys).backendCalls = dev.backendCalls ∧
        (∀ pid, (dev.stopSectionFilters keys).sectionFilterList pid =
          if pid ∈ keys then
            List.replicate (dev.sectionFilterList pid).length SectionFilter.dummySectionFilter
          else dev.sectionFilterList pid) ∧
        (∀ pid, (dev.stopSectionFilters keys).activeSectionCount pid =
          if pid ∈ keys then 0 else dev.activeSectionCount pid) := by
  intro keys
  induction keys with
  | nil =>
    intro dev _ _
    exact ⟨FilterUpdate.refl dev, rfl, rfl, fun pid => by simp; rfl, fun pid => by simp; rfl⟩
  | cons k rest ih =>
    intro dev hinv hno
    have hstep : dev.stopSectionFilters (k :: rest) =
        (dev.removePendingSectionFilters k (dev.sectionFilterList k)).stopSectionFilters rest :=
      rfl
    rw [hstep]
    obtain ⟨s0, s1, s2, s3, s4, s5⟩ := removePendingSectionFilters_spec k
      (dev.sectionFilterList k) [] dev (by simp) (fun f hf => by simp at hf) (hinv k) (hno k)
    simp only [List.nil_append] at s3
    have hinv1 : ∀ pid,
        (dev.removePendingSectionFilters k (dev.sectionFilterList k)).activeSectionCount pid =
          realSectionCount
            ((dev.removePendingSectionFilters k (dev.sectionFilterList k)).sectionFilterList
              pid) := by
      intro pid
      by_cases hp : pid = k
      · subst hp
        rw [s3, s4, realSectionCount_replicate]
        rfl
      · rw [(s5 pid hp).1, (s5 pid hp).2]
        exact hinv pid
    have hno1 : ∀ pid, PidFilter.sectionFilter pid ∉
        (dev.removePendingSectionFilters k (dev.sectionFilterList k)).filterList pid := by
      intro pid
      unfold DvbDevice.filterList
      rw [s1]
      exact hno pid
    obtain ⟨i0, i1, i2, i3, i4⟩ :=
      ih (dev.removePendingSectionFilters k (dev.sectionFilterList k)) hinv1 hno1
    refine ⟨FilterUpdate.trans s0 i0, i1.trans s1, i2.trans s2, ?_, ?_⟩
    · intro pid
      rw [i3]
      by_cases hp : pid = k
      · subst hp
        rw [s3, if_pos (List.mem_cons_self _ _)]
        simp
      · rw [(s5 pid hp).1]
        simp only [List.mem_cons, hp, false_or]
    · intro pid
      rw [i4]
      by_cases hp : pid = k
      · subst hp
        rw [s4, if_pos (List.mem_cons_self _ _)]
        simp
      · rw [(s5 pid hp).2]
        simp only [List.mem_cons, hp, false_or]
theorem qmapFind_mem {α : Type} (m : List (Int × α)) (key : Int) (x : α)
    (h : qmapFind m key = some x) : (key, x) ∈ m := by
  induction m with
  | nil => rw [qmapFind_nil] at h; exact absurd h (by simp)
  | cons e rest ih =>
    obtain ⟨k0, y⟩ := e
    rw [qmapFind_cons] at h
    by_cases hk : k0 = key
    · rw [if_pos hk] at h
      injection h with h
      rw [hk, h]
      exact List.mem_cons_self _ _
    · rw [if_neg hk] at h
      exact List.mem_cons_of_mem _ (ih h)

/-- Agreement of the counts, by PID. -/
theorem countsAgree_lookup (dev : DvbDevice) (h : dev.CountsAgree) :
    (∀ pid, dev.activeCount pid = realCount (dev.filterList pid)) ∧
      ∀ pid, dev.activeSectionCount pid = realSectionCount (dev.sectionFilterList pid) := by
  refine ⟨fun pid => ?_, fun pid => ?_⟩
  · cases hfind : qmapFind dev.filters pid with
    | none =>
      rw [activeCount_of_not_found dev pid hfind, filterList_of_not_found dev pid hfind]
      rfl
    | some e =>
      rw [activeCount_of_find dev pid e hfind, filterList_of_find dev pid e hfind]
      exact h.1 (pid, e) (qmapFind_mem _ _ _ hfind)
  · cases hfind : qmapFind dev.sectionFilters pid with
    | none =>
      rw [sectionFilterList_of_not_found dev pid hfind]
      simp [DvbDevice.activeSectionCount, hfind, realSectionCount]
    | some e =>
      rw [activeSectionCount_of_find dev pid e hfind, sectionFilterList_of_find dev pid e hfind]
      exact h.2 (pid, e) (qmapFind_mem _ _ _ hfind)

theorem filterList_congr (a b : DvbDevice) (h : a.filters = b.filters) (pid : Int) :
    a.filterList pid = b.filterList pid ∧ a.activeCount pid = b.activeCount pid := by
  unfold DvbDevice.filterList DvbDevice.activeCount
  rw [h]
  exact ⟨rfl, rfl⟩

theorem sectionFilterList_congr (a b : DvbDevice) (h : a.sectionFilters = b.sectionFilters)
    (pid : Int) :
    a.sectionFilterList pid = b.sectionFilterList pid ∧
      a.activeSectionCount pid = b.activeSectionCount pid := by
  unfold DvbDevice.sectionFilterList DvbDevice.activeSectionCount
  rw [h]
  exact ⟨rfl, rfl⟩

/-- The function `stop` on a device whose counts agree with the lists. -/
theorem stop_spec (dev : DvbDevice) (h : dev.CountsAgree) :
    dev.stop.isAuto = false ∧ dev.stop.frontendTimerActive = false ∧
      dev.stop.deviceState = dev.deviceState ∧ dev.stop.stateChanges = dev.stateChanges ∧
      dev.stop.config = dev.config ∧ dev.FiltersStopped dev.stop [] := by
  obtain ⟨hpid, hsec⟩ := countsAgree_lookup dev h
  unfold DvbDevice.stop
  simp only []
  obtain ⟨s0, s1, s2, s3, added, s4, s5, s6⟩ := stopPidFilters_spec
    (dev.filters.map Prod.fst) { dev with isAuto := false, frontendTimerActive := false } hpid
  generalize DvbDevice.stopPidFilters
    { dev with isAuto := false, frontendTimerActive := false } (dev.filters.map Prod.fst) = dev2
    at s0 s1 s2 s3 s4
  have e1 : ∀ pid, dev2.filterList pid = (dev.filterList pid).map PidFilter.stopped := by
    intro pid
    rw [s2 pid]
    by_cases hk : pid ∈ dev.filters.map Prod.fst
    · rw [if_pos hk]; rfl
    · rw [if_neg hk]
      show dev.filterList pid = _
      rw [filterList_of_not_found dev pid (qmapFind_none_of_not_mem _ _ hk)]
      rfl
  have e2 : ∀ pid, dev2.activeCount pid = 0 := by
    intro pid
    rw [s3 pid]
    by_cases hk : pid ∈ dev.filters.map Prod.fst
    · rw [if_pos hk]
    · rw [if_neg hk]
      exact activeCount_of_not_found dev pid (qmapFind_none_of_not_mem _ _ hk)
  have hinv2 : ∀ pid, dev2.activeSectionCount pid =
      realSectionCount (dev2.sectionFilterList pid) := by
    intro pid
    obtain ⟨c1, c2⟩ := sectionFilterList_congr dev2 dev s1 pid
    rw [c1, c2]
    exact hsec pid
  have hno2 : ∀ pid, PidFilter.sectionFilter pid ∉ dev2.filterList pid := by
    intro pid hm
    rw [e1 pid] at hm
    obtain ⟨g, _, hg⟩ := List.mem_map.mp hm
    have := stopped_not_real g
    rw [hg] at this
    exact absurd this (by simp [PidFilter.isReal])
  obtain ⟨t0, t1, t2, t3, t4⟩ := stopSectionFilters_spec (dev2.sectionFilters.map Prod.fst) dev2
    hinv2 hno2
  generalize dev2.stopSectionFilters (dev2.sectionFilters.map Prod.fst) = dev3 at t0 t1 t2 t3 t4
  obtain ⟨fs, sfs, cu, calls, hs⟩ := s0
  obtain ⟨fs2, sfs2, cu2, calls2, ht⟩ := t0
  have hfields : dev3.isAuto = false ∧ dev3.frontendTimerActive = false ∧
      dev3.deviceState = dev.deviceState ∧ dev3.stateChanges = dev.stateChanges ∧
      dev3.config = dev.config := by
    rw [ht, hs]
    exact ⟨rfl, rfl, rfl, rfl, rfl⟩
  refine ⟨hfields.1, hfields.2.1, hfields.2.2.1, hfields.2.2.2.1, hfields.2.2.2.2, ?_, ?_⟩
  · intro pid
    obtain ⟨c1, c2⟩ := filterList_congr dev3 dev2 t1 pid
    obtain ⟨d1, d2⟩ := sectionFilterList_congr dev2 dev s1 pid
    refine ⟨c1.trans (e1 pid), c2.trans (e2 pid), ?_, ?_⟩
    · rw [t3 pid, d1]
      by_cases hk : pid ∈ dev2.sectionFilters.map Prod.fst
      · rw [if_pos hk]
      · rw [if_neg hk]
        rw [s1] at hk
        rw [sectionFilterList_of_not_found dev pid (qmapFind_none_of_not_mem _ _ hk)]
        rfl
    · rw [t4 pid]
      by_cases hk : pid ∈ dev2.sectionFilters.map Prod.fst
      · rw [if_pos hk]
      · rw [if_neg hk, d2]
        rw [s1] at hk
        simp [DvbDevice.activeSectionCount, qmapFind_none_of_not_mem _ _ hk]
  · refine ⟨added, ?_, s5, ?_⟩
    · rw [t2, s4, List.append_nil]
    · intro pid
      rw [s6 pid]
      by_cases hk : pid ∈ dev.filters.map Prod.fst
      · simp only [hk, true_and]
        rfl
      · have h0 : dev.activeCount pid = 0 :=
          activeCount_of_not_found dev pid (qmapFind_none_of_not_mem _ _ hk)
        rw [if_neg (fun hc => hk hc.1), if_neg (by rw [h0]; simp)]

theorem mem_qmapInsert {α : Type} (m : List (Int × α)) (key : Int) (value : α) (e : Int × α)
    (h : e ∈ qmapInsert m key value) : e = (key, value) ∨ e ∈ m := by
  induction m with
  | nil =>
    unfold qmapInsert at h
    exact Or.inl (List.mem_singleton.mp h)
  | cons x rest ih =>
    obtain ⟨k, y⟩ := x
    unfold qmapInsert at h
    split at h
    · rcases List.mem_cons.mp h with h | h
      · exact Or.inl h
      · exact Or.inr h
    · split at h
      · rcases List.mem_cons.mp h with h | h
        · exact Or.inl h
        · exact Or.inr (List.mem_cons_of_mem _ h)
      · rcases List.mem_cons.mp h with h | h
        · exact Or.inr (by rw [h]; exact List.mem_cons_self _ _)
        · rcases ih h with h | h
          · exact Or.inl h
          · exact Or.inr (List.mem_cons_of_mem _ h)

/-- The entries of the byte-filter table after `addPidFilter`: entries that
were there, a fresh entry, or the entry of the PID with the filter appended and
the count raised by one. -/
theorem addPidFilter_entries (dev : DvbDevice) (pid : Int) (filter : PidFilter)
    (be : BackendAnswers) :
    (dev.addPidFilter pid filter be).1.sectionFilters = dev.sectionFilters ∧
      ∀ e ∈ (dev.addPidFilter pid filter be).1.filters,
        e ∈ dev.filters ∨ e.2 = dev.newFilterEntry ∨
          ∃ old : DvbFilterInternal,
            (old = dev.newFilterEntry ∨ (pid, old) ∈ dev.filters) ∧
              e.2 = { filters := old.filters ++ [filter],
                      activeFilters := old.activeFilters + 1 } := by
  unfold DvbDevice.addPidFilter
  cases hfind : qmapFind dev.filters pid with
  | none =>
    simp only [Option.getD_none, Option.isNone_none, if_true]
    have hbase : ∀ e ∈ qmapInsert dev.filters pid dev.newFilterEntry,
        e ∈ dev.filters ∨ e.2 = dev.newFilterEntry := by
      intro e he
      rcases mem_qmapInsert _ _ _ _ he with h | h
      · exact Or.inr (by rw [h])
      · exact Or.inl h
    obtain ⟨d2, hd2, hf2, hs2⟩ : ∃ d2 : DvbDevice,
        (if dev.newFilterEntry.activeFilters = 0 then
            DvbDevice.call { dev with filters := qmapInsert dev.filters pid dev.newFilterEntry }
              (.addPidFilter pid)
          else { dev with filters := qmapInsert dev.filters pid dev.newFilterEntry }) = d2 ∧
          d2.filters = qmapInsert dev.filters pid dev.newFilterEntry ∧
          d2.sectionFilters = dev.sectionFilters := by
      refine ⟨_, rfl, ?_, ?_⟩ <;> split <;> rfl
    rw [hd2]
    split_ifs
    · refine ⟨hs2, fun e he => ?_⟩
      rcases hbase e (by rw [← hf2]; exact he) with h | h
      · exact Or.inl h
      · exact Or.inr (Or.inl h)
    · refine ⟨hs2, fun e he => ?_⟩
      rcases hbase e (by rw [← hf2]; exact he) with h | h
      · exact Or.inl h
      · exact Or.inr (Or.inl h)
    · refine ⟨hs2, fun e he => ?_⟩
      rcases mem_qmapInsert _ _ _ _ he with h | h
      · exact Or.inr (Or.inr ⟨dev.newFilterEntry, Or.inl rfl, by rw [h]⟩)
      · rcases hbase e (by rw [← hf2]; exact h) with h | h
        · exact Or.inl h
        · exact Or.inr (Or.inl h)
  | some old =>
    simp only [Option.getD_some, Option.isNone_some, Bool.false_eq_true, if_false]
    obtain ⟨d2, hd2, hf2, hs2⟩ : ∃ d2 : DvbDevice,
        (if old.activeFilters = 0 then dev.call (.addPidFilter pid) else dev) = d2 ∧
          d2.filters = dev.filters ∧ d2.sectionFilters = dev.sectionFilters := by
      refine ⟨_, rfl, ?_, ?_⟩ <;> split <;> rfl
    rw [hd2]
    split_ifs
    · exact ⟨hs2, fun e he => Or.inl (by rw [← hf2]; exact he)⟩
    · exact ⟨hs2, fun e he => Or.inl (by rw [← hf2]; exact he)⟩
    · refine ⟨hs2, fun e he => ?_⟩
      rcases mem_qmapInsert _ _ _ _ he with h | h
      · exact Or.inr (Or.inr ⟨old, Or.inr (qmapFind_mem _ _ _ hfind), by rw [h]⟩)
      · rw [hf2] at h
        exact Or.inl h

theorem newFilterEntry_agrees (dev : DvbDevice) :
    dev.newFilterEntry.activeFilters = realCount dev.newFilterEntry.filters := by
  unfold DvbDevice.newFilterEntry realCount
  cases dev.dataDumper <;> rfl

/-- Adding a client filter keeps the counts in agreement with the lists. -/
theorem addPidFilter_countsAgree (dev : DvbDevice) (pid : Int) (filter : PidFilter)
    (be : BackendAnswers) (h : dev.CountsAgree) (hreal : filter.isReal = true) :
    (dev.addPidFilter pid filter be).1.CountsAgree := by
  obtain ⟨h1, h2⟩ := addPidFilter_entries dev pid filter be
  refine ⟨fun e he => ?_, by rw [h1]; exact h.2⟩
  rcases h2 e he with hm | hn | ⟨old, hold, heq⟩
  · exact h.1 e hm
  · rw [hn]; exact newFilterEntry_agrees dev
  · rw [heq]
    show old.activeFilters + 1 = ((realCount (old.filters ++ [filter]) : Nat) : Int)
    rw [realCount_append_real _ _ hreal]
    have hagree : old.activeFilters = realCount old.filters := by
      rcases hold with ho | ho
      · rw [ho]; exact newFilterEntry_agrees dev
      · exact h.1 (pid, old) ho
    rw [hagree]
    push_cast
    rfl

/-- Removing a client filter keeps the counts in agreement with the lists. -/
theorem removePidFilter_countsAgree (dev : DvbDevice) (pid : Int) (filter : PidFilter)
    (h : dev.CountsAgree) (hreal : filter.isReal = true) :
    (dev.removePidFilter pid filter).CountsAgree := by
  by_cases hmem : filter ∈ dev.filterList pid
  · cases hfind : qmapFind dev.filters pid with
    | none =>
      rw [filterList_of_not_found dev pid hfind] at hmem
      exact absurd hmem (List.not_mem_nil _)
    | some old =>
      rw [filterList_of_find dev pid old hfind] at hmem
      rw [removePidFilter_eq dev pid filter old hfind hmem]
      refine ⟨fun e he => ?_, h.2⟩
      rcases mem_qmapInsert _ _ _ _ he with he | he
      · rw [he]
        show old.activeFilters - 1 = ((realCount _ : Nat) : Int)
        have := realCount_set_dummy old.filters filter hreal hmem
        have hagree := h.1 (pid, old) (qmapFind_mem _ _ _ hfind)
        simp only at hagree
        rw [hagree, ← this]
        push_cast
        ring
      · exact h.1 e he
  · rw [removePidFilter_not_registered dev pid filter hmem]
    exact h

/-- The device the constructor sets up has counts in agreement with the
lists. -/
theorem init_countsAgree (config : DvbConfigBase) : (DvbDevice.init config).CountsAgree :=
  ⟨fun _ he => absurd he (List.not_mem_nil _), fun _ he => absurd he (List.not_mem_nil _)⟩
theorem realSectionCount_append_real (l : List SectionFilter) (f : SectionFilter)
    (hf : f ≠ .dummySectionFilter) : realSectionCount (l ++ [f]) = realSectionCount l + 1 := by
  unfold realSectionCount
  rw [List.countP_append]
  simp [List.countP_cons, hf]

theorem realSectionCount_set_dummy (l : List SectionFilter) (f : SectionFilter)
    (hf : f ≠ .dummySectionFilter) (h : f ∈ l) :
    realSectionCount (l.set (l.indexOf f) .dummySectionFilter) + 1 = realSectionCount l := by
  obtain ⟨pre, rest, hsplit, hnot⟩ : ∃ pre rest, l = pre ++ f :: rest ∧ f ∉ pre := by
    induction l with
    | nil => exact absurd h (List.not_mem_nil _)
    | cons x xs ih =>
      by_cases hx : x = f
      · exact ⟨[], xs, by rw [hx]; rfl, List.not_mem_nil _⟩
      · have hmem : f ∈ xs := by
          rcases List.mem_cons.mp h with h1 | h1
          · exact absurd h1.symm hx
          · exact h1
        obtain ⟨pre, rest, hs, hn⟩ := ih hmem
        refine ⟨x :: pre, rest, by rw [hs]; rfl, ?_⟩
        intro hm
        rcases List.mem_cons.mp hm with h1 | h1
        · exact hx h1.symm
        · exact hn h1
  rw [hsplit, set_indexOf_append pre rest f _ hnot]
  unfold realSectionCount
  simp only [List.countP_append, List.countP_cons]
  simp [hf]
  omega

theorem mem_qmapRemove {α : Type} (m : List (Int × α)) (key : Int) (e : Int × α)
    (h : e ∈ qmapRemove m key) : e ∈ m := by
  unfold qmapRemove at h
  exact (List.mem_filter.mp h).1

theorem registerSectionFilter_countsAgree (dev : DvbDevice) (pid : Int)
    (entry : DvbSectionFilterInternal) (filter : SectionFilter) (h : dev.CountsAgree)
    (hentry : entry.activeSectionFilters = realSectionCount entry.sectionFilters)
    (hreal : filter ≠ .dummySectionFilter) :
    (dev.registerSectionFilter pid entry filter).1.CountsAgree := by
  unfold DvbDevice.registerSectionFilter
  split
  · exact h
  · refine ⟨h.1, fun e he => ?_⟩
    rcases mem_qmapInsert _ _ _ _ he with he | he
    · rw [he]
      show entry.activeSectionFilters + 1 =
        ((realSectionCount (entry.sectionFilters ++ [filter]) : Nat) : Int)
      rw [realSectionCount_append_real _ _ hreal, hentry]
      push_cast
      rfl
    · exact h.2 e he

/-- Adding a client section filter keeps the counts in agreement with the
lists. -/
theorem addSectionFilter_countsAgree (dev : DvbDevice) (pid : Int) (filter : SectionFilter)
    (be : BackendAnswers) (h : dev.CountsAgree) (hreal : filter ≠ .dummySectionFilter) :
    (dev.addSectionFilter pid filter be).1.CountsAgree := by
  unfold DvbDevice.addSectionFilter
  cases hfind : qmapFind dev.sectionFilters pid with
  | none =>
    simp only []
    have h1 : DvbDevice.CountsAgree
        { dev with
          sectionFilters := qmapInsert dev.sectionFilters pid DvbSectionFilterInternal.init } := by
      refine ⟨h.1, fun e he => ?_⟩
      rcases mem_qmapInsert _ _ _ _ he with he | he
      · rw [he]; rfl
      · exact h.2 e he
    have h2 := addPidFilter_countsAgree _ pid (.sectionFilter pid) be h1 rfl
    split
    · refine ⟨h2.1, fun e he => ?_⟩
      exact h2.2 e (mem_qmapRemove _ _ _ he)
    · exact registerSectionFilter_countsAgree _ pid _ filter h2 rfl hreal
  | some entry =>
    exact registerSectionFilter_countsAgree dev pid entry filter h
      (h.2 (pid, entry) (qmapFind_mem _ _ _ hfind)) hreal

/-- Removing a client section filter keeps the counts in agreement with the
lists. -/
theorem removeSectionFilter_countsAgree (dev : DvbDevice) (pid : Int) (filter : SectionFilter)
    (h : dev.CountsAgree) (hreal : filter ≠ .dummySectionFilter) :
    (dev.removeSectionFilter pid filter).CountsAgree := by
  unfold DvbDevice.removeSectionFilter
  cases hfind : qmapFind dev.sectionFilters pid with
  | none => exact h
  | some entry =>
    simp only []
    split
    · next hmem =>
      have h1 : DvbDevice.CountsAgree
          { dev with
            sectionFilters := qmapInsert dev.sectionFilters pid
              { entry with
                sectionFilters :=
                  entry.sectionFilters.set (entry.sectionFilters.indexOf filter)
                    .dummySectionFilter,
                activeSectionFilters := entry.activeSectionFilters - 1 } } := by
        refine ⟨h.1, fun e he => ?_⟩
        rcases mem_qmapInsert _ _ _ _ he with he | he
        · rw [he]
          show entry.activeSectionFilters - 1 = ((realSectionCount _ : Nat) : Int)
          have := realSectionCount_set_dummy entry.sectionFilters filter hreal hmem
          have hagree := h.2 (pid, entry) (qmapFind_mem _ _ _ hfind)
          simp only at hagree
          rw [hagree, ← this]
          push_cast
          ring
        · exact h.2 e he
      split
      · exact removePidFilter_countsAgree _ pid (.sectionFilter pid) h1 rfl
      · exact h1
    · exact h

/-- C22: for every device whose filter counts agree with its filter lists.
After `reacquire` on a device in any state other than Released (the assertion
of `reacquire` holds and the function returns), the device is in state Idle
with the given configuration, the polling timer is stopped, auto-tune mode is
off, Released and Idle have been announced in this order, and the filter tables
are stopped: in every byte-filter list each filter that is neither the sentinel
nor the data dumper has been replaced by the sentinel, every section filter has
been replaced by the sentinel, all active counts are 0, and the backend
commands issued are hardware stop commands only, exactly one for every PID
whose active count was positive. After `release` the same holds with state
Released, the configuration kept and the release command of the backend as
last command. -/
theorem reacquire_release_stop (dev : DvbDevice) (config : DvbConfigBase)
    (hcounts : dev.CountsAgree) :
    (dev.deviceState ≠ .DeviceReleased →
        ∃ r, dev.reacquire config = some r ∧ r.deviceState = .DeviceIdle ∧
          r.frontendTimerActive = false ∧ r.isAuto = false ∧ r.config = config ∧
          r.stateChanges = dev.stateChanges ++ [.DeviceReleased, .DeviceIdle] ∧
          dev.FiltersStopped r []) ∧
      (dev.release.deviceState = .DeviceReleased ∧ dev.release.frontendTimerActive = false ∧
        dev.release.isAuto = false ∧ dev.release.config = dev.config ∧
        dev.FiltersStopped dev.release [.release]) := by
  have hcounts1 : (dev.setDeviceState .DeviceReleased).CountsAgree := by
    rw [setDeviceState_eq]
    exact hcounts
  obtain ⟨a1, a2, a3, a4, a5, a6⟩ := stop_spec (dev.setDeviceState .DeviceReleased) hcounts1
  have hd0 := setDeviceState_eq dev .DeviceReleased
  have hf0 : (dev.setDeviceState .DeviceReleased).filters = dev.filters := by rw [hd0]
  have hs0 : (dev.setDeviceState .DeviceReleased).sectionFilters = dev.sectionFilters := by
    rw [hd0]
  have hc0 : (dev.setDeviceState .DeviceReleased).backendCalls = dev.backendCalls := by
    rw [hd0]
  have hfs : ∀ (r : DvbDevice) (last : List BackendCall),
      r.filters = (dev.setDeviceState .DeviceReleased).stop.filters →
      r.sectionFilters = (dev.setDeviceState .DeviceReleased).stop.sectionFilters →
      r.backendCalls = (dev.setDeviceState .DeviceReleased).stop.backendCalls ++ last →
      dev.FiltersStopped r last := by
    intro r last h1 h2 h3
    obtain ⟨b1, added, b2, b3, b4⟩ := a6
    refine ⟨fun pid => ?_, added, ?_, b3, fun pid => ?_⟩
    · obtain ⟨c1, c2⟩ := filterList_congr r _ h1 pid
      obtain ⟨d1, d2⟩ := sectionFilterList_congr r _ h2 pid
      obtain ⟨e1, e2, e3, e4⟩ := b1 pid
      rw [(filterList_congr _ dev hf0 pid).1] at e1
      rw [(sectionFilterList_congr _ dev hs0 pid).1] at e3
      exact ⟨c1.trans e1, c2.trans e2, d1.trans e3, d2.trans e4⟩
    · rw [h3, b2, hc0, List.append_nil]
    · rw [b4 pid, (filterList_congr _ dev hf0 pid).2]
  refine ⟨?_, ?_⟩
  · intro hstate
    refine ⟨DvbDevice.setDeviceState
      { (dev.setDeviceState .DeviceReleased).stop with config := config } .DeviceIdle, ?_, ?_⟩
    · unfold DvbDevice.reacquire
      rw [if_neg hstate]
    · have hst : ({ (dev.setDeviceState .DeviceReleased).stop with config := config } :
          DvbDevice).deviceState = .DeviceReleased := by
        show (dev.setDeviceState .DeviceReleased).stop.deviceState = _
        rw [a3, setDeviceState_eq]
      rw [setDeviceState_eq, hst]
      refine ⟨rfl, a2, a1, rfl, ?_, hfs _ [] rfl rfl (by simp)⟩
      show (if DeviceState.DeviceReleased ≠ DeviceState.DeviceIdle then
          (dev.setDeviceState .DeviceReleased).stop.stateChanges ++ [DeviceState.DeviceIdle]
        else (dev.setDeviceState .DeviceReleased).stop.stateChanges) = _
      rw [if_pos (by decide), a4, setDeviceState_eq]
      show (if dev.deviceState ≠ DeviceState.DeviceReleased then
          dev.stateChanges ++ [DeviceState.DeviceReleased] else dev.stateChanges) ++ _ = _
      rw [if_pos hstate]
      simp
  · unfold DvbDevice.release DvbDevice.call
    refine ⟨?_, a2, a1, ?_, hfs _ [.release] rfl rfl rfl⟩
    · show (dev.setDeviceState .DeviceReleased).stop.deviceState = _
      rw [a3, setDeviceState_eq]
    · show (dev.setDeviceState .DeviceReleased).stop.config = _
      rw [a5, setDeviceState_eq]

set_option maxRecDepth 100000 in
theorem reacquire_release_stop_witness :
    stopExample.CountsAgree ∧ stopExample.deviceState ≠ .DeviceReleased ∧
      stopExample.filterList 100 =
        [.client 1, .client 2, .client 3, .sectionFilter 100] ∧
      stopExample.activeCount 100 = 4 ∧ stopExample.activeSectionCount 100 = 2 ∧
      (stopExample.release.filterList 100 =
          [.dummyPidFilter, .dummyPidFilter, .dummyPidFilter, .dummyPidFilter] ∧
        stopExample.release.backendCalls =
          stopExample.backendCalls ++
            [.removePidFilter 100, .removePidFilter 300, .removePidFilter 400, .release]) ∧
      ∃ r, stopExample.reacquire (DvbConfigBase.plain 900) = some r ∧
        r.deviceState = .DeviceIdle ∧ r.frontendTimerActive = false ∧ r.isAuto = false :=
  ⟨by decide, by decide, by decide, by decide, by decide, by decide,
    match (reacquire_release_stop stopExample (DvbConfigBase.plain 900) (by decide)).1
      (by decide) with
    | ⟨r, h1, h2, h3, h4, _⟩ => ⟨r, h1, h2, h3, h4⟩⟩

/-! ## Theorems: the payload of a packet -/

theorem locatePayload_bounds (data : List Nat) (loc : Int × Int)
    (h : locatePayload data = some loc) : 4 ≤ loc.1 ∧ 1 ≤ loc.2 ∧ loc.1 + loc.2 = 188 := by
  unfold locatePayload at h
  split at h
  · injection h with h
    rw [← h]
    decide
  · split at h
    · exact absurd h (by simp)
    · injection h with h
      rw [← h]
      simp only
      omega

theorem payloadBytes_length (data : List Nat) (hlen : data.length = 188) (loc : Int × Int)
    (h : locatePayload data = some loc) : ((payloadBytes data loc).length : Int) = loc.2 := by
  obtain ⟨h1, h2, h3⟩ := locatePayload_bounds data loc h
  unfold payloadBytes
  rw [List.length_take, List.length_drop, hlen]
  omega

theorem clampedPointer_bounds (payload : List Nat) (h : 1 ≤ payload.length) :
    0 ≤ clampedPointer payload ∧ clampedPointer payload ≤ (payload.length : Int) - 1 := by
  unfold clampedPointer
  split <;> omega

theorem clampedPointer_toNat (payload : List Nat) :
    (clampedPointer payload).toNat =
      (if payload.getD 0 0 % 256 ≥ payload.length then payload.length - 1
        else payload.getD 0 0 % 256) := by
  unfold clampedPointer
  by_cases h : payload.getD 0 0 % 256 ≥ payload.length
  · rw [if_pos (by omega), if_pos h]
    omega
  · rw [if_neg (by omega), if_neg h]
    omega

theorem newSectionPart_eq (payload : List Nat) :
    newSectionPart payload = payload.drop ((clampedPointer payload).toNat + 1) := by
  unfold newSectionPart
  rw [List.take_of_length_le]
  rw [List.length_drop]
  omega

/-- The three parts of a section-start payload: the pointer byte, the end of
the section in progress and the start of the new section are the payload. -/
theorem payload_parts (payload : List Nat) (h : 1 ≤ payload.length) :
    payload = [payload.getD 0 0] ++ leftoverPart payload ++ newSectionPart payload ∧
      ((leftoverPart payload).length : Int) = clampedPointer payload ∧
      ((newSectionPart payload).length : Int) =
        (payload.length : Int) - (clampedPointer payload + 1) := by
  obtain ⟨b1, b2⟩ := clampedPointer_bounds payload h
  rw [newSectionPart_eq]
  unfold leftoverPart
  generalize hp : (clampedPointer payload).toNat = p
  have hp2 : (p : Int) = clampedPointer payload := by rw [← hp]; omega
  refine ⟨?_, ?_, ?_⟩
  · cases payload with
    | nil => simp at h
    | cons x rest =>
      simp
  · rw [List.length_take, List.length_drop]
    omega
  · rw [List.length_drop]
    omega

/-- The section-start branch of `processPayload`, by the parts of the payload. -/
theorem processPayload_start (s : DvbSectionFilterInternal) (payload : List Nat) :
    s.processPayload true payload =
      if s.bufferValid then
        ({ s with
            buffer := (processSections false
              ((processSections true (s.buffer ++ leftoverPart payload)).2 ++
                newSectionPart payload)).2 },
          (processSections true (s.buffer ++ leftoverPart payload)).1 ++
            (processSections false
              ((processSections true (s.buffer ++ leftoverPart payload)).2 ++
                newSectionPart payload)).1)
      else
        ({ s with
            buffer := (processSections false (s.buffer ++ newSectionPart payload)).2,
            bufferValid := true },
          (processSections false (s.buffer ++ newSectionPart payload)).1) := by
  unfold DvbSectionFilterInternal.processPayload
  rw [newSectionPart_eq]
  unfold leftoverPart
  rw [clampedPointer_toNat]
  simp only [if_true]

/-- The function `processData` on a 188-byte packet, through the location of
the payload. -/
theorem processData_eq (s : DvbSectionFilterInternal) (data : List Nat)
    (hlen : data.length = 188) :
    processData s data =
      if data.getD 3 0 &&& 0x10 = 0 then (s, [])
      else
        match s.checkContinuity (data.getD 3 0 &&& 0x0f) with
        | none => (s, [])
        | some s1 =>
          match locatePayload data with
          | none => (s1, [])
          | some loc =>
            s1.processPayload (decide (data.getD 1 0 &&& 0x40 ≠ 0)) (payloadBytes data loc) := by
  by_cases hpayload : data.getD 3 0 &&& 0x10 = 0
  · rw [if_pos hpayload]
    unfold processData
    rw [if_pos hpayload]
  · rw [if_neg hpayload]
    by_cases hadapt : data.getD 3 0 &&& 0x20 = 0
    · have hloc : locatePayload data = some (4, 188 - 4) := by
        unfold locatePayload
        rw [if_pos hadapt]
      rw [hloc]
      dsimp only
      have hbytes : payloadBytes data (4, 188 - 4) = data.drop 4 := by
        unfold payloadBytes
        rw [List.take_of_length_le]
        · rfl
        · rw [List.length_drop, hlen]
          decide
      rw [hbytes]
      unfold processData DvbSectionFilterInternal.checkContinuity
      rw [if_neg hpayload]
      simp only []
      by_cases hdup : s.bufferValid = true ∧ data.getD 3 0 &&& 0x0f = s.continuityCounter
      · rw [if_pos hdup, if_pos hdup]
      · rw [if_neg hdup, if_neg hdup, if_pos hadapt]
        simp only []
        unfold DvbSectionFilterInternal.processPayload
        have hlen2 : 188 - 4 = (data.drop 4).length := by
          rw [List.length_drop, hlen]
        rw [hlen2]
        generalize data.drop 4 = payload
        by_cases hstart : data.getD 1 0 &&& 0x40 ≠ 0
        · rw [decide_eq_true hstart]
          simp only [if_true]
          have htail : ∀ p, (payload.drop (p + 1)).take (payload.length - (p + 1)) =
              payload.drop (p + 1) := by
            intro p
            rw [List.take_of_length_le (by rw [List.length_drop])]
          rw [htail]
        · rw [decide_eq_false hstart]
          simp only [Bool.false_eq_true, if_false, List.take_length]
    · by_cases hL : data.getD 4 0 % 256 ≤ 182
      · have hloc : locatePayload data =
            some (5 + ((data.getD 4 0 % 256 : Nat) : Int),
              188 - 5 - ((data.getD 4 0 % 256 : Nat) : Int)) := by
          unfold locatePayload
          rw [if_neg hadapt, if_neg (by omega)]
        rw [hloc]
        dsimp only
        have hbytes : payloadBytes data
            (5 + ((data.getD 4 0 % 256 : Nat) : Int),
              188 - 5 - ((data.getD 4 0 % 256 : Nat) : Int)) = adaptationPayload data := by
          unfold payloadBytes adaptationPayload
          have e1 : (5 + ((data.getD 4 0 % 256 : Nat) : Int)).toNat = 5 + data.getD 4 0 % 256 := by
            omega
          have e2 : (188 - 5 - ((data.getD 4 0 % 256 : Nat) : Int)).toNat =
              183 - data.getD 4 0 % 256 := by omega
          simp only [e1, e2]
        rw [hbytes]
        exact processData_located s data hlen hpayload hadapt hL
      · have hloc : locatePayload data = none := by
          unfold locatePayload
          rw [if_neg hadapt, if_pos (by omega)]
        rw [hloc]
        dsimp only
        unfold processData DvbSectionFilterInternal.checkContinuity
        rw [if_neg hpayload]
        simp only []
        by_cases hdup : s.bufferValid = true ∧ data.getD 3 0 &&& 0x0f = s.continuityCounter
        · rw [if_pos hdup, if_pos hdup]
        · rw [if_neg hdup, if_neg hdup, if_neg hadapt, if_pos (by omega)]
/-- C33: for every 188-byte packet and every reassembler state, `processData`
reads the header bytes at offsets 1, 3 and 4 and the payload it locates, and
nothing else: the located payload begins at an offset of at least 4, its length
is at least 1 and it ends with the packet at offset 188. Whenever the pointer
byte is read (the first payload byte, in the section-start branch) the payload
length is therefore at least 1; the clamped pointer lies between 0 and payload
length - 1; the two appended parts have the non-negative lengths pointer and
payload length - (pointer + 1); and the pointer byte, the leftover part and the
new-section part together are exactly the payload. -/
theorem processData_stays_in_packet (s : DvbSectionFilterInternal) (data : List Nat)
    (hlen : data.length = 188) :
    processData s data =
        (if data.getD 3 0 &&& 0x10 = 0 then (s, [])
        else
          match s.checkContinuity (data.getD 3 0 &&& 0x0f) with
          | none => (s, [])
          | some s1 =>
            match locatePayload data with
            | none => (s1, [])
            | some loc =>
              s1.processPayload (decide (data.getD 1 0 &&& 0x40 ≠ 0))
                (payloadBytes data loc)) ∧
      ∀ loc, locatePayload data = some loc →
        4 ≤ loc.1 ∧ 1 ≤ loc.2 ∧ loc.1 + loc.2 = 188 ∧
          ((payloadBytes data loc).length : Int) = loc.2 ∧
          0 ≤ clampedPointer (payloadBytes data loc) ∧
          clampedPointer (payloadBytes data loc) ≤ loc.2 - 1 ∧
          ((leftoverPart (payloadBytes data loc)).length : Int) =
            clampedPointer (payloadBytes data loc) ∧
          0 ≤ loc.2 - (clampedPointer (payloadBytes data loc) + 1) ∧
          ((newSectionPart (payloadBytes data loc)).length : Int) =
            loc.2 - (clampedPointer (payloadBytes data loc) + 1) ∧
          payloadBytes data loc =
            [(payloadBytes data loc).getD 0 0] ++ leftoverPart (payloadBytes data loc) ++
              newSectionPart (payloadBytes data loc) ∧
          ∀ s1 : DvbSectionFilterInternal,
            s1.processPayload true (payloadBytes data loc) =
              if s1.bufferValid then
                ({ s1 with
                    buffer := (processSections false
                      ((processSections true
                          (s1.buffer ++ leftoverPart (payloadBytes data loc))).2 ++
                        newSectionPart (payloadBytes data loc))).2 },
                  (processSections true
                      (s1.buffer ++ leftoverPart (payloadBytes data loc))).1 ++
                    (processSections false
                      ((processSections true
                          (s1.buffer ++ leftoverPart (payloadBytes data loc))).2 ++
                        newSectionPart (payloadBytes data loc))).1)
              else
                ({ s1 with
                    buffer := (processSections false
                      (s1.buffer ++ newSectionPart (payloadBytes data loc))).2,
                    bufferValid := true },
                  (processSections false
                    (s1.buffer ++ newSectionPart (payloadBytes data loc))).1) := by
  refine ⟨processData_eq s data hlen, ?_⟩
  intro loc hloc
  obtain ⟨h1, h2, h3⟩ := locatePayload_bounds data loc hloc
  have hl := payloadBytes_length data hlen loc hloc
  have hpos : 1 ≤ (payloadBytes data loc).length := by omega
  obtain ⟨b1, b2⟩ := clampedPointer_bounds _ hpos
  obtain ⟨p1, p2, p3⟩ := payload_parts _ hpos
  rw [hl] at b2 p3
  exact ⟨h1, h2, h3, hl, b1, b2, p2, by omega, p3, p1, fun s1 => processPayload_start s1 _⟩

set_option maxRecDepth 100000 in
theorem processData_stays_in_packet_witness :
    (stuffedPacket 0x40 0x35 [0x09, 0x00, 0xb0]).length = 188 ∧
      locatePayload (stuffedPacket 0x40 0x35 [0x09, 0x00, 0xb0]) = some (185, 3) ∧
      payloadBytes (stuffedPacket 0x40 0x35 [0x09, 0x00, 0xb0]) (185, 3) = [0x09, 0x00, 0xb0] ∧
      clampedPointer [0x09, 0x00, 0xb0] = 2 ∧ leftoverPart [0x09, 0x00, 0xb0] = [0x00, 0xb0] ∧
      newSectionPart [0x09, 0x00, 0xb0] = [] ∧
      (4 : Int) ≤ 185 ∧ (1 : Int) ≤ 3 ∧ (185 : Int) + 3 = 188 :=
  ⟨by decide, by decide, by decide, by decide, by decide, by decide,
    ((processData_stays_in_packet DvbSectionFilterInternal.init
      (stuffedPacket 0x40 0x35 [0x09, 0x00, 0xb0]) (by decide)).2 (185, 3) (by decide)).1,
    ((processData_stays_in_packet DvbSectionFilterInternal.init
      (stuffedPacket 0x40 0x35 [0x09, 0x00, 0xb0]) (by decide)).2 (185, 3) (by decide)).2.1,
    ((processData_stays_in_packet DvbSectionFilterInternal.init
      (stuffedPacket 0x40 0x35 [0x09, 0x00, 0xb0]) (by decide)).2 (185, 3) (by decide)).2.2.1⟩

/-! ## Theorems: cleanup pass and filter call sequences -/

theorem addPidFilter_cleanUpFilters (dev : DvbDevice) (pid : Int) (filter : PidFilter)
    (be : BackendAnswers) :
    (dev.addPidFilter pid filter be).1.cleanUpFilters = dev.cleanUpFilters := by
  unfold DvbDevice.addPidFilter
  simp only []
  split_ifs <;> rfl

theorem registerSectionFilter_cleanUpFilters (dev : DvbDevice) (pid : Int)
    (entry : DvbSectionFilterInternal) (filter : SectionFilter) :
    (dev.registerSectionFilter pid entry filter).1.cleanUpFilters = dev.cleanUpFilters := by
  unfold DvbDevice.registerSectionFilter
  split <;> rfl

theorem addSectionFilter_cleanUpFilters (dev : DvbDevice) (pid : Int) (filter : SectionFilter)
    (be : BackendAnswers) :
    (dev.addSectionFilter pid filter be).1.cleanUpFilters = dev.cleanUpFilters := by
  unfold DvbDevice.addSectionFilter
  cases qmapFind dev.sectionFilters pid with
  | none =>
    simp only []
    split
    · exact addPidFilter_cleanUpFilters _ pid _ be
    · rw [registerSectionFilter_cleanUpFilters]
      exact addPidFilter_cleanUpFilters _ pid _ be
  | some entry => exact registerSectionFilter_cleanUpFilters dev pid entry filter

theorem cleanUp_of_not_flagged (dev : DvbDevice) (h : dev.cleanUpFilters = false) :
    dev.cleanUp = dev := by
  unfold DvbDevice.cleanUp
  rw [h]
  rfl

theorem cleanUp_cleanUpFilters (dev : DvbDevice) : dev.cleanUp.cleanUpFilters = false := by
  unfold DvbDevice.cleanUp
  cases h : dev.cleanUpFilters with
  | true => rfl
  | false => exact h

/-- Calls that add filters and cleanup passes never set the deferred-cleanup
flag. -/
theorem apiRun_not_flagged (be : BackendAnswers) :
    ∀ (ops : List FilterApiOp) (dev : DvbDevice), dev.cleanUpFilters = false →
      (∀ op ∈ ops, op.isRemoval = false) → (dev.apiRun be ops).cleanUpFilters = false := by
  intro ops
  induction ops with
  | nil => intro dev h _; exact h
  | cons op rest ih =>
    intro dev h hops
    have hop := hops op (List.mem_cons_self _ _)
    have hrest : ∀ x ∈ rest, x.isRemoval = false := fun x hx =>
      hops x (List.mem_cons_of_mem _ hx)
    refine ih (dev.apiStep be op) ?_ hrest
    cases op with
    | addPidFilter pid filter => exact (addPidFilter_cleanUpFilters dev pid filter be).trans h
    | removePidFilter pid filter => exact absurd hop (by simp [FilterApiOp.isRemoval])
    | addSectionFilter pid filter =>
      exact (addSectionFilter_cleanUpFilters dev pid filter be).trans h
    | removeSectionFilter pid filter => exact absurd hop (by simp [FilterApiOp.isRemoval])
    | cleanUp => exact cleanUp_cleanUpFilters dev

theorem cleanUp_flagged (dev : DvbDevice) (h : dev.cleanUpFilters = true) :
    dev.cleanUp =
      { dev with
        cleanUpFilters := false,
        filters :=
          (dev.filters.filter (fun e => decide (e.2.activeFilters ≠ 0))).map
            (fun e => (e.1, { e.2 with
              filters := e.2.filters.filter (fun f => decide (f ≠ PidFilter.dummyPidFilter)) })),
        sectionFilters :=
          (dev.sectionFilters.filter (fun e => decide (e.2.activeSectionFilters ≠ 0))).map
            (fun e => (e.1, { e.2 with
              sectionFilters :=
                e.2.sectionFilters.filter
                  (fun f => decide (f ≠ SectionFilter.dummySectionFilter)) })) } := by
  unfold DvbDevice.cleanUp
  rw [h]
  rfl

/-- C32: the deferred cleanup pass at the head of `customEvent`. The pass runs
only if a removal happened since the previous pass: it changes nothing when the
flag `cleanUpFilters` is not set, it clears the flag, and calls that add
filters and further passes leave the flag cleared. When it runs: every entry
that remains in the byte-filter table comes from an entry of the same PID with
the same, non-zero active count, and its list is the list of that entry with
the sentinels taken out, all other filters in their order; every entry with a
non-zero active count remains; the PIDs keep their order; and the same holds
of the section-filter table. So no list holds the sentinel and no entry with
zero active filters remains. -/
theorem cleanUp_removes_sentinels (dev : DvbDevice) (be : BackendAnswers)
    (ops : List FilterApiOp) :
    (dev.cleanUpFilters = false → dev.cleanUp = dev) ∧
      dev.cleanUp.cleanUpFilters = false ∧
      ((∀ op ∈ ops, op.isRemoval = false) →
        (dev.cleanUp.apiRun be ops).cleanUpFilters = false ∧
          (dev.cleanUp.apiRun be ops).cleanUp = dev.cleanUp.apiRun be ops) ∧
      (dev.cleanUpFilters = true →
        (∀ e ∈ dev.cleanUp.filters,
          PidFilter.dummyPidFilter ∉ e.2.filters ∧ e.2.activeFilters ≠ 0 ∧
            ∃ e0 ∈ dev.filters, e0.1 = e.1 ∧ e0.2.activeFilters = e.2.activeFilters ∧
              e.2.filters = e0.2.filters.filter (fun f => decide (f ≠ .dummyPidFilter))) ∧
          (∀ e0 ∈ dev.filters, e0.2.activeFilters ≠ 0 →
            (e0.1, { e0.2 with
              filters := e0.2.filters.filter (fun f => decide (f ≠ .dummyPidFilter)) }) ∈
                dev.cleanUp.filters) ∧
          (dev.cleanUp.filters.map Prod.fst).Sublist (dev.filters.map Prod.fst) ∧
          (∀ e ∈ dev.cleanUp.sectionFilters,
            SectionFilter.dummySectionFilter ∉ e.2.sectionFilters ∧
              e.2.activeSectionFilters ≠ 0 ∧
              ∃ e0 ∈ dev.sectionFilters, e0.1 = e.1 ∧
                e0.2.activeSectionFilters = e.2.activeSectionFilters ∧
                e.2.sectionFilters =
                  e0.2.sectionFilters.filter (fun f => decide (f ≠ .dummySectionFilter))) ∧
          (∀ e0 ∈ dev.sectionFilters, e0.2.activeSectionFilters ≠ 0 →
            (e0.1, { e0.2 with
              sectionFilters :=
                e0.2.sectionFilters.filter (fun f => decide (f ≠ .dummySectionFilter)) }) ∈
                dev.cleanUp.sectionFilters) ∧
          (dev.cleanUp.sectionFilters.map Prod.fst).Sublist
            (dev.sectionFilters.map Prod.fst)) := by
  refine ⟨cleanUp_of_not_flagged dev, cleanUp_cleanUpFilters dev, ?_, ?_⟩
  · intro hops
    have h := apiRun_not_flagged be ops dev.cleanUp (cleanUp_cleanUpFilters dev) hops
    exact ⟨h, cleanUp_of_not_flagged _ h⟩
  · intro hflag
    rw [cleanUp_flagged dev hflag]
    refine ⟨?_, ?_, ?_, ?_, ?_, ?_⟩
    · intro e he
      obtain ⟨e0, he0, rfl⟩ := List.mem_map.mp he
      obtain ⟨hm, ha⟩ := List.mem_filter.mp he0
      refine ⟨?_, by simpa using ha, e0, hm, rfl, rfl, rfl⟩
      intro hd
      have := (List.mem_filter.mp hd).2
      simp at this
    · intro e0 he0 ha
      exact List.mem_map.mpr ⟨e0, List.mem_filter.mpr ⟨he0, by simpa using ha⟩, rfl⟩
    · show (List.map Prod.fst (List.map _ _)).Sublist _
      rw [List.map_map]
      have : (Prod.fst ∘ fun e : Int × DvbFilterInternal =>
          (e.1, ({ e.2 with
            filters := e.2.filters.filter (fun f => decide (f ≠ PidFilter.dummyPidFilter)) } :
              DvbFilterInternal))) = Prod.fst := rfl
      rw [this]
      exact List.Sublist.map _ (List.filter_sublist _)
    · intro e he
      obtain ⟨e0, he0, rfl⟩ := List.mem_map.mp he
      obtain ⟨hm, ha⟩ := List.mem_filter.mp he0
      refine ⟨?_, by simpa using ha, e0, hm, rfl, rfl, rfl⟩
      intro hd
      have := (List.mem_filter.mp hd).2
      simp at this
    · intro e0 he0 ha
      exact List.mem_map.mpr ⟨e0, List.mem_filter.mpr ⟨he0, by simpa using ha⟩, rfl⟩
    · show (List.map Prod.fst (List.map _ _)).Sublist _
      rw [List.map_map]
      have : (Prod.fst ∘ fun e : Int × DvbSectionFilterInternal =>
          (e.1, ({ e.2 with
            sectionFilters := e.2.sectionFilters.filter
              (fun f => decide (f ≠ SectionFilter.dummySectionFilter)) } :
              DvbSectionFilterInternal))) = Prod.fst := rfl
      rw [this]
      exact List.Sublist.map _ (List.filter_sublist _)

set_option maxRecDepth 100000 in
theorem cleanUp_removes_sentinels_witness :
    cleanUpExample.cleanUpFilters = true ∧
      cleanUpExample.filters =
        [(100, ⟨[.client 1, .dummyPidFilter, .client 3, .sectionFilter 100], 3⟩),
          (300, ⟨[.dummyPidFilter], 0⟩), (400, ⟨[.dummyPidFilter], 0⟩)] ∧
      cleanUpExample.cleanUp.filters =
        [(100, ⟨[.client 1, .client 3, .sectionFilter 100], 3⟩)] ∧
      cleanUpExample.cleanUp.sectionFilters.map
          (fun e => (e.1, e.2.sectionFilters, e.2.activeSectionFilters)) =
        [(100, [.client 2], 1)] ∧
      (cleanUpExample.cleanUp.filters.map Prod.fst).Sublist
        (cleanUpExample.filters.map Prod.fst) :=
  ⟨by decide, by decide, by decide, by decide,
    ((cleanUp_removes_sentinels cleanUpExample
      (BackendAnswers.accepting ⟨false, false, false, false⟩) []).2.2.2 (by decide)).2.2.1⟩

set_option maxRecDepth 100000 in
/-- C34, the code at the failing input: on a backend that accepts every
request, section filter 1 is added on PID 100 and removed again (the
reassembler of PID 100 is replaced by the sentinel in the byte-filter list and
the hardware is stopped), then section filter 2 is added on PID 100 before any
cleanup pass, and `addSectionFilter` returns true. PID 100 now has one active
section filter, but its reassembler is not in the byte-filter list of PID 100,
the active count of the PID is 0, the last hardware command for the PID is a
stop, and a packet of PID 100 reaches the sentinel only. The cleanup pass then
erases the byte-filter entry of PID 100 and keeps the reassembler with its one
active section filter. -/
theorem readded_section_filter_gets_no_data :
    (BackendAnswers.accepting ⟨false, false, false, false⟩).addPidFilter = true ∧
      (((DvbDevice.init (DvbConfigBase.plain 1500)).apiRun
          (BackendAnswers.accepting ⟨false, false, false, false⟩)
          [.addSectionFilter 100 (.client 1), .removeSectionFilter 100 (.client 1)]
        ).addSectionFilter 100 (.client 2)
          (BackendAnswers.accepting ⟨false, false, false, false⟩)).2 = true ∧
      readdExample.sectionFilterList 100 = [.dummySectionFilter, .client 2] ∧
      readdExample.activeSectionCount 100 = 1 ∧
      readdExample.filterList 100 = [.dummyPidFilter] ∧
      PidFilter.sectionFilter 100 ∉ readdExample.filterList 100 ∧
      readdExample.activeCount 100 = 0 ∧
      readdExample.backendCalls = [.addPidFilter 100, .removePidFilter 100] ∧
      hardwareDelivering readdExample.backendCalls 100 = false ∧
      packetPid (transportPacket 100 false) = 100 ∧
      readdExample.packetFilters (transportPacket 100 false) = [.dummyPidFilter] ∧
      readdExample.cleanUp.filters = [] ∧
      readdExample.cleanUp.sectionFilterList 100 = [.client 2] ∧
      readdExample.cleanUp.activeSectionCount 100 = 1 ∧
      readdExample.cleanUp.packetFilters (transportPacket 100 false) = [] := by
  decide

set_option maxRecDepth 100000 in
/-- C35, the code at the failing input: `autoTune` is called for the DVB-T
transponder at 506 MHz on hardware without automatic forward-error-correction
rate and the device gets tuned; then a plain `tune` of the transponder at
514 MHz is accepted on the same acquisition (no `stop` in between). The plain
`tune` leaves auto mode set, so at the poll timeout (the backend does not report
tuned, signal -1) the device does not go to Idle: it issues a third tune
command, for the 506 MHz transponder of the earlier `autoTune` with the next
rate 3/4, and is in state Tuning with the timer running. -/
theorem plain_tune_timeout_retunes_auto_transponder :
    staleAutoExample.isAuto = true ∧ staleAutoExample.deviceState = .DeviceTuning ∧
      staleAutoExample.frontendTimeout = 100 ∧
      tunedTransponders staleAutoExample.backendCalls =
        [{ DvbTransponder.plain .DvbT 506000000 with fecRateHigh := .Fec2_3 },
          DvbTransponder.plain .DvbT 514000000] ∧
      (BackendAnswers.accepting ⟨false, true, true, true⟩).isTuned = false ∧
      (staleAutoExample.poll (BackendAnswers.accepting ⟨false, true, true, true⟩)).deviceState =
        .DeviceTuning ∧
      (staleAutoExample.poll
          (BackendAnswers.accepting ⟨false, true, true, true⟩)).frontendTimerActive = true ∧
      tunedTransponders
          (staleAutoExample.poll (BackendAnswers.accepting ⟨false, true, true, true⟩)).backendCalls =
        [{ DvbTransponder.plain .DvbT 506000000 with fecRateHigh := .Fec2_3 },
          DvbTransponder.plain .DvbT 514000000,
          { DvbTransponder.plain .DvbT 506000000 with fecRateHigh := .Fec3_4 }] := by
  decide

set_option maxRecDepth 100000 in
/-- C37, the code at the failing input: on a device with two byte filters on
PID 0x100 the pending queue holds the buffers 0, 1 and 2, each with one packet
of PID 0x100 (tail pointer 2; a consumer run would make six calls), and the
free list is empty. After `discardBuffers` the
pending queue is the head buffer 0 with size 0 and the free list is buffer 1:
buffer 2 is in neither list, and the tail pointer still designates buffer 2,
not the last buffer of the pending queue. The producer then takes a buffer
(buffer 1) and writes it with 188 bytes: it is linked behind buffer 2, so the
pending queue is still buffer 0 alone, the written buffer is in neither list,
and the next consumer run makes no call and ends with an empty pending
queue. -/
theorem discardBuffers_loses_buffers :
    threePendingExample.dev.pendingQueue = [0, 1, 2] ∧ threePendingExample.dev.freeList = [] ∧
      threePendingExample.dev.usedBuffersTail = some 2 ∧ threePendingExample.held = [] ∧
      threePendingExample.dev.customEvent.2.length = 6 ∧
      threePendingExample.dev.discardBuffers.pendingQueue = [0] ∧
      threePendingExample.dev.discardBuffers.freeList = [1] ∧
      2 ∉ threePendingExample.dev.discardBuffers.pendingQueue ++
        threePendingExample.dev.discardBuffers.freeList ∧
      threePendingExample.dev.discardBuffers.usedBuffersTail = some 2 ∧
      threePendingExample.dev.discardBuffers.pendingQueue.getLast? = some 0 ∧
      (threePendingExample.dev.discardBuffers.getBuffer ⟨none, 0, []⟩).2 = 1 ∧
      discardExample.held = [] ∧
      discardExample.dev.buffers.map (fun b => (b.next, b.size)) =
        [(none, 0), (none, 188), (some 1, 188)] ∧
      discardExample.dev.pendingQueue = [0] ∧ discardExample.dev.freeList = [] ∧
      1 ∉ discardExample.dev.pendingQueue ∧
      discardExample.dev.customEvent.2 = [] ∧
      discardExample.dev.customEvent.1.pendingQueue = [] ∧
      discardExample.dev.customEvent.1.freeList = [0] := by
  decide

set_option maxRecDepth 100000 in
/-- C36, the code at the failing input: an offline scan of two terrestrial
transponders on an idle device that rejects every tune request before the
request returns (the device enters Tuning and Idle, and `deviceStateChanged`
runs each time, inside `tuneDevice`). The constructor's call of `updateState`
requests both transponders and then signals `scanFinished` three times: once in
the innermost call of `updateState`, made from `deviceStateChanged`, and once
more in each of the two calls that were waiting for their tune request to
return. No run was cut for lack of fuel, and no transponder is requested after
the first signal. With an empty list the signal is given once. -/
theorem scanFinished_signalled_repeatedly :
    scanExampleRejected.outOfFuel = false ∧
      scanExampleRejected.trace =
        [.tuneDevice (DvbTransponder.plain .DvbT 506000000),
          .tuneDevice (DvbTransponder.plain .DvbT 514000000),
          .scanFinished, .scanFinished, .scanFinished] ∧
      scanExampleRejected.trace.count .scanFinished = 3 ∧
      scanExampleRejected.deviceState = .DeviceIdle ∧
      scanExampleRejected.scan.state = .ScanTune ∧
      scanExampleEmpty.trace = [.scanFinished] := by
  decide

/-! ## Theorems: the NIT filter at the start of a transponder -/

theorem startFirstInactive_ofType (pid : Nat) (type ty : FilterType)
    (filters : List DvbScanFilter) (h : filters.countP (fun f => f.isActive) ≠ filters.length) :
    ∃ filters1 : List DvbScanFilter,
      startFirstInactive (pid : Int) type true filters = some (filters1, true) ∧
        filters1.countP (fun f => f.isActive && decide (f.type = ty)) =
          filters.countP (fun f => f.isActive && decide (f.type = ty)) +
            (if type = ty then 1 else 0) := by
  induction filters with
  | nil => exact absurd rfl h
  | cons f rest ih =>
    unfold startFirstInactive
    by_cases hf : f.isActive = false
    · rw [if_pos hf]
      refine ⟨_, rfl, ?_⟩
      have hs : (f.startFilter (pid : Int) type true).1 = DvbScanFilter.started pid type := rfl
      rw [List.countP_cons, List.countP_cons, hs, started_isActive, hf]
      have ht : (DvbScanFilter.started (pid : Int) type).type = type := rfl
      rw [ht]
      by_cases e : type = ty <;> simp [e]
    · have hf1 : f.isActive = true := by simpa using hf
      rw [if_neg hf]
      have hrest : rest.countP (fun f => f.isActive) ≠ rest.length := by
        intro hc
        apply h
        rw [List.countP_cons, List.length_cons, hc]
        simp [hf1]
      obtain ⟨filters1, h1, h2⟩ := ih hrest
      rw [h1]
      refine ⟨f :: filters1, rfl, ?_⟩
      rw [List.countP_cons, List.countP_cons, h2]
      omega

/-- An accepted filter request while the pool has fewer than 10 started
filters: the request succeeds and one more filter of the requested type is
started. -/
theorem scanStartFilter_ofType (scan : DvbScan) (pid : Nat) (type : FilterType)
    (hpool : scan.PoolInvariant) (hlow : scan.activeFilters < 10) :
    scan.asksDevice = true ∧ (scan.startFilter pid type true).2 = true ∧
      (scan.startFilter pid type true).1.activeFilters = scan.activeFilters + 1 ∧
      (scan.startFilter pid type true).1.PoolInvariant ∧
      ∀ ty, (scan.startFilter pid type true).1.activeOfType ty =
        scan.activeOfType ty + (if type = ty then 1 else 0) := by
  rcases scanStartFilter_accepted scan pid (Int.natCast_nonneg pid) type hpool with
    ⟨h1, h2, h3, h4⟩ | ⟨_, h10, _⟩
  · refine ⟨h1, h2, h3, h4, ?_⟩
    intro ty
    obtain ⟨hlen, hact⟩ := hpool
    unfold DvbScan.activeInstances at hact
    unfold DvbScan.activeOfType DvbScan.startFilter
    by_cases hne : scan.activeFilters ≠ scan.filters.length
    · rw [if_pos hne]
      have hc : scan.filters.countP (fun f => f.isActive) ≠ scan.filters.length := by
        intro hc
        apply hne
        rw [hact, hc]
      obtain ⟨filters1, e1, e2⟩ := startFirstInactive_ofType pid type ty scan.filters hc
      rw [e1]
      exact e2
    · rw [if_neg hne, if_pos hlow]
      have hs : (DvbScanFilter.startFilter ⟨-1, type, []⟩ (pid : Int) type true) =
          (DvbScanFilter.started pid type, true) := rfl
      rw [hs]
      simp only [if_true]
      rw [List.countP_append, List.countP_cons, started_isActive]
      have ht : (DvbScanFilter.started (pid : Int) type).type = type := rfl
      rw [ht]
      by_cases e : type = ty <;> simp [e]
  · omega

/-- The same in the world: the request is recorded as accepted. -/
theorem startFilter_world_accepted (env : ScanEnvironment)
    (hacc : ∀ n pid, env.addPidFilter n pid = true) (w : ScanWorld) (pid : Nat)
    (type : FilterType) (hpool : w.scan.PoolInvariant) (hlow : w.scan.activeFilters < 10) :
    w.startFilter env pid type =
      ({ w with
          scan := (w.scan.startFilter pid type true).1,
          trace := w.trace ++ [.addPidFilter pid true] }, true) := by
  obtain ⟨h1, h2, _⟩ := scanStartFilter_ofType w.scan pid type hpool hlow
  unfold ScanWorld.startFilter
  rw [if_pos h1, hacc, h2]

theorem poolInvariant_nonneg (scan : DvbScan) (h : scan.PoolInvariant) :
    0 ≤ scan.activeFilters := by
  rw [h.2]
  exact Int.natCast_nonneg _

theorem pmtPhase_waiting (env : ScanEnvironment) (update : ScanWorld → ScanWorld)
    (w : ScanWorld) (hpat : w.scan.patEntries.length ≤ w.scan.patIndex)
    (hact : w.scan.activeFilters ≠ 0) : ScanWorld.pmtPhase env update w = w := by
  unfold ScanWorld.pmtPhase
  have h0 : w.scan.patEntries.length - w.scan.patIndex = 0 := by omega
  rw [h0]
  simp only [ScanWorld.startPmtFilters]
  rw [if_neg (by decide), if_pos hact]

/-- The case `ScanSdt` at the start of a transponder: the SDT filter is
requested and the scan waits in the case `ScanPmt`. -/
theorem sdtPhase_filters (env : ScanEnvironment)
    (hacc : ∀ n pid, env.addPidFilter n pid = true) (update : ScanWorld → ScanWorld)
    (w : ScanWorld) (hpool : w.scan.PoolInvariant) (hlow : w.scan.activeFilters < 10)
    (hpat : w.scan.patEntries.length ≤ w.scan.patIndex) :
    (ScanWorld.sdtPhase env update w).trace = w.trace ++ [.addPidFilter 0x11 true] ∧
      (ScanWorld.sdtPhase env update w).scan.state = .ScanPmt ∧
      (∀ ty, (ScanWorld.sdtPhase env update w).scan.activeOfType ty =
        w.scan.activeOfType ty + (if FilterType.SdtFilter = ty then 1 else 0)) ∧
      (ScanWorld.sdtPhase env update w).crashed = w.crashed := by
  have hw := startFilter_world_accepted env hacc w 0x11 .SdtFilter hpool hlow
  obtain ⟨_, _, h3, h4, h5⟩ := scanStartFilter_ofType w.scan 0x11 .SdtFilter hpool hlow
  have hfields := scanStartFilter_fields w.scan ((0x11 : Nat) : Int) .SdtFilter true
  have hnn := poolInvariant_nonneg w.scan hpool
  unfold ScanWorld.sdtPhase
  have hcast : ((0x11 : Nat) : Int) = 0x11 := rfl
  rw [hcast] at hw h3 h4 h5 hfields
  rw [hw]
  simp only [Bool.true_eq_false, if_false]
  rw [pmtPhase_waiting]
  · exact ⟨rfl, rfl, h5, rfl⟩
  · show (w.scan.startFilter 0x11 .SdtFilter true).1.patEntries.length ≤
      (w.scan.startFilter 0x11 .SdtFilter true).1.patIndex
    rw [hfields]
    exact hpat
  · show (w.scan.startFilter 0x11 .SdtFilter true).1.activeFilters ≠ 0
    rw [h3]
    omega

/-- The case `ScanNit` at the start of a transponder, when the transponder can
be read. -/
theorem nitPhase_filters (env : ScanEnvironment)
    (hacc : ∀ n pid, env.addPidFilter n pid = true) (update : ScanWorld → ScanWorld)
    (w : ScanWorld) (hpool : w.scan.PoolInvariant) (hlow : w.scan.activeFilters + 1 < 10)
    (hpat : w.scan.patEntries.length ≤ w.scan.patIndex) (b : Bool)
    (hb : w.scan.readsNit = some b) :
    (ScanWorld.nitPhase env update w).trace =
        w.trace ++ (if b then [ScanEvent.addPidFilter 0x10 true] else []) ++
          [.addPidFilter 0x11 true] ∧
      (ScanWorld.nitPhase env update w).scan.state = .ScanPmt ∧
      (∀ ty, (ScanWorld.nitPhase env update w).scan.activeOfType ty =
        w.scan.activeOfType ty +
          (if b = true ∧ FilterType.NitFilter = ty then 1 else 0) +
          (if FilterType.SdtFilter = ty then 1 else 0)) ∧
      (ScanWorld.nitPhase env update w).crashed = w.crashed := by
  unfold ScanWorld.nitPhase
  rw [hb]
  cases b with
  | true =>
    simp only
    have hw := startFilter_world_accepted env hacc w 0x10 .NitFilter hpool (by omega)
    obtain ⟨_, _, h3, h4, h5⟩ := scanStartFilter_ofType w.scan 0x10 .NitFilter hpool (by omega)
    have hfields := scanStartFilter_fields w.scan ((0x10 : Nat) : Int) .NitFilter true
    have hcast : ((0x10 : Nat) : Int) = 0x10 := rfl
    rw [hcast] at hw h3 h4 h5 hfields
    rw [hw]
    simp only [Bool.true_eq_false, if_false]
    obtain ⟨s1, s2, s3, s4⟩ := sdtPhase_filters env hacc update
      { scan := { (w.scan.startFilter 0x10 .NitFilter true).1 with state := .ScanSdt },
        deviceState := w.deviceState, pendingTune := w.pendingTune,
        trace := w.trace ++ [.addPidFilter 0x10 true], outOfFuel := w.outOfFuel,
        crashed := w.crashed }
      (poolInvariant_of_eq _ _ rfl rfl h4)
      (by show (w.scan.startFilter 0x10 .NitFilter true).1.activeFilters < 10; rw [h3]; omega)
      (by
        show (w.scan.startFilter 0x10 .NitFilter true).1.patEntries.length ≤
          (w.scan.startFilter 0x10 .NitFilter true).1.patIndex
        rw [hfields]
        exact hpat)
    refine ⟨?_, s2, ?_, s4⟩
    · rw [s1]
      rfl
    intro ty
    rw [s3 ty]
    show (w.scan.startFilter 0x10 .NitFilter true).1.activeOfType ty + _ = _
    rw [h5 ty]
    by_cases e : FilterType.NitFilter = ty
    · simp [e]
    · simp [e]
  | false =>
    simp only
    obtain ⟨s1, s2, s3, s4⟩ := sdtPhase_filters env hacc update
      { w with scan := { w.scan with state := .ScanSdt } }
      (poolInvariant_of_eq _ _ rfl rfl hpool) (by show w.scan.activeFilters < 10; omega) hpat
    refine ⟨?_, s2, ?_, s4⟩
    · rw [s1]
      simp
    · intro ty
      rw [s3 ty]
      show w.scan.activeOfType ty + _ = _
      simp

theorem readsNit_true_iff (scan : DvbScan) :
    scan.readsNit = some true ↔
      scan.isLive = false ∧ ∃ t, scan.transponder = some t ∧
        (t.transmissionType = .DvbC ∨ t.transmissionType = .DvbS ∨
          t.transmissionType = .DvbT) := by
  unfold DvbScan.readsNit
  cases scan.isLive <;> cases scan.transponder <;> simp [or_assoc]

theorem readsNit_none_iff (scan : DvbScan) :
    scan.readsNit = none ↔ scan.isLive = false ∧ scan.transponder = none := by
  unfold DvbScan.readsNit
  cases scan.isLive <;> cases scan.transponder <;> simp

/-- The case `ScanPat` at the start of a transponder. -/
theorem patPhase_filters (env : ScanEnvironment)
    (hacc : ∀ n pid, env.addPidFilter n pid = true) (update : ScanWorld → ScanWorld)
    (w : ScanWorld) (hpool : w.scan.PoolInvariant) (hlow : w.scan.activeFilters + 2 < 10)
    (hpat : w.scan.patEntries.length ≤ w.scan.patIndex) :
    (∀ b : Bool, w.scan.readsNit = some b →
        (ScanWorld.patPhase env update w).trace =
            w.trace ++ [.addPidFilter 0x0 true] ++
              (if b then [ScanEvent.addPidFilter 0x10 true] else []) ++
              [.addPidFilter 0x11 true] ∧
          (ScanWorld.patPhase env update w).scan.state = .ScanPmt ∧
          (∀ ty, (ScanWorld.patPhase env update w).scan.activeOfType ty =
            w.scan.activeOfType ty + (if FilterType.PatFilter = ty then 1 else 0) +
              (if b = true ∧ FilterType.NitFilter = ty then 1 else 0) +
              (if FilterType.SdtFilter = ty then 1 else 0)) ∧
          (ScanWorld.patPhase env update w).crashed = w.crashed) ∧
      (w.scan.readsNit = none →
        (ScanWorld.patPhase env update w).crashed = true ∧
          (ScanWorld.patPhase env update w).trace = w.trace ++ [.addPidFilter 0x0 true]) := by
  have hw := startFilter_world_accepted env hacc w 0x0 .PatFilter hpool (by omega)
  obtain ⟨_, _, h3, h4, h5⟩ := scanStartFilter_ofType w.scan 0x0 .PatFilter hpool (by omega)
  have hfields := scanStartFilter_fields w.scan ((0x0 : Nat) : Int) .PatFilter true
  have hcast : ((0x0 : Nat) : Int) = 0x0 := rfl
  rw [hcast] at hw h3 h4 h5 hfields
  have hreads : (w.scan.startFilter 0x0 .PatFilter true).1.readsNit = w.scan.readsNit := by
    rw [hfields]
    rfl
  have hr : DvbScan.readsNit
      { (w.scan.startFilter 0x0 .PatFilter true).1 with
        snr := env.getSnr (w.trace ++ [ScanEvent.addPidFilter 0x0 true]).length,
        state := .ScanNit } = w.scan.readsNit := hreads
  unfold ScanWorld.patPhase
  rw [hw]
  simp only [Bool.true_eq_false, if_false]
  constructor
  · intro b hb
    obtain ⟨s1, s2, s3, s4⟩ := nitPhase_filters env hacc update
      { scan := { (w.scan.startFilter 0x0 .PatFilter true).1 with
          snr := env.getSnr (w.trace ++ [ScanEvent.addPidFilter 0x0 true]).length,
          state := .ScanNit },
        deviceState := w.deviceState, pendingTune := w.pendingTune,
        trace := w.trace ++ [.addPidFilter 0x0 true], outOfFuel := w.outOfFuel,
        crashed := w.crashed }
      (poolInvariant_of_eq _ _ rfl rfl h4)
      (by show (w.scan.startFilter 0x0 .PatFilter true).1.activeFilters + 1 < 10; rw [h3]; omega)
      (by
        show (w.scan.startFilter 0x0 .PatFilter true).1.patEntries.length ≤
          (w.scan.startFilter 0x0 .PatFilter true).1.patIndex
        rw [hfields]
        exact hpat)
      b (hr.trans hb)
    refine ⟨s1, s2, ?_, s4⟩
    intro ty
    rw [s3 ty]
    show (w.scan.startFilter 0x0 .PatFilter true).1.activeOfType ty + _ + _ = _
    rw [h5 ty]
  · intro hnone
    have hcrash : ∀ v : ScanWorld, v.scan.readsNit = none →
        ScanWorld.nitPhase env update v = { v with crashed := true } := by
      intro v hv
      unfold ScanWorld.nitPhase
      rw [hv]
    rw [hcrash _ (hr.trans hnone)]
    exact ⟨rfl, rfl⟩

/-- C31, amended: at the start of a transponder (case `ScanPat`, no PAT entry
left to read, at most 7 filters of the pool started) on a device that accepts
every filter request, `updateState` first requests the PAT filter on PID 0x0.
A live scan then requests the SDT filter on PID 0x11 and no NIT filter. An
offline scan with a transponder requests the NIT filter on PID 0x10 exactly
when the transponder is DVB-C, DVB-S or DVB-T, and then the SDT filter on PID
0x11; the number of started NIT filters grows by one in that case and is
unchanged otherwise. In these cases the scan waits in the case `ScanPmt`. An
offline scan without transponder (null `transponder`) dereferences the null
pointer after the PAT request. -/
theorem nit_filter_offline_only (env : ScanEnvironment)
    (hacc : ∀ n pid, env.addPidFilter n pid = true) (fuel : Nat) (w : ScanWorld)
    (hstate : w.scan.state = .ScanPat) (hpool : w.scan.PoolInvariant)
    (hlow : w.scan.activeFilters + 2 < 10)
    (hpat : w.scan.patEntries.length ≤ w.scan.patIndex) :
    (w.scan.readsNit = some true ↔
        w.scan.isLive = false ∧ ∃ t, w.scan.transponder = some t ∧
          (t.transmissionType = .DvbC ∨ t.transmissionType = .DvbS ∨
            t.transmissionType = .DvbT)) ∧
      (w.scan.readsNit = none ↔ w.scan.isLive = false ∧ w.scan.transponder = none) ∧
      (∀ b : Bool, w.scan.readsNit = some b →
        (ScanWorld.updateState env (fuel + 1) w).trace =
            w.trace ++ [.addPidFilter 0x0 true] ++
              (if b then [ScanEvent.addPidFilter 0x10 true] else []) ++
              [.addPidFilter 0x11 true] ∧
          (ScanWorld.updateState env (fuel + 1) w).scan.activeOfType .NitFilter =
            w.scan.activeOfType .NitFilter + (if b then 1 else 0) ∧
          (ScanWorld.updateState env (fuel + 1) w).scan.state = .ScanPmt ∧
          (ScanWorld.updateState env (fuel + 1) w).crashed = w.crashed) ∧
      (w.scan.readsNit = none →
        (ScanWorld.updateState env (fuel + 1) w).crashed = true ∧
          (ScanWorld.updateState env (fuel + 1) w).trace =
            w.trace ++ [.addPidFilter 0x0 true]) := by
  rw [updateState_pat env fuel w hstate]
  obtain ⟨hsome, hnone⟩ := patPhase_filters env hacc (ScanWorld.updateState env fuel) w hpool
    hlow hpat
  refine ⟨readsNit_true_iff w.scan, readsNit_none_iff w.scan, ?_, hnone⟩
  intro b hb
  obtain ⟨s1, s2, s3, s4⟩ := hsome b hb
  refine ⟨s1, ?_, s2, s4⟩
  rw [s3 .NitFilter]
  cases b <;> simp

set_option maxRecDepth 100000 in
theorem nit_filter_offline_only_witness :
    (∀ n pid, (scanEnvironment (fun _ => .tuned)).addPidFilter n pid = true) ∧
      nitStartExample.scan.state = .ScanPat ∧ nitStartExample.scan.PoolInvariant ∧
      nitStartExample.scan.activeFilters + 2 < 10 ∧
      nitStartExample.scan.patEntries.length ≤ nitStartExample.scan.patIndex ∧
      nitStartExample.scan.readsNit = some true ∧
      (ScanWorld.updateState (scanEnvironment (fun _ => .tuned)) 1 nitStartExample).trace =
        nitStartExample.trace ++ [.addPidFilter 0x0 true] ++
          (if true then [ScanEvent.addPidFilter 0x10 true] else []) ++
          [.addPidFilter 0x11 true] ∧
      (ScanWorld.updateState (scanEnvironment (fun _ => .tuned)) 1
          nitStartExample).scan.activeOfType .NitFilter =
        nitStartExample.scan.activeOfType .NitFilter + (if true then 1 else 0) :=
  ⟨fun _ _ => rfl, by decide, by decide, by decide, by decide, by decide,
    ((nit_filter_offline_only (scanEnvironment (fun _ => .tuned)) (fun _ _ => rfl) 0
      nitStartExample (by decide) (by decide) (by decide) (by decide)).2.2.1 true
        (by decide)).1,
    ((nit_filter_offline_only (scanEnvironment (fun _ => .tuned)) (fun _ _ => rfl) 0
      nitStartExample (by decide) (by decide) (by decide) (by decide)).2.2.1 true
        (by decide)).2.1⟩

set_option maxRecDepth 100000 in
/-- C31, the claim as stated fails: a live scan of a DVB-T transponder on a
tuned device that accepts every request asks for the PAT filter on PID 0x0 and
the SDT filter on PID 0x11 and for no filter on PID 0x10, and its pool holds
no NIT filter; the same holds for the offline scan of a DVB-S2 satellite
transponder, while the offline scan of the DVB-T transponder does start the
NIT filter. -/
theorem live_scan_starts_no_nit_filter :
    liveScanExample.scan.isLive = true ∧
      liveScanExample.scan.transponder = some (DvbTransponder.plain .DvbT 506000000) ∧
      liveScanExample.outOfFuel = false ∧
      liveScanExample.trace = [.addPidFilter 0x0 true, .addPidFilter 0x11 true] ∧
      liveScanExample.scan.activeOfType .NitFilter = 0 ∧
      liveScanExample.scan.state = .ScanPmt ∧
      satellite2ScanExample.trace =
        [.tuneDevice (DvbTransponder.plain .DvbS2 11836000), .addPidFilter 0x0 true,
          .addPidFilter 0x11 true] ∧
      satellite2ScanExample.scan.activeOfType .NitFilter = 0 ∧
      offlineScanExample.trace =
        [.tuneDevice (DvbTransponder.plain .DvbT 506000000), .addPidFilter 0x0 true,
          .addPidFilter 0x10 true, .addPidFilter 0x11 true] ∧
      offlineScanExample.scan.activeOfType .NitFilter = 1 := by
  decide

end Kaffeine
